import Mathlib

/-!
# Junkie: IPv4 and TCP dissectors

A shallow embedding of `src/proto/tcp.c`, `src/proto/ip.c` and `src/netmatch.c`.

Conventions of the embedding:
* `uint32_t` and `unsigned` values are naturals, every arithmetic result being
  reduced modulo `2^32` where the C code wraps;
* `size_t` values are naturals; a `size_t` subtraction is `size_sub`, which wraps
  like the C subtraction when the subtrahend is the larger one;
* a two-element array indexed by `way` is a pair, read with `at2` and written
  with `upd2`;
* the collaborators whose code lives in other files (the mux cache, the packet
  wait-list, the child parsers, `comes_from_client`, the allocator and the
  loader of libraries) are parameters: an environment record gives, for one
  call, what each of them answers.
-/

namespace Junkie

/-! ## Machine arithmetic -/

/-- The modulus of `uint32_t` arithmetic. -/
def U32 : Nat := 2 ^ 32

/-- Subtraction of two `uint32_t` values, as C computes it. -/
def u32_sub (a b : Nat) : Nat := (a + (U32 - b % U32)) % U32

/-- Addition of `uint32_t` values, as C computes it. -/
def u32_add (a b : Nat) : Nat := (a + b) % U32

/-- The modulus of `size_t` arithmetic (LP64). -/
def SIZE_MAX1 : Nat := 2 ^ 64

/-- Subtraction of two `size_t` values: wraps when `b` exceeds `a`. -/
def size_sub (a b : Nat) : Nat := if b ≤ a then a - b else a + SIZE_MAX1 - b

/-- Status returned by every parse function (`enum proto_parse_status`). -/
inductive proto_parse_status where
  | PROTO_OK
  | PROTO_PARSE_ERR
  | PROTO_TOO_SHORT
  deriving DecidableEq, Repr

open proto_parse_status

/-! ## `tcp.c`: sequence numbers -/

/-- Source: `tcp_seqnum_cmp` (tcp.c:224-230). -/
def tcp_seqnum_cmp (sa sb : Nat) : Int :=
  let diff := u32_sub sa sb
  if 0 = diff then 0
  else if diff < 0x80000000 then 1
  else -1

/-- Source: `seqnum_gt` (tcp.c:233-236). -/
def seqnum_gt (sa sb : Nat) : Bool := decide (tcp_seqnum_cmp sa sb > 0)

/-! ## Two-element arrays and two-bit fields -/

/-- C logical negation of a direction (`!way`). -/
def not_way (way : Nat) : Nat := if way = 0 then 1 else 0

/-- Read of `a[way]` in a two-element array (`way` is 0 or 1). -/
def at2 {α : Type} (a : α × α) (way : Nat) : α := if way = 0 then a.1 else a.2

/-- Write of `a[way] = v` in a two-element array (`way` is 0 or 1). -/
def upd2 {α : Type} (a : α × α) (way : Nat) (v : α) : α × α :=
  if way = 0 then (v, a.2) else (a.1, v)

/-- Source: `SET_FOR_WAY` (tcp.c:215); the result is stored in a two-bit field. -/
def SET_FOR_WAY (way field : Nat) : Nat := (field ||| (1 <<< way)) % 4

/-- Source: `IS_SET_FOR_WAY` (tcp.c:217). -/
def IS_SET_FOR_WAY (way field : Nat) : Bool := decide (field &&& (1 <<< way) ≠ 0)

/-! ## Shared records -/

/-- Handle of a child parser (`struct parser *`). -/
abbrev parser := Nat

/-- What the code reads of a `struct proto`: its identity and its `enabled` flag. -/
structure proto where
  code : Nat
  enabled : Bool
  deriving DecidableEq, Repr

/-- What `proto_info_ctor` records (`struct proto_info`). -/
structure proto_info where
  head_len : Nat
  payload : Nat
  deriving DecidableEq, Repr

/-- The fields of `struct mux_subparser` that tcp.c and ip.c touch. -/
structure mux_subparser where
  parser : Option parser
  proto : Option Junkie.proto
  requestor : Option Junkie.proto
  deriving DecidableEq, Repr

/-- An address (`struct ip_addr`), as its bytes. -/
abbrev ip_addr := List Nat

/-- Modelled from the spec: `ip_addr_cmp` (its file is not under src) orders two
addresses byte-lexicographically and answers a negative, null or positive int. -/
def ip_addr_cmp : ip_addr → ip_addr → Int
  | [], [] => 0
  | [], _ :: _ => -1
  | _ :: _, [] => 1
  | a :: as, b :: bs =>
    if a < b then -1 else if b < a then 1 else ip_addr_cmp as bs

/-- One entry of a wait-list: a payload deposited for the range
`[offset, next_offset)`. -/
structure pkt_wl_pkt where
  offset : Nat
  next_offset : Nat
  cap_len : Nat
  wire_len : Nat
  payload : List Nat
  deriving DecidableEq, Repr

/-- Modelled from the spec: `struct pkt_wait_list` (pkt_wait_list.h is not under
src): the offset of the next byte to deliver, the parser it feeds, and the
pending entries. -/
structure pkt_wait_list where
  next_offset : Nat
  parser : Option parser
  pkts : List pkt_wl_pkt
  deriving DecidableEq, Repr

/-! ## Reading a packet

The read macros of `junkie/cpp.h` are not under src; they are the usual
network-order reads. A packet is the list of bytes found at its address. -/

/-- Byte `i` of a packet (`READ_U8`). -/
def READ_U8 (p : List Nat) (i : Nat) : Nat := p.getD i 0 % 256

/-- Big-endian 16-bit read at byte `i` (`READ_U16N`). -/
def READ_U16N (p : List Nat) (i : Nat) : Nat := READ_U8 p i * 256 + READ_U8 p (i + 1)

/-- Big-endian 32-bit read at byte `i` (`READ_U32N`). -/
def READ_U32N (p : List Nat) (i : Nat) : Nat :=
  READ_U16N p i * 65536 + READ_U16N p (i + 2)

/-! ## `tcp.c`: the decoded header -/

/-- The fields of `struct tcp_proto_info`. The array `options` is represented
by its meaningful part `options[0..nb_options)`. -/
structure tcp_proto_info where
  info : proto_info
  key_port : Nat × Nat
  syn : Bool
  ack : Bool
  rst : Bool
  fin : Bool
  urg : Bool
  psh : Bool
  to_srv : Bool
  window : Nat
  urg_ptr : Nat
  ack_num : Nat
  seq_num : Nat
  set_values : Nat
  mss : Nat
  wsf : Nat
  nb_options : Nat
  options : List Nat
  deriving DecidableEq, Repr

/-- Size of the fixed TCP header, `sizeof(struct tcp_hdr)`. -/
def TCP_HDR_SIZE : Nat := 20

/-- Modelled from the spec: `TCP_HDR_LENGTH` (tcp.h is not under src) is the data
offset of the header, in 32-bit words, times four. -/
def TCP_HDR_LENGTH (tcphdr : List Nat) : Nat := (READ_U8 tcphdr 12 / 16) * 4

/-- Modelled from the spec: flag masks of the flag byte (tcp.h is not under src),
as in RFC 793. -/
def TCP_FIN_MASK : Nat := 0x01

/-- Modelled from the spec: SYN bit of the flag byte, as in RFC 793. -/
def TCP_SYN_MASK : Nat := 0x02

/-- Modelled from the spec: RST bit of the flag byte, as in RFC 793. -/
def TCP_RST_MASK : Nat := 0x04

/-- Modelled from the spec: PSH bit of the flag byte, as in RFC 793. -/
def TCP_PSH_MASK : Nat := 0x08

/-- Modelled from the spec: ACK bit of the flag byte, as in RFC 793. -/
def TCP_ACK_MASK : Nat := 0x10

/-- Modelled from the spec: URG bit of the flag byte, as in RFC 793. -/
def TCP_URG_MASK : Nat := 0x20

/-- Modelled from the spec: bit of `set_values` telling that `mss` is set (tcp.h is
not under src; the spec names the bit, its value is taken to be 1). -/
def TCP_MSS_SET : Nat := 1

/-- Modelled from the spec: bit of `set_values` telling that `wsf` is set (tcp.h is
not under src; the spec names the bit, its value is taken to be 2). -/
def TCP_WSF_SET : Nat := 2

/-- The C test `!!(flags & mask)`. -/
def flag_set (flags mask : Nat) : Bool := decide (flags &&& mask ≠ 0)

/-- Source: `tcp_proto_info_ctor` (tcp.c:94-114). `info` is the storage being
constructed: `to_srv`, `mss`, `wsf` keep whatever it held. -/
def tcp_proto_info_ctor (info : tcp_proto_info) (head_len payload sport dport : Nat)
    (tcphdr : List Nat) : tcp_proto_info :=
  let flags := READ_U8 tcphdr 13
  { info with
    info := { head_len := head_len, payload := payload }
    key_port := (sport, dport)
    syn := flag_set flags TCP_SYN_MASK
    ack := flag_set flags TCP_ACK_MASK
    rst := flag_set flags TCP_RST_MASK
    fin := flag_set flags TCP_FIN_MASK
    urg := flag_set flags TCP_URG_MASK
    psh := flag_set flags TCP_PSH_MASK
    window := READ_U16N tcphdr 14
    urg_ptr := READ_U16N tcphdr 18
    ack_num := READ_U32N tcphdr 8
    seq_num := READ_U32N tcphdr 4
    set_values := 0
    nb_options := 0
    options := [] }

/-- Source: the recording of an option kind in `parse_next_option`
(tcp.c:123-126); `max_options` is `NB_ELEMS(info->options)`. -/
def tcp_record_option (max_options : Nat) (info : tcp_proto_info) (kind : Nat) :
    tcp_proto_info :=
  if info.nb_options < max_options then
    { info with options := info.options ++ [kind], nb_options := info.nb_options + 1 }
  else info

/-- Source: `parse_next_option` (tcp.c:116-177). `max_options` is
`NB_ELEMS(info->options)`, `addr` the address held by the pointer `options`,
`options` the bytes found there. Returns the `ssize_t` and the updated info. -/
def parse_next_option (max_options : Nat) (info : tcp_proto_info) (addr : Nat)
    (options : List Nat) (rem_len : Nat) : Int × tcp_proto_info :=
  if rem_len < 1 then (-1, info) else
  let kind := READ_U8 options 0
  let info := tcp_record_option max_options info kind
  if kind = 0 then
    if rem_len > 4 then ((rem_len : Int), info)
    else if (addr + rem_len) &&& 0x3 ≠ 0 then (-1, info)
    else ((rem_len : Int), info)
  else if kind = 1 then (1, info)
  else if rem_len < 2 then (-1, info)
  else
    let len := READ_U8 options 1
    if len < 2 then (-1, info)
    else if rem_len < len then (-1, info)
    else if kind = 2 then
      if len ≠ 4 then (-1, info)
      else ((len : Int), { info with set_values := info.set_values ||| TCP_MSS_SET,
                                      mss := READ_U16N options 2 })
    else if kind = 3 then
      if len ≠ 3 then (-1, info)
      else ((len : Int), { info with set_values := info.set_values ||| TCP_WSF_SET,
                                      wsf := READ_U8 options 2 })
    else ((len : Int), info)

/-- Source: the option loop of `parse_tcp_proto_info` (tcp.c:526-531), with
`options` the bytes at address `addr`. Every iteration consumes at least one of
the `rem_len` bytes left, which is why the loop ends. -/
def parse_tcp_options (max_options : Nat) (info : tcp_proto_info) (addr : Nat)
    (options : List Nat) (rem_len : Nat) : proto_parse_status × tcp_proto_info :=
  if _h0 : rem_len > 0 then
    let r := parse_next_option max_options info addr options rem_len
    if _h1 : r.1 < 0 then (PROTO_PARSE_ERR, r.2)
    else
      parse_tcp_options max_options r.2 (addr + r.1.toNat) (options.drop r.1.toNat)
        (size_sub rem_len r.1.toNat)
  else (PROTO_OK, info)
termination_by rem_len
decreasing_by
  have hle : 0 < (parse_next_option max_options info addr options rem_len).1 ∧
      (parse_next_option max_options info addr options rem_len).1 ≤ (rem_len : Int) := by
    have h1 : ¬ (parse_next_option max_options info addr options rem_len).1 < 0 := _h1
    revert h1
    unfold parse_next_option
    simp only []
    repeat' split
    all_goals simp
    all_goals omega
  simp only [size_sub]
  split <;> omega

/-- Source: `parse_tcp_proto_info` (tcp.c:481-533). `info` is the storage that
receives the result, `addr` the address of the header, `tcphdr` the bytes found
there. -/
def parse_tcp_proto_info (max_options : Nat) (info : tcp_proto_info) (cap_len wire_len : Nat)
    (addr : Nat) (tcphdr : List Nat) (tcphdr_len : Nat) :
    proto_parse_status × tcp_proto_info :=
  if wire_len < TCP_HDR_SIZE then (PROTO_PARSE_ERR, info)
  else if cap_len < TCP_HDR_SIZE then (PROTO_TOO_SHORT, info)
  else if tcphdr_len < TCP_HDR_SIZE then (PROTO_PARSE_ERR, info)
  else if tcphdr_len > wire_len then (PROTO_PARSE_ERR, info)
  else if tcphdr_len > cap_len then (PROTO_TOO_SHORT, info)
  else
    let sport := READ_U16N tcphdr 0
    let dport := READ_U16N tcphdr 2
    let info := tcp_proto_info_ctor info tcphdr_len (size_sub wire_len tcphdr_len)
      sport dport tcphdr
    parse_tcp_options max_options info (addr + TCP_HDR_SIZE) (tcphdr.drop TCP_HDR_SIZE)
      (size_sub tcphdr_len TCP_HDR_SIZE)

/-! ## `tcp.c`: the sub-parser of a flow -/

/-- Source: `struct tcp_subparser` (tcp.c:210-222), without its mutex. `fin`,
`ack`, `syn`, `wl_set` are two-bit fields, `srv_way` a one-bit field, `srv_set`
a two-bit field. -/
structure tcp_subparser where
  fin_seqnum : Nat × Nat
  max_acknum : Nat × Nat
  wl : pkt_wait_list × pkt_wait_list
  fin : Nat
  ack : Nat
  syn : Nat
  wl_set : Nat
  srv_way : Nat
  srv_set : Nat
  mux_subparser : mux_subparser
  deriving DecidableEq, Repr

/-- Source: `tcp_subparser_term` (tcp.c:239-246). -/
def tcp_subparser_term (tcp_sub : tcp_subparser) : Bool :=
  (IS_SET_FOR_WAY 0 tcp_sub.fin && IS_SET_FOR_WAY 1 tcp_sub.ack &&
   seqnum_gt (at2 tcp_sub.max_acknum 1) (at2 tcp_sub.fin_seqnum 0)) &&
  (IS_SET_FOR_WAY 1 tcp_sub.fin && IS_SET_FOR_WAY 0 tcp_sub.ack &&
   seqnum_gt (at2 tcp_sub.max_acknum 0) (at2 tcp_sub.fin_seqnum 1))

/-- Arguments of one call of `pkt_wait_list_add` by `tcp_parse` (tcp.c:607-609). -/
structure tcp_wl_add_args where
  way : Nat
  offset : Nat
  next_offset : Nat
  can_sync : Bool
  sync_offset : Nat
  restartable : Bool
  info : tcp_proto_info
  payload : List Nat
  cap_len : Nat
  wire_len : Nat
  deriving DecidableEq, Repr

/-- What the wait-list code can reach of a TCP sub-parser: both wait-lists and,
through the pointers given to `pkt_wait_list_ctor`, the child parser and proto. -/
structure tcp_wl_view where
  wl : pkt_wait_list × pkt_wait_list
  parser : Option parser
  proto : Option Junkie.proto
  deriving DecidableEq, Repr

/-- A call made by `tcp_parse` to one of its collaborators. -/
inductive tcp_call where
  | proto_parse (parser : Option parser) (info : tcp_proto_info) (way : Nat)
      (payload : Option (List Nat)) (cap_len wire_len : Nat)
  | wl_add (args : tcp_wl_add_args)
  | wl_try_both (way : Nat)
  | deindex
  | parser_unref
  deriving DecidableEq, Repr

/-- The answers, during one call of `tcp_parse`, of the code that is not in
tcp.c. -/
structure tcp_env where
  /-- Capacity `NB_ELEMS(info->options)` of the recorded options. -/
  MAX_OPTIONS : Nat
  /-- Content of the local `info` of `tcp_parse` before it is constructed. -/
  info_uninit : tcp_proto_info
  /-- Address of the packet in memory. -/
  packet_addr : Nat
  /-- Answer of `comes_from_client(ports, syn, ack)`. -/
  comes_from_client : Nat × Nat → Bool → Bool → Bool
  /-- Answer of `cnxtrack_ip_lookup`: the proto and the requestor. -/
  cnxtrack_ip_lookup : tcp_proto_info → Option Junkie.proto × Option Junkie.proto
  /-- Answer of `port_muxer_find` on both ports. -/
  port_muxer_find : Nat → Nat → Option Junkie.proto
  /-- Answer of `sub_proto->ops->parser_new(sub_proto)`. -/
  parser_new : Junkie.proto → Option parser
  /-- The child that `mux_subparser_and_parser_new` builds before it asks for
  the sub-parser (none when the child limit is hit). -/
  and_parser_new_child : Junkie.proto → Option parser
  /-- Answer of `mux_subparser_alloc`: the memory obtained, with whatever it holds. -/
  mux_subparser_alloc : Option tcp_subparser
  /-- Answer of `pkt_wait_list_ctor` for `wl+0` and `wl+1` (none when it fails). -/
  pkt_wait_list_ctor : Nat → Option pkt_wait_list
  /-- Answer of `mux_subparser_ctor` for a child and a requestor (none when it fails). -/
  mux_subparser_ctor : Option parser → Option Junkie.proto → Option Junkie.mux_subparser
  /-- Answer of `proto_parse` called with these arguments. -/
  proto_parse : Option parser → tcp_proto_info → Nat → Option (List Nat) → Nat → Nat →
    proto_parse_status
  /-- Answer of `pkt_wait_list_add`: its status and what it leaves. -/
  pkt_wait_list_add : tcp_wl_add_args → tcp_wl_view → proto_parse_status × tcp_wl_view
  /-- Answer of `pkt_wait_list_try_both` on `wl+way`: the status it leaves in `*status`
  and what it leaves. -/
  pkt_wait_list_try_both : Nat → proto_parse_status → tcp_wl_view →
    proto_parse_status × tcp_wl_view

/-- Source: `tcp_subparser_ctor` (tcp.c:253-289), on the memory `tcp_sub`;
none when it answers -1. -/
def tcp_subparser_ctor (env : tcp_env) (tcp_sub : tcp_subparser) (child : Option parser)
    (requestor : Option proto) : Option tcp_subparser :=
  let tcp_sub := { tcp_sub with fin := 0, ack := 0, syn := 0, wl_set := 0, srv_set := 0 }
  match env.pkt_wait_list_ctor 0 with
  | none => none
  | some wl0 =>
    match env.pkt_wait_list_ctor 1 with
    | none => none
    | some wl1 =>
      match env.mux_subparser_ctor child requestor with
      | none => none
      | some m => some { tcp_sub with wl := (wl0, wl1), mux_subparser := m }

/-- Source: `tcp_subparser_new` (tcp.c:296-307). -/
def tcp_subparser_new (env : tcp_env) (child : Option parser) (requestor : Option proto) :
    Option tcp_subparser :=
  match env.mux_subparser_alloc with
  | none => none
  | some mem => tcp_subparser_ctor env mem child requestor

/-- Modelled from the spec: `mux_subparser_and_parser_new` (mux.c is not under
src) spawns the child, then builds the sub-parser with the `subparser_new` of
the mux, which `tcp_init` sets to `tcp_subparser_new`. -/
def mux_subparser_and_parser_new (env : tcp_env) (sub_proto : proto)
    (requestor : Option proto) : Option tcp_subparser :=
  match env.and_parser_new_child sub_proto with
  | none => none
  | some child => tcp_subparser_new env (some child) requestor

/-- Source: `lookup_subproto` (tcp.c:349-364): the proto and the requestor. -/
def lookup_subproto (env : tcp_env) (tcp : tcp_proto_info) : Option proto × Option proto :=
  let r := env.cnxtrack_ip_lookup tcp
  match r.1 with
  | some p => (some p, r.2)
  | none => (env.port_muxer_find (at2 tcp.key_port 0) (at2 tcp.key_port 1), r.2)

/-- Source: `tcp_mux_subparser_reset_proto` (tcp.c:372-378). -/
def tcp_mux_subparser_reset_proto (tcp_sub : tcp_subparser) : tcp_subparser :=
  { tcp_sub with
    mux_subparser := { tcp_sub.mux_subparser with
      requestor := none, parser := none, proto := none } }

/-- Source: `tcp_mux_subparser_spawn_parser` (tcp.c:385-396). -/
def tcp_mux_subparser_spawn (env : tcp_env) (tcp_sub : tcp_subparser)
    (sub_proto : proto) (requestor : Option proto) : tcp_subparser :=
  match env.parser_new sub_proto with
  | none =>
    { tcp_sub with mux_subparser := { tcp_sub.mux_subparser with parser := none } }
  | some p =>
    { tcp_sub with
      mux_subparser := { tcp_sub.mux_subparser with
        parser := some p, requestor := requestor, proto := some sub_proto } }

/-- Source: `set_wl_list` (tcp.c:403-416). -/
def set_wl_list (tcp_sub : tcp_subparser) (info : tcp_proto_info) (way : Nat) : tcp_subparser :=
  let tcp_sub :=
    if !IS_SET_FOR_WAY way tcp_sub.wl_set then
      { tcp_sub with
        wl := upd2 tcp_sub.wl way { at2 tcp_sub.wl way with next_offset := info.seq_num }
        wl_set := SET_FOR_WAY way tcp_sub.wl_set }
    else tcp_sub
  if !IS_SET_FOR_WAY (not_way way) tcp_sub.wl_set && info.ack then
    { tcp_sub with
      wl := upd2 tcp_sub.wl (not_way way)
        { at2 tcp_sub.wl (not_way way) with next_offset := info.ack_num }
      wl_set := SET_FOR_WAY (not_way way) tcp_sub.wl_set }
  else tcp_sub

/-- Source: `lookup_or_create_tcp_subparser` (tcp.c:434-479). `found` is what
`mux_subparser_lookup` answers for the key of the segment: the sub-parser
indexed under it, if any. The answer is none when the call does not return:
when no sub-parser could be allocated (`tcp_subparser_new` answers NULL), the
source has no test of `mux_subparser` before tcp.c:466-467, the pointer that
DOWNCAST derives from NULL is not NULL (`mux_subparser` is the last field of
`struct tcp_subparser`) and `set_wl_list` reads `wl_set` through it, which ends
the process. Whenever the function returns, it returns a sub-parser. -/
def lookup_or_create_tcp_subparser (env : tcp_env) (found : Option tcp_subparser)
    (tcp : tcp_proto_info) (way : Nat) : Option tcp_subparser :=
  match found with
  | some tcp_sub =>
    if tcp_sub.mux_subparser.parser.isSome then some tcp_sub
    else
      let r := lookup_subproto env tcp
      match r.1 with
      | some sub_proto => some (tcp_mux_subparser_spawn env tcp_sub sub_proto r.2)
      | none => some tcp_sub
  | none =>
    let r := lookup_subproto env tcp
    let mux_subparser :=
      match r.1 with
      | some sub_proto =>
        if sub_proto.enabled then mux_subparser_and_parser_new env sub_proto r.2 else none
      | none => none
    let mux_subparser :=
      match mux_subparser with
      | some m => some m
      | none => tcp_subparser_new env none none
    match mux_subparser with
    | some tcp_sub => some (set_wl_list tcp_sub tcp way)
    | none => none

/-- Source: the recording of an ACK by `tcp_parse` (tcp.c:565-569). -/
def tcp_track_ack (tcp_sub : tcp_subparser) (info : tcp_proto_info) (way : Nat) :
    tcp_subparser :=
  if info.ack && (!IS_SET_FOR_WAY way tcp_sub.ack ||
      seqnum_gt info.ack_num (at2 tcp_sub.max_acknum way)) then
    { tcp_sub with
      ack := SET_FOR_WAY way tcp_sub.ack
      max_acknum := upd2 tcp_sub.max_acknum way info.ack_num }
  else tcp_sub

/-- Source: the recording of a FIN by `tcp_parse` (tcp.c:571-574). -/
def tcp_track_fin (tcp_sub : tcp_subparser) (info : tcp_proto_info) (way : Nat) :
    tcp_subparser :=
  if info.fin then
    { tcp_sub with
      fin := SET_FOR_WAY way tcp_sub.fin
      fin_seqnum := upd2 tcp_sub.fin_seqnum way (u32_add info.seq_num info.info.payload) }
  else tcp_sub

/-- Source: the recording of a SYN by `tcp_parse` (tcp.c:575-577). -/
def tcp_track_syn (tcp_sub : tcp_subparser) (info : tcp_proto_info) (way : Nat) :
    tcp_subparser :=
  if info.syn && !IS_SET_FOR_WAY way tcp_sub.syn then
    { tcp_sub with syn := SET_FOR_WAY way tcp_sub.syn }
  else tcp_sub

/-- Source: the choice of the side of the server by `tcp_parse` (tcp.c:579-589). -/
def tcp_set_srv_way (env : tcp_env) (tcp_sub : tcp_subparser) (info : tcp_proto_info)
    (way : Nat) : tcp_subparser :=
  if tcp_sub.srv_set = 0 || (tcp_sub.srv_set = 1 && info.syn) then
    { tcp_sub with
      srv_way := if env.comes_from_client info.key_port info.syn info.ack then not_way way
                 else way % 2
      srv_set := if info.syn then 2 else 1 }
  else tcp_sub

/-- Source: the per-segment bookkeeping of `tcp_parse` (tcp.c:564-589). -/
def tcp_parse_bookkeeping (env : tcp_env) (tcp_sub : tcp_subparser) (info : tcp_proto_info)
    (way : Nat) : tcp_subparser :=
  let tcp_sub := set_wl_list tcp_sub info way
  let tcp_sub := tcp_track_ack tcp_sub info way
  let tcp_sub := tcp_track_fin tcp_sub info way
  let tcp_sub := tcp_track_syn tcp_sub info way
  tcp_set_srv_way env tcp_sub info way

/-- The part of a sub-parser that the wait-list code can reach. -/
def tcp_subparser.view (tcp_sub : tcp_subparser) : tcp_wl_view :=
  { wl := tcp_sub.wl, parser := tcp_sub.mux_subparser.parser,
    proto := tcp_sub.mux_subparser.proto }

/-- The sub-parser after the wait-list code has run and left `v`. -/
def tcp_subparser.with_view (tcp_sub : tcp_subparser) (v : tcp_wl_view) : tcp_subparser :=
  { tcp_sub with
    wl := v.wl
    mux_subparser := { tcp_sub.mux_subparser with parser := v.parser, proto := v.proto } }

/-- Source: the delivery of the segment by `tcp_parse` (tcp.c:597-615): the
status, the sub-parser and the calls made. -/
def tcp_parse_deliver (env : tcp_env) (tcp_sub : tcp_subparser) (info : tcp_proto_info)
    (way : Nat) (packet : List Nat) (cap_len wire_len tcphdr_len : Nat) :
    proto_parse_status × tcp_subparser × List tcp_call :=
  let packet_len := size_sub wire_len tcphdr_len
  let offset := info.seq_num
  let next_offset := (offset + packet_len + info.syn.toNat + info.fin.toNat) % U32
  let sync_offset := info.ack_num
  let r : proto_parse_status × tcp_subparser × List tcp_call :=
    if tcp_seqnum_cmp info.seq_num (at2 tcp_sub.wl way).next_offset < 0 then
      (env.proto_parse none info way none 0 0, tcp_sub,
        [tcp_call.proto_parse none info way none 0 0])
    else
      let args : tcp_wl_add_args :=
        { way := way, offset := offset, next_offset := next_offset, can_sync := info.ack,
          sync_offset := sync_offset, restartable := true, info := info,
          payload := packet.drop tcphdr_len, cap_len := size_sub cap_len tcphdr_len,
          wire_len := packet_len }
      let a := env.pkt_wait_list_add args tcp_sub.view
      (a.1, tcp_sub.with_view a.2, [tcp_call.wl_add args])
  if r.1 = PROTO_OK then
    let b := env.pkt_wait_list_try_both (not_way way) r.1 r.2.1.view
    (b.1, r.2.1.with_view b.2, r.2.2 ++ [tcp_call.wl_try_both (not_way way)])
  else r

/-- What one call of `tcp_parse` leaves: the status returned, the sub-parser it
worked on (none when it had none), whether it removed it from the mux, and the
calls made to the collaborators, in order. `crashed` tells that the call did
not return (the process ended within it): no status is returned then, and the
field `status` stands for nothing. -/
structure tcp_parse_result where
  status : proto_parse_status
  tcp_sub : Option tcp_subparser
  deindexed : Bool
  calls : List tcp_call
  crashed : Bool
  deriving DecidableEq, Repr

/-- Source: the patch of `way` in `tcp_parse` (tcp.c:546-553); `parent` holds
the two addresses of the enclosing IP info. -/
def tcp_patch_way (parent : Option (ip_addr × ip_addr)) (info : tcp_proto_info) (way : Nat) :
    Nat :=
  match parent with
  | some ip =>
    if ip_addr_cmp ip.1 ip.2 = 0 then
      (if at2 info.key_port 0 < at2 info.key_port 1 then 1 else 0)
    else way
  | none => way

/-- Source: the decoding of the header at the start of `tcp_parse`
(tcp.c:539-543): the status and the local `info`. -/
def tcp_parse_header (env : tcp_env) (packet : List Nat) (cap_len wire_len : Nat) :
    proto_parse_status × tcp_proto_info :=
  parse_tcp_proto_info env.MAX_OPTIONS env.info_uninit cap_len wire_len
    env.packet_addr packet (TCP_HDR_LENGTH packet)

/-- Source: `tcp_parse` (tcp.c:535-634). `found` is the sub-parser that the mux
holds for the flow of the segment, `packet` the bytes at `env.packet_addr`.
When `lookup_or_create_tcp_subparser` does not return, neither does
`tcp_parse`: the result is marked `crashed`, without a sub-parser and without a
call. The branch `if (! tcp_sub)` (tcp.c:557-561) is never taken, since
`lookup_or_create_tcp_subparser` returns no NULL pointer. -/
def tcp_parse (env : tcp_env) (found : Option tcp_subparser)
    (parent : Option (ip_addr × ip_addr)) (way : Nat) (packet : List Nat)
    (cap_len wire_len : Nat) : tcp_parse_result :=
  let tcphdr_len := TCP_HDR_LENGTH packet
  let r := tcp_parse_header env packet cap_len wire_len
  if r.1 ≠ PROTO_OK then
    { status := r.1, tcp_sub := none, deindexed := false, calls := [], crashed := false }
  else
    let info := r.2
    let way := tcp_patch_way parent info way
    match lookup_or_create_tcp_subparser env found info way with
    | none =>
      { status := PROTO_PARSE_ERR, tcp_sub := none, deindexed := false, calls := [],
        crashed := true }
    | some tcp_sub =>
      let tcp_sub := tcp_parse_bookkeeping env tcp_sub info way
      let info := { info with to_srv := decide (tcp_sub.srv_way ≠ way) }
      let d := tcp_parse_deliver env tcp_sub info way packet cap_len wire_len tcphdr_len
      let status := d.1
      let tcp_sub := d.2.1
      let term := tcp_subparser_term tcp_sub
      let t : tcp_subparser × List tcp_call :=
        if term then (tcp_sub, [tcp_call.deindex])
        else if status = PROTO_PARSE_ERR then
          (tcp_mux_subparser_reset_proto tcp_sub, [tcp_call.parser_unref])
        else (tcp_sub, [])
      let last : List tcp_call :=
        if status = PROTO_OK then []
        else [tcp_call.proto_parse none info way (some (packet.drop tcphdr_len))
          (size_sub cap_len tcphdr_len) (size_sub wire_len tcphdr_len)]
      { status := PROTO_OK, tcp_sub := some t.1, deindexed := term,
        calls := d.2.2 ++ t.2 ++ last, crashed := false }

/-- The direction that `tcp_parse` uses for the segment (tcp.c:546-553). -/
def tcp_parse_way (env : tcp_env) (parent : Option (ip_addr × ip_addr)) (way : Nat)
    (packet : List Nat) (cap_len wire_len : Nat) : Nat :=
  tcp_patch_way parent (tcp_parse_header env packet cap_len wire_len).2 way

/-- The sub-parser of the segment once `tcp_parse` has done its bookkeeping
(tcp.c:556-589), none when `lookup_or_create_tcp_subparser` does not return. -/
def tcp_parse_tracked (env : tcp_env) (found : Option tcp_subparser)
    (parent : Option (ip_addr × ip_addr)) (way : Nat) (packet : List Nat)
    (cap_len wire_len : Nat) : Option tcp_subparser :=
  (lookup_or_create_tcp_subparser env found (tcp_parse_header env packet cap_len wire_len).2
    (tcp_parse_way env parent way packet cap_len wire_len)).map
    (fun sub => tcp_parse_bookkeeping env sub (tcp_parse_header env packet cap_len wire_len).2
      (tcp_parse_way env parent way packet cap_len wire_len))

/-- The status, the sub-parser and the calls that the delivery of the segment
by `tcp_parse` leaves (tcp.c:591-615), none when
`lookup_or_create_tcp_subparser` does not return. -/
def tcp_parse_delivered (env : tcp_env) (found : Option tcp_subparser)
    (parent : Option (ip_addr × ip_addr)) (way : Nat) (packet : List Nat)
    (cap_len wire_len : Nat) : Option (proto_parse_status × tcp_subparser × List tcp_call) :=
  (tcp_parse_tracked env found parent way packet cap_len wire_len).map
    (fun b => tcp_parse_deliver env b
      { (tcp_parse_header env packet cap_len wire_len).2 with
        to_srv := decide (b.srv_way ≠ tcp_parse_way env parent way packet cap_len wire_len) }
      (tcp_parse_way env parent way packet cap_len wire_len) packet cap_len wire_len
      (TCP_HDR_LENGTH packet))

/-! ## `ip.c`: the header

`struct ip_hdr` (proto/ip_hdr.h) is not under src; its fields are read from the
bytes of the packet at the places RFC 791 gives them. -/

/-- Size of the fixed IPv4 header, `sizeof(struct ip_hdr)`. -/
def IP_HDR_SIZE : Nat := 20

/-- Modelled from the spec: field `version` of `struct ip_hdr`. -/
def ip_hdr_version (iphdr : List Nat) : Nat := READ_U8 iphdr 0 / 16

/-- Modelled from the spec: field `hdr_len` (IHL, in 32-bit words) of `struct ip_hdr`. -/
def ip_hdr_hdr_len (iphdr : List Nat) : Nat := READ_U8 iphdr 0 % 16

/-- Modelled from the spec: `ntohs(iphdr->tot_len)`. -/
def ip_hdr_tot_len (iphdr : List Nat) : Nat := READ_U16N iphdr 2

/-- Modelled from the spec: `ntohs(iphdr->id)`. -/
def ip_hdr_id (iphdr : List Nat) : Nat := READ_U16N iphdr 4

/-- Modelled from the spec: field `more_fragments` (the MF flag) of `struct ip_hdr`. -/
def ip_hdr_more_fragments (iphdr : List Nat) : Nat := (READ_U8 iphdr 6 / 32) % 2

/-- Modelled from the spec: field `frag_offset_hi` (high 5 bits) of `struct ip_hdr`. -/
def ip_hdr_frag_offset_hi (iphdr : List Nat) : Nat := READ_U8 iphdr 6 % 32

/-- Modelled from the spec: field `frag_offset_lo` (low 8 bits) of `struct ip_hdr`. -/
def ip_hdr_frag_offset_lo (iphdr : List Nat) : Nat := READ_U8 iphdr 7

/-- Modelled from the spec: field `ttl` of `struct ip_hdr`. -/
def ip_hdr_ttl (iphdr : List Nat) : Nat := READ_U8 iphdr 8

/-- Modelled from the spec: field `protocol` of `struct ip_hdr`. -/
def ip_hdr_protocol (iphdr : List Nat) : Nat := READ_U8 iphdr 9

/-- Modelled from the spec: `ip_addr_ctor_from_ip4` on field `src` of `struct ip_hdr`. -/
def ip_hdr_src (iphdr : List Nat) : ip_addr :=
  [READ_U8 iphdr 12, READ_U8 iphdr 13, READ_U8 iphdr 14, READ_U8 iphdr 15]

/-- Modelled from the spec: `ip_addr_ctor_from_ip4` on field `dst` of `struct ip_hdr`. -/
def ip_hdr_dst (iphdr : List Nat) : ip_addr :=
  [READ_U8 iphdr 16, READ_U8 iphdr 17, READ_U8 iphdr 18, READ_U8 iphdr 19]

/-- Source: `struct ip_key` as ip.c uses it. -/
structure ip_key where
  protocol : Nat
  addr : ip_addr × ip_addr
  deriving DecidableEq, Repr

/-- Source: `struct ip_proto_info` as `ip_proto_info_ctor` fills it. -/
structure ip_proto_info where
  info : proto_info
  version : Nat
  key : ip_key
  ttl : Nat
  way : Nat
  deriving DecidableEq, Repr

/-- Source: `ip_proto_info_ctor` (ip.c:74-84). -/
def ip_proto_info_ctor (head_len payload : Nat) (iphdr : List Nat) : ip_proto_info :=
  { info := { head_len := head_len, payload := payload }
    version := ip_hdr_version iphdr
    key := { protocol := ip_hdr_protocol iphdr, addr := (ip_hdr_src iphdr, ip_hdr_dst iphdr) }
    ttl := ip_hdr_ttl iphdr
    way := 0 }

/-- Source: `struct ip_subproto` (ip.c:92-98). -/
structure ip_subproto where
  protocol : Nat
  proto : Junkie.proto
  deriving DecidableEq, Repr

/-- Source: `is_fragment` (ip.c:110-114). -/
def is_fragment (ip : List Nat) : Bool :=
  decide (ip_hdr_frag_offset_lo ip ≠ 0) || decide (ip_hdr_frag_offset_hi ip ≠ 0) ||
    decide (ip_hdr_more_fragments ip ≠ 0)

/-- Source: `fragment_offset` (ip.c:116-119). -/
def fragment_offset (ip : List Nat) : Nat :=
  ((ip_hdr_frag_offset_lo ip + ip_hdr_frag_offset_hi ip * 256) * 8) % U32

/-- Source: `struct ip_reassembly` (ip.c:131-138). `wl` is none as long as the
wait-list is not constructed. -/
structure ip_reassembly where
  in_use : Bool
  constructed : Bool
  got_last : Bool
  id : Nat
  end_offset : Nat
  wl : Option pkt_wait_list
  deriving DecidableEq, Repr

/-- Number of reassembly slots, `NB_ELEMS(ip_subparser->reassembly)`. -/
def NB_REASSEMBLY : Nat := 4

/-- Source: `struct ip_subparser` (ip.c:122-140); `reassembly` has 4 entries. -/
structure ip_subparser where
  reassembly : List ip_reassembly
  mux_subparser : Junkie.mux_subparser
  deriving DecidableEq, Repr

/-- Content of a slot that memory does not back (index out of the array). -/
def ip_reassembly_none : ip_reassembly :=
  { in_use := false, constructed := false, got_last := false, id := 0, end_offset := 0,
    wl := none }

/-- Read of `ip_subparser->reassembly[r]`. -/
def ip_subparser.slot (ip_subparser : ip_subparser) (r : Nat) : ip_reassembly :=
  ip_subparser.reassembly.getD r ip_reassembly_none

/-- Write of `ip_subparser->reassembly[r]`. -/
def ip_subparser.set_slot (ip_subparser : ip_subparser) (r : Nat) (v : ip_reassembly) :
    Junkie.ip_subparser :=
  { ip_subparser with reassembly := ip_subparser.reassembly.set r v }

/-- Arguments of one call of `pkt_wait_list_add` by `ip_parse` (ip.c:351). -/
structure ip_wl_add_args where
  offset : Nat
  next_offset : Nat
  can_sync : Bool
  info : ip_proto_info
  way : Nat
  payload : List Nat
  cap_len : Nat
  wire_len : Nat
  deriving DecidableEq, Repr

/-- A call made by `ip_parse` to one of its collaborators. The parent of a
`proto_parse` is the info of the packet, or none for the parent of `ip_parse`
itself. -/
inductive ip_call where
  | proto_parse (parser : Option parser) (parent : Option ip_proto_info) (way : Nat)
      (payload : List Nat) (cap_len wire_len : Nat)
  | wl_add (slot : Nat) (args : ip_wl_add_args)
  deriving DecidableEq, Repr

/-- The answers, during one call of `ip_parse`, of the code that is not in ip.c. -/
structure ip_env where
  /-- Answer of `mux_subparser_lookup` for a proto and a key. -/
  mux_subparser_lookup : Junkie.proto → ip_key → Option ip_subparser
  /-- Answer of `pkt_wait_list_ctor` for a parser (none when it fails). -/
  pkt_wait_list_ctor : Option parser → Option pkt_wait_list
  /-- Answer of `pkt_wait_list_add`: its status and the wait-list it leaves. -/
  pkt_wait_list_add : ip_wl_add_args → Option pkt_wait_list →
    proto_parse_status × Option pkt_wait_list
  /-- Answer of `pkt_wait_list_is_complete` for a range. -/
  pkt_wait_list_is_complete : Option pkt_wait_list → Nat → Nat → Bool
  /-- Answer of `pkt_wait_list_reassemble` for a range (none for a null buffer). -/
  pkt_wait_list_reassemble : Option pkt_wait_list → Nat → Nat → Option (List Nat)
  /-- Answer of `proto_parse` called with these arguments. -/
  proto_parse : Option parser → Option ip_proto_info → Nat → List Nat → Nat → Nat →
    proto_parse_status

/-- Source: `ip_subparser_ctor` (ip.c:142-153), on the memory `ip_subparser`;
`m` is what `mux_subparser_ctor` builds, none when it fails. -/
def ip_subparser_ctor (ip_subparser : ip_subparser) (m : Option mux_subparser) :
    Option Junkie.ip_subparser :=
  let reassembly := ip_subparser.reassembly.map
    (fun r => { r with in_use := false, constructed := false, got_last := false })
  match m with
  | none => none
  | some m => some { reassembly := reassembly, mux_subparser := m }

/-- Source: `ip_reassembly_dtor` (ip.c:168-176). -/
def ip_reassembly_dtor (reassembly : ip_reassembly) : ip_reassembly :=
  if reassembly.constructed then
    { reassembly with wl := none, constructed := false, in_use := false }
  else reassembly

/-- Source: `ip_reassembly_ctor` (ip.c:198-210): the int returned and the slot. -/
def ip_reassembly_ctor (env : ip_env) (reassembly : ip_reassembly) (parser : Option parser)
    (id : Nat) : Int × ip_reassembly :=
  let reassembly := { reassembly with constructed := true, in_use := true, id := id,
                                       got_last := false }
  match env.pkt_wait_list_ctor parser with
  | none => (-1, reassembly)
  | some wl => (0, { reassembly with wl := some wl })

/-- Source: the loop of `ip_reassembly_lookup` (ip.c:217-229) over the indices
`rs`: the index of the slot found in use with this id, or else the final
`last_unused`. -/
def ip_reassembly_scan (ip_subparser : ip_subparser) (id : Nat) :
    List Nat → Int → Sum Nat Int
  | [], last_unused => Sum.inr last_unused
  | r :: rs, last_unused =>
    if (ip_subparser.slot r).in_use then
      if (ip_subparser.slot r).id ≠ id then ip_reassembly_scan ip_subparser id rs last_unused
      else Sum.inl r
    else ip_reassembly_scan ip_subparser id rs (r : Int)

/-- What `ip_reassembly_lookup` leaves: the index of the slot returned (none
for NULL), the sub-parser, and the static `target`. -/
structure ip_lookup_result where
  slot : Option Nat
  ip_subparser : Junkie.ip_subparser
  target : Nat
  deriving DecidableEq, Repr

/-- Source: `ip_reassembly_lookup` (ip.c:212-243); `target` is its static
variable. -/
def ip_reassembly_lookup (env : ip_env) (ip_subparser : ip_subparser) (target : Nat)
    (id : Nat) (parser : Option parser) : ip_lookup_result :=
  match ip_reassembly_scan ip_subparser id (List.range NB_REASSEMBLY) (-1) with
  | Sum.inl r =>
    let reassembly := ip_subparser.slot r
    let reassembly :=
      if !reassembly.constructed then (ip_reassembly_ctor env reassembly parser id).2
      else reassembly
    { slot := some r, ip_subparser := ip_subparser.set_slot r reassembly, target := target }
  | Sum.inr last_unused =>
    let e : Nat × Nat × Junkie.ip_subparser :=
      if last_unused = -1 then
        (target, (target + 1) % NB_REASSEMBLY,
          ip_subparser.set_slot target (ip_reassembly_dtor (ip_subparser.slot target)))
      else (last_unused.toNat, target, ip_subparser)
    let last_unused := e.1
    let c := ip_reassembly_ctor env (e.2.2.slot last_unused) parser id
    { slot := if c.1 ≠ 0 then none else some last_unused
      ip_subparser := e.2.2.set_slot last_unused c.2
      target := e.2.1 }

/-- Source: `ip_key_ctor` (ip.c:245-256): the way returned and the key built.
The field `protocol` of `struct ip_key` holds 8 bits: the assignment keeps the
`unsigned protocol` modulo 256. -/
def ip_key_ctor (protocol : Nat) (src dst : ip_addr) : Nat × ip_key :=
  if ip_addr_cmp src dst ≤ 0 then (0, { protocol := protocol % 256, addr := (src, dst) })
  else (1, { protocol := protocol % 256, addr := (dst, src) })

/-- Source: `reassemble` (ip.c:270-281): the slot it leaves and the calls made. -/
def reassemble (env : ip_env) (reassembly : ip_reassembly) (way : Nat) :
    ip_reassembly × List ip_call :=
  let calls :=
    match env.pkt_wait_list_reassemble reassembly.wl 0 reassembly.end_offset with
    | some payload =>
      [ip_call.proto_parse (reassembly.wl.bind (fun w => w.parser)) none way payload
        reassembly.end_offset reassembly.end_offset]
    | none => []
  (ip_reassembly_dtor reassembly, calls)

/-- What one call of `ip_parse` leaves: the status returned, the sub-parser it
worked on (none when it had none), the static `target` of
`ip_reassembly_lookup`, and the calls made to the collaborators, in order. -/
structure ip_parse_result where
  status : proto_parse_status
  ip_subparser : Option Junkie.ip_subparser
  target : Nat
  calls : List ip_call
  deriving DecidableEq, Repr

/-- Source: the label `fallback` of `ip_parse` (ip.c:364-366). -/
def ip_parse_fallback (info : ip_proto_info) (packet : List Nat) (cap_len wire_len iphdr_len : Nat)
    (ip_subparser : Option ip_subparser) (target : Nat) (calls : List ip_call) :
    ip_parse_result :=
  { status := PROTO_OK, ip_subparser := ip_subparser, target := target
    calls := calls ++ [ip_call.proto_parse none (some info) info.way (packet.drop iphdr_len)
      (size_sub cap_len iphdr_len) (size_sub wire_len iphdr_len)] }

/-- Source: the recording of the last fragment by `ip_parse` (ip.c:346-350). -/
def ip_fragment_mark (reassembly : ip_reassembly) (packet : List Nat)
    (wire_len iphdr_len : Nat) : ip_reassembly :=
  let offset := fragment_offset packet
  let frag_len := size_sub wire_len iphdr_len
  if ip_hdr_more_fragments packet = 0 then
    { reassembly with got_last := true, end_offset := (offset + frag_len) % U32 }
  else reassembly

/-- Source: the arguments that `ip_parse` gives to `pkt_wait_list_add` (ip.c:351). -/
def ip_fragment_args (info : ip_proto_info) (packet : List Nat)
    (cap_len wire_len iphdr_len : Nat) : ip_wl_add_args :=
  let offset := fragment_offset packet
  let frag_len := size_sub wire_len iphdr_len
  { offset := offset, next_offset := (offset + frag_len) % U32, can_sync := false,
    info := info, way := info.way, payload := packet.drop iphdr_len,
    cap_len := size_sub cap_len iphdr_len, wire_len := frag_len }

/-- Source: the fragment branch of `ip_parse` (ip.c:338-358). -/
def ip_parse_fragment (env : ip_env) (info : ip_proto_info) (subparser : ip_subparser)
    (target way : Nat) (packet : List Nat) (cap_len wire_len iphdr_len : Nat) :
    ip_parse_result :=
  let id := ip_hdr_id packet
  let l := ip_reassembly_lookup env subparser target id subparser.mux_subparser.parser
  match l.slot with
  | none =>
    ip_parse_fallback info packet cap_len wire_len iphdr_len (some l.ip_subparser) l.target []
  | some r =>
    let reassembly := ip_fragment_mark (l.ip_subparser.slot r) packet wire_len iphdr_len
    let args := ip_fragment_args info packet cap_len wire_len iphdr_len
    let a := env.pkt_wait_list_add args reassembly.wl
    let reassembly := { reassembly with wl := a.2 }
    if a.1 ≠ PROTO_OK then
      ip_parse_fallback info packet cap_len wire_len iphdr_len
        (some (l.ip_subparser.set_slot r reassembly)) l.target [ip_call.wl_add r args]
    else if reassembly.got_last &&
        env.pkt_wait_list_is_complete reassembly.wl 0 reassembly.end_offset then
      let re := reassemble env reassembly way
      { status := PROTO_OK, ip_subparser := some (l.ip_subparser.set_slot r re.1)
        target := l.target, calls := [ip_call.wl_add r args] ++ re.2 }
    else
      { status := PROTO_OK, ip_subparser := some (l.ip_subparser.set_slot r reassembly)
        target := l.target, calls := [ip_call.wl_add r args] }

/-- Source: the search of the sub-parser by `ip_parse` (ip.c:321-331): the info
with its `way` set, and the sub-parser found (none for NULL). -/
def ip_parse_find (env : ip_env) (ip_subprotos : List ip_subproto) (info : ip_proto_info) :
    ip_proto_info × Option ip_subparser :=
  match ip_subprotos.find? (fun subproto => subproto.protocol = info.key.protocol) with
  | some subproto =>
    let k := ip_key_ctor info.key.protocol info.key.addr.1 info.key.addr.2
    ({ info with way := k.1 }, env.mux_subparser_lookup subproto.proto k.2)
  | none => (info, none)

/-- Source: `ip_parse` once the sanity checks are passed (ip.c:314-367). -/
def ip_parse_dispatch (env : ip_env) (ip_subprotos : List ip_subproto) (target way : Nat)
    (packet : List Nat) (cap_len wire_len : Nat) : ip_parse_result :=
  let ip_len := ip_hdr_tot_len packet
  let iphdr_len := ip_hdr_hdr_len packet * 4
  let info := ip_proto_info_ctor iphdr_len (size_sub ip_len iphdr_len) packet
  let f := ip_parse_find env ip_subprotos info
  let info := f.1
  match f.2 with
  | none => ip_parse_fallback info packet cap_len wire_len iphdr_len none target []
  | some subparser =>
    if is_fragment packet then
      ip_parse_fragment env info subparser target way packet cap_len wire_len iphdr_len
    else
      let st := env.proto_parse subparser.mux_subparser.parser (some info) info.way
        (packet.drop iphdr_len) (size_sub cap_len iphdr_len) (size_sub wire_len iphdr_len)
      let c := ip_call.proto_parse subparser.mux_subparser.parser (some info) info.way
        (packet.drop iphdr_len) (size_sub cap_len iphdr_len) (size_sub wire_len iphdr_len)
      if st ≠ PROTO_OK then
        ip_parse_fallback info packet cap_len wire_len iphdr_len (some subparser) target [c]
      else
        { status := PROTO_OK, ip_subparser := some subparser, target := target, calls := [c] }

/-- Source: `ip_parse` (ip.c:283-367). `ip_subprotos` is the global list of
registered sub-protocols, `target` the static variable of
`ip_reassembly_lookup`, `packet` the bytes of the packet. -/
def ip_parse (env : ip_env) (ip_subprotos : List ip_subproto) (target way : Nat)
    (packet : List Nat) (cap_len wire_len : Nat) : ip_parse_result :=
  if cap_len < IP_HDR_SIZE then
    { status := PROTO_TOO_SHORT, ip_subparser := none, target := target, calls := [] }
  else
  let ip_len := ip_hdr_tot_len packet
  if ip_len > wire_len then
    { status := PROTO_PARSE_ERR, ip_subparser := none, target := target, calls := [] }
  else if ip_hdr_version packet ≠ 4 then
    { status := PROTO_PARSE_ERR, ip_subparser := none, target := target, calls := [] }
  else
  let iphdr_len := ip_hdr_hdr_len packet * 4
  if iphdr_len > ip_len then
    { status := PROTO_PARSE_ERR, ip_subparser := none, target := target, calls := [] }
  else if iphdr_len > cap_len then
    { status := PROTO_TOO_SHORT, ip_subparser := none, target := target, calls := [] }
  else ip_parse_dispatch env ip_subprotos target way packet cap_len wire_len

/-- The info of the packet in `ip_parse`, with its `way` set (ip.c:316-331). -/
def ip_parse_info (env : ip_env) (ip_subprotos : List ip_subproto) (packet : List Nat) :
    ip_proto_info :=
  (ip_parse_find env ip_subprotos
    (ip_proto_info_ctor (ip_hdr_hdr_len packet * 4)
      (size_sub (ip_hdr_tot_len packet) (ip_hdr_hdr_len packet * 4)) packet)).1

/-- The sub-parser that `ip_parse` finds for the packet (ip.c:321-331). -/
def ip_parse_subparser (env : ip_env) (ip_subprotos : List ip_subproto) (packet : List Nat) :
    Option ip_subparser :=
  (ip_parse_find env ip_subprotos
    (ip_proto_info_ctor (ip_hdr_hdr_len packet * 4)
      (size_sub (ip_hdr_tot_len packet) (ip_hdr_hdr_len packet * 4)) packet)).2

/-- The info-only delivery of the packet, with a null parser (ip.c:365). -/
def ip_info_only_call (env : ip_env) (ip_subprotos : List ip_subproto) (packet : List Nat)
    (cap_len wire_len : Nat) : ip_call :=
  ip_call.proto_parse none (some (ip_parse_info env ip_subprotos packet))
    (ip_parse_info env ip_subprotos packet).way (packet.drop (ip_hdr_hdr_len packet * 4))
    (size_sub cap_len (ip_hdr_hdr_len packet * 4)) (size_sub wire_len (ip_hdr_hdr_len packet * 4))

/-- The delivery of the payload of the packet to the child `parser` (ip.c:361). -/
def ip_child_call (env : ip_env) (ip_subprotos : List ip_subproto) (packet : List Nat)
    (cap_len wire_len : Nat) (parser : Option parser) : ip_call :=
  ip_call.proto_parse parser (some (ip_parse_info env ip_subprotos packet))
    (ip_parse_info env ip_subprotos packet).way (packet.drop (ip_hdr_hdr_len packet * 4))
    (size_sub cap_len (ip_hdr_hdr_len packet * 4)) (size_sub wire_len (ip_hdr_hdr_len packet * 4))

/-- The packet passes the sanity checks of `ip_parse` (ip.c:288-312). -/
def ip_parse_valid (packet : List Nat) (cap_len wire_len : Nat) : Prop :=
  20 ≤ cap_len ∧ ip_hdr_tot_len packet ≤ wire_len ∧ ip_hdr_version packet = 4 ∧
  ip_hdr_hdr_len packet * 4 ≤ ip_hdr_tot_len packet ∧ ip_hdr_hdr_len packet * 4 ≤ cap_len

/-! ## A TCP flow: successive segments through `tcp_parse` -/

/-- One segment handed to `tcp_parse`, with the answers of the collaborators
during that call. -/
structure tcp_segment where
  env : tcp_env
  parent : Option (ip_addr × ip_addr)
  way : Nat
  packet : List Nat
  cap_len : Nat
  wire_len : Nat

/-- The sub-parser that the mux holds for the flow after a call of `tcp_parse`
that found `found`: the one worked on unless it was deindexed. (No idle timeout
strikes between the segments.) -/
def tcp_mux_after (found : Option tcp_subparser) (r : tcp_parse_result) : Option tcp_subparser :=
  match r.tcp_sub with
  | some tcp_sub => if r.deindexed then none else some tcp_sub
  | none => found

/-- The call of `tcp_parse` on one segment of a flow. -/
def tcp_parse_segment (found : Option tcp_subparser) (s : tcp_segment) : tcp_parse_result :=
  tcp_parse s.env found s.parent s.way s.packet s.cap_len s.wire_len

/-- The successive calls of `tcp_parse` on the segments of one flow, from the
content `found` of the mux: the result of every call, in order. A call that
does not return is the last one: the process has ended. -/
def tcp_flow (found : Option tcp_subparser) : List tcp_segment → List tcp_parse_result
  | [] => []
  | s :: rest =>
    let r := tcp_parse_segment found s
    r :: (if r.crashed then [] else tcp_flow (tcp_mux_after found r) rest)

/-- Two states of a sub-parser agree on the fields that track the connection
(everything but the wait-lists and the mux part). -/
def tcp_same_track (a b : tcp_subparser) : Prop :=
  a.fin = b.fin ∧ a.ack = b.ack ∧ a.syn = b.syn ∧ a.wl_set = b.wl_set ∧
  a.fin_seqnum = b.fin_seqnum ∧ a.max_acknum = b.max_acknum ∧
  a.srv_way = b.srv_way ∧ a.srv_set = b.srv_set

/-- The status that `tcp_parse` gets from the header of a segment. -/
def tcp_segment.status (s : tcp_segment) : proto_parse_status :=
  (tcp_parse_header s.env s.packet s.cap_len s.wire_len).1

/-- The header that `tcp_parse` decodes from a segment. -/
def tcp_segment.info (s : tcp_segment) : tcp_proto_info :=
  (tcp_parse_header s.env s.packet s.cap_len s.wire_len).2

/-- The direction that `tcp_parse` uses for a segment, after the patch for
equal addresses. -/
def tcp_segment.eff_way (s : tcp_segment) : Nat := tcp_patch_way s.parent s.info s.way

/-- A FIN has been seen in direction `w` among the segments `hist`. -/
def tcp_fin_seen (hist : List tcp_segment) (w : Nat) : Prop :=
  ∃ s ∈ hist, s.info.fin = true ∧ s.eff_way = w

/-- An ACK has been seen in direction `w` among the segments `hist`. -/
def tcp_ack_seen (hist : List tcp_segment) (w : Nat) : Prop :=
  ∃ s ∈ hist, s.info.ack = true ∧ s.eff_way = w

/-- An ACK with `ack_num > f` (modulo 2^32) has been seen in direction `w`
among the segments `hist`. -/
def tcp_ack_gt_seen (hist : List tcp_segment) (w f : Nat) : Prop :=
  ∃ s ∈ hist, s.info.ack = true ∧ s.eff_way = w ∧ seqnum_gt s.info.ack_num f = true

/-- Both FINs, of sequence numbers `f0` (way 0) and `f1` (way 1), have been
seen among the segments `hist`, and so have an ACK above `f0` in way 1 and an
ACK above `f1` in way 0. -/
def tcp_closed (hist : List tcp_segment) (f0 f1 : Nat) : Prop :=
  tcp_fin_seen hist 0 ∧ tcp_fin_seen hist 1 ∧
  tcp_ack_gt_seen hist 1 f0 ∧ tcp_ack_gt_seen hist 0 f1

/-- Among the segments `l`, the ACKs of direction `w` are ordered around the
sequence number `g`: an `ack_num` that is above `g` is also above every
`ack_num` of direction `w` that is not above `g` (`seqnum_gt` makes the
comparisons, modulo 2^32). -/
def tcp_acks_ordered (l : List tcp_segment) (w g : Nat) : Prop :=
  ∀ x ∈ l, ∀ y ∈ l, x.info.ack = true → y.info.ack = true → x.eff_way = w → y.eff_way = w →
    seqnum_gt x.info.ack_num g = true → seqnum_gt y.info.ack_num g = false →
    seqnum_gt x.info.ack_num y.info.ack_num = true

/-- What a sub-parser state `t` records of direction `w` after the segments
`hist`, when the FINs of direction `w` all carry the sequence number `f` and
the ACKs of direction `w` are ordered around `g`: the `fin` bit tells whether a
FIN was seen, `fin_seqnum[w]` is then `f`, the `ack` bit tells whether an ACK
was seen, `max_acknum[w]` is then an `ack_num` that was seen, and it is above
`g` as soon as an `ack_num` above `g` was seen. -/
def tcp_way_inv (hist : List tcp_segment) (t : tcp_subparser) (w f g : Nat) : Prop :=
  (IS_SET_FOR_WAY w t.fin = true ↔ tcp_fin_seen hist w) ∧
  (IS_SET_FOR_WAY w t.fin = true → at2 t.fin_seqnum w = f) ∧
  (IS_SET_FOR_WAY w t.ack = true ↔ tcp_ack_seen hist w) ∧
  (IS_SET_FOR_WAY w t.ack = true →
    (∃ s ∈ hist, s.info.ack = true ∧ s.eff_way = w ∧ s.info.ack_num = at2 t.max_acknum w) ∧
    (tcp_ack_gt_seen hist w g → seqnum_gt (at2 t.max_acknum w) g = true))

/-- The decoded header that a call hands to a collaborator, when it hands one. -/
def tcp_call.carried_info : tcp_call → Option tcp_proto_info
  | tcp_call.proto_parse _ info _ _ _ _ => some info
  | tcp_call.wl_add args => some args.info
  | tcp_call.wl_try_both _ => none
  | tcp_call.deindex => none
  | tcp_call.parser_unref => none

/-! ## `netmatch.c`

`struct netmatch_filter` (junkie/netmatch.h) is not under src; its fields are
those that netmatch.c names. A pointer is none when it is NULL. -/

/-- The fields of `struct netmatch_filter` that netmatch.c touches: `regfile`
holds the bytes of the register file, `libname` the duplicated name, `handle`
the library handle and `match_fun` the address of the function. -/
structure netmatch_filter where
  nb_registers : Nat
  regfile : Option (List Nat)
  libname : Option String
  handle : Option Nat
  match_fun : Option Nat
  deriving DecidableEq, Repr

/-- A release made by `netmatch_filter_ctor`, with what is released. -/
inductive netmatch_call where
  | objfree_regfile (regfile : List Nat)
  | objfree_libname (libname : String)
  | lt_dlclose (handle : Nat)
  deriving DecidableEq, Repr

/-- The answers, during one call of `netmatch_filter_ctor`, of the code that is
not in netmatch.c. -/
structure netmatch_env where
  /-- Size in bytes of a register, `sizeof(*netmatch->regfile)`. -/
  reg_size : Nat
  /-- Answer of `objalloc(size, "netmatches")`: the bytes found in the memory
  obtained (none for NULL). -/
  objalloc : Nat → Option (List Nat)
  /-- Answer of `objalloc_strdup(libname)` (none for NULL). -/
  objalloc_strdup : String → Option String
  /-- Answer of `lt_dlopen(libname)` (none for NULL). -/
  lt_dlopen : String → Option Nat
  /-- Answer of `lt_dlsym(handle, name)` (none for NULL). -/
  lt_dlsym : Nat → String → Option Nat

/-- What `netmatch_filter_ctor` leaves: the int returned, the filter, and the
releases made, in order. -/
structure netmatch_result where
  ret : Int
  netmatch : netmatch_filter
  calls : List netmatch_call
  deriving DecidableEq, Repr

/-- Source: `memset(regfile, 0, size)` (netmatch.c:30) on the bytes of a block. -/
def netmatch_memset (mem : List Nat) (size : Nat) : List Nat :=
  List.replicate size 0 ++ mem.drop size

/-- Source: the label `err1` of `netmatch_filter_ctor` (netmatch.c:63-69). -/
def netmatch_err1 (netmatch : netmatch_filter) (calls : List netmatch_call) : netmatch_result :=
  match netmatch.regfile with
  | some regfile =>
    { ret := -1, netmatch := { netmatch with regfile := none }
      calls := calls ++ [netmatch_call.objfree_regfile regfile] }
  | none => { ret := -1, netmatch := netmatch, calls := calls }

/-- Source: the label `err2` of `netmatch_filter_ctor` (netmatch.c:58-62). -/
def netmatch_err2 (netmatch : netmatch_filter) (calls : List netmatch_call) : netmatch_result :=
  match netmatch.libname with
  | some libname =>
    netmatch_err1 { netmatch with libname := none }
      (calls ++ [netmatch_call.objfree_libname libname])
  | none => netmatch_err1 netmatch calls

/-- Source: the label `err3` of `netmatch_filter_ctor` (netmatch.c:53-57). -/
def netmatch_err3 (netmatch : netmatch_filter) (calls : List netmatch_call) : netmatch_result :=
  match netmatch.handle with
  | some handle =>
    netmatch_err2 { netmatch with handle := none } (calls ++ [netmatch_call.lt_dlclose handle])
  | none => netmatch_err2 netmatch calls

/-- Source: `netmatch_filter_ctor` (netmatch.c:24-70), on the storage
`netmatch`. The size given to `objalloc` and `memset` is a `size_t` product. -/
def netmatch_filter_ctor (env : netmatch_env) (netmatch : netmatch_filter) (libname : String)
    (nb_regs : Nat) : netmatch_result :=
  let netmatch := { netmatch with nb_registers := nb_regs }
  let size := (nb_regs * env.reg_size) % SIZE_MAX1
  let alloc : Option (List Nat) := if nb_regs > 0 then env.objalloc size else none
  if nb_regs > 0 ∧ alloc = none then
    { ret := -1, netmatch := { netmatch with regfile := none }, calls := [] }
  else
  let netmatch := { netmatch with regfile := alloc.map (fun mem => netmatch_memset mem size) }
  let netmatch := { netmatch with libname := env.objalloc_strdup libname }
  if netmatch.libname = none then netmatch_err1 netmatch []
  else
  let netmatch := { netmatch with handle := env.lt_dlopen libname }
  match netmatch.handle with
  | none => netmatch_err2 netmatch []
  | some handle =>
    let netmatch := { netmatch with match_fun := env.lt_dlsym handle "match" }
    if netmatch.match_fun = none then netmatch_err3 netmatch []
    else { ret := 0, netmatch := netmatch, calls := [] }

/-! ## `tcp.c`: the options of a header -/

/-- Source: the option loop of `parse_tcp_proto_info` (tcp.c:526-531), as the
list of what it gives to `parse_next_option`: for every call, the bytes found
at `options` and the value of `rem_len`. -/
def tcp_option_walk (max_options : Nat) (info : tcp_proto_info) (addr : Nat)
    (options : List Nat) (rem_len : Nat) : List (List Nat × Nat) :=
  if _h0 : rem_len > 0 then
    let r := parse_next_option max_options info addr options rem_len
    (options, rem_len) ::
      (if _h1 : r.1 < 0 then []
       else tcp_option_walk max_options r.2 (addr + r.1.toNat) (options.drop r.1.toNat)
         (size_sub rem_len r.1.toNat))
  else []
termination_by rem_len
decreasing_by
  have hle : 0 < (parse_next_option max_options info addr options rem_len).1 ∧
      (parse_next_option max_options info addr options rem_len).1 ≤ (rem_len : Int) := by
    have h1 : ¬ (parse_next_option max_options info addr options rem_len).1 < 0 := _h1
    revert h1
    unfold parse_next_option
    simp only []
    repeat' split
    all_goals simp
    all_goals omega
  simp only [size_sub]
  split <;> omega

/-- The options that `parse_tcp_proto_info` walks through on a header that
passes its length checks (tcp.c:521-531). -/
def tcp_header_walk (max_options : Nat) (info : tcp_proto_info) (wire_len addr : Nat)
    (tcphdr : List Nat) (tcphdr_len : Nat) : List (List Nat × Nat) :=
  tcp_option_walk max_options
    (tcp_proto_info_ctor info tcphdr_len (size_sub wire_len tcphdr_len)
      (READ_U16N tcphdr 0) (READ_U16N tcphdr 2) tcphdr)
    (addr + TCP_HDR_SIZE) (tcphdr.drop TCP_HDR_SIZE) (size_sub tcphdr_len TCP_HDR_SIZE)

/-- The option found at `options`, with `rem_len` bytes left, is of kind 2 or
more and has a malformed length: the length byte is missing, the length is
below 2 or above `rem_len`, or it is not 4 for an MSS, not 3 for a WSF. -/
def tcp_option_malformed (options : List Nat) (rem_len : Nat) : Prop :=
  2 ≤ READ_U8 options 0 ∧
  (rem_len < 2 ∨ READ_U8 options 1 < 2 ∨ rem_len < READ_U8 options 1 ∨
    (READ_U8 options 0 = 2 ∧ READ_U8 options 1 ≠ 4) ∨
    (READ_U8 options 0 = 3 ∧ READ_U8 options 1 ≠ 3))

/-- An option of a TCP options vector: a NOP, an MSS with its 16-bit value, a
WSF with its 8-bit value, or another option with its kind and its data. -/
inductive tcp_option where
  | nop
  | mss (m : Nat)
  | wsf (w : Nat)
  | other (kind : Nat) (data : List Nat)
  deriving DecidableEq, Repr

/-- The bytes of an option in a TCP header (RFC 793), values big-endian: a NOP
is the byte 1; an MSS is kind 2, length 4 and the two bytes of the value; a WSF
is kind 3, length 3 and the value; another option is its kind, its length (the
two bytes read before included) and its data. -/
def tcp_option.encode : tcp_option → List Nat
  | tcp_option.nop => [1]
  | tcp_option.mss m => [2, 4, m / 256, m % 256]
  | tcp_option.wsf w => [3, 3, w]
  | tcp_option.other kind data => kind :: (data.length + 2) :: data

/-- An option is well formed when its values fit their fields: 16 bits for an
MSS, 8 bits for a WSF, and for another option a kind from 4 to 255 and a length
that fits a byte. -/
def tcp_option.well_formed : tcp_option → Bool
  | tcp_option.nop => true
  | tcp_option.mss m => decide (m < 65536)
  | tcp_option.wsf w => decide (w < 256)
  | tcp_option.other kind data => decide (4 ≤ kind ∧ kind < 256 ∧ data.length + 2 < 256)

/-- The bytes of an options vector: its options one after the other. -/
def tcp_options_encode : List tcp_option → List Nat
  | [] => []
  | o :: os => o.encode ++ tcp_options_encode os

/-- The values of the MSS options of a vector, in order. -/
def tcp_options_mss : List tcp_option → List Nat
  | [] => []
  | tcp_option.mss m :: os => m :: tcp_options_mss os
  | _ :: os => tcp_options_mss os

/-- The values of the WSF options of a vector, in order. -/
def tcp_options_wsf : List tcp_option → List Nat
  | [] => []
  | tcp_option.wsf w :: os => w :: tcp_options_wsf os
  | _ :: os => tcp_options_wsf os

/-- The bytes of a TCP header: the 20 bytes `fixed`, an options vector, and
`pad` null bytes of padding (an END option and what follows it). -/
def tcp_header_encode (fixed : List Nat) (opts : List tcp_option) (pad : Nat) : List Nat :=
  fixed ++ tcp_options_encode opts ++ List.replicate pad 0

/-! ## The wait-list of a reassembly slot, as a set of byte ranges

`pkt_wait_list.c` is not under src. For the reassembly of IP fragments the
wait-list is taken as the set of the byte ranges it was given, each with its
payload. -/

/-- The byte `i` lies in the range `[offset, next_offset)` of a pending entry. -/
def pkt_wl_pkt.covers (p : pkt_wl_pkt) (i : Nat) : Bool :=
  decide (p.offset ≤ i) && decide (i < p.next_offset)

/-- Every byte of the region `[start, end_offset)` lies in the range of an entry. -/
def pkt_wl_covered (pkts : List pkt_wl_pkt) (start end_offset : Nat) : Bool :=
  (List.range' start (end_offset - start)).all (fun i => pkts.any (fun p => p.covers i))

/-- The byte that the entries hold for the offset `i`: the one of the first
entry whose range has it. -/
def pkt_wl_byte (pkts : List pkt_wl_pkt) (i : Nat) : Nat :=
  match pkts.find? (fun p => p.covers i) with
  | some p => p.payload.getD (i - p.offset) 0
  | none => 0

/-- Modelled from the spec: `pkt_wait_list_ctor` (pkt_wait_list.c is not under
src) called with the offset 0 and a parser, as `ip_reassembly_ctor` does: an
empty list that starts at offset 0 and feeds that parser. -/
def ip_wl_ctor (parser : Option parser) : Option pkt_wait_list :=
  some { next_offset := 0, parser := parser, pkts := [] }

/-- Modelled from the spec: `pkt_wait_list_add` (pkt_wait_list.c is not under
src) inserts a fragment: the list keeps the range with its payload and answers
PROTO_OK. A list that was never constructed refuses it. -/
def ip_wl_add (args : ip_wl_add_args) :
    Option pkt_wait_list → proto_parse_status × Option pkt_wait_list
  | none => (PROTO_PARSE_ERR, none)
  | some wl =>
    (PROTO_OK, some { wl with pkts := wl.pkts ++
      [{ offset := args.offset, next_offset := args.next_offset, cap_len := args.cap_len,
         wire_len := args.wire_len, payload := args.payload }] })

/-- Modelled from the spec: `pkt_wait_list_is_complete` (pkt_wait_list.c is not
under src) is true iff the region `[start, end)` is fully covered. -/
def ip_wl_is_complete : Option pkt_wait_list → Nat → Nat → Bool
  | none, _, _ => false
  | some wl, start, end_offset => pkt_wl_covered wl.pkts start end_offset

/-- Modelled from the spec: `pkt_wait_list_reassemble` (pkt_wait_list.c is not
under src) copies all fragments into a single buffer for `[start, end)`, and
returns null if a fragment is missing or its captured bytes were truncated. -/
def ip_wl_reassemble : Option pkt_wait_list → Nat → Nat → Option (List Nat)
  | none, _, _ => none
  | some wl, start, end_offset =>
    if pkt_wl_covered wl.pkts start end_offset &&
        wl.pkts.all (fun p => decide (p.wire_len ≤ p.cap_len)) then
      some ((List.range' start (end_offset - start)).map (fun i => pkt_wl_byte wl.pkts i))
    else none

/-- The answers of the collaborators of `ip_parse` when the mux holds `sub` for
the flow, the wait-lists are sets of byte ranges, and the child parsers answer
what `proto_parse` tells. -/
def ip_wl_env (sub : ip_subparser)
    (proto_parse : Option parser → Option ip_proto_info → Nat → List Nat → Nat → Nat →
      proto_parse_status) : ip_env :=
  { mux_subparser_lookup := fun _ _ => some sub
    pkt_wait_list_ctor := ip_wl_ctor
    pkt_wait_list_add := ip_wl_add
    pkt_wait_list_is_complete := ip_wl_is_complete
    pkt_wait_list_reassemble := ip_wl_reassemble
    proto_parse := proto_parse }

/-- One packet handed to `ip_parse`. -/
structure ip_frame where
  packet : List Nat
  cap_len : Nat
  wire_len : Nat
  deriving DecidableEq, Repr

/-- The successive calls of `ip_parse` on the packets of one flow, from the
sub-parser `sub` that the mux holds for it and the rotating index `target`:
the result of every call, in order. -/
def ip_flow
    (proto_parse : Option parser → Option ip_proto_info → Nat → List Nat → Nat → Nat →
      proto_parse_status)
    (ip_subprotos : List ip_subproto) (way : Nat) :
    ip_subparser → Nat → List ip_frame → List ip_parse_result
  | _, _, [] => []
  | sub, target, f :: fs =>
    let r := ip_parse (ip_wl_env sub proto_parse) ip_subprotos target way f.packet f.cap_len
      f.wire_len
    r :: ip_flow proto_parse ip_subprotos way (r.ip_subparser.getD sub) r.target fs

/-- The range and the payload that `ip_parse` gives to the wait-list for a
fragment (ip.c:346-351). -/
def ip_frame.pkt (f : ip_frame) : pkt_wl_pkt :=
  { offset := fragment_offset f.packet
    next_offset := (fragment_offset f.packet +
      size_sub f.wire_len (ip_hdr_hdr_len f.packet * 4)) % U32
    cap_len := size_sub f.cap_len (ip_hdr_hdr_len f.packet * 4)
    wire_len := size_sub f.wire_len (ip_hdr_hdr_len f.packet * 4)
    payload := f.packet.drop (ip_hdr_hdr_len f.packet * 4) }

/-- The fragments `hist` hold a last fragment (MF=0) and cover `[0, L)`. -/
def ip_frames_complete (hist : List ip_frame) (L : Nat) : Bool :=
  hist.any (fun f => decide (ip_hdr_more_fragments f.packet = 0)) &&
    pkt_wl_covered (hist.map ip_frame.pkt) 0 L

/-- A fragment of the datagram `id` of a flow whose protocol is registered in
`ip_subprotos`: it passes the sanity checks of `ip_parse`, it is captured in
full, and if it is the last fragment it ends at `L`. -/
def ip_frame.fragment_of (f : ip_frame) (ip_subprotos : List ip_subproto) (id L : Nat) : Prop :=
  ip_parse_valid f.packet f.cap_len f.wire_len ∧ is_fragment f.packet = true ∧
  ip_hdr_id f.packet = id ∧
  (ip_subprotos.find? (fun subproto => subproto.protocol = ip_hdr_protocol f.packet)).isSome ∧
  f.wire_len ≤ f.cap_len ∧
  (ip_hdr_more_fragments f.packet = 0 → f.pkt.next_offset = L)

/-- The call hands a reassembled payload to a parser: it is the `proto_parse`
of `reassemble`, whose parent is the one of `ip_parse`. -/
def ip_call.is_reassembled : ip_call → Bool
  | ip_call.proto_parse _ none _ _ _ _ => true
  | _ => false

/-- What the sub-parser `sub` of a flow holds of the datagram `id` once the
fragments `hist` have been parsed since the datagram was last delivered (or
since the start): no slot in use has this id when `hist` is empty; otherwise
one slot, in use and constructed, has it, its wait-list holds the ranges of
`hist`, `got_last` tells whether a last fragment was seen and `end_offset` is
then `L`, and no other slot in use has this id. `child` is the child parser. -/
def ip_slot_holds (sub : ip_subparser) (child : Option parser) (id L : Nat)
    (hist : List ip_frame) : Prop :=
  sub.reassembly.length = NB_REASSEMBLY ∧ sub.mux_subparser.parser = child ∧
  (∀ h ∈ hist, h.pkt.wire_len ≤ h.pkt.cap_len) ∧
  ((hist = [] ∧ ∀ r, r < NB_REASSEMBLY → (sub.slot r).in_use = true → (sub.slot r).id ≠ id) ∨
   (hist ≠ [] ∧ ∃ r, r < NB_REASSEMBLY ∧
      (sub.slot r).in_use = true ∧ (sub.slot r).constructed = true ∧ (sub.slot r).id = id ∧
      (sub.slot r).got_last = hist.any (fun f => decide (ip_hdr_more_fragments f.packet = 0)) ∧
      ((sub.slot r).got_last = true → (sub.slot r).end_offset = L) ∧
      (sub.slot r).wl = some { next_offset := 0, parser := child, pkts := hist.map ip_frame.pkt } ∧
      ∀ r', r' < NB_REASSEMBLY → r' ≠ r → (sub.slot r').in_use = true → (sub.slot r').id ≠ id))

/-! ## The operations on the reassembly slots of a sub-parser -/

/-- One call, on a constructed IP sub-parser, of a function of ip.c that writes
its reassembly slots: `ip_reassembly_lookup` (which calls `ip_reassembly_ctor`
and `ip_reassembly_dtor`), `reassemble` on the slot `r`, or
`ip_reassembly_dtor` on the slot `r`; each with the answers of the
collaborators during that call. -/
inductive ip_slot_op where
  | lookup (env : ip_env) (target id : Nat) (parser : Option parser)
  | reassemble (env : ip_env) (r way : Nat)
  | dtor (r : Nat)

/-- The sub-parser that an operation leaves. -/
def ip_slot_op.apply (sub : ip_subparser) : ip_slot_op → ip_subparser
  | ip_slot_op.lookup env target id parser =>
    (ip_reassembly_lookup env sub target id parser).ip_subparser
  | ip_slot_op.reassemble env r way =>
    sub.set_slot r (Junkie.reassemble env (sub.slot r) way).1
  | ip_slot_op.dtor r => sub.set_slot r (ip_reassembly_dtor (sub.slot r))

/-- The sub-parser that a sequence of operations leaves. -/
def ip_slot_run (sub : ip_subparser) (ops : List ip_slot_op) : ip_subparser :=
  ops.foldl ip_slot_op.apply sub

/-- During the operation, `pkt_wait_list_ctor` does not fail. -/
def ip_slot_op.ctor_succeeds : ip_slot_op → Prop
  | ip_slot_op.lookup env _ _ _ => ∀ parser, env.pkt_wait_list_ctor parser ≠ none
  | _ => True

/-- The flags of a slot agree (`constructed` iff `in_use`) and a wait-list
exists only in a constructed slot. -/
def ip_slot_flags_ok (s : ip_reassembly) : Prop :=
  (s.constructed = true ↔ s.in_use = true) ∧ (s.wl.isSome = true → s.constructed = true)

/-- The slot invariant: `constructed` implies `in_use`, and the wait-list of
the slot exists iff `constructed` is set. -/
def ip_slot_inv (s : ip_reassembly) : Prop :=
  (s.constructed = true → s.in_use = true) ∧ (s.wl.isSome = true ↔ s.constructed = true)

/-! ## Distinct identifications in the reassembly slots -/

/-- No two reassembly slots in use of the sub-parser hold the same id. -/
def ip_slots_unique (sub : ip_subparser) : Prop :=
  ∀ r r', r < NB_REASSEMBLY → r' < NB_REASSEMBLY → r ≠ r' →
    (sub.slot r).in_use = true → (sub.slot r').in_use = true →
    (sub.slot r).id ≠ (sub.slot r').id

/-! ## The states of a TCP sub-parser -/

/-- The states reachable from `tcp_subparser_ctor` by steps of `tcp_parse`:
the sub-parser as `tcp_subparser_ctor` builds it, the one that a call of
`tcp_parse` leaves when the mux held none for the flow (the call constructs
it), and the one that a call leaves when it found a reachable one. -/
inductive tcp_reachable : tcp_subparser → Prop where
  | ctor (env : tcp_env) (mem : tcp_subparser) (child : Option parser)
      (requestor : Option proto) (sub : tcp_subparser) :
      tcp_subparser_ctor env mem child requestor = some sub → tcp_reachable sub
  | first (env : tcp_env) (parent : Option (ip_addr × ip_addr)) (way : Nat)
      (packet : List Nat) (cap_len wire_len : Nat) (t : tcp_subparser) :
      (tcp_parse env none parent way packet cap_len wire_len).tcp_sub = some t →
      tcp_reachable t
  | step (s : tcp_subparser) (env : tcp_env) (parent : Option (ip_addr × ip_addr)) (way : Nat)
      (packet : List Nat) (cap_len wire_len : Nat) (t : tcp_subparser) :
      tcp_reachable s →
      (tcp_parse env (some s) parent way packet cap_len wire_len).tcp_sub = some t →
      tcp_reachable t

/-- The sub-parser at the assertion `srv_set < 3` of `tcp_parse` (tcp.c:580),
after the recording of the ACK, the FIN and the SYN of the segment. -/
def tcp_parse_at_assert (tcp_sub : tcp_subparser) (info : tcp_proto_info) (way : Nat) :
    tcp_subparser :=
  tcp_track_syn (tcp_track_fin (tcp_track_ack (set_wl_list tcp_sub info way) info way)
    info way) info way

/-! ## The wait-lists of a TCP flow, as queues of byte ranges

`pkt_wait_list.c` is not under src. -/

/-- Modelled from the spec: `pkt_wait_list_add` (pkt_wait_list.c is not under
src) inserts a fragment: the wait-list of the direction of the segment keeps
the range with its payload, and the answer is PROTO_OK. -/
def tcp_wl_add (args : tcp_wl_add_args) (v : tcp_wl_view) : proto_parse_status × tcp_wl_view :=
  (PROTO_OK, { v with
    wl := upd2 v.wl args.way
      { at2 v.wl args.way with
        pkts := (at2 v.wl args.way).pkts ++
          [{ offset := args.offset, next_offset := args.next_offset, cap_len := args.cap_len,
             wire_len := args.wire_len, payload := args.payload }] } })

/-- Modelled from the spec: what `try_drain` (pkt_wait_list.c is not under src)
makes of the pending entries, from the offset of the next byte to deliver: it
"delivers as many leading contiguous fragments as possible, advancing
`next_offset`". The answer is the offset reached and the entries left. -/
def pkt_wl_drain : Nat → List pkt_wl_pkt → Nat × List pkt_wl_pkt
  | next_offset, [] => (next_offset, [])
  | next_offset, p :: rest =>
    if p.offset = next_offset then pkt_wl_drain p.next_offset rest
    else (next_offset, p :: rest)

/-- Modelled from the spec: `try_drain` on one wait-list, every delivery
succeeding. -/
def tcp_wl_try_drain (wl : pkt_wait_list) : pkt_wait_list :=
  { wl with
    next_offset := (pkt_wl_drain wl.next_offset wl.pkts).1
    pkts := (pkt_wl_drain wl.next_offset wl.pkts).2 }

/-- Modelled from the spec: `pkt_wait_list_try_both` (pkt_wait_list.c is not
under src) "drains this list, then drains the partner list, repeating until
neither advances". The drain of one list does not look at the other here, so
that one drain of each list reaches that point; every delivery succeeds and the
status is left as it was. -/
def tcp_wl_try_both (_way : Nat) (status : proto_parse_status) (v : tcp_wl_view) :
    proto_parse_status × tcp_wl_view :=
  (status, { v with wl := (tcp_wl_try_drain v.wl.1, tcp_wl_try_drain v.wl.2) })

/-! ## Sample inputs -/

/-- A TCP packet with a 20-byte header (no option) followed by `payload`. -/
def sample_tcp_packet (sport dport seq_num ack_num flags : Nat) (payload : List Nat) :
    List Nat :=
  [sport / 256, sport % 256, dport / 256, dport % 256,
   seq_num / 16777216, seq_num / 65536 % 256, seq_num / 256 % 256, seq_num % 256,
   ack_num / 16777216, ack_num / 65536 % 256, ack_num / 256 % 256, ack_num % 256,
   80, flags, 255, 255, 0, 0, 0, 0] ++ payload

/-- An empty wait-list. -/
def sample_wl : pkt_wait_list := { next_offset := 0, parser := none, pkts := [] }

/-- Some content for a decoded header not yet constructed. -/
def sample_info : tcp_proto_info :=
  { info := { head_len := 0, payload := 0 }, key_port := (0, 0), syn := false, ack := false,
    rst := false, fin := false, urg := false, psh := false, to_srv := false, window := 0,
    urg_ptr := 0, ack_num := 0, seq_num := 0, set_values := 0, mss := 0, wsf := 0,
    nb_options := 0, options := [] }

/-- Some content for the memory of a sub-parser not yet constructed. -/
def sample_tcp_sub : tcp_subparser :=
  { fin_seqnum := (0, 0), max_acknum := (0, 0), wl := (sample_wl, sample_wl), fin := 0,
    ack := 0, syn := 0, wl_set := 0, srv_way := 0, srv_set := 0,
    mux_subparser := { parser := none, proto := none, requestor := none } }

/-- An environment in which no protocol is known for the ports, every
allocation succeeds, the wait-lists accept what they are given, and
`comes_from_client` answers from the flags of a SYN (and from the ports
otherwise). -/
def sample_env : tcp_env :=
  { MAX_OPTIONS := 8
    info_uninit := sample_info
    packet_addr := 0
    comes_from_client := fun ports syn ack => if syn then !ack else decide (ports.2 < ports.1)
    cnxtrack_ip_lookup := fun _ => (none, none)
    port_muxer_find := fun _ _ => none
    parser_new := fun _ => none
    and_parser_new_child := fun _ => none
    mux_subparser_alloc := some sample_tcp_sub
    pkt_wait_list_ctor := fun _ => some sample_wl
    mux_subparser_ctor := fun child requestor =>
      some { parser := child, proto := none, requestor := requestor }
    proto_parse := fun _ _ _ _ _ _ => PROTO_OK
    pkt_wait_list_add := fun _ v => (PROTO_OK, v)
    pkt_wait_list_try_both := fun _ status v => (status, v) }

/-- The environment `sample_env` when memory is exhausted: `mux_subparser_alloc`
answers NULL. -/
def sample_env_no_alloc : tcp_env := { sample_env with mux_subparser_alloc := none }

/-- A segment of the sample flow between 10.0.0.1 and 10.0.0.2, fully captured. -/
def sample_segment (way : Nat) (packet : List Nat) : tcp_segment :=
  { env := sample_env, parent := some ([10, 0, 0, 1], [10, 0, 0, 2]), way := way,
    packet := packet, cap_len := packet.length, wire_len := packet.length }

/-- The start of the close of a long flow: way 1 acknowledges the first bytes
of way 0 (`ack_num` 1000); some 2 * 10^9 bytes later way 0 sends a FIN with 3
bytes of payload at sequence number 2000000000; way 1 acknowledges it
(2000000004) and sends its own FIN at 500. -/
def sample_long_close_pre : List tcp_segment :=
  [sample_segment 1 (sample_tcp_packet 80 40000 500 1000 16 []),
   sample_segment 0 (sample_tcp_packet 40000 80 2000000000 500 17 [1, 2, 3]),
   sample_segment 1 (sample_tcp_packet 80 40000 500 2000000004 16 []),
   sample_segment 1 (sample_tcp_packet 80 40000 500 2000000004 17 [])]

/-- The end of the close of the long flow: way 0 acknowledges the FIN of way 1
(501). -/
def sample_long_close_last : tcp_segment :=
  sample_segment 0 (sample_tcp_packet 40000 80 2000000004 501 16 [])

/-- A close in which way 1, after it has acknowledged the FIN of way 0 (sequence
number 100) with 101, sends an `ack_num` that is 2^31 further (2^31 + 100). -/
def sample_overshoot_flow : List tcp_segment :=
  [sample_segment 0 (sample_tcp_packet 40000 80 100 0 1 []),
   sample_segment 1 (sample_tcp_packet 80 40000 500 101 16 []),
   sample_segment 1 (sample_tcp_packet 80 40000 500 2147483748 17 []),
   sample_segment 0 (sample_tcp_packet 40000 80 101 501 16 [])]

/-- An IPv4 packet: a 20-byte header with the given version, IHL, total
length, identification, flags and fragment offset (bytes 6 and 7) and protocol,
from 10.0.0.1 to 10.0.0.2, followed by `payload`. -/
def sample_ip_packet (version ihl tot_len id byte6 byte7 protocol : Nat) (payload : List Nat) :
    List Nat :=
  [version * 16 + ihl, 0, tot_len / 256, tot_len % 256, id / 256, id % 256, byte6, byte7,
   64, protocol, 0, 0, 10, 0, 0, 1, 10, 0, 0, 2] ++ payload

/-- An IP environment in which the mux holds no sub-parser, the wait-lists
accept what they are given and are never complete, and every parser answers
PROTO_OK. -/
def sample_ip_env : ip_env :=
  { mux_subparser_lookup := fun _ _ => none
    pkt_wait_list_ctor := fun p => some { next_offset := 0, parser := p, pkts := [] }
    pkt_wait_list_add := fun _ wl => (PROTO_OK, wl)
    pkt_wait_list_is_complete := fun _ _ _ => false
    pkt_wait_list_reassemble := fun _ _ _ => none
    proto_parse := fun _ _ _ _ _ _ => PROTO_OK }

/-- A TCP environment like `sample_env`, in which the wait-list reports that the
child parser rejected the payload. -/
def sample_env_parse_err : tcp_env :=
  { sample_env with pkt_wait_list_add := fun _ v => (PROTO_PARSE_ERR, v) }

/-- A sub-parser with a child parser that has seen both FINs (sequence numbers
100 and 500) and the ACK of way 1 for the first one. -/
def sample_closing_sub : tcp_subparser :=
  { sample_tcp_sub with
    fin := 3, ack := 2, syn := 3, wl_set := 3, fin_seqnum := (100, 500), max_acknum := (0, 101),
    srv_way := 1, srv_set := 2,
    mux_subparser := { parser := some 7, proto := some { code := 80, enabled := true },
                       requestor := none } }

/-- An IP sub-parser with a child parser and four slots never used. -/
def sample_ip_sub : ip_subparser :=
  { reassembly := [ip_reassembly_none, ip_reassembly_none, ip_reassembly_none,
      ip_reassembly_none]
    mux_subparser := { parser := some 3, proto := some { code := 17, enabled := true },
                       requestor := none } }

/-- An environment like `sample_ip_env`, in which the mux holds `sub` for every flow. -/
def sample_ip_env_with (sub : ip_subparser) : ip_env :=
  { sample_ip_env with mux_subparser_lookup := fun _ _ => some sub }

/-- A registry of sub-protocols that knows protocol 17. -/
def sample_ip_subprotos : List ip_subproto :=
  [{ protocol := 17, proto := { code := 17, enabled := true } }]

/-- Some content for the storage of a filter not yet constructed. -/
def sample_netmatch : netmatch_filter :=
  { nb_registers := 9, regfile := some [1, 2, 3], libname := none, handle := some 5,
    match_fun := some 6 }

/-- An environment in which the registers are 16 bytes wide, the memory comes
filled with 255, and the library 7 exports `match` at 1000. -/
def sample_netmatch_env : netmatch_env :=
  { reg_size := 16
    objalloc := fun size => some (List.replicate size 255)
    objalloc_strdup := fun s => some s
    lt_dlopen := fun _ => some 7
    lt_dlsym := fun h name => if h = 7 ∧ name = "match" then some 1000 else none }

/-- The fixed part of a TCP header from port 40000 to port 80, with the data
offset `doff` (in 32-bit words) and the flags `flags`. -/
def sample_tcp_fixed (doff flags : Nat) : List Nat :=
  [156, 64, 0, 80, 0, 0, 0, 100, 0, 0, 0, 0, doff * 16, flags, 255, 255, 0, 0, 0, 0]

/-- The first fragment of the sample datagram 4660 (0x1234): offset 0, MF=1,
8 bytes of data, captured in full. -/
def sample_frag_first : ip_frame :=
  { packet := sample_ip_packet 4 5 28 4660 32 0 17 [1, 2, 3, 4, 5, 6, 7, 8]
    cap_len := 28, wire_len := 28 }

/-- The last fragment of the sample datagram 4660: offset 8, MF=0, 8 bytes of
data, captured in full. -/
def sample_frag_last : ip_frame :=
  { packet := sample_ip_packet 4 5 28 4660 0 1 17 [11, 12, 13, 14, 15, 16, 17, 18]
    cap_len := 28, wire_len := 28 }

/-- The first fragment of the sample datagram, of which the last byte was not
captured. -/
def sample_frag_first_cut : ip_frame :=
  { sample_frag_first with cap_len := 27 }

/-- Child parsers that accept everything. -/
def sample_proto_parse : Option parser → Option ip_proto_info → Nat → List Nat → Nat → Nat →
    proto_parse_status :=
  fun _ _ _ _ _ _ => PROTO_OK

/-- A SYN from port 40000 to port 80 at sequence number 100 that carries three
bytes. -/
def sample_syn_packet : List Nat := sample_tcp_packet 40000 80 100 0 2 [7, 7, 7]

/-- The arguments with which `tcp_parse` inserts `sample_syn_packet`, seen in
direction 0 as the first segment of its flow. -/
def sample_syn_args : tcp_wl_add_args :=
  { way := 0, offset := 100, next_offset := 104, can_sync := false, sync_offset := 0,
    restartable := true
    info := { tcp_proto_info_ctor sample_info 20 3 40000 80 sample_syn_packet with
              to_srv := true }
    payload := [7, 7, 7], cap_len := 3, wire_len := 3 }

/-- A slot whose datagram is complete: one fragment covers `[0, 8)` and it was
the last one. -/
def sample_complete_slot : ip_reassembly :=
  { in_use := true, constructed := true, got_last := true, id := 4660, end_offset := 8
    wl := some { next_offset := 0, parser := some 3
                 pkts := [{ offset := 0, next_offset := 8, cap_len := 8, wire_len := 8
                            payload := [1, 2, 3, 4, 5, 6, 7, 8] }] } }

/-- The last fragment of the sample datagram 4660 in a frame padded to the
Ethernet minimum: 28 bytes of IP packet followed by 18 bytes of padding. -/
def sample_frag_last_padded : ip_frame :=
  { packet := sample_ip_packet 4 5 28 4660 0 1 17
      ([11, 12, 13, 14, 15, 16, 17, 18] ++ List.replicate 18 0)
    cap_len := 46, wire_len := 46 }

/-- Two segments of a flow whose start was not captured: data from port 40000
to port 80 and its acknowledgement, none with SYN. -/
def sample_mid_flow : List tcp_segment :=
  [sample_segment 0 (sample_tcp_packet 40000 80 1000 2000 24 [71, 69, 84]),
   sample_segment 1 (sample_tcp_packet 80 40000 2000 1003 16 [])]

/-- A flow whose first segment, in direction 0 at sequence number 100, is a SYN
without ACK, and whose second segment, in direction 1, is the first one with
ACK and acknowledges 5000. -/
def sample_late_ack_flow : List tcp_segment :=
  [sample_segment 0 (sample_tcp_packet 40000 80 100 0 2 []),
   sample_segment 1 (sample_tcp_packet 80 40000 500 5000 16 [])]

/-- A flow whose first segment, in direction 0, acknowledges 2000, and whose
second segment is the first one in direction 1, at sequence number 7000. -/
def sample_early_ack_flow : List tcp_segment :=
  [sample_segment 0 (sample_tcp_packet 40000 80 1000 2000 16 [1, 2, 3]),
   sample_segment 1 (sample_tcp_packet 80 40000 7000 1003 16 [4])]

/-- An environment like `sample_ip_env` in which `pkt_wait_list_ctor` fails. -/
def sample_ip_env_no_wl : ip_env :=
  { sample_ip_env with pkt_wait_list_ctor := fun _ => none }

/-- An environment like `sample_env` whose wait-lists keep what they are given
and drain (`tcp_wl_add`, `tcp_wl_try_both`). -/
def sample_env_drain : tcp_env :=
  { sample_env with pkt_wait_list_add := tcp_wl_add, pkt_wait_list_try_both := tcp_wl_try_both }

/-- A sub-parser of an established flow, both wait-lists set up: way 0 has
delivered up to the byte 101; the wait-list of way 1 expects the byte 500 and
holds the bytes 500 to 509, held back for the bytes of way 0 that their segment
acknowledges. -/
def sample_pending_sub : tcp_subparser :=
  { sample_tcp_sub with
    ack := 3, syn := 3, wl_set := 3, max_acknum := (500, 104), srv_way := 1, srv_set := 2,
    wl := ({ next_offset := 101, parser := none, pkts := [] },
           { next_offset := 500, parser := none,
             pkts := [{ offset := 500, next_offset := 510, cap_len := 10, wire_len := 10,
                        payload := [0, 1, 2, 3, 4, 5, 6, 7, 8, 9] }] })
    mux_subparser := { parser := some 7, proto := some { code := 80, enabled := true },
                       requestor := none } }

/-! # Properties

## Sequence numbers -/

theorem u32_sub_int (a b : Nat) :
    ((u32_sub a b : Nat) : Int) = ((a : Int) - (b : Int)) % 4294967296 := by
  simp only [u32_sub, U32]
  norm_num
  omega

theorem seqnum_gt_iff (a b : Nat) :
    seqnum_gt a b = true ↔
      1 ≤ ((a : Int) - (b : Int)) % 2 ^ 32 ∧ ((a : Int) - (b : Int)) % 2 ^ 32 < 2 ^ 31 := by
  have h := u32_sub_int a b
  simp only [seqnum_gt, tcp_seqnum_cmp, decide_eq_true_eq, gt_iff_lt]
  generalize u32_sub a b = d at h ⊢
  have e31 : (2 : Int) ^ 31 = 2147483648 := by norm_num
  have e32 : (2 : Int) ^ 32 = 4294967296 := by norm_num
  rw [e31, e32]
  split_ifs <;> omega

/-- C1, as stated, fails: the sequence numbers 2^31 and 0 are distinct, and
`tcp_seqnum_cmp` answers -1 for both orders of the pair, so that
`tcp_seqnum_cmp(a, b)` is not `-tcp_seqnum_cmp(b, a)`. -/
theorem tcp_seqnum_cmp_antisymm_fails :
    (2147483648 : Nat) < U32 ∧ (0 : Nat) < U32 ∧ (2147483648 : Nat) ≠ 0 ∧
    tcp_seqnum_cmp 2147483648 0 = -1 ∧ tcp_seqnum_cmp 0 2147483648 = -1 ∧
    tcp_seqnum_cmp 2147483648 0 ≠ - tcp_seqnum_cmp 0 2147483648 := by
  decide

/-- C1, amended: for 32-bit sequence numbers `a` and `b`, `tcp_seqnum_cmp a b`
is 0 when `a = b`, it is `-tcp_seqnum_cmp b a` when `a ≠ b` and the two are not
exactly half the sequence space apart, and when they are (`(a - b) mod 2^32 =
2^31`) both comparisons answer -1. -/
theorem tcp_seqnum_cmp_antisymm (a b : Nat) (ha : a < U32) (hb : b < U32) :
    (a = b → tcp_seqnum_cmp a b = 0) ∧
    (a ≠ b → ((a : Int) - (b : Int)) % 2 ^ 32 ≠ 2 ^ 31 →
      tcp_seqnum_cmp a b = - tcp_seqnum_cmp b a) ∧
    (((a : Int) - (b : Int)) % 2 ^ 32 = 2 ^ 31 →
      tcp_seqnum_cmp a b = -1 ∧ tcp_seqnum_cmp b a = -1) := by
  have h := u32_sub_int a b
  have h' := u32_sub_int b a
  simp only [tcp_seqnum_cmp]
  generalize u32_sub a b = d at h ⊢
  generalize u32_sub b a = d' at h' ⊢
  have ha' : a < 4294967296 := ha
  have hb' : b < 4294967296 := hb
  have e31 : (2 : Int) ^ 31 = 2147483648 := by norm_num
  have e32 : (2 : Int) ^ 32 = 4294967296 := by norm_num
  rw [e31, e32]
  refine ⟨?_, ?_, ?_⟩ <;> intros <;> split_ifs <;> omega

theorem tcp_seqnum_cmp_antisymm_witness :
    ((100 : Nat) = 101 → tcp_seqnum_cmp 100 101 = 0) ∧
    ((100 : Nat) ≠ 101 → (((100 : Nat) : Int) - ((101 : Nat) : Int)) % 2 ^ 32 ≠ 2 ^ 31 →
      tcp_seqnum_cmp 100 101 = - tcp_seqnum_cmp 101 100) ∧
    ((((100 : Nat) : Int) - ((101 : Nat) : Int)) % 2 ^ 32 = 2 ^ 31 →
      tcp_seqnum_cmp 100 101 = -1 ∧ tcp_seqnum_cmp 101 100 = -1) :=
  tcp_seqnum_cmp_antisymm 100 101 (by decide) (by decide)

/-- C2: for 32-bit `a` and `b`, `tcp_seqnum_cmp a b` is negative iff
`(a - b) mod 2^32` lies in `[2^31, 2^32)`, null iff `a = b`, positive iff
`(a - b) mod 2^32` lies in `[1, 2^31)`; and `seqnum_gt a b` holds iff
`(a - b) mod 2^32` lies in `[1, 2^31)`. -/
theorem tcp_seqnum_cmp_modular (a b : Nat) (ha : a < U32) (hb : b < U32) :
    (tcp_seqnum_cmp a b < 0 ↔
      2 ^ 31 ≤ ((a : Int) - (b : Int)) % 2 ^ 32 ∧ ((a : Int) - (b : Int)) % 2 ^ 32 < 2 ^ 32) ∧
    (tcp_seqnum_cmp a b = 0 ↔ a = b) ∧
    (0 < tcp_seqnum_cmp a b ↔
      1 ≤ ((a : Int) - (b : Int)) % 2 ^ 32 ∧ ((a : Int) - (b : Int)) % 2 ^ 32 < 2 ^ 31) ∧
    (seqnum_gt a b = true ↔
      1 ≤ ((a : Int) - (b : Int)) % 2 ^ 32 ∧ ((a : Int) - (b : Int)) % 2 ^ 32 < 2 ^ 31) := by
  have h := u32_sub_int a b
  simp only [seqnum_gt, tcp_seqnum_cmp, decide_eq_true_eq, gt_iff_lt]
  generalize u32_sub a b = d at h ⊢
  have ha' : a < 4294967296 := ha
  have hb' : b < 4294967296 := hb
  have e31 : (2 : Int) ^ 31 = 2147483648 := by norm_num
  have e32 : (2 : Int) ^ 32 = 4294967296 := by norm_num
  rw [e31, e32]
  refine ⟨?_, ?_, ?_, ?_⟩ <;> split_ifs <;>
    (try simp only [false_iff, iff_false, true_iff, iff_true]) <;> omega

theorem tcp_seqnum_cmp_modular_witness :
    (tcp_seqnum_cmp 5 7 < 0 ↔
      2 ^ 31 ≤ (((5 : Nat) : Int) - ((7 : Nat) : Int)) % 2 ^ 32 ∧
        (((5 : Nat) : Int) - ((7 : Nat) : Int)) % 2 ^ 32 < 2 ^ 32) ∧
    (tcp_seqnum_cmp 5 7 = 0 ↔ 5 = 7) ∧
    (0 < tcp_seqnum_cmp 5 7 ↔
      1 ≤ (((5 : Nat) : Int) - ((7 : Nat) : Int)) % 2 ^ 32 ∧
        (((5 : Nat) : Int) - ((7 : Nat) : Int)) % 2 ^ 32 < 2 ^ 31) ∧
    (seqnum_gt 5 7 = true ↔
      1 ≤ (((5 : Nat) : Int) - ((7 : Nat) : Int)) % 2 ^ 32 ∧
        (((5 : Nat) : Int) - ((7 : Nat) : Int)) % 2 ^ 32 < 2 ^ 31) :=
  tcp_seqnum_cmp_modular 5 7 (by decide) (by decide)

/-! ## The termination test of a TCP flow -/

theorem IS_SET_FOR_WAY_eq_testBit (way field : Nat) :
    IS_SET_FOR_WAY way field = field.testBit way := by
  unfold IS_SET_FOR_WAY
  rw [Nat.one_shiftLeft, Nat.and_two_pow]
  cases h : field.testBit way <;> simp [Nat.pos_iff_ne_zero.mp (Nat.two_pow_pos way)]

theorem tcp_subparser_term_reset (s : tcp_subparser) :
    tcp_subparser_term (tcp_mux_subparser_reset_proto s) = tcp_subparser_term s := rfl

theorem tcp_parse_deliver_term (env : tcp_env) (s : tcp_subparser) (info : tcp_proto_info)
    (way : Nat) (packet : List Nat) (cap_len wire_len tcphdr_len : Nat) :
    tcp_subparser_term (tcp_parse_deliver env s info way packet cap_len wire_len tcphdr_len).2.1
      = tcp_subparser_term s := by
  unfold tcp_parse_deliver
  simp only []
  split_ifs <;> rfl

theorem tcp_parse_deliver_no_deindex (env : tcp_env) (s : tcp_subparser) (info : tcp_proto_info)
    (way : Nat) (packet : List Nat) (cap_len wire_len tcphdr_len : Nat) :
    tcp_call.deindex ∉ (tcp_parse_deliver env s info way packet cap_len wire_len tcphdr_len).2.2 := by
  unfold tcp_parse_deliver
  simp only []
  split_ifs <;> simp

theorem tcp_parse_of_error (env : tcp_env) (found : Option tcp_subparser)
    (parent : Option (ip_addr × ip_addr)) (way : Nat) (packet : List Nat)
    (cap_len wire_len : Nat) (h : (tcp_parse_header env packet cap_len wire_len).1 ≠ PROTO_OK) :
    tcp_parse env found parent way packet cap_len wire_len =
      { status := (tcp_parse_header env packet cap_len wire_len).1, tcp_sub := none,
        deindexed := false, calls := [], crashed := false } := by
  unfold tcp_parse
  simp only [h, ne_eq, not_false_eq_true, if_true]

theorem tcp_parse_of_none (env : tcp_env) (found : Option tcp_subparser)
    (parent : Option (ip_addr × ip_addr)) (way : Nat) (packet : List Nat)
    (cap_len wire_len : Nat) (h : (tcp_parse_header env packet cap_len wire_len).1 = PROTO_OK)
    (hl : lookup_or_create_tcp_subparser env found (tcp_parse_header env packet cap_len wire_len).2
      (tcp_patch_way parent (tcp_parse_header env packet cap_len wire_len).2 way) = none) :
    (tcp_parse env found parent way packet cap_len wire_len).crashed = true ∧
    (tcp_parse env found parent way packet cap_len wire_len).tcp_sub = none ∧
    (tcp_parse env found parent way packet cap_len wire_len).deindexed = false ∧
    tcp_call.deindex ∉ (tcp_parse env found parent way packet cap_len wire_len).calls := by
  unfold tcp_parse
  simp only [h, ne_eq, not_true_eq_false, if_false, hl]
  simp

/-- A call of `tcp_parse` fails to return exactly when the header parses and
`lookup_or_create_tcp_subparser` does not return. -/
theorem tcp_parse_crashed_iff (env : tcp_env) (found : Option tcp_subparser)
    (parent : Option (ip_addr × ip_addr)) (way : Nat) (packet : List Nat)
    (cap_len wire_len : Nat) :
    (tcp_parse env found parent way packet cap_len wire_len).crashed = true ↔
      ((tcp_parse_header env packet cap_len wire_len).1 = PROTO_OK ∧
        lookup_or_create_tcp_subparser env found (tcp_parse_header env packet cap_len wire_len).2
          (tcp_patch_way parent (tcp_parse_header env packet cap_len wire_len).2 way) = none) := by
  unfold tcp_parse
  by_cases h : (tcp_parse_header env packet cap_len wire_len).1 = PROTO_OK
  · simp only [h, ne_eq, not_true_eq_false, if_false, true_and]
    cases lookup_or_create_tcp_subparser env found (tcp_parse_header env packet cap_len wire_len).2
      (tcp_patch_way parent (tcp_parse_header env packet cap_len wire_len).2 way) <;> simp
  · simp [h]

/-- A call of `tcp_parse` that leaves a sub-parser has returned. -/
theorem tcp_parse_returned_of_sub (env : tcp_env) (found : Option tcp_subparser)
    (parent : Option (ip_addr × ip_addr)) (way : Nat) (packet : List Nat)
    (cap_len wire_len : Nat) (t : tcp_subparser)
    (ht : (tcp_parse env found parent way packet cap_len wire_len).tcp_sub = some t) :
    (tcp_parse env found parent way packet cap_len wire_len).crashed = false := by
  cases hc : (tcp_parse env found parent way packet cap_len wire_len).crashed with
  | false => rfl
  | true =>
    obtain ⟨h, hl⟩ := (tcp_parse_crashed_iff env found parent way packet cap_len wire_len).mp hc
    rw [(tcp_parse_of_none env found parent way packet cap_len wire_len h hl).2.1] at ht
    cases ht

/-- A call of `tcp_parse` that finds a sub-parser in the mux returns. -/
theorem tcp_parse_returned_of_found (env : tcp_env) (s : tcp_subparser)
    (parent : Option (ip_addr × ip_addr)) (way : Nat) (packet : List Nat)
    (cap_len wire_len : Nat) :
    (tcp_parse env (some s) parent way packet cap_len wire_len).crashed = false := by
  cases hc : (tcp_parse env (some s) parent way packet cap_len wire_len).crashed with
  | false => rfl
  | true =>
    obtain ⟨_, hl⟩ := (tcp_parse_crashed_iff env (some s) parent way packet cap_len wire_len).mp hc
    have hsome : ∀ info w, lookup_or_create_tcp_subparser env (some s) info w ≠ none := by
      intro info w
      unfold lookup_or_create_tcp_subparser
      simp only []
      split_ifs
      · simp
      · split <;> simp
    exact absurd hl (hsome _ _)

/-- The state of the sub-parser at the end of `tcp_parse`, from its state after
bookkeeping. -/
theorem tcp_parse_of_some (env : tcp_env) (found : Option tcp_subparser)
    (parent : Option (ip_addr × ip_addr)) (way : Nat) (packet : List Nat)
    (cap_len wire_len : Nat) (sub : tcp_subparser)
    (h : (tcp_parse_header env packet cap_len wire_len).1 = PROTO_OK)
    (hl : lookup_or_create_tcp_subparser env found (tcp_parse_header env packet cap_len wire_len).2
      (tcp_patch_way parent (tcp_parse_header env packet cap_len wire_len).2 way) = some sub) :
    (tcp_parse env found parent way packet cap_len wire_len).status = PROTO_OK ∧
    (tcp_parse env found parent way packet cap_len wire_len).deindexed =
      tcp_subparser_term (tcp_parse_bookkeeping env sub
        (tcp_parse_header env packet cap_len wire_len).2
        (tcp_patch_way parent (tcp_parse_header env packet cap_len wire_len).2 way)) ∧
    (tcp_call.deindex ∈ (tcp_parse env found parent way packet cap_len wire_len).calls ↔
      tcp_subparser_term (tcp_parse_bookkeeping env sub
        (tcp_parse_header env packet cap_len wire_len).2
        (tcp_patch_way parent (tcp_parse_header env packet cap_len wire_len).2 way)) = true) ∧
    ∃ t, (tcp_parse env found parent way packet cap_len wire_len).tcp_sub = some t ∧
      tcp_subparser_term t = tcp_subparser_term (tcp_parse_bookkeeping env sub
        (tcp_parse_header env packet cap_len wire_len).2
        (tcp_patch_way parent (tcp_parse_header env packet cap_len wire_len).2 way)) := by
  unfold tcp_parse
  simp only [h, ne_eq, not_true_eq_false, if_false, hl, tcp_parse_deliver_term, true_and]
  refine ⟨?_, ?_⟩
  · simp only [List.mem_append, tcp_parse_deliver_no_deindex, false_or]
    split_ifs <;> simp_all
  · split_ifs <;> simp [tcp_parse_deliver_term, tcp_subparser_term_reset]

/-- C3: `tcp_subparser_term` answers true iff both
`fin[0] && ack[1] && max_acknum[1] > fin_seqnum[0]` and
`fin[1] && ack[0] && max_acknum[0] > fin_seqnum[1]` hold, `>` being the
comparison modulo 2^32; and `tcp_parse` deindexes the sub-parser exactly when
the header parses, a sub-parser is obtained and this predicate holds on its
state after the bookkeeping of the segment (which is also its value on the
state that `tcp_parse` leaves). -/
theorem tcp_subparser_term_iff_and_deindex :
    (∀ s : tcp_subparser, tcp_subparser_term s = true ↔
      (s.fin.testBit 0 = true ∧ s.ack.testBit 1 = true ∧
        (1 ≤ ((s.max_acknum.2 : Int) - (s.fin_seqnum.1 : Int)) % 2 ^ 32 ∧
          ((s.max_acknum.2 : Int) - (s.fin_seqnum.1 : Int)) % 2 ^ 32 < 2 ^ 31)) ∧
      (s.fin.testBit 1 = true ∧ s.ack.testBit 0 = true ∧
        (1 ≤ ((s.max_acknum.1 : Int) - (s.fin_seqnum.2 : Int)) % 2 ^ 32 ∧
          ((s.max_acknum.1 : Int) - (s.fin_seqnum.2 : Int)) % 2 ^ 32 < 2 ^ 31))) ∧
    (∀ (env : tcp_env) (found : Option tcp_subparser) (parent : Option (ip_addr × ip_addr))
      (way : Nat) (packet : List Nat) (cap_len wire_len : Nat),
      ((tcp_parse env found parent way packet cap_len wire_len).deindexed = true ↔
        (tcp_parse_header env packet cap_len wire_len).1 = PROTO_OK ∧
        ∃ sub,
          lookup_or_create_tcp_subparser env found
            (tcp_parse_header env packet cap_len wire_len).2
            (tcp_patch_way parent (tcp_parse_header env packet cap_len wire_len).2 way)
            = some sub ∧
          tcp_subparser_term
            (tcp_parse_bookkeeping env sub (tcp_parse_header env packet cap_len wire_len).2
              (tcp_patch_way parent (tcp_parse_header env packet cap_len wire_len).2 way))
            = true) ∧
      ((tcp_parse env found parent way packet cap_len wire_len).deindexed = true ↔
        tcp_call.deindex ∈ (tcp_parse env found parent way packet cap_len wire_len).calls) ∧
      (∀ t, (tcp_parse env found parent way packet cap_len wire_len).tcp_sub = some t →
        (tcp_parse env found parent way packet cap_len wire_len).deindexed
          = tcp_subparser_term t)) := by
  refine ⟨?_, ?_⟩
  · intro s
    simp only [tcp_subparser_term, Bool.and_eq_true, IS_SET_FOR_WAY_eq_testBit, seqnum_gt_iff,
      at2, and_assoc]
    simp
  · intro env found parent way packet cap_len wire_len
    by_cases h : (tcp_parse_header env packet cap_len wire_len).1 = PROTO_OK
    · cases hl : lookup_or_create_tcp_subparser env found
          (tcp_parse_header env packet cap_len wire_len).2
          (tcp_patch_way parent (tcp_parse_header env packet cap_len wire_len).2 way) with
      | none =>
        obtain ⟨_, h2, h3, h4⟩ := tcp_parse_of_none env found parent way packet cap_len wire_len h hl
        simp [h2, h3, h4]
      | some sub =>
        obtain ⟨_, h2, h3, t, h4, h5⟩ :=
          tcp_parse_of_some env found parent way packet cap_len wire_len sub h hl
        refine ⟨?_, ?_, ?_⟩
        · rw [h2]; simp [h]
        · rw [h2, h3]
        · intro t' ht'
          rw [h4] at ht'
          cases ht'
          rw [h2, h5]
    · rw [tcp_parse_of_error env found parent way packet cap_len wire_len h]
      simp [h]

/-! ## The tracking fields through `tcp_parse` -/

theorem tcp_same_track_refl (a : tcp_subparser) : tcp_same_track a a := by
  simp [tcp_same_track]

theorem tcp_same_track_symm {a b : tcp_subparser} (h : tcp_same_track a b) :
    tcp_same_track b a := by
  simp only [tcp_same_track] at *
  tauto

theorem tcp_same_track_trans {a b c : tcp_subparser} (h : tcp_same_track a b)
    (h' : tcp_same_track b c) : tcp_same_track a c := by
  simp only [tcp_same_track] at *
  obtain ⟨h1, h2, h3, h4, h5, h6, h7, h8⟩ := h
  obtain ⟨g1, g2, g3, g4, g5, g6, g7, g8⟩ := h'
  exact ⟨h1.trans g1, h2.trans g2, h3.trans g3, h4.trans g4, h5.trans g5, h6.trans g6,
    h7.trans g7, h8.trans g8⟩

theorem set_wl_list_track (s : tcp_subparser) (info : tcp_proto_info) (way : Nat) :
    (set_wl_list s info way).fin = s.fin ∧ (set_wl_list s info way).ack = s.ack ∧
    (set_wl_list s info way).syn = s.syn ∧
    (set_wl_list s info way).fin_seqnum = s.fin_seqnum ∧
    (set_wl_list s info way).max_acknum = s.max_acknum ∧
    (set_wl_list s info way).srv_way = s.srv_way ∧
    (set_wl_list s info way).srv_set = s.srv_set ∧
    (set_wl_list s info way).mux_subparser = s.mux_subparser := by
  unfold set_wl_list
  simp only []
  split_ifs <;> simp

theorem set_wl_list_wl_set (s : tcp_subparser) (info : tcp_proto_info) (way : Nat) :
    (set_wl_list s info way).wl_set =
      (if (!IS_SET_FOR_WAY (not_way way)
            (if (!IS_SET_FOR_WAY way s.wl_set) = true then SET_FOR_WAY way s.wl_set
             else s.wl_set) && info.ack) = true
        then SET_FOR_WAY (not_way way)
          (if (!IS_SET_FOR_WAY way s.wl_set) = true then SET_FOR_WAY way s.wl_set else s.wl_set)
        else (if (!IS_SET_FOR_WAY way s.wl_set) = true then SET_FOR_WAY way s.wl_set
              else s.wl_set)) := by
  unfold set_wl_list
  simp only []
  split_ifs <;> simp_all

theorem tcp_track_ack_fin (s : tcp_subparser) (info : tcp_proto_info) (way : Nat) :
    (tcp_track_ack s info way).fin = s.fin := by
  unfold tcp_track_ack
  split_ifs <;> rfl

theorem tcp_track_ack_syn (s : tcp_subparser) (info : tcp_proto_info) (way : Nat) :
    (tcp_track_ack s info way).syn = s.syn := by
  unfold tcp_track_ack
  split_ifs <;> rfl

theorem tcp_track_ack_wl_set (s : tcp_subparser) (info : tcp_proto_info) (way : Nat) :
    (tcp_track_ack s info way).wl_set = s.wl_set := by
  unfold tcp_track_ack
  split_ifs <;> rfl

theorem tcp_track_ack_fin_seqnum (s : tcp_subparser) (info : tcp_proto_info) (way : Nat) :
    (tcp_track_ack s info way).fin_seqnum = s.fin_seqnum := by
  unfold tcp_track_ack
  split_ifs <;> rfl

theorem tcp_track_ack_srv_way (s : tcp_subparser) (info : tcp_proto_info) (way : Nat) :
    (tcp_track_ack s info way).srv_way = s.srv_way := by
  unfold tcp_track_ack
  split_ifs <;> rfl

theorem tcp_track_ack_srv_set (s : tcp_subparser) (info : tcp_proto_info) (way : Nat) :
    (tcp_track_ack s info way).srv_set = s.srv_set := by
  unfold tcp_track_ack
  split_ifs <;> rfl

theorem tcp_track_ack_mux_subparser (s : tcp_subparser) (info : tcp_proto_info) (way : Nat) :
    (tcp_track_ack s info way).mux_subparser = s.mux_subparser := by
  unfold tcp_track_ack
  split_ifs <;> rfl

theorem tcp_track_ack_wl (s : tcp_subparser) (info : tcp_proto_info) (way : Nat) :
    (tcp_track_ack s info way).wl = s.wl := by
  unfold tcp_track_ack
  split_ifs <;> rfl

theorem tcp_track_fin_ack (s : tcp_subparser) (info : tcp_proto_info) (way : Nat) :
    (tcp_track_fin s info way).ack = s.ack := by
  unfold tcp_track_fin
  split_ifs <;> rfl

theorem tcp_track_fin_syn (s : tcp_subparser) (info : tcp_proto_info) (way : Nat) :
    (tcp_track_fin s info way).syn = s.syn := by
  unfold tcp_track_fin
  split_ifs <;> rfl

theorem tcp_track_fin_wl_set (s : tcp_subparser) (info : tcp_proto_info) (way : Nat) :
    (tcp_track_fin s info way).wl_set = s.wl_set := by
  unfold tcp_track_fin
  split_ifs <;> rfl

theorem tcp_track_fin_max_acknum (s : tcp_subparser) (info : tcp_proto_info) (way : Nat) :
    (tcp_track_fin s info way).max_acknum = s.max_acknum := by
  unfold tcp_track_fin
  split_ifs <;> rfl

theorem tcp_track_fin_srv_way (s : tcp_subparser) (info : tcp_proto_info) (way : Nat) :
    (tcp_track_fin s info way).srv_way = s.srv_way := by
  unfold tcp_track_fin
  split_ifs <;> rfl

theorem tcp_track_fin_srv_set (s : tcp_subparser) (info : tcp_proto_info) (way : Nat) :
    (tcp_track_fin s info way).srv_set = s.srv_set := by
  unfold tcp_track_fin
  split_ifs <;> rfl

theorem tcp_track_fin_mux_subparser (s : tcp_subparser) (info : tcp_proto_info) (way : Nat) :
    (tcp_track_fin s info way).mux_subparser = s.mux_subparser := by
  unfold tcp_track_fin
  split_ifs <;> rfl

theorem tcp_track_fin_wl (s : tcp_subparser) (info : tcp_proto_info) (way : Nat) :
    (tcp_track_fin s info way).wl = s.wl := by
  unfold tcp_track_fin
  split_ifs <;> rfl

theorem tcp_track_syn_fin (s : tcp_subparser) (info : tcp_proto_info) (way : Nat) :
    (tcp_track_syn s info way).fin = s.fin := by
  unfold tcp_track_syn
  split_ifs <;> rfl

theorem tcp_track_syn_ack (s : tcp_subparser) (info : tcp_proto_info) (way : Nat) :
    (tcp_track_syn s info way).ack = s.ack := by
  unfold tcp_track_syn
  split_ifs <;> rfl

theorem tcp_track_syn_wl_set (s : tcp_subparser) (info : tcp_proto_info) (way : Nat) :
    (tcp_track_syn s info way).wl_set = s.wl_set := by
  unfold tcp_track_syn
  split_ifs <;> rfl

theorem tcp_track_syn_fin_seqnum (s : tcp_subparser) (info : tcp_proto_info) (way : Nat) :
    (tcp_track_syn s info way).fin_seqnum = s.fin_seqnum := by
  unfold tcp_track_syn
  split_ifs <;> rfl

theorem tcp_track_syn_max_acknum (s : tcp_subparser) (info : tcp_proto_info) (way : Nat) :
    (tcp_track_syn s info way).max_acknum = s.max_acknum := by
  unfold tcp_track_syn
  split_ifs <;> rfl

theorem tcp_track_syn_srv_way (s : tcp_subparser) (info : tcp_proto_info) (way : Nat) :
    (tcp_track_syn s info way).srv_way = s.srv_way := by
  unfold tcp_track_syn
  split_ifs <;> rfl

theorem tcp_track_syn_srv_set (s : tcp_subparser) (info : tcp_proto_info) (way : Nat) :
    (tcp_track_syn s info way).srv_set = s.srv_set := by
  unfold tcp_track_syn
  split_ifs <;> rfl

theorem tcp_track_syn_mux_subparser (s : tcp_subparser) (info : tcp_proto_info) (way : Nat) :
    (tcp_track_syn s info way).mux_subparser = s.mux_subparser := by
  unfold tcp_track_syn
  split_ifs <;> rfl

theorem tcp_track_syn_wl (s : tcp_subparser) (info : tcp_proto_info) (way : Nat) :
    (tcp_track_syn s info way).wl = s.wl := by
  unfold tcp_track_syn
  split_ifs <;> rfl

theorem tcp_set_srv_way_fin (env : tcp_env) (s : tcp_subparser) (info : tcp_proto_info) (way : Nat) :
    (tcp_set_srv_way env s info way).fin = s.fin := by
  unfold tcp_set_srv_way
  split_ifs <;> rfl

theorem tcp_set_srv_way_ack (env : tcp_env) (s : tcp_subparser) (info : tcp_proto_info) (way : Nat) :
    (tcp_set_srv_way env s info way).ack = s.ack := by
  unfold tcp_set_srv_way
  split_ifs <;> rfl

theorem tcp_set_srv_way_syn (env : tcp_env) (s : tcp_subparser) (info : tcp_proto_info) (way : Nat) :
    (tcp_set_srv_way env s info way).syn = s.syn := by
  unfold tcp_set_srv_way
  split_ifs <;> rfl

theorem tcp_set_srv_way_wl_set (env : tcp_env) (s : tcp_subparser) (info : tcp_proto_info) (way : Nat) :
    (tcp_set_srv_way env s info way).wl_set = s.wl_set := by
  unfold tcp_set_srv_way
  split_ifs <;> rfl

theorem tcp_set_srv_way_fin_seqnum (env : tcp_env) (s : tcp_subparser) (info : tcp_proto_info) (way : Nat) :
    (tcp_set_srv_way env s info way).fin_seqnum = s.fin_seqnum := by
  unfold tcp_set_srv_way
  split_ifs <;> rfl

theorem tcp_set_srv_way_max_acknum (env : tcp_env) (s : tcp_subparser) (info : tcp_proto_info) (way : Nat) :
    (tcp_set_srv_way env s info way).max_acknum = s.max_acknum := by
  unfold tcp_set_srv_way
  split_ifs <;> rfl

theorem tcp_set_srv_way_mux_subparser (env : tcp_env) (s : tcp_subparser) (info : tcp_proto_info) (way : Nat) :
    (tcp_set_srv_way env s info way).mux_subparser = s.mux_subparser := by
  unfold tcp_set_srv_way
  split_ifs <;> rfl

theorem tcp_set_srv_way_wl (env : tcp_env) (s : tcp_subparser) (info : tcp_proto_info) (way : Nat) :
    (tcp_set_srv_way env s info way).wl = s.wl := by
  unfold tcp_set_srv_way
  split_ifs <;> rfl

theorem tcp_track_ack_ack (s : tcp_subparser) (info : tcp_proto_info) (way : Nat) :
    (tcp_track_ack s info way).ack =
      (if (info.ack && (!IS_SET_FOR_WAY way s.ack ||
          seqnum_gt info.ack_num (at2 s.max_acknum way))) = true
        then SET_FOR_WAY way s.ack else s.ack) := by
  unfold tcp_track_ack
  split_ifs <;> rfl

theorem tcp_track_ack_max_acknum (s : tcp_subparser) (info : tcp_proto_info) (way : Nat) :
    (tcp_track_ack s info way).max_acknum =
      (if (info.ack && (!IS_SET_FOR_WAY way s.ack ||
          seqnum_gt info.ack_num (at2 s.max_acknum way))) = true
        then upd2 s.max_acknum way info.ack_num else s.max_acknum) := by
  unfold tcp_track_ack
  split_ifs <;> rfl

theorem tcp_track_fin_fin (s : tcp_subparser) (info : tcp_proto_info) (way : Nat) :
    (tcp_track_fin s info way).fin =
      (if info.fin = true then SET_FOR_WAY way s.fin else s.fin) := by
  unfold tcp_track_fin
  split_ifs <;> rfl

theorem tcp_track_fin_fin_seqnum (s : tcp_subparser) (info : tcp_proto_info) (way : Nat) :
    (tcp_track_fin s info way).fin_seqnum =
      (if info.fin = true then upd2 s.fin_seqnum way (u32_add info.seq_num info.info.payload)
        else s.fin_seqnum) := by
  unfold tcp_track_fin
  split_ifs <;> rfl

theorem tcp_track_syn_syn (s : tcp_subparser) (info : tcp_proto_info) (way : Nat) :
    (tcp_track_syn s info way).syn =
      (if (info.syn && !IS_SET_FOR_WAY way s.syn) = true then SET_FOR_WAY way s.syn
        else s.syn) := by
  unfold tcp_track_syn
  split_ifs <;> rfl

theorem tcp_set_srv_way_srv_set (env : tcp_env) (s : tcp_subparser) (info : tcp_proto_info)
    (way : Nat) :
    (tcp_set_srv_way env s info way).srv_set =
      (if (decide (s.srv_set = 0) || (decide (s.srv_set = 1) && info.syn)) = true
        then (if info.syn = true then 2 else 1) else s.srv_set) := by
  unfold tcp_set_srv_way
  split_ifs <;> rfl

theorem tcp_set_srv_way_srv_way (env : tcp_env) (s : tcp_subparser) (info : tcp_proto_info)
    (way : Nat) :
    (tcp_set_srv_way env s info way).srv_way =
      (if (decide (s.srv_set = 0) || (decide (s.srv_set = 1) && info.syn)) = true
        then (if env.comes_from_client info.key_port info.syn info.ack = true then not_way way
              else way % 2)
        else s.srv_way) := by
  unfold tcp_set_srv_way
  split_ifs <;> rfl

/-- What the bookkeeping of a segment leaves in the tracking fields. -/
theorem tcp_parse_bookkeeping_fields (env : tcp_env) (s : tcp_subparser) (info : tcp_proto_info)
    (way : Nat) :
    (tcp_parse_bookkeeping env s info way).ack =
      (if (info.ack && (!IS_SET_FOR_WAY way s.ack ||
          seqnum_gt info.ack_num (at2 s.max_acknum way))) = true
        then SET_FOR_WAY way s.ack else s.ack) ∧
    (tcp_parse_bookkeeping env s info way).max_acknum =
      (if (info.ack && (!IS_SET_FOR_WAY way s.ack ||
          seqnum_gt info.ack_num (at2 s.max_acknum way))) = true
        then upd2 s.max_acknum way info.ack_num else s.max_acknum) ∧
    (tcp_parse_bookkeeping env s info way).fin =
      (if info.fin = true then SET_FOR_WAY way s.fin else s.fin) ∧
    (tcp_parse_bookkeeping env s info way).fin_seqnum =
      (if info.fin = true then upd2 s.fin_seqnum way (u32_add info.seq_num info.info.payload)
        else s.fin_seqnum) ∧
    (tcp_parse_bookkeeping env s info way).syn =
      (if (info.syn && !IS_SET_FOR_WAY way s.syn) = true then SET_FOR_WAY way s.syn
        else s.syn) ∧
    (tcp_parse_bookkeeping env s info way).srv_set =
      (if (decide (s.srv_set = 0) || (decide (s.srv_set = 1) && info.syn)) = true
        then (if info.syn = true then 2 else 1) else s.srv_set) ∧
    (tcp_parse_bookkeeping env s info way).srv_way =
      (if (decide (s.srv_set = 0) || (decide (s.srv_set = 1) && info.syn)) = true
        then (if env.comes_from_client info.key_port info.syn info.ack = true then not_way way
              else way % 2)
        else s.srv_way) ∧
    (tcp_parse_bookkeeping env s info way).wl_set = (set_wl_list s info way).wl_set ∧
    (tcp_parse_bookkeeping env s info way).mux_subparser = s.mux_subparser := by
  obtain ⟨h1, h2, h3, h4, h5, h6, h7, h8⟩ := set_wl_list_track s info way
  simp only [tcp_parse_bookkeeping,
    tcp_track_ack_fin, tcp_track_ack_syn, tcp_track_ack_wl_set, tcp_track_ack_fin_seqnum,
    tcp_track_ack_srv_way, tcp_track_ack_srv_set, tcp_track_ack_mux_subparser,
    tcp_track_ack_wl, tcp_track_fin_ack, tcp_track_fin_syn, tcp_track_fin_wl_set,
    tcp_track_fin_max_acknum, tcp_track_fin_srv_way, tcp_track_fin_srv_set,
    tcp_track_fin_mux_subparser, tcp_track_fin_wl, tcp_track_syn_fin, tcp_track_syn_ack,
    tcp_track_syn_wl_set, tcp_track_syn_fin_seqnum, tcp_track_syn_max_acknum,
    tcp_track_syn_srv_way, tcp_track_syn_srv_set, tcp_track_syn_mux_subparser,
    tcp_track_syn_wl, tcp_set_srv_way_fin, tcp_set_srv_way_ack, tcp_set_srv_way_syn,
    tcp_set_srv_way_wl_set, tcp_set_srv_way_fin_seqnum, tcp_set_srv_way_max_acknum,
    tcp_set_srv_way_mux_subparser, tcp_set_srv_way_wl, tcp_track_ack_ack,
    tcp_track_ack_max_acknum, tcp_track_fin_fin, tcp_track_fin_fin_seqnum, tcp_track_syn_syn,
    tcp_set_srv_way_srv_set, tcp_set_srv_way_srv_way,
    h1, h2, h3, h4, h5, h6, h7, h8, and_self]

theorem tcp_subparser_term_congr {a b : tcp_subparser} (h : tcp_same_track a b) :
    tcp_subparser_term a = tcp_subparser_term b := by
  obtain ⟨h1, h2, _, _, h5, h6, _, _⟩ := h
  simp only [tcp_subparser_term, h1, h2, h5, h6]

theorem tcp_parse_bookkeeping_congr (env : tcp_env) {a b : tcp_subparser}
    (h : tcp_same_track a b) (info : tcp_proto_info) (way : Nat) :
    tcp_same_track (tcp_parse_bookkeeping env a info way)
      (tcp_parse_bookkeeping env b info way) := by
  obtain ⟨h1, h2, h3, h4, h5, h6, h7, h8⟩ := h
  obtain ⟨a1, a2, a3, a4, a5, a6, a7, a8, _⟩ := tcp_parse_bookkeeping_fields env a info way
  obtain ⟨b1, b2, b3, b4, b5, b6, b7, b8, _⟩ := tcp_parse_bookkeeping_fields env b info way
  refine ⟨?_, ?_, ?_, ?_, ?_, ?_, ?_, ?_⟩
  · rw [a3, b3, h1]
  · rw [a1, b1, h2, h6]
  · rw [a5, b5, h3]
  · rw [a8, b8, set_wl_list_wl_set, set_wl_list_wl_set, h4]
  · rw [a4, b4, h5]
  · rw [a2, b2, h2, h6]
  · rw [a7, b7, h7, h8]
  · rw [a6, b6, h8]

theorem tcp_parse_deliver_track (env : tcp_env) (s : tcp_subparser) (info : tcp_proto_info)
    (way : Nat) (packet : List Nat) (cap_len wire_len tcphdr_len : Nat) :
    tcp_same_track (tcp_parse_deliver env s info way packet cap_len wire_len tcphdr_len).2.1 s := by
  unfold tcp_parse_deliver
  simp only []
  split_ifs <;> simp [tcp_same_track, tcp_subparser.with_view]

theorem tcp_reset_proto_track (s : tcp_subparser) :
    tcp_same_track (tcp_mux_subparser_reset_proto s) s := by
  simp [tcp_same_track, tcp_mux_subparser_reset_proto]

/-- A sub-parser found in the mux is the one `lookup_or_create_tcp_subparser`
answers, up to its child parser. -/
theorem lookup_found_track (env : tcp_env) (s : tcp_subparser) (info : tcp_proto_info)
    (way : Nat) :
    ∃ sub, lookup_or_create_tcp_subparser env (some s) info way = some sub ∧
      tcp_same_track sub s ∧ sub.wl = s.wl := by
  unfold lookup_or_create_tcp_subparser
  simp only []
  split_ifs
  · exact ⟨s, rfl, tcp_same_track_refl s, rfl⟩
  · split
    · refine ⟨_, rfl, ?_, ?_⟩
      · unfold tcp_mux_subparser_spawn
        split <;> simp [tcp_same_track]
      · unfold tcp_mux_subparser_spawn
        split <;> rfl
    · exact ⟨s, rfl, tcp_same_track_refl s, rfl⟩

theorem tcp_subparser_ctor_fresh (env : tcp_env) (mem : tcp_subparser) (child : Option parser)
    (requestor : Option proto) (sub : tcp_subparser)
    (h : tcp_subparser_ctor env mem child requestor = some sub) :
    sub.fin = 0 ∧ sub.ack = 0 ∧ sub.syn = 0 ∧ sub.wl_set = 0 ∧ sub.srv_set = 0 := by
  unfold tcp_subparser_ctor at h
  simp only [] at h
  split at h
  · cases h
  · split at h
    · cases h
    · split at h
      · cases h
      · cases h
        simp

theorem tcp_subparser_new_fresh (env : tcp_env) (child : Option parser)
    (requestor : Option proto) (sub : tcp_subparser)
    (h : tcp_subparser_new env child requestor = some sub) :
    sub.fin = 0 ∧ sub.ack = 0 ∧ sub.syn = 0 ∧ sub.wl_set = 0 ∧ sub.srv_set = 0 := by
  unfold tcp_subparser_new at h
  split at h
  · cases h
  · exact tcp_subparser_ctor_fresh env _ child requestor sub h

/-- A sub-parser created by `lookup_or_create_tcp_subparser` has seen no FIN,
no ACK and no SYN, and its server side is unset. -/
theorem lookup_created_fresh (env : tcp_env) (info : tcp_proto_info) (way : Nat)
    (sub : tcp_subparser)
    (h : lookup_or_create_tcp_subparser env none info way = some sub) :
    sub.fin = 0 ∧ sub.ack = 0 ∧ sub.syn = 0 ∧ sub.srv_set = 0 := by
  unfold lookup_or_create_tcp_subparser at h
  simp only [] at h
  split at h
  · rename_i t ht
    cases h
    obtain ⟨h1, h2, h3, _, _, _, h7, _⟩ := set_wl_list_track t info way
    rw [h1, h2, h3, h7]
    have hf : t.fin = 0 ∧ t.ack = 0 ∧ t.syn = 0 ∧ t.wl_set = 0 ∧ t.srv_set = 0 := by
      split at ht
      · rename_i m hm
        cases ht
        split at hm
        · split at hm
          · unfold mux_subparser_and_parser_new at hm
            split at hm
            · cases hm
            · exact tcp_subparser_new_fresh env _ _ _ hm
          · cases hm
        · cases hm
      · exact tcp_subparser_new_fresh env _ _ _ ht
    exact ⟨hf.1, hf.2.1, hf.2.2.1, hf.2.2.2.2⟩
  · cases h

/-- One call of `tcp_parse` whose header parses and that obtains the sub-parser
`sub`: it leaves a state that agrees with the bookkeeping of the segment on
`sub`, and deindexes iff the termination test holds there. -/
theorem tcp_parse_track (env : tcp_env) (found : Option tcp_subparser)
    (parent : Option (ip_addr × ip_addr)) (way : Nat) (packet : List Nat)
    (cap_len wire_len : Nat) (sub : tcp_subparser)
    (h : (tcp_parse_header env packet cap_len wire_len).1 = PROTO_OK)
    (hl : lookup_or_create_tcp_subparser env found (tcp_parse_header env packet cap_len wire_len).2
      (tcp_patch_way parent (tcp_parse_header env packet cap_len wire_len).2 way) = some sub) :
    ∃ t, (tcp_parse env found parent way packet cap_len wire_len).tcp_sub = some t ∧
      tcp_same_track t (tcp_parse_bookkeeping env sub
        (tcp_parse_header env packet cap_len wire_len).2
        (tcp_patch_way parent (tcp_parse_header env packet cap_len wire_len).2 way)) ∧
      (tcp_parse env found parent way packet cap_len wire_len).deindexed =
        tcp_subparser_term (tcp_parse_bookkeeping env sub
          (tcp_parse_header env packet cap_len wire_len).2
          (tcp_patch_way parent (tcp_parse_header env packet cap_len wire_len).2 way)) := by
  unfold tcp_parse
  simp only [h, ne_eq, not_true_eq_false, if_false, hl, tcp_parse_deliver_term, and_true]
  refine ⟨_, rfl, ?_⟩
  split_ifs
  · exact tcp_parse_deliver_track _ _ _ _ _ _ _ _
  · exact tcp_same_track_trans (tcp_reset_proto_track _) (tcp_parse_deliver_track _ _ _ _ _ _ _ _)
  · exact tcp_parse_deliver_track _ _ _ _ _ _ _ _

/-! ## The side of the server -/

/-- One call of `tcp_parse` on a sub-parser whose server side is certain. -/
theorem tcp_parse_certain_step (env : tcp_env) (s : tcp_subparser)
    (parent : Option (ip_addr × ip_addr)) (way : Nat) (packet : List Nat)
    (cap_len wire_len : Nat) (h : s.srv_set = 2) :
    ∀ t, (tcp_parse env (some s) parent way packet cap_len wire_len).tcp_sub = some t →
      t.srv_set = 2 ∧ t.srv_way = s.srv_way := by
  intro t ht
  by_cases hh : (tcp_parse_header env packet cap_len wire_len).1 = PROTO_OK
  · obtain ⟨sub, hl, htr, _⟩ := lookup_found_track env s
      (tcp_parse_header env packet cap_len wire_len).2
      (tcp_patch_way parent (tcp_parse_header env packet cap_len wire_len).2 way)
    obtain ⟨t', ht', htr', _⟩ := tcp_parse_track env (some s) parent way packet cap_len wire_len
      sub hh hl
    rw [ht'] at ht
    cases ht
    have hb := tcp_parse_bookkeeping_congr env htr
      (tcp_parse_header env packet cap_len wire_len).2
      (tcp_patch_way parent (tcp_parse_header env packet cap_len wire_len).2 way)
    obtain ⟨_, _, _, _, _, _, h7, h8⟩ := tcp_same_track_trans htr' hb
    obtain ⟨_, _, _, _, _, b6, b7, _⟩ := tcp_parse_bookkeeping_fields env s
      (tcp_parse_header env packet cap_len wire_len).2
      (tcp_patch_way parent (tcp_parse_header env packet cap_len wire_len).2 way)
    rw [h7, h8, b6, b7, h]
    simp
  · rw [tcp_parse_of_error env (some s) parent way packet cap_len wire_len hh] at ht
    cases ht

/-- C5: once `srv_set` is CERTAIN (2) in a sub-parser, `srv_way` keeps its value
and `srv_set` stays CERTAIN in every state that `tcp_parse` leaves, whatever
the segments processed, for as long as the sub-parser is in the mux (that is,
up to and including the call that deindexes it). -/
theorem srv_way_frozen_once_certain (s : tcp_subparser) (segs : List tcp_segment)
    (h : s.srv_set = 2) :
    ∀ (pre : List tcp_parse_result) (r : tcp_parse_result) (post : List tcp_parse_result),
      tcp_flow (some s) segs = pre ++ r :: post →
      (∀ q ∈ pre, q.deindexed = false) →
      ∀ t, r.tcp_sub = some t → t.srv_set = 2 ∧ t.srv_way = s.srv_way := by
  induction segs generalizing s with
  | nil =>
    intro pre r post hf
    simp [tcp_flow] at hf
  | cons seg rest ih =>
    intro pre r post hf hpre t ht
    simp only [tcp_flow] at hf
    cases pre with
    | nil =>
      simp only [List.nil_append, List.cons.injEq] at hf
      obtain ⟨hr, _⟩ := hf
      subst hr
      exact tcp_parse_certain_step seg.env s seg.parent seg.way seg.packet seg.cap_len
        seg.wire_len h t ht
    | cons q pre' =>
      simp only [List.cons_append, List.cons.injEq] at hf
      obtain ⟨hq, hrest⟩ := hf
      rw [show (tcp_parse_segment (some s) seg).crashed = false from
        tcp_parse_returned_of_found seg.env s seg.parent seg.way seg.packet seg.cap_len
          seg.wire_len] at hrest
      simp only [Bool.false_eq_true, if_false] at hrest
      have hqd : q.deindexed = false := hpre q (List.mem_cons_self _ _)
      have hstep := tcp_parse_certain_step seg.env s seg.parent seg.way seg.packet seg.cap_len
        seg.wire_len h
      have hmux : ∃ s', tcp_mux_after (some s) (tcp_parse_segment (some s) seg) = some s' ∧
          s'.srv_set = 2 ∧ s'.srv_way = s.srv_way := by
        unfold tcp_mux_after
        rw [hq, hqd]
        cases hts : q.tcp_sub with
        | none => exact ⟨s, rfl, h, rfl⟩
        | some t' =>
          refine ⟨t', by simp, ?_⟩
          apply hstep
          rw [← hts, ← hq]
          rfl
      obtain ⟨s', hs', h2, hw⟩ := hmux
      rw [hs'] at hrest
      have := ih s' h2 pre' r post hrest (fun q' hq' => hpre q' (List.mem_cons_of_mem _ hq')) t ht
      rw [hw] at this
      exact this

theorem srv_way_frozen_once_certain_witness :
    ({ sample_tcp_sub with srv_set := 2 } : tcp_subparser).srv_set = 2 ∧
    ∀ (pre : List tcp_parse_result) (r : tcp_parse_result) (post : List tcp_parse_result),
      tcp_flow (some { sample_tcp_sub with srv_set := 2 })
        [sample_segment 1 (sample_tcp_packet 80 40000 500 101 18 []),
         sample_segment 0 (sample_tcp_packet 40000 80 101 501 16 [71, 69, 84])]
        = pre ++ r :: post →
      (∀ q ∈ pre, q.deindexed = false) →
      ∀ t, r.tcp_sub = some t →
        t.srv_set = 2 ∧ t.srv_way = ({ sample_tcp_sub with srv_set := 2 } : tcp_subparser).srv_way :=
  ⟨rfl, srv_way_frozen_once_certain _ _ rfl⟩

/-! ## Scenario S1: SYN, SYN+ACK, ACK -/

theorem tcp_parse_deliver_calls (env : tcp_env) (s : tcp_subparser) (info : tcp_proto_info)
    (way : Nat) (packet : List Nat) (cap_len wire_len tcphdr_len : Nat) :
    (∀ c ∈ (tcp_parse_deliver env s info way packet cap_len wire_len tcphdr_len).2.2,
      ∀ i, c.carried_info = some i → i = info) ∧
    (∃ c ∈ (tcp_parse_deliver env s info way packet cap_len wire_len tcphdr_len).2.2,
      c.carried_info = some info) := by
  unfold tcp_parse_deliver
  simp only []
  split_ifs <;> simp [tcp_call.carried_info]

/-- Every header that a call of `tcp_parse` hands over, once a sub-parser is
obtained, is the decoded one with `to_srv` set from the side of the server;
and at least one is handed over. -/
theorem tcp_parse_calls_info (env : tcp_env) (found : Option tcp_subparser)
    (parent : Option (ip_addr × ip_addr)) (way : Nat) (packet : List Nat)
    (cap_len wire_len : Nat) (sub : tcp_subparser)
    (h : (tcp_parse_header env packet cap_len wire_len).1 = PROTO_OK)
    (hl : lookup_or_create_tcp_subparser env found (tcp_parse_header env packet cap_len wire_len).2
      (tcp_patch_way parent (tcp_parse_header env packet cap_len wire_len).2 way) = some sub) :
    (∀ c ∈ (tcp_parse env found parent way packet cap_len wire_len).calls,
      ∀ i, c.carried_info = some i →
        i.to_srv = decide ((tcp_parse_bookkeeping env sub
          (tcp_parse_header env packet cap_len wire_len).2
          (tcp_patch_way parent (tcp_parse_header env packet cap_len wire_len).2 way)).srv_way ≠
          tcp_patch_way parent (tcp_parse_header env packet cap_len wire_len).2 way)) ∧
    (∃ c ∈ (tcp_parse env found parent way packet cap_len wire_len).calls,
      c.carried_info ≠ none) := by
  unfold tcp_parse
  simp only [h, ne_eq, not_true_eq_false, if_false, hl]
  generalize hb : tcp_parse_bookkeeping env sub
          (tcp_parse_header env packet cap_len wire_len).2
          (tcp_patch_way parent (tcp_parse_header env packet cap_len wire_len).2 way) = b
  generalize hi : ({ (tcp_parse_header env packet cap_len wire_len).2 with
    to_srv := decide (¬ b.srv_way = tcp_patch_way parent (tcp_parse_header env packet cap_len wire_len).2 way) } : tcp_proto_info) = info'
  have hts : info'.to_srv = decide (¬ b.srv_way = tcp_patch_way parent (tcp_parse_header env packet cap_len wire_len).2 way) := by
    rw [← hi]
  obtain ⟨hd1, c0, hc0, hc0'⟩ := tcp_parse_deliver_calls env b info'
    (tcp_patch_way parent (tcp_parse_header env packet cap_len wire_len).2 way) packet cap_len
    wire_len (TCP_HDR_LENGTH packet)
  constructor
  · intro c hc i hci
    simp only [List.mem_append] at hc
    rcases hc with (hc | hc) | hc
    · rw [hd1 c hc i hci, hts]
    · split_ifs at hc <;> simp at hc <;> subst hc <;> simp [tcp_call.carried_info] at hci
    · split_ifs at hc
      · simp at hc
      · simp only [List.mem_singleton] at hc
        subst hc
        simp only [tcp_call.carried_info, Option.some.injEq] at hci
        rw [← hci, hts]
  · refine ⟨c0, ?_, ?_⟩
    · simp only [List.mem_append]
      exact Or.inl (Or.inl hc0)
    · rw [hc0']; simp

theorem tcp_subparser_term_of_no_fin (b : tcp_subparser) (h : b.fin = 0) :
    tcp_subparser_term b = false := by
  simp [tcp_subparser_term, h, IS_SET_FOR_WAY]

/-- A segment without FIN on a sub-parser found in the mux that has seen no FIN
and whose server side is certain. -/
theorem tcp_parse_no_fin_step (env : tcp_env) (s : tcp_subparser)
    (parent : Option (ip_addr × ip_addr)) (way : Nat) (packet : List Nat)
    (cap_len wire_len : Nat)
    (h : (tcp_parse_header env packet cap_len wire_len).1 = PROTO_OK)
    (hf : (tcp_parse_header env packet cap_len wire_len).2.fin = false)
    (hs : s.fin = 0) (hc : s.srv_set = 2) :
    ∃ t, (tcp_parse env (some s) parent way packet cap_len wire_len).tcp_sub = some t ∧
      t.fin = 0 ∧ t.srv_set = 2 ∧ t.srv_way = s.srv_way ∧
      (tcp_parse env (some s) parent way packet cap_len wire_len).status = PROTO_OK ∧
      (tcp_parse env (some s) parent way packet cap_len wire_len).deindexed = false ∧
      (∀ c ∈ (tcp_parse env (some s) parent way packet cap_len wire_len).calls,
        ∀ i, c.carried_info = some i → i.to_srv = decide (s.srv_way ≠
          tcp_patch_way parent (tcp_parse_header env packet cap_len wire_len).2 way)) ∧
      (∃ c ∈ (tcp_parse env (some s) parent way packet cap_len wire_len).calls,
        c.carried_info ≠ none) := by
  obtain ⟨sub, hl, htr, _⟩ := lookup_found_track env s
    (tcp_parse_header env packet cap_len wire_len).2
    (tcp_patch_way parent (tcp_parse_header env packet cap_len wire_len).2 way)
  obtain ⟨t, ht, htr', hd⟩ := tcp_parse_track env (some s) parent way packet cap_len wire_len
    sub h hl
  obtain ⟨hst, _⟩ := tcp_parse_of_some env (some s) parent way packet cap_len wire_len sub h hl
  obtain ⟨hc1, hc2⟩ := tcp_parse_calls_info env (some s) parent way packet cap_len wire_len
    sub h hl
  have hb := tcp_parse_bookkeeping_congr env htr
    (tcp_parse_header env packet cap_len wire_len).2
    (tcp_patch_way parent (tcp_parse_header env packet cap_len wire_len).2 way)
  obtain ⟨_, _, b3, _, _, b6, b7, _⟩ := tcp_parse_bookkeeping_fields env s
    (tcp_parse_header env packet cap_len wire_len).2
    (tcp_patch_way parent (tcp_parse_header env packet cap_len wire_len).2 way)
  obtain ⟨g1, _, _, _, _, _, g7, g8⟩ := hb
  have e1 : (tcp_parse_bookkeeping env sub (tcp_parse_header env packet cap_len wire_len).2
      (tcp_patch_way parent (tcp_parse_header env packet cap_len wire_len).2 way)).fin = 0 := by
    rw [g1, b3, hf, hs]; simp
  have e2 : (tcp_parse_bookkeeping env sub (tcp_parse_header env packet cap_len wire_len).2
      (tcp_patch_way parent (tcp_parse_header env packet cap_len wire_len).2 way)).srv_set = 2 := by
    rw [g8, b6, hc]; simp
  have e3 : (tcp_parse_bookkeeping env sub (tcp_parse_header env packet cap_len wire_len).2
      (tcp_patch_way parent (tcp_parse_header env packet cap_len wire_len).2 way)).srv_way
      = s.srv_way := by
    rw [g7, b7, hc]; simp
  obtain ⟨t1, _, _, _, _, _, t7, t8⟩ := htr'
  refine ⟨t, ht, t1.trans e1, t8.trans e2, t7.trans e3, hst, ?_, ?_, hc2⟩
  · rw [hd]; exact tcp_subparser_term_of_no_fin _ e1
  · intro c hcm i hi
    rw [hc1 c hcm i hi, e3]

/-- The first segment of a flow, a SYN without ACK nor FIN coming from the
client, when the sub-parser can be created. -/
theorem tcp_parse_first_syn_step (env : tcp_env)
    (parent : Option (ip_addr × ip_addr)) (way : Nat) (packet : List Nat)
    (cap_len wire_len : Nat)
    (h : (tcp_parse_header env packet cap_len wire_len).1 = PROTO_OK)
    (hsyn : (tcp_parse_header env packet cap_len wire_len).2.syn = true)
    (hack : (tcp_parse_header env packet cap_len wire_len).2.ack = false)
    (hf : (tcp_parse_header env packet cap_len wire_len).2.fin = false)
    (hcl : ∀ ports, env.comes_from_client ports true false = true)
    (hcreate : lookup_or_create_tcp_subparser env none
      (tcp_parse_header env packet cap_len wire_len).2
      (tcp_patch_way parent (tcp_parse_header env packet cap_len wire_len).2 way) ≠ none) :
    ∃ t, (tcp_parse env none parent way packet cap_len wire_len).tcp_sub = some t ∧
      t.fin = 0 ∧ t.srv_set = 2 ∧
      t.srv_way = not_way (tcp_patch_way parent
        (tcp_parse_header env packet cap_len wire_len).2 way) ∧
      (tcp_parse env none parent way packet cap_len wire_len).status = PROTO_OK ∧
      (tcp_parse env none parent way packet cap_len wire_len).deindexed = false ∧
      (∀ c ∈ (tcp_parse env none parent way packet cap_len wire_len).calls,
        ∀ i, c.carried_info = some i → i.to_srv = true) ∧
      (∃ c ∈ (tcp_parse env none parent way packet cap_len wire_len).calls,
        c.carried_info ≠ none) := by
  obtain ⟨sub, hl⟩ := Option.ne_none_iff_exists'.mp hcreate
  obtain ⟨f1, _, _, f4⟩ := lookup_created_fresh env _ _ sub hl
  obtain ⟨t, ht, htr', hd⟩ := tcp_parse_track env none parent way packet cap_len wire_len
    sub h hl
  obtain ⟨hst, _⟩ := tcp_parse_of_some env none parent way packet cap_len wire_len sub h hl
  obtain ⟨hc1, hc2⟩ := tcp_parse_calls_info env none parent way packet cap_len wire_len
    sub h hl
  obtain ⟨_, _, b3, _, _, b6, b7, _⟩ := tcp_parse_bookkeeping_fields env sub
    (tcp_parse_header env packet cap_len wire_len).2
    (tcp_patch_way parent (tcp_parse_header env packet cap_len wire_len).2 way)
  rw [hf, f1] at b3
  rw [f4, hsyn] at b6 b7
  rw [hack, hcl] at b7
  simp only [decide_True, Bool.true_or, if_true] at b6 b7
  simp only [Bool.false_eq_true, if_false] at b3
  obtain ⟨t1, _, _, _, _, _, t7, t8⟩ := htr'
  refine ⟨t, ht, t1.trans b3, t8.trans b6, t7.trans b7, hst, ?_, ?_, hc2⟩
  · rw [hd]; exact tcp_subparser_term_of_no_fin _ b3
  · intro c hcm i hi
    rw [hc1 c hcm i hi, b7]
    simp only [not_way, ne_eq, decide_eq_true_eq]
    split_ifs <;> omega

theorem parse_tcp_options_zero (max_options : Nat) (info : tcp_proto_info) (addr : Nat)
    (options : List Nat) :
    parse_tcp_options max_options info addr options 0 = (PROTO_OK, info) := by
  rw [parse_tcp_options]
  simp

/-- The decoding of a header without option that is fully captured. -/
theorem tcp_parse_header_plain (env : tcp_env) (packet : List Nat) (cap_len wire_len : Nat)
    (h1 : 20 ≤ wire_len) (h2 : 20 ≤ cap_len) (h3 : TCP_HDR_LENGTH packet = 20) :
    tcp_parse_header env packet cap_len wire_len =
      (PROTO_OK, tcp_proto_info_ctor env.info_uninit 20 (wire_len - 20)
        (READ_U16N packet 0) (READ_U16N packet 2) packet) := by
  unfold tcp_parse_header parse_tcp_proto_info
  rw [h3]
  have e1 : ¬ wire_len < TCP_HDR_SIZE := by simp only [TCP_HDR_SIZE]; omega
  have e2 : ¬ cap_len < TCP_HDR_SIZE := by simp only [TCP_HDR_SIZE]; omega
  have e3 : ¬ 20 < TCP_HDR_SIZE := by simp [TCP_HDR_SIZE]
  have e4 : ¬ 20 > wire_len := by omega
  have e5 : ¬ 20 > cap_len := by omega
  have e6 : size_sub 20 TCP_HDR_SIZE = 0 := by simp [size_sub, TCP_HDR_SIZE]
  have e7 : size_sub wire_len 20 = wire_len - 20 := by simp [size_sub, h1]
  simp only [e1, e2, e3, e4, e5, e6, e7, if_false, parse_tcp_options_zero]

/-- C6 (scenario S1): when `comes_from_client` answers true for a SYN without
ACK, the sub-parser of the flow can be created, and the flow starts with a SYN
without ACK in way `w`, then a SYN+ACK in way `!w`, then an ACK without SYN in
way `w` (none of them carrying FIN), `tcp_parse` answers PROTO_OK three times,
sets `srv_set` to CERTAIN (2) at the first segment with the server on the
destination side (`srv_way = !w`) and keeps both, hands the three segments over
with `to_srv` = true, false, true, and deindexes at none of them. -/
theorem tcp_scenario_syn_synack_ack (s1 s2 s3 : tcp_segment) (w : Nat)
    (h1 : (tcp_parse_header s1.env s1.packet s1.cap_len s1.wire_len).1 = PROTO_OK)
    (h2 : (tcp_parse_header s2.env s2.packet s2.cap_len s2.wire_len).1 = PROTO_OK)
    (h3 : (tcp_parse_header s3.env s3.packet s3.cap_len s3.wire_len).1 = PROTO_OK)
    (hw1 : tcp_patch_way s1.parent
      (tcp_parse_header s1.env s1.packet s1.cap_len s1.wire_len).2 s1.way = w)
    (hw2 : tcp_patch_way s2.parent
      (tcp_parse_header s2.env s2.packet s2.cap_len s2.wire_len).2 s2.way = not_way w)
    (hw3 : tcp_patch_way s3.parent
      (tcp_parse_header s3.env s3.packet s3.cap_len s3.wire_len).2 s3.way = w)
    (f1 : (tcp_parse_header s1.env s1.packet s1.cap_len s1.wire_len).2.syn = true ∧
      (tcp_parse_header s1.env s1.packet s1.cap_len s1.wire_len).2.ack = false ∧
      (tcp_parse_header s1.env s1.packet s1.cap_len s1.wire_len).2.fin = false)
    (f2 : (tcp_parse_header s2.env s2.packet s2.cap_len s2.wire_len).2.syn = true ∧
      (tcp_parse_header s2.env s2.packet s2.cap_len s2.wire_len).2.ack = true ∧
      (tcp_parse_header s2.env s2.packet s2.cap_len s2.wire_len).2.fin = false)
    (f3 : (tcp_parse_header s3.env s3.packet s3.cap_len s3.wire_len).2.syn = false ∧
      (tcp_parse_header s3.env s3.packet s3.cap_len s3.wire_len).2.ack = true ∧
      (tcp_parse_header s3.env s3.packet s3.cap_len s3.wire_len).2.fin = false)
    (hcl : ∀ ports, s1.env.comes_from_client ports true false = true)
    (hcreate : lookup_or_create_tcp_subparser s1.env none
      (tcp_parse_header s1.env s1.packet s1.cap_len s1.wire_len).2 w ≠ none) :
    ∃ r1 r2 r3 t1 t2 t3,
      tcp_flow none [s1, s2, s3] = [r1, r2, r3] ∧
      r1.tcp_sub = some t1 ∧ r2.tcp_sub = some t2 ∧ r3.tcp_sub = some t3 ∧
      (t1.srv_set = 2 ∧ t1.srv_way = not_way w) ∧
      (t2.srv_set = 2 ∧ t2.srv_way = not_way w) ∧
      (t3.srv_set = 2 ∧ t3.srv_way = not_way w) ∧
      (r1.status = PROTO_OK ∧ r2.status = PROTO_OK ∧ r3.status = PROTO_OK) ∧
      ((∀ c ∈ r1.calls, ∀ i, c.carried_info = some i → i.to_srv = true) ∧
        ∃ c ∈ r1.calls, c.carried_info ≠ none) ∧
      ((∀ c ∈ r2.calls, ∀ i, c.carried_info = some i → i.to_srv = false) ∧
        ∃ c ∈ r2.calls, c.carried_info ≠ none) ∧
      ((∀ c ∈ r3.calls, ∀ i, c.carried_info = some i → i.to_srv = true) ∧
        ∃ c ∈ r3.calls, c.carried_info ≠ none) ∧
      (r1.deindexed = false ∧ r2.deindexed = false ∧ r3.deindexed = false) := by
  rw [← hw1] at hcreate
  obtain ⟨t1, a1, a2, a3, a4, a5, a6, a7, a8⟩ := tcp_parse_first_syn_step s1.env s1.parent
    s1.way s1.packet s1.cap_len s1.wire_len h1 f1.1 f1.2.1 f1.2.2 hcl hcreate
  rw [hw1] at a4
  obtain ⟨t2, b1, b2, b3, b4, b5, b6, b7, b8⟩ := tcp_parse_no_fin_step s2.env t1 s2.parent
    s2.way s2.packet s2.cap_len s2.wire_len h2 f2.2.2 a2 a3
  rw [hw2, a4] at b7
  rw [a4] at b4
  obtain ⟨t3, c1, c2, c3, c4, c5, c6, c7, c8⟩ := tcp_parse_no_fin_step s3.env t2 s3.parent
    s3.way s3.packet s3.cap_len s3.wire_len h3 f3.2.2 b2 b3
  rw [hw3, b4] at c7
  rw [b4] at c4
  have m1 : tcp_mux_after none (tcp_parse_segment none s1) = some t1 := by
    simp only [tcp_mux_after, tcp_parse_segment, a1, a6]
    simp
  have m2 : tcp_mux_after (some t1) (tcp_parse_segment (some t1) s2) = some t2 := by
    simp only [tcp_mux_after, tcp_parse_segment, b1, b6]
    simp
  have n1 : (tcp_parse_segment none s1).crashed = false :=
    tcp_parse_returned_of_sub s1.env none s1.parent s1.way s1.packet s1.cap_len s1.wire_len t1 a1
  have n2 : (tcp_parse_segment (some t1) s2).crashed = false :=
    tcp_parse_returned_of_found s2.env t1 s2.parent s2.way s2.packet s2.cap_len s2.wire_len
  refine ⟨tcp_parse_segment none s1, tcp_parse_segment (some t1) s2,
    tcp_parse_segment (some t2) s3, t1, t2, t3, ?_, a1, b1, c1, ⟨a3, a4⟩, ⟨b3, b4⟩, ⟨c3, c4⟩,
    ⟨a5, b5, c5⟩, ⟨a7, a8⟩, ⟨?_, b8⟩, ⟨?_, c8⟩, ⟨a6, b6, c6⟩⟩
  · simp only [tcp_flow, m1, m2, n1, n2, Bool.false_eq_true, if_false, ite_self]
  · intro c hc i hi
    rw [b7 c hc i hi]
    simp
  · intro c hc i hi
    rw [c7 c hc i hi]
    simp only [not_way, ne_eq, decide_eq_true_eq]
    split_ifs <;> omega

theorem tcp_scenario_syn_synack_ack_witness :
    ∃ r1 r2 r3 t1 t2 t3,
      tcp_flow none [sample_segment 0 (sample_tcp_packet 40000 80 100 0 2 []),
        sample_segment 1 (sample_tcp_packet 80 40000 500 101 18 []),
        sample_segment 0 (sample_tcp_packet 40000 80 101 501 16 [71, 69, 84])] = [r1, r2, r3] ∧
      r1.tcp_sub = some t1 ∧ r2.tcp_sub = some t2 ∧ r3.tcp_sub = some t3 ∧
      (t1.srv_set = 2 ∧ t1.srv_way = not_way 0) ∧
      (t2.srv_set = 2 ∧ t2.srv_way = not_way 0) ∧
      (t3.srv_set = 2 ∧ t3.srv_way = not_way 0) ∧
      (r1.status = PROTO_OK ∧ r2.status = PROTO_OK ∧ r3.status = PROTO_OK) ∧
      ((∀ c ∈ r1.calls, ∀ i, c.carried_info = some i → i.to_srv = true) ∧
        ∃ c ∈ r1.calls, c.carried_info ≠ none) ∧
      ((∀ c ∈ r2.calls, ∀ i, c.carried_info = some i → i.to_srv = false) ∧
        ∃ c ∈ r2.calls, c.carried_info ≠ none) ∧
      ((∀ c ∈ r3.calls, ∀ i, c.carried_info = some i → i.to_srv = true) ∧
        ∃ c ∈ r3.calls, c.carried_info ≠ none) ∧
      (r1.deindexed = false ∧ r2.deindexed = false ∧ r3.deindexed = false) :=
  tcp_scenario_syn_synack_ack _ _ _ 0
    (by rw [tcp_parse_header_plain _ _ _ _ (by decide) (by decide) (by decide)])
    (by rw [tcp_parse_header_plain _ _ _ _ (by decide) (by decide) (by decide)])
    (by rw [tcp_parse_header_plain _ _ _ _ (by decide) (by decide) (by decide)])
    (by decide) (by decide) (by decide)
    (by rw [tcp_parse_header_plain _ _ _ _ (by decide) (by decide) (by decide)]; decide)
    (by rw [tcp_parse_header_plain _ _ _ _ (by decide) (by decide) (by decide)]; decide)
    (by rw [tcp_parse_header_plain _ _ _ _ (by decide) (by decide) (by decide)]; decide)
    (by intro p; rfl) (by decide)

/-! ## Clean close of a flow -/

theorem IS_SET_FOR_WAY_SET (w v f : Nat) (hw : w ≤ 1) :
    IS_SET_FOR_WAY w (SET_FOR_WAY v f) = (IS_SET_FOR_WAY w f || decide (v = w)) := by
  rw [IS_SET_FOR_WAY_eq_testBit, IS_SET_FOR_WAY_eq_testBit]
  unfold SET_FOR_WAY
  have h4 : (4 : Nat) = 2 ^ 2 := by norm_num
  rw [h4, Nat.testBit_mod_two_pow, Nat.testBit_or, Nat.one_shiftLeft, Nat.testBit_two_pow]
  have : decide (w < 2) = true := by simp; omega
  rw [this]
  simp

theorem at2_upd2 {α : Type} (a : α × α) (v w : Nat) (x : α) (hv : v ≤ 1) (hw : w ≤ 1) :
    at2 (upd2 a v x) w = if v = w then x else at2 a w := by
  unfold at2 upd2
  split_ifs <;> first | rfl | omega

theorem seqnum_gt_asymm (a b : Nat) (h : seqnum_gt a b = true) : seqnum_gt b a = false := by
  cases hb : seqnum_gt b a with
  | false => rfl
  | true =>
    rw [seqnum_gt_iff] at h hb
    have e31 : (2 : Int) ^ 31 = 2147483648 := by norm_num
    have e32 : (2 : Int) ^ 32 = 4294967296 := by norm_num
    rw [e31, e32] at h hb
    omega

/-- Among the 2^31 consecutive sequence numbers that start at `g`, `seqnum_gt`
is the order of the positions counted from `g`. -/
theorem seqnum_gt_of_window (a m g : Nat)
    (ha : ((a : Int) - (g : Int)) % 2 ^ 32 < 2 ^ 31)
    (hm : ((m : Int) - (g : Int)) % 2 ^ 32 < 2 ^ 31) :
    (seqnum_gt a m = true ↔
      ((m : Int) - (g : Int)) % 2 ^ 32 < ((a : Int) - (g : Int)) % 2 ^ 32) := by
  rw [seqnum_gt_iff]
  have e31 : (2 : Int) ^ 31 = 2147483648 := by norm_num
  have e32 : (2 : Int) ^ 32 = 4294967296 := by norm_num
  rw [e31, e32] at *
  omega

/-- The ACKs of a direction are ordered around `f` as soon as their `ack_num`
and `f` all lie among 2^31 consecutive sequence numbers (those that start at
`g`): such is a flow whose acknowledgements span less than 2^31 bytes. -/
theorem tcp_acks_ordered_of_window (l : List tcp_segment) (w f g : Nat)
    (hf : ((f : Int) - (g : Int)) % 2 ^ 32 < 2 ^ 31)
    (hl : ∀ x ∈ l, x.info.ack = true → x.eff_way = w →
      ((x.info.ack_num : Int) - (g : Int)) % 2 ^ 32 < 2 ^ 31) :
    tcp_acks_ordered l w f := by
  intro x hx y hy hxa hya hxw hyw hxg hyg
  have h1 := (seqnum_gt_of_window _ _ g (hl x hx hxa hxw) hf).mp hxg
  have h2 := (seqnum_gt_of_window _ _ g (hl y hy hya hyw) hf).not.mp (by simp [hyg])
  rw [seqnum_gt_of_window _ _ g (hl x hx hxa hxw) (hl y hy hya hyw)]
  omega

theorem tcp_acks_ordered_mono (l l' : List tcp_segment) (w g : Nat) (h : ∀ x ∈ l, x ∈ l')
    (ho : tcp_acks_ordered l' w g) : tcp_acks_ordered l w g :=
  fun x hx y hy => ho x (h x hx) y (h y hy)

theorem tcp_ack_gt_seen_append (hist : List tcp_segment) (s : tcp_segment) (w f : Nat) :
    tcp_ack_gt_seen (hist ++ [s]) w f ↔ tcp_ack_gt_seen hist w f ∨
      (s.info.ack = true ∧ s.eff_way = w ∧ seqnum_gt s.info.ack_num f = true) := by
  simp only [tcp_ack_gt_seen, List.mem_append, List.mem_singleton]
  constructor
  · rintro ⟨x, hx | hx, h⟩
    · exact Or.inl ⟨x, hx, h⟩
    · subst hx; exact Or.inr h
  · rintro (⟨x, hx, h⟩ | h)
    · exact ⟨x, Or.inl hx, h⟩
    · exact ⟨s, Or.inr rfl, h⟩

theorem tcp_way_inv_congr {a b : tcp_subparser} (h : tcp_same_track a b)
    (hist : List tcp_segment) (w f g : Nat) (hi : tcp_way_inv hist a w f g) :
    tcp_way_inv hist b w f g := by
  obtain ⟨h1, h2, _, _, h5, h6, _, _⟩ := h
  unfold tcp_way_inv at *
  rw [← h1, ← h2, ← h5, ← h6]
  exact hi

theorem tcp_way_inv_fresh (t : tcp_subparser) (w f g : Nat) (h1 : t.fin = 0) (h2 : t.ack = 0) :
    tcp_way_inv [] t w f g := by
  unfold tcp_way_inv
  simp [h1, h2, IS_SET_FOR_WAY, tcp_fin_seen, tcp_ack_seen]

theorem tcp_fin_seen_append (hist : List tcp_segment) (s : tcp_segment) (w : Nat) :
    tcp_fin_seen (hist ++ [s]) w ↔ tcp_fin_seen hist w ∨ (s.info.fin = true ∧ s.eff_way = w) := by
  simp only [tcp_fin_seen, List.mem_append, List.mem_singleton]
  constructor
  · rintro ⟨x, hx | hx, h⟩
    · exact Or.inl ⟨x, hx, h⟩
    · subst hx; exact Or.inr h
  · rintro (⟨x, hx, h⟩ | h)
    · exact ⟨x, Or.inl hx, h⟩
    · exact ⟨s, Or.inr rfl, h⟩

theorem tcp_ack_seen_append (hist : List tcp_segment) (s : tcp_segment) (w : Nat) :
    tcp_ack_seen (hist ++ [s]) w ↔ tcp_ack_seen hist w ∨ (s.info.ack = true ∧ s.eff_way = w) := by
  simp only [tcp_ack_seen, List.mem_append, List.mem_singleton]
  constructor
  · rintro ⟨x, hx | hx, h⟩
    · exact Or.inl ⟨x, hx, h⟩
    · subst hx; exact Or.inr h
  · rintro (⟨x, hx, h⟩ | h)
    · exact ⟨x, Or.inl hx, h⟩
    · exact ⟨s, Or.inr rfl, h⟩

/-- The bookkeeping of one more segment keeps what a sub-parser records of a
direction. -/
theorem tcp_way_inv_step (env : tcp_env) (hist : List tcp_segment) (t : tcp_subparser)
    (s : tcp_segment) (w f g : Nat) (hw : w ≤ 1) (hv : s.eff_way ≤ 1)
    (hinv : tcp_way_inv hist t w f g)
    (hfin : s.info.fin = true → s.eff_way = w →
      u32_add s.info.seq_num s.info.info.payload = f)
    (hord : tcp_acks_ordered (hist ++ [s]) w g) :
    tcp_way_inv (hist ++ [s]) (tcp_parse_bookkeeping env t s.info s.eff_way) w f g := by
  obtain ⟨i1, i2, i3, i4⟩ := hinv
  obtain ⟨b1, b2, b3, b4, _⟩ := tcp_parse_bookkeeping_fields env t s.info s.eff_way
  unfold tcp_way_inv
  rw [b1, b2, b3, b4, tcp_fin_seen_append, tcp_ack_seen_append]
  refine ⟨?_, ?_, ?_, ?_⟩
  · -- fin bit
    by_cases hf : s.info.fin = true
    · rw [if_pos hf, IS_SET_FOR_WAY_SET _ _ _ hw]
      simp only [Bool.or_eq_true, decide_eq_true_eq, i1, hf, true_and]
    · rw [if_neg hf, i1]
      simp [hf]
  · -- fin_seqnum
    by_cases hf : s.info.fin = true
    · rw [if_pos hf, if_pos hf, IS_SET_FOR_WAY_SET _ _ _ hw, at2_upd2 _ _ _ _ hv hw]
      intro h
      by_cases hvw : s.eff_way = w
      · rw [if_pos hvw]; exact hfin hf hvw
      · rw [if_neg hvw]
        simp only [Bool.or_eq_true, decide_eq_true_eq, hvw, or_false] at h
        exact i2 h
    · rw [if_neg hf, if_neg hf]; exact i2
  · -- ack bit
    by_cases hc : (s.info.ack && (!IS_SET_FOR_WAY s.eff_way t.ack ||
          seqnum_gt s.info.ack_num (at2 t.max_acknum s.eff_way))) = true
    · rw [if_pos hc, IS_SET_FOR_WAY_SET _ _ _ hw]
      have ha : s.info.ack = true := by
        simp only [Bool.and_eq_true] at hc; exact hc.1
      simp only [Bool.or_eq_true, decide_eq_true_eq, i3, ha, true_and]
    · rw [if_neg hc, i3]
      constructor
      · intro h; exact Or.inl h
      · rintro (h | ⟨ha, hvw⟩)
        · exact h
        · rw [← i3]
          rw [ha, hvw] at hc
          simp only [Bool.true_and, Bool.or_eq_true, Bool.not_eq_true', not_or,
            Bool.not_eq_false] at hc
          exact hc.1
  · -- max_acknum
    rw [tcp_ack_gt_seen_append]
    by_cases hvw : s.eff_way = w
    · by_cases hc : (s.info.ack && (!IS_SET_FOR_WAY s.eff_way t.ack ||
          seqnum_gt s.info.ack_num (at2 t.max_acknum s.eff_way))) = true
      · rw [if_pos hc, if_pos hc, at2_upd2 _ _ _ _ hv hw, if_pos hvw]
        have ha : s.info.ack = true := by
          simp only [Bool.and_eq_true] at hc; exact hc.1
        intro _
        refine ⟨⟨s, by simp, ha, hvw, rfl⟩, ?_⟩
        rintro (⟨x, hx, hxa, hxw, hxg⟩ | ⟨_, _, hg⟩)
        · cases hsg : seqnum_gt s.info.ack_num g with
          | true => rfl
          | false =>
            exfalso
            have hset : IS_SET_FOR_WAY w t.ack = true := i3.mpr ⟨x, hx, hxa, hxw⟩
            obtain ⟨⟨m, hm, hma, hmw, hmn⟩, j2⟩ := i4 hset
            have hmg : seqnum_gt m.info.ack_num g = true := by
              rw [hmn]; exact j2 ⟨x, hx, hxa, hxw, hxg⟩
            have h1 := hord m (by simp [hm]) s (by simp) hma ha hmw hvw hmg hsg
            rw [ha, hvw, hset] at hc
            simp only [Bool.true_and, Bool.not_true, Bool.false_or] at hc
            rw [hmn] at h1
            rw [seqnum_gt_asymm _ _ hc] at h1
            cases h1
        · exact hg
      · rw [if_neg hc, if_neg hc]
        intro hset
        obtain ⟨⟨m, hm, hma, hmw, hmn⟩, j2⟩ := i4 hset
        refine ⟨⟨m, by simp [hm], hma, hmw, hmn⟩, ?_⟩
        rintro (h | ⟨ha, _, hg⟩)
        · exact j2 h
        · cases hmg : seqnum_gt (at2 t.max_acknum w) g with
          | true => rfl
          | false =>
            exfalso
            have h1 := hord s (by simp) m (by simp [hm]) ha hma hvw hmw hg (by rw [hmn]; exact hmg)
            rw [ha, hvw, hset] at hc
            simp only [Bool.true_and, Bool.not_true, Bool.false_or] at hc
            rw [hmn] at h1
            exact hc h1
    · have hmax : at2 (if (s.info.ack && (!IS_SET_FOR_WAY s.eff_way t.ack ||
          seqnum_gt s.info.ack_num (at2 t.max_acknum s.eff_way))) = true
          then upd2 t.max_acknum s.eff_way s.info.ack_num else t.max_acknum) w
          = at2 t.max_acknum w := by
        split_ifs
        · rw [at2_upd2 _ _ _ _ hv hw, if_neg hvw]
        · rfl
      have hbit : IS_SET_FOR_WAY w (if (s.info.ack && (!IS_SET_FOR_WAY s.eff_way t.ack ||
          seqnum_gt s.info.ack_num (at2 t.max_acknum s.eff_way))) = true
          then SET_FOR_WAY s.eff_way t.ack else t.ack) = IS_SET_FOR_WAY w t.ack := by
        split_ifs
        · rw [IS_SET_FOR_WAY_SET _ _ _ hw]; simp [hvw]
        · rfl
      rw [hmax, hbit]
      intro hset
      obtain ⟨⟨m, hm, hma, hmw, hmn⟩, j2⟩ := i4 hset
      refine ⟨⟨m, by simp [hm], hma, hmw, hmn⟩, ?_⟩
      rintro (h | ⟨_, hw', _⟩)
      · exact j2 h
      · exact absurd hw' hvw

/-- The fields of a decoded header that option parsing never writes. -/
theorem tcp_record_option_keeps (max_options : Nat) (info : tcp_proto_info) (kind : Nat) :
    (tcp_record_option max_options info kind).info = info.info ∧
    (tcp_record_option max_options info kind).key_port = info.key_port ∧
    (tcp_record_option max_options info kind).syn = info.syn ∧
    (tcp_record_option max_options info kind).ack = info.ack ∧
    (tcp_record_option max_options info kind).fin = info.fin ∧
    (tcp_record_option max_options info kind).ack_num = info.ack_num ∧
    (tcp_record_option max_options info kind).seq_num = info.seq_num := by
  unfold tcp_record_option
  split_ifs <;> simp

theorem parse_next_option_keeps (max_options : Nat) (info : tcp_proto_info) (addr : Nat)
    (options : List Nat) (rem_len : Nat) :
    (parse_next_option max_options info addr options rem_len).2.info = info.info ∧
    (parse_next_option max_options info addr options rem_len).2.key_port = info.key_port ∧
    (parse_next_option max_options info addr options rem_len).2.syn = info.syn ∧
    (parse_next_option max_options info addr options rem_len).2.ack = info.ack ∧
    (parse_next_option max_options info addr options rem_len).2.fin = info.fin ∧
    (parse_next_option max_options info addr options rem_len).2.ack_num = info.ack_num ∧
    (parse_next_option max_options info addr options rem_len).2.seq_num = info.seq_num := by
  obtain ⟨h1, h2, h3, h4, h5, h6, h7⟩ :=
    tcp_record_option_keeps max_options info (READ_U8 options 0)
  unfold parse_next_option
  simp only []
  repeat' split
  all_goals simp [h1, h2, h3, h4, h5, h6, h7]

theorem parse_tcp_options_keeps (max_options : Nat) (rem_len : Nat) :
    ∀ (info : tcp_proto_info) (addr : Nat) (options : List Nat),
    (parse_tcp_options max_options info addr options rem_len).2.info = info.info ∧
    (parse_tcp_options max_options info addr options rem_len).2.key_port = info.key_port ∧
    (parse_tcp_options max_options info addr options rem_len).2.syn = info.syn ∧
    (parse_tcp_options max_options info addr options rem_len).2.ack = info.ack ∧
    (parse_tcp_options max_options info addr options rem_len).2.fin = info.fin ∧
    (parse_tcp_options max_options info addr options rem_len).2.ack_num = info.ack_num ∧
    (parse_tcp_options max_options info addr options rem_len).2.seq_num = info.seq_num := by
  induction rem_len using Nat.strong_induction_on with
  | _ n ih =>
    intro info addr options
    rw [parse_tcp_options]
    by_cases h0 : n > 0
    · simp only [h0, dite_true]
      have hk := parse_next_option_keeps max_options info addr options n
      by_cases h1 : (parse_next_option max_options info addr options n).1 < 0
      · simp only [h1, dite_true]
        exact hk
      · simp only [h1, dite_false]
        have hle : 0 < (parse_next_option max_options info addr options n).1 ∧
            (parse_next_option max_options info addr options n).1 ≤ (n : Int) := by
          revert h1
          unfold parse_next_option
          simp only []
          repeat' split
          all_goals simp
          all_goals omega
        have hlt : size_sub n (parse_next_option max_options info addr options n).1.toNat < n := by
          simp only [size_sub]
          split <;> omega
        obtain ⟨i1, i2, i3, i4, i5, i6, i7⟩ := ih _ hlt
          (parse_next_option max_options info addr options n).2
          (addr + (parse_next_option max_options info addr options n).1.toNat)
          (options.drop (parse_next_option max_options info addr options n).1.toNat)
        obtain ⟨k1, k2, k3, k4, k5, k6, k7⟩ := hk
        exact ⟨i1.trans k1, i2.trans k2, i3.trans k3, i4.trans k4, i5.trans k5, i6.trans k6,
          i7.trans k7⟩
    · simp [h0]

/-- What a successful decoding of the header records of the lengths, the
sequence numbers and the flags. -/
theorem tcp_parse_header_fields (env : tcp_env) (packet : List Nat) (cap_len wire_len : Nat)
    (h : (tcp_parse_header env packet cap_len wire_len).1 = PROTO_OK) :
    TCP_HDR_LENGTH packet ≤ wire_len ∧
    (tcp_parse_header env packet cap_len wire_len).2.info.payload
      = wire_len - TCP_HDR_LENGTH packet ∧
    (tcp_parse_header env packet cap_len wire_len).2.seq_num = READ_U32N packet 4 ∧
    (tcp_parse_header env packet cap_len wire_len).2.ack_num = READ_U32N packet 8 ∧
    (tcp_parse_header env packet cap_len wire_len).2.syn
      = flag_set (READ_U8 packet 13) TCP_SYN_MASK ∧
    (tcp_parse_header env packet cap_len wire_len).2.ack
      = flag_set (READ_U8 packet 13) TCP_ACK_MASK ∧
    (tcp_parse_header env packet cap_len wire_len).2.fin
      = flag_set (READ_U8 packet 13) TCP_FIN_MASK := by
  unfold tcp_parse_header parse_tcp_proto_info at *
  split_ifs at h ⊢ with h1 h2 h3 h4 h5
  obtain ⟨i1, _, i3, i4, i5, i6, i7⟩ := parse_tcp_options_keeps env.MAX_OPTIONS
    (size_sub (TCP_HDR_LENGTH packet) TCP_HDR_SIZE)
    (tcp_proto_info_ctor env.info_uninit (TCP_HDR_LENGTH packet)
      (size_sub wire_len (TCP_HDR_LENGTH packet)) (READ_U16N packet 0) (READ_U16N packet 2) packet)
    (env.packet_addr + TCP_HDR_SIZE) (List.drop TCP_HDR_SIZE packet)
  simp only [] 
  rw [i1, i3, i4, i5, i6, i7]
  have : size_sub wire_len (TCP_HDR_LENGTH packet) = wire_len - TCP_HDR_LENGTH packet := by
    simp only [size_sub]; split <;> omega
  simp [tcp_proto_info_ctor, this]
  omega

/-- With what a sub-parser records of both directions, the termination test is
the closing of the flow. -/
theorem tcp_subparser_term_iff_closed (hist : List tcp_segment) (t : tcp_subparser)
    (f0 f1 : Nat) (h0 : tcp_way_inv hist t 0 f0 f1) (h1 : tcp_way_inv hist t 1 f1 f0) :
    tcp_subparser_term t = true ↔ tcp_closed hist f0 f1 := by
  obtain ⟨a1, a2, a3, a4⟩ := h0
  obtain ⟨b1, b2, b3, b4⟩ := h1
  have key : ∀ (w f : Nat), (IS_SET_FOR_WAY w t.ack = true ↔ tcp_ack_seen hist w) →
      (IS_SET_FOR_WAY w t.ack = true →
        (∃ s ∈ hist, s.info.ack = true ∧ s.eff_way = w ∧
          s.info.ack_num = at2 t.max_acknum w) ∧
        (tcp_ack_gt_seen hist w f → seqnum_gt (at2 t.max_acknum w) f = true)) →
      ((IS_SET_FOR_WAY w t.ack = true ∧ seqnum_gt (at2 t.max_acknum w) f = true) ↔
        tcp_ack_gt_seen hist w f) := by
    intro w f c3 c4
    constructor
    · rintro ⟨hs, hg⟩
      obtain ⟨⟨x, hx, hxa, hxw, hxn⟩, _⟩ := c4 hs
      exact ⟨x, hx, hxa, hxw, by rw [hxn]; exact hg⟩
    · rintro ⟨x, hx, hxa, hxw, hxg⟩
      have hs : IS_SET_FOR_WAY w t.ack = true := c3.mpr ⟨x, hx, hxa, hxw⟩
      exact ⟨hs, (c4 hs).2 ⟨x, hx, hxa, hxw, hxg⟩⟩
  have k1 := key 1 f0 b3 b4
  have k0 := key 0 f1 a3 a4
  unfold tcp_closed
  rw [← a1, ← b1, ← k1, ← k0]
  simp only [tcp_subparser_term, Bool.and_eq_true]
  constructor
  · rintro ⟨⟨⟨x1, x2⟩, x3⟩, ⟨⟨y1, y2⟩, y3⟩⟩
    rw [a2 x1] at x3
    rw [b2 y1] at y3
    exact ⟨x1, y1, ⟨x2, x3⟩, ⟨y2, y3⟩⟩
  · rintro ⟨x1, y1, ⟨x2, x3⟩, ⟨y2, y3⟩⟩
    rw [← a2 x1] at x3
    rw [← b2 y1] at y3
    exact ⟨⟨⟨x1, x2⟩, x3⟩, ⟨⟨y1, y2⟩, y3⟩⟩

/-- One more segment of a flow closing on the FIN sequence numbers `f0` (way 0)
and `f1` (way 1), when its header parses, its direction is 0 or 1, a
sub-parser can be created, its FIN carries the sequence number of its
direction, and the ACKs of each direction are ordered around the FIN sequence
number of the other direction. -/
theorem tcp_close_step (f0 f1 : Nat) (found : Option tcp_subparser) (hist : List tcp_segment)
    (s : tcp_segment)
    (hfound : match found with
      | none => hist = []
      | some t => tcp_way_inv hist t 0 f0 f1 ∧ tcp_way_inv hist t 1 f1 f0)
    (hok : s.status = PROTO_OK) (hway : s.eff_way ≤ 1)
    (hsub : found = none →
      lookup_or_create_tcp_subparser s.env none s.info s.eff_way ≠ none)
    (hfin : s.info.fin = true →
      u32_add s.info.seq_num s.info.info.payload = if s.eff_way = 0 then f0 else f1)
    (hord0 : tcp_acks_ordered (hist ++ [s]) 0 f1)
    (hord1 : tcp_acks_ordered (hist ++ [s]) 1 f0) :
    ∃ t, (tcp_parse_segment found s).tcp_sub = some t ∧
      tcp_way_inv (hist ++ [s]) t 0 f0 f1 ∧ tcp_way_inv (hist ++ [s]) t 1 f1 f0 ∧
      ((tcp_parse_segment found s).deindexed = true ↔ tcp_closed (hist ++ [s]) f0 f1) ∧
      (s.info.fin = true →
        at2 t.fin_seqnum s.eff_way = u32_add s.info.seq_num s.info.info.payload) := by
  have main : ∀ sub, lookup_or_create_tcp_subparser s.env found s.info s.eff_way = some sub →
      tcp_way_inv hist sub 0 f0 f1 → tcp_way_inv hist sub 1 f1 f0 →
      ∃ t, (tcp_parse_segment found s).tcp_sub = some t ∧
      tcp_way_inv (hist ++ [s]) t 0 f0 f1 ∧ tcp_way_inv (hist ++ [s]) t 1 f1 f0 ∧
      ((tcp_parse_segment found s).deindexed = true ↔ tcp_closed (hist ++ [s]) f0 f1) ∧
      (s.info.fin = true →
        at2 t.fin_seqnum s.eff_way = u32_add s.info.seq_num s.info.info.payload) := by
    intro sub hl i0 i1
    obtain ⟨t, ht, htr, hd⟩ := tcp_parse_track s.env found s.parent s.way s.packet s.cap_len
      s.wire_len sub hok hl
    have j0 : tcp_way_inv (hist ++ [s]) (tcp_parse_bookkeeping s.env sub s.info s.eff_way)
        0 f0 f1 :=
      tcp_way_inv_step s.env hist sub s 0 f0 f1 (by omega) hway i0
        (fun hf hw => by rw [hfin hf, if_pos hw]) hord0
    have j1 : tcp_way_inv (hist ++ [s]) (tcp_parse_bookkeeping s.env sub s.info s.eff_way)
        1 f1 f0 :=
      tcp_way_inv_step s.env hist sub s 1 f1 f0 (by omega) hway i1
        (fun hf hw => by rw [hfin hf, if_neg (by omega)]) hord1
    refine ⟨t, ht, tcp_way_inv_congr (tcp_same_track_symm htr) _ _ _ _ j0,
      tcp_way_inv_congr (tcp_same_track_symm htr) _ _ _ _ j1, ?_, ?_⟩
    · show (tcp_parse s.env found s.parent s.way s.packet s.cap_len s.wire_len).deindexed = true ↔ _
      rw [hd]
      exact tcp_subparser_term_iff_closed _ _ _ _ j0 j1
    · intro hf
      obtain ⟨_, _, _, _, h5, _⟩ := htr
      obtain ⟨_, _, _, b4, _⟩ := tcp_parse_bookkeeping_fields s.env sub s.info s.eff_way
      rw [h5]
      show at2 (tcp_parse_bookkeeping s.env sub s.info s.eff_way).fin_seqnum s.eff_way = _
      rw [b4, if_pos hf, at2_upd2 _ _ _ _ hway hway, if_pos rfl]
  cases found with
  | none =>
    simp only at hfound
    subst hfound
    obtain ⟨sub, hl⟩ := Option.ne_none_iff_exists'.mp (hsub rfl)
    obtain ⟨g1, g2, _, _⟩ := lookup_created_fresh s.env _ _ sub hl
    exact main sub hl (tcp_way_inv_fresh sub 0 f0 f1 g1 g2) (tcp_way_inv_fresh sub 1 f1 f0 g1 g2)
  | some t0 =>
    simp only at hfound
    obtain ⟨sub, hl, htr, _⟩ := lookup_found_track s.env t0 s.info s.eff_way
    exact main sub hl (tcp_way_inv_congr (tcp_same_track_symm htr) _ _ _ _ hfound.1)
      (tcp_way_inv_congr (tcp_same_track_symm htr) _ _ _ _ hfound.2)

theorem tcp_closed_mono (l l' : List tcp_segment) (f0 f1 : Nat) (h : ∀ x ∈ l, x ∈ l')
    (hc : tcp_closed l f0 f1) : tcp_closed l' f0 f1 := by
  obtain ⟨⟨a, ha, ha'⟩, ⟨b, hb, hb'⟩, ⟨c, hc, hc'⟩, ⟨d, hd, hd'⟩⟩ := hc
  exact ⟨⟨a, h a ha, ha'⟩, ⟨b, h b hb, hb'⟩, ⟨c, h c hc, hc'⟩, ⟨d, h d hd, hd'⟩⟩

theorem tcp_close_run (f0 f1 : Nat) :
    ∀ (rest hist : List tcp_segment) (found : Option tcp_subparser) (s : tcp_segment),
    (match found with
      | none => hist = []
      | some t => tcp_way_inv hist t 0 f0 f1 ∧ tcp_way_inv hist t 1 f1 f0) →
    (∀ x ∈ rest ++ [s], x.status = PROTO_OK) →
    (∀ x ∈ rest ++ [s], x.eff_way ≤ 1) →
    (found = none → ∀ x, (rest ++ [s]).head? = some x →
      lookup_or_create_tcp_subparser x.env none x.info x.eff_way ≠ none) →
    (∀ x ∈ rest ++ [s], x.info.fin = true →
      u32_add x.info.seq_num x.info.info.payload = if x.eff_way = 0 then f0 else f1) →
    tcp_acks_ordered (hist ++ (rest ++ [s])) 0 f1 →
    tcp_acks_ordered (hist ++ (rest ++ [s])) 1 f0 →
    ¬ tcp_closed (hist ++ rest) f0 f1 →
    ∃ r t, (tcp_flow found (rest ++ [s])).getLast? = some r ∧ r.tcp_sub = some t ∧
      (∀ q ∈ (tcp_flow found (rest ++ [s])).dropLast, q.deindexed = false) ∧
      (r.deindexed = true ↔ tcp_closed (hist ++ rest ++ [s]) f0 f1) ∧
      (s.info.fin = true →
        at2 t.fin_seqnum s.eff_way = u32_add s.info.seq_num s.info.info.payload) := by
  intro rest
  induction rest with
  | nil =>
    intro hist found s hfound hok hway hsub hfin hord0 hord1 hopen
    obtain ⟨t, ht, _, _, hd, hf⟩ := tcp_close_step f0 f1 found hist s hfound
      (hok s (by simp)) (hway s (by simp)) (fun hn => hsub hn s (by simp)) (hfin s (by simp))
      (by simpa using hord0) (by simpa using hord1)
    refine ⟨tcp_parse_segment found s, t, by simp [tcp_flow], ht, by simp [tcp_flow], ?_, hf⟩
    simpa using hd
  | cons x rest ih =>
    intro hist found s hfound hok hway hsub hfin hord0 hord1 hopen
    obtain ⟨tx, htx, i0, i1, hdx, _⟩ := tcp_close_step f0 f1 found hist x hfound
      (hok x (by simp)) (hway x (by simp)) (fun hn => hsub hn x (by simp)) (hfin x (by simp))
      (tcp_acks_ordered_mono _ _ 0 f1 (by intro y hy; simp at hy ⊢; tauto) hord0)
      (tcp_acks_ordered_mono _ _ 1 f0 (by intro y hy; simp at hy ⊢; tauto) hord1)
    have hnx : ¬ tcp_closed (hist ++ [x]) f0 f1 := by
      intro hc
      apply hopen
      exact tcp_closed_mono _ _ f0 f1 (by intro y hy; simp at hy ⊢; tauto) hc
    have hdx' : (tcp_parse_segment found x).deindexed = false := by
      cases h : (tcp_parse_segment found x).deindexed with
      | false => rfl
      | true => exact absurd (hdx.mp h) hnx
    have hmux : tcp_mux_after found (tcp_parse_segment found x) = some tx := by
      simp [tcp_mux_after, htx, hdx']
    have hcx : (tcp_parse_segment found x).crashed = false :=
      tcp_parse_returned_of_sub x.env found x.parent x.way x.packet x.cap_len x.wire_len tx htx
    have hopen' : ¬ tcp_closed ((hist ++ [x]) ++ rest) f0 f1 := by
      simpa using hopen
    obtain ⟨r, t, h1, h2, h3, h4, h5⟩ := ih (hist ++ [x]) (some tx) s ⟨i0, i1⟩
      (fun y hy => hok y (by simp at hy ⊢; tauto))
      (fun y hy => hway y (by simp at hy ⊢; tauto))
      (fun hn => by cases hn)
      (fun y hy => hfin y (by simp at hy ⊢; tauto))
      (tcp_acks_ordered_mono _ _ 0 f1 (by intro y hy; simp at hy ⊢; tauto) hord0)
      (tcp_acks_ordered_mono _ _ 1 f0 (by intro y hy; simp at hy ⊢; tauto) hord1) hopen'
    have hne : tcp_flow (some tx) (rest ++ [s]) ≠ [] := by
      intro h; rw [h] at h1; simp at h1
    have hflow : tcp_flow found (x :: rest ++ [s]) =
        tcp_parse_segment found x :: tcp_flow (some tx) (rest ++ [s]) := by
      show tcp_flow found (x :: (rest ++ [s])) = _
      rw [tcp_flow]
      simp only [hmux, hcx, Bool.false_eq_true, if_false]
    obtain ⟨y, ys, hL⟩ := List.exists_cons_of_ne_nil hne
    rw [hflow, hL]
    rw [hL] at h1 h3
    refine ⟨r, t, ?_, h2, ?_, ?_, h5⟩
    · rw [List.getLast?_cons_cons]
      exact h1
    · intro q hq
      simp only [List.dropLast, List.mem_cons] at hq
      rcases hq with hq | hq
      · rw [hq]; exact hdx'
      · exact h3 q hq
    · simpa using h4

theorem tcp_segment_plain (x : tcp_segment) (h1 : 20 ≤ x.wire_len) (h2 : 20 ≤ x.cap_len)
    (h3 : TCP_HDR_LENGTH x.packet = 20) :
    x.status = PROTO_OK ∧
    x.info = tcp_proto_info_ctor x.env.info_uninit 20 (x.wire_len - 20)
      (READ_U16N x.packet 0) (READ_U16N x.packet 2) x.packet := by
  unfold tcp_segment.status tcp_segment.info
  rw [tcp_parse_header_plain _ _ _ _ h1 h2 h3]
  exact ⟨rfl, rfl⟩

theorem seqnum_gt_self (a : Nat) : seqnum_gt a a = false := by
  cases h : seqnum_gt a a with
  | false => rfl
  | true =>
    rw [seqnum_gt_iff] at h
    simp at h

/-- C4, amended: take a flow, starting with no sub-parser in the mux, whose
segments all parse, travel in way 0 or 1 and find or get a sub-parser, in
which every FIN of way w has `(seq_num + payload length) mod 2^32 = f_w` and
the ACKs of each way are ordered around the FIN sequence number of the other
way: an `ack_num` that is above it is also above every `ack_num` of the same
way that is not above it (all comparisons modulo 2^32, as `seqnum_gt` makes
them). As long as the segments seen do not contain both FINs, an ACK in way 1
with `ack_num > f0` and an ACK in way 0 with `ack_num > f1`, no call of
`tcp_parse` deindexes the sub-parser; the call on the next segment `s`
deindexes it iff they do once `s` is counted. A FIN segment leaves
`fin_seqnum[way] = (seq_num + wire_len - tcphdr_len) mod 2^32`, and a flow
whose ACKs in one way all carry exactly the FIN sequence number of the other
way is not terminated. -/
theorem tcp_clean_close (pre : List tcp_segment) (s : tcp_segment) (f0 f1 : Nat)
    (hok : ∀ x ∈ pre ++ [s], x.status = PROTO_OK)
    (hway : ∀ x ∈ pre ++ [s], x.eff_way ≤ 1)
    (hsub : ∀ x, (pre ++ [s]).head? = some x →
      lookup_or_create_tcp_subparser x.env none x.info x.eff_way ≠ none)
    (hfin : ∀ x ∈ pre ++ [s], x.info.fin = true →
      (READ_U32N x.packet 4 + (x.wire_len - TCP_HDR_LENGTH x.packet)) % 2 ^ 32
        = if x.eff_way = 0 then f0 else f1)
    (hord0 : tcp_acks_ordered (pre ++ [s]) 0 f1)
    (hord1 : tcp_acks_ordered (pre ++ [s]) 1 f0)
    (hopen : ¬ tcp_closed pre f0 f1) :
    ∃ r t, (tcp_flow none (pre ++ [s])).getLast? = some r ∧ r.tcp_sub = some t ∧
      (∀ q ∈ (tcp_flow none (pre ++ [s])).dropLast, q.deindexed = false) ∧
      (r.deindexed = true ↔ tcp_closed (pre ++ [s]) f0 f1) ∧
      (s.info.fin = true → at2 t.fin_seqnum s.eff_way =
        (READ_U32N s.packet 4 + (s.wire_len - TCP_HDR_LENGTH s.packet)) % 2 ^ 32) ∧
      ((∀ x ∈ pre ++ [s], x.info.ack = true → x.eff_way = 1 → x.info.ack_num = f0) →
        r.deindexed = false) ∧
      ((∀ x ∈ pre ++ [s], x.info.ack = true → x.eff_way = 0 → x.info.ack_num = f1) →
        r.deindexed = false) := by
  have hseq : ∀ x ∈ pre ++ [s], u32_add x.info.seq_num x.info.info.payload =
      (READ_U32N x.packet 4 + (x.wire_len - TCP_HDR_LENGTH x.packet)) % 2 ^ 32 := by
    intro x hx
    obtain ⟨_, h2, h3, _⟩ := tcp_parse_header_fields x.env x.packet x.cap_len x.wire_len
      (hok x hx)
    show u32_add (tcp_parse_header x.env x.packet x.cap_len x.wire_len).2.seq_num
      (tcp_parse_header x.env x.packet x.cap_len x.wire_len).2.info.payload = _
    rw [h2, h3]
    rfl
  obtain ⟨r, t, h1, h2, h3, h4, h5⟩ := tcp_close_run f0 f1 pre [] none s rfl hok hway
    (fun _ => hsub)
    (fun x hx hf => by rw [hseq x hx]; exact hfin x hx hf) (by simpa using hord0) (by simpa using hord1)
    (by simpa using hopen)
  simp only [List.nil_append] at h4
  refine ⟨r, t, h1, h2, h3, h4, ?_, ?_, ?_⟩
  · intro hf
    rw [h5 hf, hseq s (by simp)]
  · intro hall
    cases hd : r.deindexed with
    | false => rfl
    | true =>
      obtain ⟨_, _, ⟨x, hx, hxa, hxw, hxg⟩, _⟩ := h4.mp hd
      rw [hall x hx hxa hxw, seqnum_gt_self] at hxg
      cases hxg
  · intro hall
    cases hd : r.deindexed with
    | false => rfl
    | true =>
      obtain ⟨_, _, _, ⟨x, hx, hxa, hxw, hxg⟩⟩ := h4.mp hd
      rw [hall x hx hxa hxw, seqnum_gt_self] at hxg
      cases hxg

/-- C4, as stated, fails: in this flow way 0 sends a FIN (sequence number 100,
no payload), way 1 acknowledges it with `ack_num = 101`, then sends its own FIN
(500) with `ack_num = 2^31 + 100`, and way 0 acknowledges that FIN with 501.
After the fourth segment an ACK in way 1 above 100 and an ACK in way 0 above
500 have both been seen, and `fin_seqnum` is (100, 500); yet no call
deindexes the sub-parser, because `max_acknum[1]` has moved to 2^31 + 100,
which is not above 100 modulo 2^32. -/
theorem tcp_clean_close_fails :
    sample_overshoot_flow.map (fun x => (x.status, x.eff_way, x.info.fin, x.info.ack,
        x.info.seq_num, x.info.info.payload, x.info.ack_num)) =
      [(PROTO_OK, 0, true, false, 100, 0, 0), (PROTO_OK, 1, false, true, 500, 0, 101),
       (PROTO_OK, 1, true, true, 500, 0, 2147483748), (PROTO_OK, 0, false, true, 101, 0, 501)] ∧
    seqnum_gt 101 (100 + 0) = true ∧ seqnum_gt 501 (500 + 0) = true ∧
    (tcp_flow none sample_overshoot_flow).map
        (fun r => (r.deindexed, r.tcp_sub.map (fun t => (t.fin_seqnum, t.max_acknum)))) =
      [(false, some ((100, 0), (0, 0))), (false, some ((100, 0), (0, 101))),
       (false, some ((100, 500), (0, 2147483748))),
       (false, some ((100, 500), (501, 2147483748)))] := by
  refine ⟨?_, by decide, by decide, ?_⟩
  · simp +decide only [sample_overshoot_flow, tcp_segment.status, tcp_segment.info,
      tcp_segment.eff_way, sample_segment, tcp_parse_header_plain, List.map]
    rfl
  · simp +decide only [sample_overshoot_flow, tcp_flow, tcp_parse_segment, tcp_parse,
      sample_segment, tcp_parse_header_plain, List.map]

theorem tcp_clean_close_witness :
    ∃ r t, (tcp_flow none (sample_long_close_pre ++ [sample_long_close_last])).getLast? = some r ∧
      r.tcp_sub = some t ∧
      (∀ q ∈ (tcp_flow none (sample_long_close_pre ++ [sample_long_close_last])).dropLast,
        q.deindexed = false) ∧
      (r.deindexed = true ↔
        tcp_closed (sample_long_close_pre ++ [sample_long_close_last]) 2000000003 500) ∧
      (sample_long_close_last.info.fin = true →
        at2 t.fin_seqnum sample_long_close_last.eff_way =
        (READ_U32N sample_long_close_last.packet 4 +
          (sample_long_close_last.wire_len -
            TCP_HDR_LENGTH sample_long_close_last.packet)) % 2 ^ 32) ∧
      ((∀ x ∈ sample_long_close_pre ++ [sample_long_close_last],
          x.info.ack = true → x.eff_way = 1 → x.info.ack_num = 2000000003) →
        r.deindexed = false) ∧
      ((∀ x ∈ sample_long_close_pre ++ [sample_long_close_last],
          x.info.ack = true → x.eff_way = 0 → x.info.ack_num = 500) → r.deindexed = false) :=
  tcp_clean_close sample_long_close_pre sample_long_close_last 2000000003 500
    (by
      simp +decide only [sample_long_close_pre, sample_long_close_last, List.cons_append,
        List.nil_append, List.forall_mem_cons, tcp_segment.status, sample_segment,
        tcp_parse_header_plain])
    (by
      simp +decide only [sample_long_close_pre, sample_long_close_last, List.cons_append,
        List.nil_append, List.forall_mem_cons, tcp_segment.eff_way, sample_segment])
    (by
      intro x hx
      simp only [sample_long_close_pre, List.cons_append, List.head?_cons,
        Option.some.injEq] at hx
      subst hx
      decide)
    (by
      simp +decide only [sample_long_close_pre, sample_long_close_last, List.cons_append,
        List.nil_append, List.forall_mem_cons, tcp_segment.eff_way, tcp_segment.info,
        sample_segment, tcp_parse_header_plain])
    (tcp_acks_ordered_of_window _ 0 500 500 (by decide) (by
      simp +decide only [sample_long_close_pre, sample_long_close_last, List.cons_append,
        List.nil_append, List.forall_mem_cons, tcp_segment.eff_way, tcp_segment.info,
        sample_segment, tcp_parse_header_plain]))
    (tcp_acks_ordered_of_window _ 1 2000000003 1000 (by decide) (by
      simp +decide only [sample_long_close_pre, sample_long_close_last, List.cons_append,
        List.nil_append, List.forall_mem_cons, tcp_segment.eff_way, tcp_segment.info,
        sample_segment, tcp_parse_header_plain]))
    (by
      rintro ⟨_, _, _, x, hx, ha, hw, hg⟩
      simp only [sample_long_close_pre, List.mem_cons, List.mem_singleton, List.not_mem_nil,
        or_false] at hx
      rcases hx with rfl | rfl | rfl | rfl
      · revert hw
        decide
      · rw [(tcp_segment_plain _ (by decide) (by decide) (by decide)).2] at hg
        revert hg
        decide
      · revert hw
        decide
      · revert hw
        decide)

/-- The flow `sample_overshoot_flow` is the one that the ordering excludes:
among the ACKs of way 1, 101 is above the FIN sequence number 100 of way 0,
2^31 + 100 is not, and yet 101 is not above 2^31 + 100. -/
theorem sample_overshoot_flow_unordered : ¬ tcp_acks_ordered sample_overshoot_flow 1 100 := by
  intro h
  have h1 := h (sample_segment 1 (sample_tcp_packet 80 40000 500 101 16 []))
    (by simp [sample_overshoot_flow])
    (sample_segment 1 (sample_tcp_packet 80 40000 500 2147483748 17 []))
    (by simp [sample_overshoot_flow])
  rw [(tcp_segment_plain _ (by decide) (by decide) (by decide)).2,
    (tcp_segment_plain _ (by decide) (by decide) (by decide)).2] at h1
  revert h1
  decide

/-! ## Header validation -/

/-- C7, as stated, fails: a packet of which only 10 bytes are captured, whose
header says version 6, is answered PROTO_TOO_SHORT and not PROTO_PARSE_ERR. -/
theorem ip_parse_short_capture_first :
    ip_hdr_version (sample_ip_packet 6 5 40 1 0 0 6 []) ≠ 4 ∧
    (ip_parse sample_ip_env [] 0 0 (sample_ip_packet 6 5 40 1 0 0 6 []) 10 100).status
      = PROTO_TOO_SHORT := by
  decide

/-- C7, amended: `ip_parse` answers PROTO_TOO_SHORT when less than the 20 bytes
of the fixed header are captured, whatever the header; when they are captured
it answers PROTO_PARSE_ERR if the version is not 4, or total_length > wire_len,
or ihl*4 > total_length; and when none of these holds and the captured length
is short of ihl*4 it answers PROTO_TOO_SHORT. -/
theorem ip_parse_header_validation (env : ip_env) (ip_subprotos : List ip_subproto)
    (target way : Nat) (packet : List Nat) (cap_len wire_len : Nat) :
    (cap_len < 20 →
      (ip_parse env ip_subprotos target way packet cap_len wire_len).status
        = PROTO_TOO_SHORT) ∧
    (20 ≤ cap_len →
      (ip_hdr_version packet ≠ 4 ∨ ip_hdr_tot_len packet > wire_len ∨
        ip_hdr_hdr_len packet * 4 > ip_hdr_tot_len packet) →
      (ip_parse env ip_subprotos target way packet cap_len wire_len).status
        = PROTO_PARSE_ERR) ∧
    (ip_hdr_version packet = 4 → ip_hdr_tot_len packet ≤ wire_len →
      ip_hdr_hdr_len packet * 4 ≤ ip_hdr_tot_len packet →
      cap_len < ip_hdr_hdr_len packet * 4 →
      (ip_parse env ip_subprotos target way packet cap_len wire_len).status
        = PROTO_TOO_SHORT) := by
  unfold ip_parse
  simp only [IP_HDR_SIZE]
  refine ⟨?_, ?_, ?_⟩
  · intro h
    simp [h]
  · intro h hor
    have h' : ¬ cap_len < 20 := by omega
    rw [if_neg h']
    by_cases h1 : ip_hdr_tot_len packet > wire_len
    · rw [if_pos h1]
    · rw [if_neg h1]
      by_cases h2 : ip_hdr_version packet ≠ 4
      · rw [if_pos h2]
      · rw [if_neg h2]
        by_cases h3 : ip_hdr_hdr_len packet * 4 > ip_hdr_tot_len packet
        · rw [if_pos h3]
        · exfalso; rcases hor with h | h | h <;> omega
  · intro hv ht hh hc
    by_cases h : cap_len < 20
    · simp [h]
    · have h1 : ¬ ip_hdr_tot_len packet > wire_len := by omega
      have h3 : ¬ ip_hdr_hdr_len packet * 4 > ip_hdr_tot_len packet := by omega
      have h4 : ip_hdr_hdr_len packet * 4 > cap_len := hc
      simp [h, h1, hv, h3, h4]

theorem ip_parse_header_validation_witness :
    (ip_parse sample_ip_env [] 0 0 (sample_ip_packet 4 15 100 1 0 0 6 []) 30 100).status
      = PROTO_TOO_SHORT ∧
    (ip_parse sample_ip_env [] 0 0 (sample_ip_packet 5 15 100 1 0 0 6 []) 30 100).status
      = PROTO_PARSE_ERR :=
  ⟨(ip_parse_header_validation sample_ip_env [] 0 0 (sample_ip_packet 4 15 100 1 0 0 6 [])
      30 100).2.2 (by decide) (by decide) (by decide) (by decide),
   (ip_parse_header_validation sample_ip_env [] 0 0 (sample_ip_packet 5 15 100 1 0 0 6 [])
      30 100).2.1 (by decide) (Or.inl (by decide))⟩

/-- C8, as stated, fails: with 30 bytes on the wire, 15 captured and a header
length of 40 (> wire_len), `parse_tcp_proto_info` and `tcp_parse` answer
PROTO_TOO_SHORT and not PROTO_PARSE_ERR. -/
theorem parse_tcp_short_capture_first :
    ¬ (30 < 20) ∧
    TCP_HDR_LENGTH [0, 80, 0, 81, 0, 0, 0, 100, 0, 0, 0, 0, 160, 16, 0] = 40 ∧ 40 > 30 ∧
    (parse_tcp_proto_info 8 sample_info 15 30 0
      [0, 80, 0, 81, 0, 0, 0, 100, 0, 0, 0, 0, 160, 16, 0] 40).1 = PROTO_TOO_SHORT ∧
    (tcp_parse sample_env none none 0
      [0, 80, 0, 81, 0, 0, 0, 100, 0, 0, 0, 0, 160, 16, 0] 15 30).status = PROTO_TOO_SHORT := by
  refine ⟨by decide, by decide, by decide, by decide, ?_⟩
  have h : (tcp_parse_header sample_env [0, 80, 0, 81, 0, 0, 0, 100, 0, 0, 0, 0, 160, 16, 0]
      15 30).1 = PROTO_TOO_SHORT := by decide
  rw [tcp_parse_of_error _ _ _ _ _ _ _ (by rw [h]; decide)]
  exact h

/-- C8, amended: `parse_tcp_proto_info`, and `tcp_parse` with it, answers
PROTO_PARSE_ERR if wire_len < 20, or if at least 20 bytes are captured and
tcphdr_len > wire_len; it answers PROTO_TOO_SHORT if wire_len >= 20 and less
than 20 bytes are captured (whatever tcphdr_len), and if neither wire_len < 20
nor tcphdr_len > wire_len holds and the captured length is shorter than the
TCP header. -/
theorem parse_tcp_proto_info_validation (max_options : Nat) (info : tcp_proto_info)
    (cap_len wire_len addr : Nat) (tcphdr : List Nat) (tcphdr_len : Nat) (env : tcp_env)
    (found : Option tcp_subparser) (parent : Option (ip_addr × ip_addr)) (way : Nat) :
    ((wire_len < 20 ∨ (20 ≤ cap_len ∧ tcphdr_len > wire_len)) →
      (parse_tcp_proto_info max_options info cap_len wire_len addr tcphdr tcphdr_len).1
        = PROTO_PARSE_ERR) ∧
    (((20 ≤ wire_len ∧ cap_len < 20) ∨
        (20 ≤ wire_len ∧ tcphdr_len ≤ wire_len ∧ cap_len < tcphdr_len)) →
      (parse_tcp_proto_info max_options info cap_len wire_len addr tcphdr tcphdr_len).1
        = PROTO_TOO_SHORT) ∧
    ((wire_len < 20 ∨ (20 ≤ cap_len ∧ TCP_HDR_LENGTH tcphdr > wire_len)) →
      (tcp_parse env found parent way tcphdr cap_len wire_len).status = PROTO_PARSE_ERR) ∧
    (((20 ≤ wire_len ∧ cap_len < 20) ∨
        (20 ≤ wire_len ∧ TCP_HDR_LENGTH tcphdr ≤ wire_len ∧ cap_len < TCP_HDR_LENGTH tcphdr)) →
      (tcp_parse env found parent way tcphdr cap_len wire_len).status = PROTO_TOO_SHORT) := by
  have p1 : ∀ (m : Nat) (i : tcp_proto_info) (a l : Nat),
      (wire_len < 20 ∨ (20 ≤ cap_len ∧ l > wire_len)) →
      (parse_tcp_proto_info m i cap_len wire_len a tcphdr l).1 = PROTO_PARSE_ERR := by
    intro m i a l h
    unfold parse_tcp_proto_info
    simp only [TCP_HDR_SIZE]
    by_cases h1 : wire_len < 20
    · rw [if_pos h1]
    · rw [if_neg h1]
      have h2 : ¬ cap_len < 20 := by omega
      rw [if_neg h2]
      by_cases h3 : l < 20
      · rw [if_pos h3]
      · rw [if_neg h3]
        have h4 : l > wire_len := by omega
        rw [if_pos h4]
  have p2 : ∀ (m : Nat) (i : tcp_proto_info) (a l : Nat),
      ((20 ≤ wire_len ∧ cap_len < 20) ∨ (20 ≤ wire_len ∧ l ≤ wire_len ∧ cap_len < l)) →
      (parse_tcp_proto_info m i cap_len wire_len a tcphdr l).1 = PROTO_TOO_SHORT := by
    intro m i a l h
    unfold parse_tcp_proto_info
    simp only [TCP_HDR_SIZE]
    have h1 : ¬ wire_len < 20 := by omega
    rw [if_neg h1]
    by_cases h2 : cap_len < 20
    · rw [if_pos h2]
    · rw [if_neg h2]
      have h3 : ¬ l < 20 := by omega
      have h4 : ¬ l > wire_len := by omega
      have h5 : l > cap_len := by omega
      rw [if_neg h3, if_neg h4, if_pos h5]
  refine ⟨p1 _ _ _ _, p2 _ _ _ _, ?_, ?_⟩
  · intro h
    have e := p1 env.MAX_OPTIONS env.info_uninit env.packet_addr (TCP_HDR_LENGTH tcphdr) h
    have e' : (tcp_parse_header env tcphdr cap_len wire_len).1 = PROTO_PARSE_ERR := e
    rw [tcp_parse_of_error _ _ _ _ _ _ _ (by rw [e']; decide)]
    exact e'
  · intro h
    have e := p2 env.MAX_OPTIONS env.info_uninit env.packet_addr (TCP_HDR_LENGTH tcphdr) h
    have e' : (tcp_parse_header env tcphdr cap_len wire_len).1 = PROTO_TOO_SHORT := e
    rw [tcp_parse_of_error _ _ _ _ _ _ _ (by rw [e']; decide)]
    exact e'

theorem parse_tcp_proto_info_validation_witness :
    (parse_tcp_proto_info 8 sample_info 30 30 0
      [0, 80, 0, 81, 0, 0, 0, 100, 0, 0, 0, 0, 160, 16, 0] 40).1 = PROTO_PARSE_ERR ∧
    (tcp_parse sample_env none none 0
      [0, 80, 0, 81, 0, 0, 0, 100, 0, 0, 0, 0, 160, 16, 0] 30 50).status = PROTO_TOO_SHORT :=
  ⟨(parse_tcp_proto_info_validation 8 sample_info 30 30 0
      [0, 80, 0, 81, 0, 0, 0, 100, 0, 0, 0, 0, 160, 16, 0] 40 sample_env none none 0).1
      (Or.inr ⟨by decide, by decide⟩),
   (parse_tcp_proto_info_validation 8 sample_info 30 50 0
      [0, 80, 0, 81, 0, 0, 0, 100, 0, 0, 0, 0, 160, 16, 0] 40 sample_env none none 0).2.2.2
      (Or.inr ⟨by decide, by decide, by decide⟩)⟩

/-! ## Best-effort propagation -/

theorem ip_parse_fragment_status (env : ip_env) (info : ip_proto_info) (subparser : ip_subparser)
    (target way : Nat) (packet : List Nat) (cap_len wire_len iphdr_len : Nat) :
    (ip_parse_fragment env info subparser target way packet cap_len wire_len iphdr_len).status
      = PROTO_OK := by
  unfold ip_parse_fragment
  simp only []
  split
  · rfl
  · split_ifs <;> rfl

theorem ip_parse_of_valid (env : ip_env) (ip_subprotos : List ip_subproto)
    (target way : Nat) (packet : List Nat) (cap_len wire_len : Nat)
    (h : ip_parse_valid packet cap_len wire_len) :
    ip_parse env ip_subprotos target way packet cap_len wire_len =
      ip_parse_dispatch env ip_subprotos target way packet cap_len wire_len := by
  obtain ⟨h0, h1, h2, h3, h4⟩ := h
  unfold ip_parse
  have e0 : ¬ cap_len < IP_HDR_SIZE := by simp only [IP_HDR_SIZE]; omega
  have e1 : ¬ ip_hdr_tot_len packet > wire_len := by omega
  have e2 : ¬ ip_hdr_version packet ≠ 4 := by simp [h2]
  have e3 : ¬ ip_hdr_hdr_len packet * 4 > ip_hdr_tot_len packet := by omega
  have e4 : ¬ ip_hdr_hdr_len packet * 4 > cap_len := by omega
  rw [if_neg e0]
  simp only []
  rw [if_neg e1, if_neg e2, if_neg e3, if_neg e4]

theorem ip_parse_dispatch_status (env : ip_env) (ip_subprotos : List ip_subproto)
    (target way : Nat) (packet : List Nat) (cap_len wire_len : Nat) :
    (ip_parse_dispatch env ip_subprotos target way packet cap_len wire_len).status
      = PROTO_OK := by
  unfold ip_parse_dispatch
  simp only []
  split
  · rfl
  · split_ifs
    · exact ip_parse_fragment_status _ _ _ _ _ _ _ _ _
    · rfl
    · rfl

/-- The part of C9 that holds: a packet that passes the sanity checks of
`ip_parse` is answered PROTO_OK whatever the sub-protocol lookup, the slot
lookup, the wait-list or the child parser answer; when no sub-parser is found,
when the child rejects the payload, when no reassembly slot is obtained or when
the wait-list refuses the fragment, the last call is the info-only delivery of
the packet with a null parser. `tcp_parse`, when it returns, answers PROTO_OK
whenever `parse_tcp_proto_info` answered PROTO_OK, and it answers exactly the
status of `parse_tcp_proto_info` otherwise (it then always returns). -/
theorem parse_best_effort_of_return (ienv : ip_env) (ip_subprotos : List ip_subproto)
    (target way : Nat) (packet : List Nat) (cap_len wire_len : Nat)
    (env : tcp_env) (found : Option tcp_subparser) (parent : Option (ip_addr × ip_addr)) :
    (ip_parse_valid packet cap_len wire_len →
      (ip_parse ienv ip_subprotos target way packet cap_len wire_len).status = PROTO_OK ∧
      (ip_parse_subparser ienv ip_subprotos packet = none →
        (ip_parse ienv ip_subprotos target way packet cap_len wire_len).calls =
          [ip_info_only_call ienv ip_subprotos packet cap_len wire_len]) ∧
      (∀ sub, ip_parse_subparser ienv ip_subprotos packet = some sub →
        is_fragment packet = false →
        ienv.proto_parse sub.mux_subparser.parser (some (ip_parse_info ienv ip_subprotos packet))
          (ip_parse_info ienv ip_subprotos packet).way (packet.drop (ip_hdr_hdr_len packet * 4))
          (size_sub cap_len (ip_hdr_hdr_len packet * 4))
          (size_sub wire_len (ip_hdr_hdr_len packet * 4)) ≠ PROTO_OK →
        (ip_parse ienv ip_subprotos target way packet cap_len wire_len).calls =
          [ip_child_call ienv ip_subprotos packet cap_len wire_len sub.mux_subparser.parser,
           ip_info_only_call ienv ip_subprotos packet cap_len wire_len]) ∧
      (∀ sub, ip_parse_subparser ienv ip_subprotos packet = some sub →
        is_fragment packet = true →
        (ip_reassembly_lookup ienv sub target (ip_hdr_id packet)
          sub.mux_subparser.parser).slot = none →
        (ip_parse ienv ip_subprotos target way packet cap_len wire_len).calls =
          [ip_info_only_call ienv ip_subprotos packet cap_len wire_len]) ∧
      (∀ sub r, ip_parse_subparser ienv ip_subprotos packet = some sub →
        is_fragment packet = true →
        (ip_reassembly_lookup ienv sub target (ip_hdr_id packet)
          sub.mux_subparser.parser).slot = some r →
        (ienv.pkt_wait_list_add
          (ip_fragment_args (ip_parse_info ienv ip_subprotos packet) packet cap_len wire_len
            (ip_hdr_hdr_len packet * 4))
          (ip_fragment_mark ((ip_reassembly_lookup ienv sub target (ip_hdr_id packet)
            sub.mux_subparser.parser).ip_subparser.slot r) packet wire_len
            (ip_hdr_hdr_len packet * 4)).wl).1 ≠ PROTO_OK →
        (ip_parse ienv ip_subprotos target way packet cap_len wire_len).calls =
          [ip_call.wl_add r (ip_fragment_args (ip_parse_info ienv ip_subprotos packet) packet
            cap_len wire_len (ip_hdr_hdr_len packet * 4)),
           ip_info_only_call ienv ip_subprotos packet cap_len wire_len])) ∧
    ((parse_tcp_proto_info env.MAX_OPTIONS env.info_uninit cap_len wire_len env.packet_addr
        packet (TCP_HDR_LENGTH packet)).1 = PROTO_OK →
      (tcp_parse env found parent way packet cap_len wire_len).crashed = false →
      (tcp_parse env found parent way packet cap_len wire_len).status = PROTO_OK) ∧
    ((parse_tcp_proto_info env.MAX_OPTIONS env.info_uninit cap_len wire_len env.packet_addr
        packet (TCP_HDR_LENGTH packet)).1 ≠ PROTO_OK →
      (tcp_parse env found parent way packet cap_len wire_len).crashed = false ∧
      (tcp_parse env found parent way packet cap_len wire_len).status =
        (parse_tcp_proto_info env.MAX_OPTIONS env.info_uninit cap_len wire_len env.packet_addr
          packet (TCP_HDR_LENGTH packet)).1) := by
  refine ⟨?_, ?_, ?_⟩
  · intro hv
    rw [ip_parse_of_valid _ _ _ _ _ _ _ hv]
    refine ⟨ip_parse_dispatch_status _ _ _ _ _ _ _, ?_, ?_, ?_, ?_⟩
    · intro hn
      unfold ip_parse_subparser at hn
      unfold ip_parse_dispatch
      simp only [hn]
      rfl
    · intro sub hs hf hc
      unfold ip_parse_subparser at hs
      unfold ip_parse_dispatch
      unfold ip_parse_info at hc
      simp only [hs, hf]
      rw [if_neg (by simp), if_pos hc]
      rfl
    · intro sub hs hf hl
      unfold ip_parse_subparser at hs
      unfold ip_parse_dispatch
      simp only [hs, hf, if_true]
      unfold ip_parse_fragment
      simp only [hl]
      rfl
    · intro sub r hs hf hl ha
      unfold ip_parse_subparser at hs
      unfold ip_parse_dispatch
      simp only [hs, hf, if_true]
      unfold ip_parse_fragment
      unfold ip_parse_info at ha
      simp only [hl]
      rw [if_pos ha]
      rfl
  · intro h hc
    have h' : (tcp_parse_header env packet cap_len wire_len).1 = PROTO_OK := h
    cases hl : lookup_or_create_tcp_subparser env found
        (tcp_parse_header env packet cap_len wire_len).2
        (tcp_patch_way parent (tcp_parse_header env packet cap_len wire_len).2 way) with
    | none =>
      rw [(tcp_parse_of_none env found parent way packet cap_len wire_len h' hl).1] at hc
      cases hc
    | some sub => exact (tcp_parse_of_some env found parent way packet cap_len wire_len sub h' hl).1
  · intro h
    have h' : (tcp_parse_header env packet cap_len wire_len).1 ≠ PROTO_OK := h
    rw [tcp_parse_of_error env found parent way packet cap_len wire_len h']
    exact ⟨rfl, rfl⟩

theorem parse_best_effort_of_return_witness :
    (ip_parse sample_ip_env [] 0 0 (sample_ip_packet 4 5 40 1 0 0 6 [1, 2, 3]) 23 40).status
      = PROTO_OK ∧
    (ip_parse sample_ip_env [] 0 0 (sample_ip_packet 4 5 40 1 0 0 6 [1, 2, 3]) 23 40).calls
      = [ip_info_only_call sample_ip_env [] (sample_ip_packet 4 5 40 1 0 0 6 [1, 2, 3]) 23 40] ∧
    (tcp_parse sample_env none none 0 (sample_tcp_packet 40000 80 100 0 2 []) 20 20).status
      = PROTO_OK :=
  ⟨((parse_best_effort_of_return sample_ip_env [] 0 0
      (sample_ip_packet 4 5 40 1 0 0 6 [1, 2, 3]) 23 40
      sample_env none none).1 (by unfold ip_parse_valid; decide)).1,
   ((parse_best_effort_of_return sample_ip_env [] 0 0
      (sample_ip_packet 4 5 40 1 0 0 6 [1, 2, 3]) 23 40
      sample_env none none).1 (by unfold ip_parse_valid; decide)).2.1 (by decide),
   (parse_best_effort_of_return sample_ip_env [] 0 0 (sample_tcp_packet 40000 80 100 0 2 []) 20 20
      sample_env none none).2.1 (by
        have e := tcp_parse_header_plain sample_env (sample_tcp_packet 40000 80 100 0 2 [])
          20 20 (by decide) (by decide) (by decide)
        unfold tcp_parse_header at e
        rw [e])
      (by
        cases hc : (tcp_parse sample_env none none 0 (sample_tcp_packet 40000 80 100 0 2 [])
          20 20).crashed with
        | false => rfl
        | true =>
          have h := ((tcp_parse_crashed_iff sample_env none none 0
            (sample_tcp_packet 40000 80 100 0 2 []) 20 20).mp hc).2
          rw [tcp_parse_header_plain _ _ _ _ (by decide) (by decide) (by decide)] at h
          revert h
          decide)⟩

/-- C9, the failing input: a SYN segment with a well-formed 20-byte header, of a
flow for which the mux holds no sub-parser, parsed while `mux_subparser_alloc`
fails. `parse_tcp_proto_info` answers PROTO_OK and `tcp_subparser_new` answers
NULL; `lookup_or_create_tcp_subparser` hands the pointer that DOWNCAST derives
from NULL to `set_wl_list` and does not return. So `tcp_parse` returns no
status, PROTO_OK or other, and makes no info-only delivery. -/
theorem tcp_parse_alloc_failure :
    (parse_tcp_proto_info sample_env_no_alloc.MAX_OPTIONS sample_env_no_alloc.info_uninit 20 20
        sample_env_no_alloc.packet_addr (sample_tcp_packet 40000 80 100 0 2 [])
        (TCP_HDR_LENGTH (sample_tcp_packet 40000 80 100 0 2 []))).1 = PROTO_OK ∧
    tcp_subparser_new sample_env_no_alloc none none = none ∧
    lookup_or_create_tcp_subparser sample_env_no_alloc none
        (tcp_parse_header sample_env_no_alloc (sample_tcp_packet 40000 80 100 0 2 []) 20 20).2 0
      = none ∧
    (tcp_parse sample_env_no_alloc none none 0
        (sample_tcp_packet 40000 80 100 0 2 []) 20 20).crashed = true ∧
    (tcp_parse sample_env_no_alloc none none 0
        (sample_tcp_packet 40000 80 100 0 2 []) 20 20).calls = [] := by
  have e := tcp_parse_header_plain sample_env_no_alloc (sample_tcp_packet 40000 80 100 0 2 [])
    20 20 (by decide) (by decide) (by decide)
  have hl : lookup_or_create_tcp_subparser sample_env_no_alloc none
      (tcp_parse_header sample_env_no_alloc (sample_tcp_packet 40000 80 100 0 2 []) 20 20).2 0
      = none := by
    rw [e]
    decide
  refine ⟨?_, by decide, hl, ?_, ?_⟩
  · unfold tcp_parse_header at e
    rw [e]
  · exact (tcp_parse_crashed_iff _ _ _ _ _ _ _).mpr ⟨by rw [e], hl⟩
  · unfold tcp_parse
    simp only [e, ne_eq, not_true_eq_false, if_false]
    have hl' := hl
    rw [e] at hl'
    simp only [tcp_patch_way, hl']

/-! ## Parse-error recovery -/

/-- A sub-parser without child parser makes `lookup_or_create_tcp_subparser`
look for the protocol again. -/
theorem lookup_reselects (env : tcp_env) (t : tcp_subparser) (tcp : tcp_proto_info) (way : Nat)
    (h : t.mux_subparser.parser = none) :
    lookup_or_create_tcp_subparser env (some t) tcp way =
      some (match (lookup_subproto env tcp).1 with
        | some sub_proto => tcp_mux_subparser_spawn env t sub_proto (lookup_subproto env tcp).2
        | none => t) := by
  unfold lookup_or_create_tcp_subparser
  simp only [h, Option.isSome_none, Bool.false_eq_true, if_false]
  cases (lookup_subproto env tcp).1 <;> rfl

/-- The result of `tcp_parse` from what its delivery leaves. -/
theorem tcp_parse_of_delivered (env : tcp_env) (found : Option tcp_subparser)
    (parent : Option (ip_addr × ip_addr)) (way : Nat) (packet : List Nat)
    (cap_len wire_len : Nat) (status : proto_parse_status) (u : tcp_subparser)
    (cs : List tcp_call)
    (h : (tcp_parse_header env packet cap_len wire_len).1 = PROTO_OK)
    (hd : tcp_parse_delivered env found parent way packet cap_len wire_len
      = some (status, u, cs)) :
    (tcp_parse env found parent way packet cap_len wire_len).deindexed = tcp_subparser_term u ∧
    (tcp_parse env found parent way packet cap_len wire_len).tcp_sub =
      some (if tcp_subparser_term u = true then u
        else if status = PROTO_PARSE_ERR then tcp_mux_subparser_reset_proto u else u) := by
  unfold tcp_parse_delivered tcp_parse_tracked tcp_parse_way at hd
  cases hl : lookup_or_create_tcp_subparser env found
      (tcp_parse_header env packet cap_len wire_len).2
      (tcp_patch_way parent (tcp_parse_header env packet cap_len wire_len).2 way) with
  | none =>
    rw [hl] at hd
    simp at hd
  | some sub =>
    rw [hl] at hd
    simp only [Option.map_some', Option.some.injEq] at hd
    unfold tcp_parse
    simp only [h, ne_eq, not_true_eq_false, if_false, hl, hd]
    refine ⟨trivial, ?_⟩
    split_ifs <;> rfl

/-- C10, as stated, fails: on a sub-parser with a child parser that has seen
both FINs and the ACK of way 1, the ACK of way 0 that closes the flow is
delivered through the wait-list, which yields PROTO_PARSE_ERR; `tcp_parse`
deindexes the sub-parser and leaves its child parser and proto as they were. -/
theorem tcp_parse_error_at_close_keeps_child :
    (tcp_parse_delivered sample_env_parse_err (some sample_closing_sub) none 0
      (sample_tcp_packet 40000 80 101 501 16 []) 20 20).map (fun d => d.1)
      = some PROTO_PARSE_ERR ∧
    (tcp_parse sample_env_parse_err (some sample_closing_sub) none 0
      (sample_tcp_packet 40000 80 101 501 16 []) 20 20).deindexed = true ∧
    (tcp_parse sample_env_parse_err (some sample_closing_sub) none 0
      (sample_tcp_packet 40000 80 101 501 16 []) 20 20).tcp_sub.map (fun t => t.mux_subparser)
      = some { parser := some 7, proto := some { code := 80, enabled := true },
               requestor := none } := by
  refine ⟨?_, ?_, ?_⟩
  · simp +decide only [tcp_parse_delivered, tcp_parse_tracked, tcp_parse_way,
      tcp_parse_header_plain]
  · simp +decide only [tcp_parse, tcp_parse_header_plain]
  · simp +decide only [tcp_parse, tcp_parse_header_plain]

/-- C10, amended: when the delivery of a segment yields PROTO_PARSE_ERR and the
segment does not terminate the flow, the sub-parser that `tcp_parse` leaves has
a null child parser, proto and requestor, so that
`lookup_or_create_tcp_subparser` selects the protocol again at the next
segment; its fin, ack, syn and wl_set bits, its FIN and ACK sequence numbers,
its server side and its wait-lists are those left by the bookkeeping and the
delivery of the segment, and it stays in the mux. -/
theorem tcp_parse_error_recovery (env : tcp_env) (found : Option tcp_subparser)
    (parent : Option (ip_addr × ip_addr)) (way : Nat) (packet : List Nat)
    (cap_len wire_len : Nat)
    (h : (tcp_parse_header env packet cap_len wire_len).1 = PROTO_OK)
    (hd : (tcp_parse_delivered env found parent way packet cap_len wire_len).map
      (fun d => d.1) = some PROTO_PARSE_ERR)
    (hterm : (tcp_parse_delivered env found parent way packet cap_len wire_len).map
      (fun d => tcp_subparser_term d.2.1) = some false) :
    ∃ t u b, (tcp_parse env found parent way packet cap_len wire_len).tcp_sub = some t ∧
      (tcp_parse_delivered env found parent way packet cap_len wire_len).map
        (fun d => d.2.1) = some u ∧
      tcp_parse_tracked env found parent way packet cap_len wire_len = some b ∧
      (tcp_parse env found parent way packet cap_len wire_len).deindexed = false ∧
      t.mux_subparser.parser = none ∧ t.mux_subparser.proto = none ∧
      t.mux_subparser.requestor = none ∧
      t.wl = u.wl ∧ tcp_same_track t u ∧ tcp_same_track t b ∧
      (∀ (env' : tcp_env) (tcp : tcp_proto_info) (way' : Nat),
        lookup_or_create_tcp_subparser env' (some t) tcp way' =
          some (match (lookup_subproto env' tcp).1 with
            | some sub_proto =>
              tcp_mux_subparser_spawn env' t sub_proto (lookup_subproto env' tcp).2
            | none => t)) := by
  cases hdel : tcp_parse_delivered env found parent way packet cap_len wire_len with
  | none => rw [hdel] at hd; simp at hd
  | some d =>
    obtain ⟨status, u, cs⟩ := d
    rw [hdel] at hd hterm
    simp only [Option.map_some', Option.some.injEq] at hd hterm
    subst hd
    obtain ⟨h1, h2⟩ := tcp_parse_of_delivered env found parent way packet cap_len wire_len _ u cs
      h hdel
    rw [hterm] at h1 h2
    simp only [Bool.false_eq_true, if_false, if_true] at h2
    have hb : ∃ b, tcp_parse_tracked env found parent way packet cap_len wire_len = some b ∧
        tcp_same_track u b := by
      unfold tcp_parse_delivered at hdel
      cases hb : tcp_parse_tracked env found parent way packet cap_len wire_len with
      | none => rw [hb] at hdel; simp at hdel
      | some b =>
        rw [hb] at hdel
        simp only [Option.map_some', Option.some.injEq] at hdel
        refine ⟨b, rfl, ?_⟩
        have := tcp_parse_deliver_track env b
          { (tcp_parse_header env packet cap_len wire_len).2 with
            to_srv := decide (b.srv_way ≠ tcp_parse_way env parent way packet cap_len wire_len) }
          (tcp_parse_way env parent way packet cap_len wire_len) packet cap_len wire_len
          (TCP_HDR_LENGTH packet)
        rw [hdel] at this
        exact this
    obtain ⟨b, hb1, hb2⟩ := hb
    refine ⟨tcp_mux_subparser_reset_proto u, u, b, h2, rfl, hb1, h1, rfl, rfl, rfl, rfl,
      tcp_reset_proto_track u, tcp_same_track_trans (tcp_reset_proto_track u) hb2, ?_⟩
    intro env' tcp way'
    exact lookup_reselects env' _ tcp way' rfl

theorem tcp_parse_error_recovery_witness :
    ∃ t u b, (tcp_parse sample_env_parse_err none none 0
        (sample_tcp_packet 40000 80 100 0 2 []) 20 20).tcp_sub = some t ∧
      (tcp_parse_delivered sample_env_parse_err none none 0
        (sample_tcp_packet 40000 80 100 0 2 []) 20 20).map (fun d => d.2.1) = some u ∧
      tcp_parse_tracked sample_env_parse_err none none 0
        (sample_tcp_packet 40000 80 100 0 2 []) 20 20 = some b ∧
      (tcp_parse sample_env_parse_err none none 0
        (sample_tcp_packet 40000 80 100 0 2 []) 20 20).deindexed = false ∧
      t.mux_subparser.parser = none ∧ t.mux_subparser.proto = none ∧
      t.mux_subparser.requestor = none ∧
      t.wl = u.wl ∧ tcp_same_track t u ∧ tcp_same_track t b ∧
      (∀ (env' : tcp_env) (tcp : tcp_proto_info) (way' : Nat),
        lookup_or_create_tcp_subparser env' (some t) tcp way' =
          some (match (lookup_subproto env' tcp).1 with
            | some sub_proto =>
              tcp_mux_subparser_spawn env' t sub_proto (lookup_subproto env' tcp).2
            | none => t)) :=
  tcp_parse_error_recovery sample_env_parse_err none none 0
    (sample_tcp_packet 40000 80 100 0 2 []) 20 20
    (by rw [tcp_parse_header_plain _ _ _ _ (by decide) (by decide) (by decide)])
    (by simp +decide only [tcp_parse_delivered, tcp_parse_tracked, tcp_parse_way,
      tcp_parse_header_plain])
    (by simp +decide only [tcp_parse_delivered, tcp_parse_tracked, tcp_parse_way,
      tcp_parse_header_plain])

/-! ## The key of an IP flow -/

theorem ip_addr_cmp_neg (a b : ip_addr) : ip_addr_cmp b a = - ip_addr_cmp a b := by
  induction a generalizing b with
  | nil => cases b <;> simp [ip_addr_cmp]
  | cons x xs ih =>
    cases b with
    | nil => simp [ip_addr_cmp]
    | cons y ys =>
      simp only [ip_addr_cmp]
      by_cases h1 : x < y
      · have h2 : ¬ y < x := by omega
        simp [h1, h2]
      · by_cases h2 : y < x
        · simp [h1, h2]
        · simp [h1, h2, ih]

theorem ip_addr_cmp_eq_zero (a b : ip_addr) : ip_addr_cmp a b = 0 ↔ a = b := by
  induction a generalizing b with
  | nil => cases b <;> simp [ip_addr_cmp]
  | cons x xs ih =>
    cases b with
    | nil => simp [ip_addr_cmp]
    | cons y ys =>
      simp only [ip_addr_cmp]
      by_cases h1 : x < y
      · simp [h1]; omega
      · by_cases h2 : y < x
        · simp [h1, h2]; omega
        · have : x = y := by omega
          simp [h1, h2, ih, this]

/-- C13, as stated, fails: for the two equal addresses 10.0.0.1 and 10.0.0.1,
`ip_key_ctor` returns the way 0 for both orders, not opposite way bits. -/
theorem ip_key_ctor_swap_fails :
    ip_key_ctor 6 [10, 0, 0, 1] [10, 0, 0, 1] = (0, { protocol := 6, addr := ([10, 0, 0, 1], [10, 0, 0, 1]) }) ∧
    (ip_key_ctor 6 [10, 0, 0, 1] [10, 0, 0, 1]).1 ≠ not_way (ip_key_ctor 6 [10, 0, 0, 1] [10, 0, 0, 1]).1 := by
  decide

/-- C13, amended: `ip_key_ctor p a b` and `ip_key_ctor p b a` build equal keys;
when `a ≠ b` the ways they return are 0 or 1 and opposite, and when `a = b`
both return the way 0. -/
theorem ip_key_ctor_swap (p : Nat) (a b : ip_addr) :
    (ip_key_ctor p a b).2 = (ip_key_ctor p b a).2 ∧
    (a ≠ b → (ip_key_ctor p a b).1 ≤ 1 ∧ (ip_key_ctor p b a).1 = not_way (ip_key_ctor p a b).1) ∧
    (a = b → (ip_key_ctor p a b).1 = 0 ∧ (ip_key_ctor p b a).1 = 0) := by
  have hneg := ip_addr_cmp_neg a b
  have hz := ip_addr_cmp_eq_zero a b
  simp only [ip_key_ctor]
  refine ⟨?_, ?_, ?_⟩
  · by_cases h1 : ip_addr_cmp a b ≤ 0
    · by_cases h2 : ip_addr_cmp b a ≤ 0
      · have h0 : ip_addr_cmp a b = 0 := by omega
        have hab : a = b := hz.1 h0
        simp [h1, h2, hab]
      · simp [h1, h2]
    · have h2 : ip_addr_cmp b a ≤ 0 := by omega
      simp [h1, h2]
  · intro hab
    have h0 : ip_addr_cmp a b ≠ 0 := fun h => hab (hz.1 h)
    by_cases h1 : ip_addr_cmp a b ≤ 0
    · have h2 : ¬ ip_addr_cmp b a ≤ 0 := by omega
      simp [h1, h2, not_way]
    · have h2 : ip_addr_cmp b a ≤ 0 := by omega
      simp [h1, h2, not_way]
  · intro hab
    subst hab
    have h0 : ip_addr_cmp a a = 0 := hz.2 rfl
    simp [h0]

/-- C14: for a protocol number `p` (a byte) and addresses `src` and `dst`, the
key built by `ip_key_ctor` has protocol `p` and `addr[0] ≤ addr[1]` under
`ip_addr_cmp`, the way `w` returned is 0 or 1, and `addr[w] = src`,
`addr[1-w] = dst`. -/
theorem ip_key_ctor_canonical (p : Nat) (src dst : ip_addr) (_hp : p < 256) :
    (ip_key_ctor p src dst).2.protocol = p ∧
    ip_addr_cmp (ip_key_ctor p src dst).2.addr.1 (ip_key_ctor p src dst).2.addr.2 ≤ 0 ∧
    ((ip_key_ctor p src dst).1 = 0 ∨ (ip_key_ctor p src dst).1 = 1) ∧
    at2 (ip_key_ctor p src dst).2.addr (ip_key_ctor p src dst).1 = src ∧
    at2 (ip_key_ctor p src dst).2.addr (1 - (ip_key_ctor p src dst).1) = dst := by
  have hneg := ip_addr_cmp_neg src dst
  have hmod : p % 256 = p := Nat.mod_eq_of_lt _hp
  simp only [ip_key_ctor, hmod]
  by_cases h1 : ip_addr_cmp src dst ≤ 0
  · simp [h1, at2]
  · have h2 : ip_addr_cmp dst src ≤ 0 := by omega
    simp [h1, at2, h2]

theorem ip_key_ctor_swap_witness :
    (ip_key_ctor 6 [10, 0, 0, 1] [10, 0, 0, 2]).1 ≤ 1 ∧
    (ip_key_ctor 6 [10, 0, 0, 2] [10, 0, 0, 1]).1 =
      not_way (ip_key_ctor 6 [10, 0, 0, 1] [10, 0, 0, 2]).1 :=
  (ip_key_ctor_swap 6 [10, 0, 0, 1] [10, 0, 0, 2]).2.1 (by decide)

theorem ip_key_ctor_canonical_witness :
    (ip_key_ctor 6 [10, 0, 0, 2] [10, 0, 0, 1]).2.protocol = 6 ∧
    ip_addr_cmp (ip_key_ctor 6 [10, 0, 0, 2] [10, 0, 0, 1]).2.addr.1
      (ip_key_ctor 6 [10, 0, 0, 2] [10, 0, 0, 1]).2.addr.2 ≤ 0 ∧
    ((ip_key_ctor 6 [10, 0, 0, 2] [10, 0, 0, 1]).1 = 0 ∨
      (ip_key_ctor 6 [10, 0, 0, 2] [10, 0, 0, 1]).1 = 1) ∧
    at2 (ip_key_ctor 6 [10, 0, 0, 2] [10, 0, 0, 1]).2.addr
      (ip_key_ctor 6 [10, 0, 0, 2] [10, 0, 0, 1]).1 = [10, 0, 0, 2] ∧
    at2 (ip_key_ctor 6 [10, 0, 0, 2] [10, 0, 0, 1]).2.addr
      (1 - (ip_key_ctor 6 [10, 0, 0, 2] [10, 0, 0, 1]).1) = [10, 0, 0, 1] :=
  ip_key_ctor_canonical 6 [10, 0, 0, 2] [10, 0, 0, 1] (by decide)


/-! ## Packets that are not fragments -/

theorem size_sub_of_le (a b : Nat) (h : b ≤ a) : size_sub a b = a - b := by
  simp [size_sub, h]

theorem is_fragment_iff (ip : List Nat) :
    is_fragment ip = true ↔
      ip_hdr_more_fragments ip ≠ 0 ∨
        (ip_hdr_frag_offset_lo ip + ip_hdr_frag_offset_hi ip * 256) * 8 ≠ 0 := by
  simp only [is_fragment, Bool.or_eq_true, decide_eq_true_eq]
  omega

theorem fragment_offset_eq (ip : List Nat) :
    fragment_offset ip = (ip_hdr_frag_offset_lo ip + ip_hdr_frag_offset_hi ip * 256) * 8 := by
  have h1 : ip_hdr_frag_offset_lo ip < 256 := by
    simp only [ip_hdr_frag_offset_lo, READ_U8]; omega
  have h2 : ip_hdr_frag_offset_hi ip < 32 := by
    simp only [ip_hdr_frag_offset_hi, READ_U8]; omega
  simp only [fragment_offset, U32]
  omega

/-- C12: `is_fragment` holds iff `more_fragments` is set or the fragment offset
`(frag_offset_lo + frag_offset_hi*256)*8` is not null; and for a packet with
MF=0 and offset 0 that passes the sanity checks and for which a sub-parser is
found, `ip_parse` leaves the sub-parser, hence each of its 4 reassembly slots,
and the rotating index as they were, gives nothing to a wait-list, and its
first call hands the payload to the child with the captured length
`cap_len - ihl*4` and the wire length `wire_len - ihl*4`. -/
theorem ip_parse_non_fragment (env : ip_env) (ip_subprotos : List ip_subproto)
    (target way : Nat) (packet : List Nat) (cap_len wire_len : Nat) :
    (is_fragment packet = true ↔
      ip_hdr_more_fragments packet ≠ 0 ∨
        (ip_hdr_frag_offset_lo packet + ip_hdr_frag_offset_hi packet * 256) * 8 ≠ 0) ∧
    fragment_offset packet =
      (ip_hdr_frag_offset_lo packet + ip_hdr_frag_offset_hi packet * 256) * 8 ∧
    (ip_parse_valid packet cap_len wire_len → ip_hdr_more_fragments packet = 0 →
      fragment_offset packet = 0 →
      ∀ sub, ip_parse_subparser env ip_subprotos packet = some sub →
        (ip_parse env ip_subprotos target way packet cap_len wire_len).ip_subparser = some sub ∧
        (∀ r, r < NB_REASSEMBLY →
          ((ip_parse env ip_subprotos target way packet cap_len wire_len).ip_subparser.map
            (fun t => t.slot r)) = some (sub.slot r)) ∧
        (ip_parse env ip_subprotos target way packet cap_len wire_len).target = target ∧
        (ip_parse env ip_subprotos target way packet cap_len wire_len).calls.head? =
          some (ip_call.proto_parse sub.mux_subparser.parser
            (some (ip_parse_info env ip_subprotos packet))
            (ip_parse_info env ip_subprotos packet).way
            (packet.drop (ip_hdr_hdr_len packet * 4))
            (cap_len - ip_hdr_hdr_len packet * 4) (wire_len - ip_hdr_hdr_len packet * 4)) ∧
        ∀ c ∈ (ip_parse env ip_subprotos target way packet cap_len wire_len).calls,
          ∀ r args, c ≠ ip_call.wl_add r args) := by
  refine ⟨is_fragment_iff packet, fragment_offset_eq packet, ?_⟩
  intro hv hmf hoff sub hsub
  have hnf : is_fragment packet = false := by
    have h := is_fragment_iff packet
    have h2 := fragment_offset_eq packet
    cases hf : is_fragment packet with
    | false => rfl
    | true =>
      exfalso
      rcases h.1 hf with h3 | h3
      · exact h3 hmf
      · exact h3 (by rw [← h2]; exact hoff)
  obtain ⟨hv1, hv2, hv3, hv4, hv5⟩ := hv
  have hc : size_sub cap_len (ip_hdr_hdr_len packet * 4) = cap_len - ip_hdr_hdr_len packet * 4 :=
    size_sub_of_le _ _ hv5
  have hw : size_sub wire_len (ip_hdr_hdr_len packet * 4) = wire_len - ip_hdr_hdr_len packet * 4 :=
    size_sub_of_le _ _ (by omega)
  rw [ip_parse_of_valid env ip_subprotos target way packet cap_len wire_len ⟨hv1, hv2, hv3, hv4, hv5⟩]
  simp only [ip_parse_subparser] at hsub
  simp only [ip_parse_dispatch, hsub, hnf, ip_parse_info, hc, hw, ip_parse_fallback,
    Bool.false_eq_true, if_false]
  split_ifs <;> simp

theorem ip_parse_non_fragment_witness :
    (ip_parse (sample_ip_env_with sample_ip_sub) sample_ip_subprotos 1 0
      (sample_ip_packet 4 5 28 4660 0 0 17 [1, 2, 3, 4, 5, 6, 7, 8]) 28 28).ip_subparser
      = some sample_ip_sub ∧
    (ip_parse (sample_ip_env_with sample_ip_sub) sample_ip_subprotos 1 0
      (sample_ip_packet 4 5 28 4660 0 0 17 [1, 2, 3, 4, 5, 6, 7, 8]) 28 28).target = 1 ∧
    (ip_parse (sample_ip_env_with sample_ip_sub) sample_ip_subprotos 1 0
      (sample_ip_packet 4 5 28 4660 0 0 17 [1, 2, 3, 4, 5, 6, 7, 8]) 28 28).calls.head? =
      some (ip_call.proto_parse (some 3)
        (some (ip_parse_info (sample_ip_env_with sample_ip_sub) sample_ip_subprotos
          (sample_ip_packet 4 5 28 4660 0 0 17 [1, 2, 3, 4, 5, 6, 7, 8])))
        0 [1, 2, 3, 4, 5, 6, 7, 8] 8 8) := by
  have h := (ip_parse_non_fragment (sample_ip_env_with sample_ip_sub) sample_ip_subprotos 1 0
    (sample_ip_packet 4 5 28 4660 0 0 17 [1, 2, 3, 4, 5, 6, 7, 8]) 28 28).2.2
    (by unfold ip_parse_valid; decide) (by decide) (by decide) sample_ip_sub (by decide)
  exact ⟨h.1, h.2.2.1, h.2.2.2.1⟩


/-! ## The choice of a reassembly slot -/

theorem ip_slot_set_slot (sub : ip_subparser) (r r' : Nat) (v : ip_reassembly)
    (hr : r < sub.reassembly.length) :
    (sub.set_slot r v).slot r' = if r = r' then v else sub.slot r' := by
  simp only [ip_subparser.slot, ip_subparser.set_slot, List.getD_eq_getElem?_getD,
    List.getElem?_set]
  split_ifs <;> simp_all

theorem ip_set_slot_self (sub : ip_subparser) (r : Nat) (hr : r < sub.reassembly.length) :
    sub.set_slot r (sub.slot r) = sub := by
  have h : sub.reassembly.set r (sub.reassembly.getD r ip_reassembly_none) = sub.reassembly := by
    apply List.ext_getElem?
    intro j
    rw [List.getElem?_set]
    split_ifs with h1
    · subst h1
      simp [List.getD_eq_getElem?_getD, List.getElem?_eq_getElem hr]
    · rfl
  simp only [ip_subparser.set_slot, ip_subparser.slot, h]

theorem ip_set_slot_length (sub : ip_subparser) (r : Nat) (v : ip_reassembly) :
    (sub.set_slot r v).reassembly.length = sub.reassembly.length := by
  simp [ip_subparser.set_slot]

theorem ip_reassembly_scan_spec (sub : ip_subparser) (id : Nat) (rs : List Nat) (lu : Int) :
    (∀ r, ip_reassembly_scan sub id rs lu = Sum.inl r →
      r ∈ rs ∧ (sub.slot r).in_use = true ∧ (sub.slot r).id = id) ∧
    (∀ u, ip_reassembly_scan sub id rs lu = Sum.inr u →
      (∀ r ∈ rs, ¬ ((sub.slot r).in_use = true ∧ (sub.slot r).id = id)) ∧
      ((u = lu ∧ ∀ r ∈ rs, (sub.slot r).in_use = true) ∨
       (∃ r ∈ rs, u = (r : Int) ∧ (sub.slot r).in_use = false))) := by
  induction rs generalizing lu with
  | nil =>
    simp [ip_reassembly_scan]
  | cons r rs ih =>
    simp only [ip_reassembly_scan]
    by_cases h1 : (sub.slot r).in_use = true
    · by_cases h2 : (sub.slot r).id = id
      · simp [h1, h2]
      · simp only [h1, if_true, ne_eq, h2, not_false_eq_true]
        obtain ⟨ihl, ihr⟩ := ih lu
        refine ⟨?_, ?_⟩
        · intro r' hr'
          obtain ⟨a, b, c⟩ := ihl r' hr'
          exact ⟨List.mem_cons_of_mem _ a, b, c⟩
        · intro u hu
          obtain ⟨a, b⟩ := ihr u hu
          refine ⟨?_, ?_⟩
          · intro r' hr'
            rcases List.mem_cons.1 hr' with e | e
            · subst e; simp [h2]
            · exact a r' e
          · rcases b with ⟨b1, b2⟩ | ⟨r', b1, b2, b3⟩
            · left
              refine ⟨b1, ?_⟩
              intro r' hr'
              rcases List.mem_cons.1 hr' with e | e
              · subst e; exact h1
              · exact b2 r' e
            · right
              exact ⟨r', List.mem_cons_of_mem _ b1, b2, b3⟩
    · simp only [h1, Bool.false_eq_true, if_false]
      obtain ⟨ihl, ihr⟩ := ih (r : Int)
      refine ⟨?_, ?_⟩
      · intro r' hr'
        obtain ⟨a, b, c⟩ := ihl r' hr'
        exact ⟨List.mem_cons_of_mem _ a, b, c⟩
      · intro u hu
        obtain ⟨a, b⟩ := ihr u hu
        refine ⟨?_, ?_⟩
        · intro r' hr'
          rcases List.mem_cons.1 hr' with e | e
          · subst e; simp [h1]
          · exact a r' e
        · right
          rcases b with ⟨b1, _⟩ | ⟨r', b1, b2, b3⟩
          · exact ⟨r, List.mem_cons_self _ _, b1, by simpa using h1⟩
          · exact ⟨r', List.mem_cons_of_mem _ b1, b2, b3⟩

theorem ip_reassembly_ctor_flags (env : ip_env) (s : ip_reassembly) (parser : Option parser)
    (id : Nat) :
    (ip_reassembly_ctor env s parser id).2.in_use = true ∧
    (ip_reassembly_ctor env s parser id).2.constructed = true ∧
    (ip_reassembly_ctor env s parser id).2.id = id ∧
    (ip_reassembly_ctor env s parser id).2.got_last = false ∧
    ((ip_reassembly_ctor env s parser id).1 = 0 ↔ env.pkt_wait_list_ctor parser ≠ none) := by
  simp only [ip_reassembly_ctor]
  cases env.pkt_wait_list_ctor parser <;> simp

/-- C20: on a sub-parser with its 4 slots and a rotating index below 4,
`ip_reassembly_lookup` returns an in-use slot whose id is `id` when there is
one, the other slots being left as they were; otherwise, when some slot is not
in use, it constructs such a slot and returns it (NULL when the wait-list
cannot be constructed), every other slot being left as it was; otherwise it
destructs the slot at the rotating index, constructs it again for `id` and
returns it, the index moving on by one modulo 4. A slot that is returned is
in use and constructed, with `id` for id. -/
theorem ip_reassembly_lookup_slots (env : ip_env) (sub : ip_subparser) (target id : Nat)
    (parser : Option parser) (hlen : sub.reassembly.length = NB_REASSEMBLY)
    (htarget : target < NB_REASSEMBLY) :
    ((∃ r, r < NB_REASSEMBLY ∧ (sub.slot r).in_use = true ∧ (sub.slot r).id = id) →
      ∃ r, r < NB_REASSEMBLY ∧ (sub.slot r).in_use = true ∧ (sub.slot r).id = id ∧
        (ip_reassembly_lookup env sub target id parser).slot = some r ∧
        (ip_reassembly_lookup env sub target id parser).target = target ∧
        ((sub.slot r).constructed = true →
          (ip_reassembly_lookup env sub target id parser).ip_subparser = sub) ∧
        ∀ r', r' ≠ r →
          (ip_reassembly_lookup env sub target id parser).ip_subparser.slot r' = sub.slot r') ∧
    ((¬ ∃ r, r < NB_REASSEMBLY ∧ (sub.slot r).in_use = true ∧ (sub.slot r).id = id) →
      (∃ r, r < NB_REASSEMBLY ∧ (sub.slot r).in_use = false) →
      ∃ r, r < NB_REASSEMBLY ∧ (sub.slot r).in_use = false ∧
        (ip_reassembly_lookup env sub target id parser).slot =
          (if env.pkt_wait_list_ctor parser ≠ none then some r else none) ∧
        (ip_reassembly_lookup env sub target id parser).target = target ∧
        (ip_reassembly_lookup env sub target id parser).ip_subparser.slot r =
          (ip_reassembly_ctor env (sub.slot r) parser id).2 ∧
        ∀ r', r' ≠ r →
          (ip_reassembly_lookup env sub target id parser).ip_subparser.slot r' = sub.slot r') ∧
    ((¬ ∃ r, r < NB_REASSEMBLY ∧ (sub.slot r).in_use = true ∧ (sub.slot r).id = id) →
      (¬ ∃ r, r < NB_REASSEMBLY ∧ (sub.slot r).in_use = false) →
        (ip_reassembly_lookup env sub target id parser).slot =
          (if env.pkt_wait_list_ctor parser ≠ none then some target else none) ∧
        (ip_reassembly_lookup env sub target id parser).target = (target + 1) % NB_REASSEMBLY ∧
        (ip_reassembly_lookup env sub target id parser).ip_subparser.slot target =
          (ip_reassembly_ctor env (ip_reassembly_dtor (sub.slot target)) parser id).2 ∧
        ∀ r', r' ≠ target →
          (ip_reassembly_lookup env sub target id parser).ip_subparser.slot r' = sub.slot r') ∧
    (∀ r, (ip_reassembly_lookup env sub target id parser).slot = some r →
      r < NB_REASSEMBLY ∧
      ((ip_reassembly_lookup env sub target id parser).ip_subparser.slot r).in_use = true ∧
      ((ip_reassembly_lookup env sub target id parser).ip_subparser.slot r).constructed = true ∧
      ((ip_reassembly_lookup env sub target id parser).ip_subparser.slot r).id = id) := by
  have hspec := ip_reassembly_scan_spec sub id (List.range NB_REASSEMBLY) (-1)
  have hctor := fun s => ip_reassembly_ctor_flags env s parser id
  have hl4 : sub.reassembly.length = 4 := hlen
  have ht4 : target < 4 := htarget
  unfold ip_reassembly_lookup
  cases hscan : ip_reassembly_scan sub id (List.range NB_REASSEMBLY) (-1) with
  | inl r0 =>
    obtain ⟨hm, hu, hi⟩ := hspec.1 r0 hscan
    have hr0 : r0 < NB_REASSEMBLY := List.mem_range.1 hm
    have hr0' : r0 < sub.reassembly.length := by rw [hlen]; exact hr0
    simp only []
    refine ⟨?_, ?_, ?_, ?_⟩
    · intro _
      refine ⟨r0, hr0, hu, hi, by trivial, by trivial, ?_, ?_⟩
      · intro hc
        simp only [hc, Bool.not_true, Bool.false_eq_true, if_false]
        exact ip_set_slot_self sub r0 hr0'
      · intro r' hr'
        rw [ip_slot_set_slot sub r0 r' _ hr0', if_neg (Ne.symm hr')]
    · intro hno
      exact absurd ⟨r0, hr0, hu, hi⟩ hno
    · intro hno
      exact absurd ⟨r0, hr0, hu, hi⟩ hno
    · intro r hr
      simp only [Option.some.injEq] at hr
      subst hr
      rw [ip_slot_set_slot sub r0 r0 _ hr0', if_pos rfl]
      refine ⟨hr0, ?_⟩
      by_cases hc : (sub.slot r0).constructed = true
      · simp [hc, hu, hi]
      · simp only [hc, Bool.not_eq_true] at *
        simp only [hc, Bool.not_false, if_true]
        exact ⟨(hctor _).1, (hctor _).2.1, (hctor _).2.2.1⟩
  | inr u =>
    obtain ⟨hnone, hcase⟩ := hspec.2 u hscan
    simp only []
    refine ⟨?_, ?_, ?_, ?_⟩
    · rintro ⟨r, hr, h1, h2⟩
      exact absurd ⟨h1, h2⟩ (hnone r (List.mem_range.2 hr))
    · intro _ hunused
      rcases hcase with ⟨_, hall⟩ | ⟨r, hr, hur, hfree⟩
      · obtain ⟨r, hr, hf⟩ := hunused
        have := hall r (List.mem_range.2 hr)
        rw [hf] at this
        exact absurd this (by simp)
      · have hr4 : r < NB_REASSEMBLY := List.mem_range.1 hr
        have hr' : r < sub.reassembly.length := by rw [hlen]; exact hr4
        have hne : u ≠ -1 := by omega
        have hto : u.toNat = r := by omega
        refine ⟨r, hr4, hfree, ?_, ?_, ?_, ?_⟩
        · simp only [if_neg hne, hto]
          have := (hctor (sub.slot r)).2.2.2.2
          by_cases hw : env.pkt_wait_list_ctor parser = none
          · have h0 : (ip_reassembly_ctor env (sub.slot r) parser id).1 ≠ 0 := by
              intro h; exact (this.1 h) hw
            simp [h0, hw]
          · have h0 : (ip_reassembly_ctor env (sub.slot r) parser id).1 = 0 := this.2 hw
            simp [h0, hw]
        · simp only [if_neg hne]
        · simp only [if_neg hne, hto]
          rw [ip_slot_set_slot sub r r _ hr', if_pos rfl]
        · intro r' hr'n
          simp only [if_neg hne, hto]
          rw [ip_slot_set_slot sub r r' _ hr', if_neg (Ne.symm hr'n)]
    · intro _ hnounused
      have hu1 : u = -1 := by
        rcases hcase with ⟨h, _⟩ | ⟨r, hr, hur, hfree⟩
        · exact h
        · exact absurd ⟨r, List.mem_range.1 hr, hfree⟩ hnounused
      have htl : target < sub.reassembly.length := by rw [hlen]; exact htarget
      have htl2 : target < (sub.set_slot target (ip_reassembly_dtor (sub.slot target))).reassembly.length := by
        rw [ip_set_slot_length]; exact htl
      simp only [if_pos hu1]
      refine ⟨?_, by trivial, ?_, ?_⟩
      · rw [ip_slot_set_slot sub target target _ htl, if_pos rfl]
        have := (hctor (ip_reassembly_dtor (sub.slot target))).2.2.2.2
        by_cases hw : env.pkt_wait_list_ctor parser = none
        · have h0 : (ip_reassembly_ctor env (ip_reassembly_dtor (sub.slot target)) parser id).1 ≠ 0 := by
            intro h; exact (this.1 h) hw
          simp [h0, hw]
        · have h0 : (ip_reassembly_ctor env (ip_reassembly_dtor (sub.slot target)) parser id).1 = 0 :=
            this.2 hw
          simp [h0, hw]
      · rw [ip_slot_set_slot _ target target _ htl2, if_pos rfl,
          ip_slot_set_slot sub target target _ htl, if_pos rfl]
      · intro r' hr'n
        rw [ip_slot_set_slot _ target r' _ htl2, if_neg (Ne.symm hr'n),
          ip_slot_set_slot sub target r' _ htl, if_neg (Ne.symm hr'n)]
    · intro r hr
      by_cases hu1 : u = -1
      · have htl : target < sub.reassembly.length := by rw [hlen]; exact htarget
        have htl2 : target < (sub.set_slot target (ip_reassembly_dtor (sub.slot target))).reassembly.length := by
          rw [ip_set_slot_length]; exact htl
        simp only [if_pos hu1] at hr ⊢
        split_ifs at hr
        simp only [Option.some.injEq] at hr
        subst hr
        rw [ip_slot_set_slot _ target target _ htl2, if_pos rfl]
        exact ⟨htarget, (hctor _).1, (hctor _).2.1, (hctor _).2.2.1⟩
      · rcases hcase with ⟨h, _⟩ | ⟨r1, hr1, hur, hfree⟩
        · exact absurd h hu1
        · have hr4 : r1 < NB_REASSEMBLY := List.mem_range.1 hr1
          have hr' : r1 < sub.reassembly.length := by rw [hlen]; exact hr4
          have hto : u.toNat = r1 := by omega
          simp only [if_neg hu1, hto] at hr ⊢
          split_ifs at hr
          simp only [Option.some.injEq] at hr
          subst hr
          rw [ip_slot_set_slot sub r1 r1 _ hr', if_pos rfl]
          exact ⟨hr4, (hctor _).1, (hctor _).2.1, (hctor _).2.2.1⟩

theorem ip_reassembly_lookup_slots_witness :
    (ip_reassembly_lookup sample_ip_env sample_ip_sub 1 4660 (some 3)).slot = some 3 ∧
    3 < NB_REASSEMBLY ∧
    ((ip_reassembly_lookup sample_ip_env sample_ip_sub 1 4660 (some 3)).ip_subparser.slot
      3).in_use = true ∧
    ((ip_reassembly_lookup sample_ip_env sample_ip_sub 1 4660 (some 3)).ip_subparser.slot
      3).constructed = true ∧
    ((ip_reassembly_lookup sample_ip_env sample_ip_sub 1 4660 (some 3)).ip_subparser.slot
      3).id = 4660 :=
  ⟨by decide,
   (ip_reassembly_lookup_slots sample_ip_env sample_ip_sub 1 4660 (some 3) (by decide)
    (by decide)).2.2.2 3 (by decide)⟩


/-! ## Construction of a netmatch filter -/

theorem netmatch_memset_zero (mem : List Nat) (size i : Nat) (h : i < size) :
    (netmatch_memset mem size)[i]? = some 0 := by
  simp only [netmatch_memset]
  rw [List.getElem?_append_left (by simpa using h)]
  simp [h]

/-- C19: `netmatch_filter_ctor` returns 0 iff every step succeeds (the
allocation of the register file when `nb_regs > 0`, the duplication of the
name, the load of the library, the resolution of the symbol `match`). On
success `nb_registers = nb_regs`, the register file is NULL when
`nb_regs = 0` and every byte of every register is zero otherwise, and nothing
was released. On failure it returns -1, and whatever an earlier step had
acquired (register file, name, handle) has been released, its field being NULL. -/
theorem netmatch_filter_ctor_steps (env : netmatch_env) (netmatch : netmatch_filter)
    (libname : String) (nb_regs : Nat) (hsize : nb_regs * env.reg_size < SIZE_MAX1) :
    ((netmatch_filter_ctor env netmatch libname nb_regs).ret = 0 ↔
      (nb_regs > 0 → env.objalloc (nb_regs * env.reg_size) ≠ none) ∧
      env.objalloc_strdup libname ≠ none ∧
      ∃ handle, env.lt_dlopen libname = some handle ∧ env.lt_dlsym handle "match" ≠ none) ∧
    ((netmatch_filter_ctor env netmatch libname nb_regs).ret = 0 →
      (netmatch_filter_ctor env netmatch libname nb_regs).netmatch.nb_registers = nb_regs ∧
      (nb_regs = 0 → (netmatch_filter_ctor env netmatch libname nb_regs).netmatch.regfile = none) ∧
      (nb_regs > 0 → ∃ regfile,
        (netmatch_filter_ctor env netmatch libname nb_regs).netmatch.regfile = some regfile ∧
        ∀ r j, r < nb_regs → j < env.reg_size → regfile[r * env.reg_size + j]? = some 0) ∧
      (netmatch_filter_ctor env netmatch libname nb_regs).calls = []) ∧
    ((netmatch_filter_ctor env netmatch libname nb_regs).ret ≠ 0 →
      (netmatch_filter_ctor env netmatch libname nb_regs).ret = -1 ∧
      (netmatch_filter_ctor env netmatch libname nb_regs).netmatch.regfile = none ∧
      (nb_regs > 0 → ∀ mem, env.objalloc (nb_regs * env.reg_size) = some mem →
        netmatch_call.objfree_regfile (netmatch_memset mem (nb_regs * env.reg_size)) ∈
          (netmatch_filter_ctor env netmatch libname nb_regs).calls) ∧
      ((nb_regs > 0 → env.objalloc (nb_regs * env.reg_size) ≠ none) →
        (netmatch_filter_ctor env netmatch libname nb_regs).netmatch.libname = none ∧
        ∀ name, env.objalloc_strdup libname = some name →
          netmatch_call.objfree_libname name ∈
            (netmatch_filter_ctor env netmatch libname nb_regs).calls) ∧
      ((nb_regs > 0 → env.objalloc (nb_regs * env.reg_size) ≠ none) →
        env.objalloc_strdup libname ≠ none →
        (netmatch_filter_ctor env netmatch libname nb_regs).netmatch.handle = none ∧
        ∀ handle, env.lt_dlopen libname = some handle →
          netmatch_call.lt_dlclose handle ∈
            (netmatch_filter_ctor env netmatch libname nb_regs).calls)) := by
  have hmod : nb_regs * env.reg_size % SIZE_MAX1 = nb_regs * env.reg_size := Nat.mod_eq_of_lt hsize
  unfold netmatch_filter_ctor
  simp only [hmod]
  by_cases hn : nb_regs > 0
  · cases ha : env.objalloc (nb_regs * env.reg_size) with
    | none => simp [hn, ha]
    | some mem =>
      cases hs : env.objalloc_strdup libname with
      | none => simp [hn, ha, hs, netmatch_err1]
      | some name =>
        cases hd : env.lt_dlopen libname with
        | none => simp [hn, ha, hs, hd, netmatch_err1, netmatch_err2]
        | some handle =>
          cases hm : env.lt_dlsym handle "match" with
          | none => simp [hn, ha, hs, hd, hm, netmatch_err1, netmatch_err2, netmatch_err3]
          | some f =>
            simp only [hn, ha, hs, hd, hm]
            simp
            refine ⟨by simp [hm], by omega, ?_⟩
            intro r j hr hj
            apply netmatch_memset_zero
            calc r * env.reg_size + j < r * env.reg_size + env.reg_size := by omega
              _ = (r + 1) * env.reg_size := by ring
              _ ≤ nb_regs * env.reg_size := Nat.mul_le_mul_right _ hr
  · have hn0 : nb_regs = 0 := by omega
    subst hn0
    cases hs : env.objalloc_strdup libname with
    | none => simp [hs, netmatch_err1]
    | some name =>
      cases hd : env.lt_dlopen libname with
      | none => simp [hs, hd, netmatch_err1, netmatch_err2]
      | some handle =>
        cases hm : env.lt_dlsym handle "match" with
        | none => simp [hs, hd, hm, netmatch_err1, netmatch_err2, netmatch_err3]
        | some f => simp [hs, hd, hm]

theorem netmatch_filter_ctor_steps_witness :
    (netmatch_filter_ctor sample_netmatch_env sample_netmatch "lib.so" 2).netmatch.nb_registers
      = 2 ∧
    ((2 : Nat) = 0 →
      (netmatch_filter_ctor sample_netmatch_env sample_netmatch "lib.so" 2).netmatch.regfile
        = none) ∧
    ((2 : Nat) > 0 → ∃ regfile,
      (netmatch_filter_ctor sample_netmatch_env sample_netmatch "lib.so" 2).netmatch.regfile
        = some regfile ∧
      ∀ r j, r < 2 → j < sample_netmatch_env.reg_size →
        regfile[r * sample_netmatch_env.reg_size + j]? = some 0) ∧
    (netmatch_filter_ctor sample_netmatch_env sample_netmatch "lib.so" 2).calls = [] :=
  (netmatch_filter_ctor_steps sample_netmatch_env sample_netmatch "lib.so" 2 (by decide)).2.1
    (by decide)

/-! ## Loopback flows -/

theorem tcp_parse_header_ports (env : tcp_env) (packet : List Nat) (cap_len wire_len : Nat)
    (h : (tcp_parse_header env packet cap_len wire_len).1 = PROTO_OK) :
    (tcp_parse_header env packet cap_len wire_len).2.key_port =
      (READ_U16N packet 0, READ_U16N packet 2) := by
  unfold tcp_parse_header parse_tcp_proto_info at *
  split_ifs at h ⊢ with h1 h2 h3 h4 h5
  obtain ⟨_, i2, _⟩ := parse_tcp_options_keeps env.MAX_OPTIONS
    (size_sub (TCP_HDR_LENGTH packet) TCP_HDR_SIZE)
    (tcp_proto_info_ctor env.info_uninit (TCP_HDR_LENGTH packet)
      (size_sub wire_len (TCP_HDR_LENGTH packet)) (READ_U16N packet 0) (READ_U16N packet 2) packet)
    (env.packet_addr + TCP_HDR_SIZE) (List.drop TCP_HDR_SIZE packet)
  simp only []
  rw [i2]
  simp [tcp_proto_info_ctor]

theorem tcp_parse_way_only (env : tcp_env) (found : Option tcp_subparser)
    (parent : Option (ip_addr × ip_addr)) (way : Nat) (packet : List Nat)
    (cap_len wire_len : Nat) :
    tcp_parse env found parent way packet cap_len wire_len =
      tcp_parse env found none (tcp_parse_way env parent way packet cap_len wire_len) packet
        cap_len wire_len := by
  simp only [tcp_parse, tcp_parse_way, tcp_patch_way]

/-- C18: `tcp_parse` on a segment whose parent holds the addresses `a` and
`b` does what it does without parent for the direction `tcp_parse_way`, which
is thus the one used for the lookup, the bookkeeping and the delivery. When
`a = b` that direction is 1 if sport < dport and 0 otherwise, whatever the
incoming way, so that the two directions of a loopback flow with distinct
ports get opposite ways; when `a ≠ b` it is the incoming way. -/
theorem tcp_parse_loopback_way (env : tcp_env) (found : Option tcp_subparser)
    (a b : ip_addr) (way : Nat) (packet : List Nat) (cap_len wire_len : Nat)
    (h : (tcp_parse_header env packet cap_len wire_len).1 = PROTO_OK) :
    tcp_parse env found (some (a, b)) way packet cap_len wire_len =
      tcp_parse env found none (tcp_parse_way env (some (a, b)) way packet cap_len wire_len)
        packet cap_len wire_len ∧
    (a = b →
      tcp_parse_way env (some (a, b)) way packet cap_len wire_len =
        (if READ_U16N packet 0 < READ_U16N packet 2 then 1 else 0)) ∧
    (a ≠ b → tcp_parse_way env (some (a, b)) way packet cap_len wire_len = way) ∧
    (a = b → READ_U16N packet 0 ≠ READ_U16N packet 2 →
      ∀ (env2 : tcp_env) (way2 : Nat) (packet2 : List Nat) (cap_len2 wire_len2 : Nat),
        (tcp_parse_header env2 packet2 cap_len2 wire_len2).1 = PROTO_OK →
        READ_U16N packet2 0 = READ_U16N packet 2 → READ_U16N packet2 2 = READ_U16N packet 0 →
        tcp_parse_way env2 (some (b, a)) way2 packet2 cap_len2 wire_len2 =
          not_way (tcp_parse_way env (some (a, b)) way packet cap_len wire_len)) := by
  have hp := tcp_parse_header_ports env packet cap_len wire_len h
  have hz := ip_addr_cmp_eq_zero a b
  refine ⟨tcp_parse_way_only _ _ _ _ _ _ _, ?_, ?_, ?_⟩
  · intro hab
    simp only [tcp_parse_way, tcp_patch_way, hz.2 hab, if_true, hp, at2]
    simp
  · intro hab
    have : ip_addr_cmp a b ≠ 0 := fun h0 => hab (hz.1 h0)
    simp only [tcp_parse_way, tcp_patch_way, this, if_false]
  · intro hab hne env2 way2 packet2 cap_len2 wire_len2 h2 e1 e2
    have hp2 := tcp_parse_header_ports env2 packet2 cap_len2 wire_len2 h2
    have hz2 := (ip_addr_cmp_eq_zero b a).2 hab.symm
    simp only [tcp_parse_way, tcp_patch_way, hz.2 hab, hz2, if_true, hp, hp2, at2, e1, e2]
    simp only [not_way]
    by_cases hlt : READ_U16N packet 0 < READ_U16N packet 2
    · have : ¬ READ_U16N packet 2 < READ_U16N packet 0 := by omega
      simp [hlt, this]
    · have : READ_U16N packet 2 < READ_U16N packet 0 := by omega
      simp [hlt, this]

theorem tcp_parse_loopback_way_witness :
    tcp_parse_way sample_env (some ([127, 0, 0, 1], [127, 0, 0, 1])) 0
      (sample_tcp_packet 80 40000 500 101 16 []) 20 20 =
      (if READ_U16N (sample_tcp_packet 80 40000 500 101 16 []) 0 <
          READ_U16N (sample_tcp_packet 80 40000 500 101 16 []) 2 then 1 else 0) :=
  (tcp_parse_loopback_way sample_env none [127, 0, 0, 1] [127, 0, 0, 1] 0
    (sample_tcp_packet 80 40000 500 101 16 []) 20 20
    (by rw [tcp_parse_header_plain _ _ _ _ (by decide) (by decide) (by decide)])).2.1 rfl


/-! ## Retransmitted segments -/

theorem at2_upd2_not_way {α : Type} (a : α × α) (w : Nat) (x : α) :
    at2 (upd2 a (not_way w) x) w = at2 a w := by
  simp only [at2, upd2, not_way]
  by_cases h : w = 0 <;> simp [h]

theorem set_wl_list_keeps_offset (s : tcp_subparser) (info : tcp_proto_info) (way : Nat)
    (h : IS_SET_FOR_WAY way s.wl_set = true) :
    at2 (set_wl_list s info way).wl way = at2 s.wl way := by
  unfold set_wl_list
  simp only [h, Bool.not_true, Bool.false_eq_true, if_false]
  split_ifs
  · exact at2_upd2_not_way _ _ _
  · rfl

theorem tcp_parse_bookkeeping_keeps_offset (env : tcp_env) (s : tcp_subparser)
    (info : tcp_proto_info) (way : Nat) (h : IS_SET_FOR_WAY way s.wl_set = true) :
    at2 (tcp_parse_bookkeeping env s info way).wl way = at2 s.wl way := by
  unfold tcp_parse_bookkeeping
  simp only [tcp_set_srv_way_wl, tcp_track_syn_wl, tcp_track_fin_wl, tcp_track_ack_wl]
  exact set_wl_list_keeps_offset s info way h

theorem tcp_parse_deliver_wl_add (env : tcp_env) (s : tcp_subparser) (info : tcp_proto_info)
    (way : Nat) (packet : List Nat) (cap_len wire_len tcphdr_len : Nat) :
    ((∃ args, tcp_call.wl_add args ∈
        (tcp_parse_deliver env s info way packet cap_len wire_len tcphdr_len).2.2) ↔
      0 ≤ tcp_seqnum_cmp info.seq_num (at2 s.wl way).next_offset) ∧
    (∀ args, tcp_call.wl_add args ∈
        (tcp_parse_deliver env s info way packet cap_len wire_len tcphdr_len).2.2 →
      args.way = way ∧ args.offset = info.seq_num ∧ args.payload = packet.drop tcphdr_len) ∧
    (tcp_seqnum_cmp info.seq_num (at2 s.wl way).next_offset < 0 →
      (tcp_parse_deliver env s info way packet cap_len wire_len tcphdr_len).2.2.head? =
        some (tcp_call.proto_parse none info way none 0 0)) := by
  unfold tcp_parse_deliver
  simp only []
  by_cases hc : tcp_seqnum_cmp info.seq_num (at2 s.wl way).next_offset < 0
  · have hn : ¬ 0 ≤ tcp_seqnum_cmp info.seq_num (at2 s.wl way).next_offset := by omega
    simp only [hc, if_true, hn, iff_false]
    split_ifs <;> simp
  · have hn : 0 ≤ tcp_seqnum_cmp info.seq_num (at2 s.wl way).next_offset := by omega
    simp only [hc, if_false, hn, iff_true]
    split_ifs <;> simp

theorem u32_sub_pred_cmp (n : Nat) : tcp_seqnum_cmp (u32_sub n 1) n = -1 := by
  have h1 := u32_sub_int (u32_sub n 1) n
  have h2 := u32_sub_int n 1
  simp only [tcp_seqnum_cmp]
  generalize u32_sub (u32_sub n 1) n = d at h1 ⊢
  generalize u32_sub n 1 = e at h1 h2
  split_ifs <;> omega

/-- C17: for a segment whose header parses and for which `tcp_parse` has a
sub-parser, `b` being that sub-parser after the bookkeeping, the segment is
given to `pkt_wait_list_add` of `wl[way]` iff
`tcp_seqnum_cmp(seq_num, wl[way].next_offset) ≥ 0`, and otherwise the first
call delivers it info-only: null parser, null payload, lengths 0. When the
wait-list of the direction was already initialised in the sub-parser found,
`wl[way].next_offset` is the one found there, and a segment with
`seq_num = next_offset - 1` (modulo 2^32) is delivered info-only and not
inserted. -/
theorem tcp_parse_retransmit (env : tcp_env) (found : Option tcp_subparser)
    (parent : Option (ip_addr × ip_addr)) (way : Nat) (packet : List Nat)
    (cap_len wire_len : Nat) (b : tcp_subparser)
    (h : (tcp_parse_header env packet cap_len wire_len).1 = PROTO_OK)
    (hb : tcp_parse_tracked env found parent way packet cap_len wire_len = some b) :
    ((∃ args, tcp_call.wl_add args ∈
        (tcp_parse env found parent way packet cap_len wire_len).calls) ↔
      0 ≤ tcp_seqnum_cmp (tcp_parse_header env packet cap_len wire_len).2.seq_num
        (at2 b.wl (tcp_parse_way env parent way packet cap_len wire_len)).next_offset) ∧
    (∀ args, tcp_call.wl_add args ∈
        (tcp_parse env found parent way packet cap_len wire_len).calls →
      args.way = tcp_parse_way env parent way packet cap_len wire_len ∧
      args.offset = (tcp_parse_header env packet cap_len wire_len).2.seq_num ∧
      args.payload = packet.drop (TCP_HDR_LENGTH packet)) ∧
    (tcp_seqnum_cmp (tcp_parse_header env packet cap_len wire_len).2.seq_num
        (at2 b.wl (tcp_parse_way env parent way packet cap_len wire_len)).next_offset < 0 →
      (tcp_parse env found parent way packet cap_len wire_len).calls.head? =
        some (tcp_call.proto_parse none
          { (tcp_parse_header env packet cap_len wire_len).2 with
            to_srv := decide (b.srv_way ≠ tcp_parse_way env parent way packet cap_len wire_len) }
          (tcp_parse_way env parent way packet cap_len wire_len) none 0 0)) ∧
    (∀ sub, found = some sub →
      IS_SET_FOR_WAY (tcp_parse_way env parent way packet cap_len wire_len) sub.wl_set = true →
      (at2 b.wl (tcp_parse_way env parent way packet cap_len wire_len)).next_offset =
        (at2 sub.wl (tcp_parse_way env parent way packet cap_len wire_len)).next_offset ∧
      ((tcp_parse_header env packet cap_len wire_len).2.seq_num =
          u32_sub (at2 sub.wl (tcp_parse_way env parent way packet cap_len wire_len)).next_offset 1 →
        (tcp_parse env found parent way packet cap_len wire_len).calls.head? =
          some (tcp_call.proto_parse none
            { (tcp_parse_header env packet cap_len wire_len).2 with
              to_srv := decide (b.srv_way ≠ tcp_parse_way env parent way packet cap_len wire_len) }
            (tcp_parse_way env parent way packet cap_len wire_len) none 0 0) ∧
        ∀ args, tcp_call.wl_add args ∉
          (tcp_parse env found parent way packet cap_len wire_len).calls)) := by
  simp only [tcp_parse_tracked, Option.map_eq_some'] at hb
  obtain ⟨sub', hl, hbk⟩ := hb
  have hd := tcp_parse_deliver_wl_add env b
    { (tcp_parse_header env packet cap_len wire_len).2 with
      to_srv := decide (b.srv_way ≠ tcp_parse_way env parent way packet cap_len wire_len) }
    (tcp_parse_way env parent way packet cap_len wire_len) packet cap_len wire_len
    (TCP_HDR_LENGTH packet)
  have hcalls : (tcp_parse env found parent way packet cap_len wire_len).calls =
      (tcp_parse_deliver env b
        { (tcp_parse_header env packet cap_len wire_len).2 with
          to_srv := decide (b.srv_way ≠ tcp_parse_way env parent way packet cap_len wire_len) }
        (tcp_parse_way env parent way packet cap_len wire_len) packet cap_len wire_len
        (TCP_HDR_LENGTH packet)).2.2 ++
      (tcp_parse env found parent way packet cap_len wire_len).calls.drop
        (tcp_parse_deliver env b
          { (tcp_parse_header env packet cap_len wire_len).2 with
            to_srv := decide (b.srv_way ≠ tcp_parse_way env parent way packet cap_len wire_len) }
          (tcp_parse_way env parent way packet cap_len wire_len) packet cap_len wire_len
          (TCP_HDR_LENGTH packet)).2.2.length ∧
      ∀ args, tcp_call.wl_add args ∉
        (tcp_parse env found parent way packet cap_len wire_len).calls.drop
          (tcp_parse_deliver env b
            { (tcp_parse_header env packet cap_len wire_len).2 with
              to_srv := decide (b.srv_way ≠ tcp_parse_way env parent way packet cap_len wire_len) }
            (tcp_parse_way env parent way packet cap_len wire_len) packet cap_len wire_len
            (TCP_HDR_LENGTH packet)).2.2.length := by
    simp only [tcp_parse_way] at hl hbk ⊢
    unfold tcp_parse
    simp only [h, ne_eq, not_true_eq_false, if_false, hl, hbk, List.append_assoc,
      List.drop_left]
    refine ⟨trivial, ?_⟩
    intro args
    split_ifs <;> simp
  obtain ⟨hc1, hc2⟩ := hcalls
  obtain ⟨hd1, hd2, hd3⟩ := hd
  have hmem : ∀ args, tcp_call.wl_add args ∈
        (tcp_parse env found parent way packet cap_len wire_len).calls ↔
      tcp_call.wl_add args ∈ (tcp_parse_deliver env b
        { (tcp_parse_header env packet cap_len wire_len).2 with
          to_srv := decide (b.srv_way ≠ tcp_parse_way env parent way packet cap_len wire_len) }
        (tcp_parse_way env parent way packet cap_len wire_len) packet cap_len wire_len
        (TCP_HDR_LENGTH packet)).2.2 := by
    intro args
    constructor
    · intro hin
      rw [hc1] at hin
      rcases List.mem_append.1 hin with hin | hin
      · exact hin
      · exact absurd hin (hc2 args)
    · intro hin
      rw [hc1]
      exact List.mem_append_left _ hin
  have hhead : tcp_seqnum_cmp (tcp_parse_header env packet cap_len wire_len).2.seq_num
        (at2 b.wl (tcp_parse_way env parent way packet cap_len wire_len)).next_offset < 0 →
      (tcp_parse env found parent way packet cap_len wire_len).calls.head? =
        some (tcp_call.proto_parse none
          { (tcp_parse_header env packet cap_len wire_len).2 with
            to_srv := decide (b.srv_way ≠ tcp_parse_way env parent way packet cap_len wire_len) }
          (tcp_parse_way env parent way packet cap_len wire_len) none 0 0) := by
    intro hlt
    have h3 := hd3 hlt
    rw [hc1]
    rw [List.head?_append_of_ne_nil]
    · exact h3
    · intro hnil
      rw [hnil] at h3
      cases h3
  refine ⟨?_, ?_, hhead, ?_⟩
  · rw [← hd1]
    constructor
    · rintro ⟨args, hin⟩
      exact ⟨args, (hmem args).1 hin⟩
    · rintro ⟨args, hin⟩
      exact ⟨args, (hmem args).2 hin⟩
  · intro args hin
    exact hd2 args ((hmem args).1 hin)
  · intro sub hf hset
    subst hf
    obtain ⟨sub2, hl2, htr, hwl⟩ := lookup_found_track env sub
      (tcp_parse_header env packet cap_len wire_len).2
      (tcp_parse_way env parent way packet cap_len wire_len)
    simp only [tcp_parse_way] at hl hl2
    rw [hl] at hl2
    cases hl2
    have hset' : IS_SET_FOR_WAY (tcp_parse_way env parent way packet cap_len wire_len)
        sub'.wl_set = true := by
      rw [htr.2.2.2.1]; exact hset
    have hoff := tcp_parse_bookkeeping_keeps_offset env sub'
      (tcp_parse_header env packet cap_len wire_len).2
      (tcp_parse_way env parent way packet cap_len wire_len) hset'
    simp only [tcp_parse_way] at hoff hbk
    rw [hbk] at hoff
    have hoff2 : (at2 b.wl (tcp_parse_way env parent way packet cap_len wire_len)).next_offset =
        (at2 sub.wl (tcp_parse_way env parent way packet cap_len wire_len)).next_offset := by
      simp only [tcp_parse_way]
      rw [hoff, hwl]
    refine ⟨hoff2, ?_⟩
    intro hseq
    have hlt : tcp_seqnum_cmp (tcp_parse_header env packet cap_len wire_len).2.seq_num
        (at2 b.wl (tcp_parse_way env parent way packet cap_len wire_len)).next_offset < 0 := by
      rw [hoff2, hseq, u32_sub_pred_cmp]
      decide
    refine ⟨hhead hlt, ?_⟩
    intro args hin
    have h5 : 0 ≤ tcp_seqnum_cmp (tcp_parse_header env packet cap_len wire_len).2.seq_num
        (at2 b.wl (tcp_parse_way env parent way packet cap_len wire_len)).next_offset :=
      hd1.1 ⟨args, (hmem args).1 hin⟩
    omega

theorem tcp_parse_retransmit_witness :
    (tcp_parse sample_env (some sample_closing_sub) none 0
      (sample_tcp_packet 40000 80 4294967295 0 16 []) 20 20).calls.head? =
      some (tcp_call.proto_parse none
        { (tcp_parse_header sample_env (sample_tcp_packet 40000 80 4294967295 0 16 []) 20 20).2 with
          to_srv := decide ((tcp_parse_bookkeeping sample_env sample_closing_sub
            (tcp_parse_header sample_env (sample_tcp_packet 40000 80 4294967295 0 16 []) 20 20).2
            0).srv_way ≠ 0) }
        0 none 0 0) ∧
    ∀ args, tcp_call.wl_add args ∉
      (tcp_parse sample_env (some sample_closing_sub) none 0
        (sample_tcp_packet 40000 80 4294967295 0 16 []) 20 20).calls :=
  ((tcp_parse_retransmit sample_env (some sample_closing_sub) none 0
    (sample_tcp_packet 40000 80 4294967295 0 16 []) 20 20
    (tcp_parse_bookkeeping sample_env sample_closing_sub
      (tcp_parse_header sample_env (sample_tcp_packet 40000 80 4294967295 0 16 []) 20 20).2 0)
    (by rw [tcp_parse_header_plain _ _ _ _ (by decide) (by decide) (by decide)])
    rfl).2.2.2 sample_closing_sub rfl (by decide)).2
    (by
      rw [tcp_parse_header_plain _ _ _ _ (by decide) (by decide) (by decide)]
      decide)


/-! ## Malformed options -/

theorem parse_next_option_len (max_options : Nat) (info : tcp_proto_info) (addr : Nat)
    (options : List Nat) (n : Nat)
    (h1 : ¬ (parse_next_option max_options info addr options n).1 < 0) :
    0 < (parse_next_option max_options info addr options n).1 ∧
      (parse_next_option max_options info addr options n).1 ≤ (n : Int) := by
  revert h1
  unfold parse_next_option
  simp only []
  repeat' split
  all_goals simp
  all_goals omega

theorem parse_next_option_malformed (max_options : Nat) (info : tcp_proto_info) (addr : Nat)
    (options : List Nat) (rem_len : Nat) (h : tcp_option_malformed options rem_len) :
    (parse_next_option max_options info addr options rem_len).1 = -1 := by
  obtain ⟨hk, hm⟩ := h
  unfold parse_next_option
  simp only []
  have k0 : ¬ READ_U8 options 0 = 0 := by omega
  have k1 : ¬ READ_U8 options 0 = 1 := by omega
  by_cases h0 : rem_len < 1
  · simp [h0]
  · simp only [h0, if_false, k0, k1]
    by_cases h2 : rem_len < 2
    · simp [h2]
    · simp only [h2, if_false]
      by_cases h3 : READ_U8 options 1 < 2
      · simp [h3]
      · simp only [h3, if_false]
        by_cases h4 : rem_len < READ_U8 options 1
        · simp [h4]
        · simp only [h4, if_false]
          rcases hm with hm | hm | hm | ⟨e, hm⟩ | ⟨e, hm⟩
          · exact absurd hm h2
          · exact absurd hm h3
          · exact absurd hm h4
          · simp [e, hm]
          · simp [e, hm]

theorem parse_tcp_options_malformed (max_options : Nat) (rem_len : Nat) :
    ∀ (info : tcp_proto_info) (addr : Nat) (options : List Nat) (o : List Nat × Nat),
    o ∈ tcp_option_walk max_options info addr options rem_len →
    tcp_option_malformed o.1 o.2 →
    (parse_tcp_options max_options info addr options rem_len).1 = PROTO_PARSE_ERR := by
  induction rem_len using Nat.strong_induction_on with
  | _ n ih =>
    intro info addr options o ho hm
    rw [tcp_option_walk] at ho
    rw [parse_tcp_options]
    by_cases h0 : n > 0
    · simp only [h0, dite_true] at ho ⊢
      by_cases h1 : (parse_next_option max_options info addr options n).1 < 0
      · simp only [h1, dite_true]
      · simp only [h1, dite_false] at ho ⊢
        rcases List.mem_cons.1 ho with e | e
        · subst e
          have := parse_next_option_malformed max_options info addr options n hm
          omega
        · have hle := parse_next_option_len max_options info addr options n h1
          have hlt : size_sub n (parse_next_option max_options info addr options n).1.toNat < n := by
            simp only [size_sub]
            split <;> omega
          exact ih _ hlt _ _ _ o e hm
    · simp [h0] at ho

/-- C16: on a header that passes the length checks, when the option walk
reaches (an END option stops the walk) an option of kind 2 or more whose length
is malformed (no length byte, a length below 2 or above the bytes left, an MSS
whose length is not 4, a WSF whose length is not 3), `parse_tcp_proto_info`
returns PROTO_PARSE_ERR. -/
theorem parse_tcp_proto_info_malformed_option (max_options : Nat) (info : tcp_proto_info)
    (cap_len wire_len addr : Nat) (tcphdr : List Nat) (tcphdr_len : Nat)
    (h1 : TCP_HDR_SIZE ≤ wire_len) (h2 : TCP_HDR_SIZE ≤ cap_len)
    (h3 : TCP_HDR_SIZE ≤ tcphdr_len) (h4 : tcphdr_len ≤ wire_len) (h5 : tcphdr_len ≤ cap_len)
    (o : List Nat × Nat)
    (ho : o ∈ tcp_header_walk max_options info wire_len addr tcphdr tcphdr_len)
    (hm : tcp_option_malformed o.1 o.2) :
    (parse_tcp_proto_info max_options info cap_len wire_len addr tcphdr tcphdr_len).1
      = PROTO_PARSE_ERR := by
  unfold parse_tcp_proto_info
  rw [if_neg (by omega), if_neg (by omega), if_neg (by omega), if_neg (by omega),
    if_neg (by omega)]
  exact parse_tcp_options_malformed max_options _ _ _ _ o ho hm

theorem parse_tcp_proto_info_malformed_option_witness :
    (parse_tcp_proto_info 8 sample_info 28 28 0
      (sample_tcp_fixed 7 2 ++ [1, 2, 5, 1, 1, 1, 1, 1]) 28).1 = PROTO_PARSE_ERR :=
  parse_tcp_proto_info_malformed_option 8 sample_info 28 28 0
    (sample_tcp_fixed 7 2 ++ [1, 2, 5, 1, 1, 1, 1, 1]) 28 (by decide) (by decide) (by decide)
    (by decide) (by decide) ([2, 5, 1, 1, 1, 1, 1], 7)
    (by
      unfold tcp_header_walk
      simp +decide only [TCP_HDR_SIZE, size_sub, if_true, sample_tcp_fixed, List.cons_append,
        List.nil_append, List.drop]
      rw [tcp_option_walk]
      simp +decide only [parse_next_option, READ_U8, List.getD_cons_zero, dite_true, dite_false,
        if_true, if_false, size_sub, Int.toNat_ofNat, List.getD_eq_getElem?_getD, List.drop]
      rw [tcp_option_walk]
      simp +decide only [dite_true])
    (by unfold tcp_option_malformed; decide)


/-! ## Round trip of the options -/

theorem list_getLast_getD_cons (m d : Nat) (l : List Nat) :
    (m :: l).getLast?.getD d = l.getLast?.getD m := by
  cases l with
  | nil => simp
  | cons a as =>
    rw [List.getLast?_cons_cons, List.getLast?_eq_getLast _ (List.cons_ne_nil _ _)]
    simp

theorem parse_next_option_encode (max_options : Nat) (info : tcp_proto_info) (addr : Nat)
    (o : tcp_option) (tail : List Nat) (rem_len : Nat) (hwf : o.well_formed = true)
    (hrem : o.encode.length ≤ rem_len) :
    (parse_next_option max_options info addr (o.encode ++ tail) rem_len).1 = o.encode.length ∧
    (parse_next_option max_options info addr (o.encode ++ tail) rem_len).2.set_values =
      (if tcp_options_mss [o] ≠ [] then info.set_values ||| TCP_MSS_SET
       else if tcp_options_wsf [o] ≠ [] then info.set_values ||| TCP_WSF_SET
       else info.set_values) ∧
    (parse_next_option max_options info addr (o.encode ++ tail) rem_len).2.mss =
      (tcp_options_mss [o]).getLast?.getD info.mss ∧
    (parse_next_option max_options info addr (o.encode ++ tail) rem_len).2.wsf =
      (tcp_options_wsf [o]).getLast?.getD info.wsf := by
  have hr : ∀ k, (tcp_record_option max_options info k).set_values = info.set_values ∧
      (tcp_record_option max_options info k).mss = info.mss ∧
      (tcp_record_option max_options info k).wsf = info.wsf := by
    intro k
    unfold tcp_record_option
    split_ifs <;> simp
  cases o with
  | nop =>
    simp only [tcp_option.encode, List.length_singleton] at hrem ⊢
    unfold parse_next_option
    have h0 : ¬ rem_len < 1 := by omega
    simp [h0, READ_U8, hr, tcp_options_mss, tcp_options_wsf]
  | mss m =>
    simp only [tcp_option.encode, tcp_option.well_formed, decide_eq_true_eq] at hrem hwf ⊢
    simp only [List.length_cons, List.length_nil] at hrem
    unfold parse_next_option
    have h0 : ¬ rem_len < 1 := by omega
    have h1 : ¬ rem_len < 2 := by omega
    have h2 : ¬ rem_len < 4 := by omega
    simp [h0, h1, h2, READ_U8, READ_U16N, hr, tcp_options_mss, tcp_options_wsf]
    omega
  | wsf w =>
    simp only [tcp_option.encode, tcp_option.well_formed, decide_eq_true_eq] at hrem hwf ⊢
    simp only [List.length_cons, List.length_nil] at hrem
    unfold parse_next_option
    have h0 : ¬ rem_len < 1 := by omega
    have h1 : ¬ rem_len < 2 := by omega
    have h2 : ¬ rem_len < 3 := by omega
    simp [h0, h1, h2, READ_U8, hr, tcp_options_mss, tcp_options_wsf]
    omega
  | other kind data =>
    simp only [tcp_option.encode, tcp_option.well_formed, decide_eq_true_eq] at hrem hwf ⊢
    simp only [List.length_cons] at hrem
    obtain ⟨hk1, hk2, hl⟩ := hwf
    unfold parse_next_option
    have h0 : ¬ rem_len < 1 := by omega
    have h1 : ¬ rem_len < 2 := by omega
    have e0 : kind % 256 = kind := Nat.mod_eq_of_lt hk2
    have e1 : (data.length + 2) % 256 = data.length + 2 := Nat.mod_eq_of_lt hl
    have k0 : ¬ kind = 0 := by omega
    have k1 : ¬ kind = 1 := by omega
    have k2 : ¬ kind = 2 := by omega
    have k3 : ¬ kind = 3 := by omega
    have h3 : ¬ rem_len < data.length + 2 := by omega
    simp [h0, h1, READ_U8, hr, e0, e1, k0, k1, k2, k3, h3, tcp_options_mss, tcp_options_wsf]
    omega

theorem parse_tcp_options_encode (max_options : Nat) (opts : List tcp_option)
    (hwf : ∀ o ∈ opts, o.well_formed = true) :
    ∀ (info : tcp_proto_info) (addr : Nat) (tail : List Nat) (k : Nat),
    ∃ info', parse_tcp_options max_options info addr (tcp_options_encode opts ++ tail)
        ((tcp_options_encode opts).length + k) =
      parse_tcp_options max_options info' (addr + (tcp_options_encode opts).length) tail k ∧
      (∀ i, info'.set_values.testBit i =
        (info.set_values.testBit i || (decide (i = 0) && decide (tcp_options_mss opts ≠ [])) ||
          (decide (i = 1) && decide (tcp_options_wsf opts ≠ [])))) ∧
      info'.mss = (tcp_options_mss opts).getLast?.getD info.mss ∧
      info'.wsf = (tcp_options_wsf opts).getLast?.getD info.wsf := by
  induction opts with
  | nil =>
    intro info addr tail k
    refine ⟨info, ?_, ?_, ?_, ?_⟩ <;> simp [tcp_options_encode, tcp_options_mss, tcp_options_wsf]
  | cons o os ih =>
    intro info addr tail k
    have hwo : o.well_formed = true := hwf o (List.mem_cons_self _ _)
    have hpos : 0 < o.encode.length := by cases o <;> simp [tcp_option.encode]
    obtain ⟨e1, e2, e3, e4⟩ := parse_next_option_encode max_options info addr o
      (tcp_options_encode os ++ tail) (o.encode.length + (tcp_options_encode os).length + k)
      hwo (by omega)
    obtain ⟨info', i1, i2, i3, i4⟩ := ih (fun x hx => hwf x (List.mem_cons_of_mem _ hx))
      (parse_next_option max_options info addr (o.encode ++ (tcp_options_encode os ++ tail))
        (o.encode.length + (tcp_options_encode os).length + k)).2
      (addr + o.encode.length) tail k
    refine ⟨info', ?_, ?_, ?_, ?_⟩
    · rw [parse_tcp_options]
      simp only [tcp_options_encode, List.append_assoc, List.length_append]
      have hgt : o.encode.length + (tcp_options_encode os).length + k > 0 := by omega
      simp only [hgt, dite_true]
      have hn : ¬ (parse_next_option max_options info addr
          (o.encode ++ (tcp_options_encode os ++ tail))
          (o.encode.length + (tcp_options_encode os).length + k)).1 < 0 := by
        rw [e1]; omega
      simp only [hn, dite_false]
      rw [e1]
      simp only [Int.toNat_ofNat, List.drop_left, size_sub]
      have hle : o.encode.length ≤ o.encode.length + (tcp_options_encode os).length + k := by
        omega
      simp only [hle, if_true]
      have : o.encode.length + (tcp_options_encode os).length + k - o.encode.length =
          (tcp_options_encode os).length + k := by omega
      rw [this, i1]
      rw [Nat.add_assoc]
    · intro i
      rw [i2 i, e2]
      cases o with
      | nop => simp [tcp_options_mss, tcp_options_wsf]
      | mss m =>
        have : (1 : Nat).testBit i = decide (i = 0) := by
          have h := @Nat.testBit_two_pow 0 i
          simpa [eq_comm] using h
        simp only [tcp_options_mss, tcp_options_wsf, TCP_MSS_SET, ne_eq, List.cons_ne_nil,
          not_false_eq_true, if_true, Nat.testBit_or, this, decide_True, Bool.and_true]
        cases info.set_values.testBit i <;> cases decide (i = 0) <;> simp
      | wsf w =>
        have : (2 : Nat).testBit i = decide (i = 1) := by
          have h := @Nat.testBit_two_pow 1 i
          simpa [eq_comm] using h
        simp only [tcp_options_mss, tcp_options_wsf, TCP_WSF_SET, ne_eq, List.cons_ne_nil,
          not_false_eq_true, not_true_eq_false, if_true, if_false, Nat.testBit_or, this,
          decide_True, Bool.and_true]
        cases info.set_values.testBit i <;> cases decide (i = 1) <;>
          cases decide (i = 0) && decide (¬ tcp_options_mss os = []) <;> simp
      | other kind data => simp [tcp_options_mss, tcp_options_wsf]
    · rw [i3, e3]
      cases o with
      | mss m =>
        simp only [tcp_options_mss, list_getLast_getD_cons]
        simp
      | nop => simp [tcp_options_mss]
      | wsf w => simp [tcp_options_mss]
      | other kind data => simp [tcp_options_mss]
    · rw [i4, e4]
      cases o with
      | wsf w =>
        simp only [tcp_options_wsf, list_getLast_getD_cons]
        simp
      | nop => simp [tcp_options_wsf]
      | mss m => simp [tcp_options_wsf]
      | other kind data => simp [tcp_options_wsf]

theorem parse_tcp_options_padding (max_options : Nat) (info : tcp_proto_info) (addr : Nat)
    (payload : List Nat) (pad : Nat) (hpad : pad = 0 ∨ 4 < pad ∨ (addr + pad) &&& 0x3 = 0) :
    (parse_tcp_options max_options info addr (List.replicate pad 0 ++ payload) pad).1
      = PROTO_OK ∧
    (parse_tcp_options max_options info addr (List.replicate pad 0 ++ payload) pad).2.set_values
      = info.set_values ∧
    (parse_tcp_options max_options info addr (List.replicate pad 0 ++ payload) pad).2.mss
      = info.mss ∧
    (parse_tcp_options max_options info addr (List.replicate pad 0 ++ payload) pad).2.wsf
      = info.wsf := by
  have hr : ∀ k, (tcp_record_option max_options info k).set_values = info.set_values ∧
      (tcp_record_option max_options info k).mss = info.mss ∧
      (tcp_record_option max_options info k).wsf = info.wsf := by
    intro k
    unfold tcp_record_option
    split_ifs <;> simp
  by_cases h0 : pad = 0
  · subst h0
    rw [parse_tcp_options_zero]
    simp
  · have hpos : pad > 0 := by omega
    have hk : READ_U8 (List.replicate pad 0 ++ payload) 0 = 0 := by
      obtain ⟨p, rfl⟩ : ∃ p, pad = p + 1 := ⟨pad - 1, by omega⟩
      simp [READ_U8, List.replicate_succ]
    have hnext : parse_next_option max_options info addr (List.replicate pad 0 ++ payload) pad =
        ((pad : Int), tcp_record_option max_options info 0) := by
      unfold parse_next_option
      have h1 : ¬ pad < 1 := by omega
      simp only [h1, if_false, hk, if_true]
      rcases hpad with h | h | h
      · exact absurd h h0
      · simp [h]
      · by_cases h4 : pad > 4
        · simp [h4]
        · simp [h4, h]
    rw [parse_tcp_options]
    simp only [hpos, dite_true, hnext]
    have hn : ¬ ((pad : Int) < 0) := by omega
    simp only [hn, dite_false, Int.toNat_ofNat, size_sub, le_refl, if_true, Nat.sub_self]
    rw [parse_tcp_options_zero]
    exact ⟨rfl, (hr 0).1, (hr 0).2.1, (hr 0).2.2⟩

/-- Round trip of the options: a header made of a fixed part, a well-formed
options vector with at most one MSS and at most one WSF, and `pad` null bytes
of padding, is parsed with PROTO_OK, the MSS and WSF bits of `set_values`
telling whether the option is there and `mss`, `wsf` being the values encoded,
when there is no padding, or more than 4 bytes of it, or the header ends at a
word-aligned address. -/
theorem tcp_options_round_trip (max_options : Nat) (info : tcp_proto_info)
    (cap_len wire_len addr : Nat) (fixed : List Nat) (opts : List tcp_option) (pad : Nat)
    (payload : List Nat) (tcphdr_len : Nat)
    (hfixed : fixed.length = TCP_HDR_SIZE)
    (hwf : ∀ o ∈ opts, o.well_formed = true)
    (hmss : (tcp_options_mss opts).length ≤ 1) (hwsf : (tcp_options_wsf opts).length ≤ 1)
    (hlen : tcphdr_len = TCP_HDR_SIZE + (tcp_options_encode opts).length + pad)
    (hwire : tcphdr_len ≤ wire_len) (hcap : tcphdr_len ≤ cap_len)
    (hpad : pad = 0 ∨ 4 < pad ∨ (addr + tcphdr_len) &&& 0x3 = 0) :
    (parse_tcp_proto_info max_options info cap_len wire_len addr
      (tcp_header_encode fixed opts pad ++ payload) tcphdr_len).1 = PROTO_OK ∧
    (∀ m ∈ tcp_options_mss opts,
      (parse_tcp_proto_info max_options info cap_len wire_len addr
        (tcp_header_encode fixed opts pad ++ payload) tcphdr_len).2.set_values &&& TCP_MSS_SET ≠ 0 ∧
      (parse_tcp_proto_info max_options info cap_len wire_len addr
        (tcp_header_encode fixed opts pad ++ payload) tcphdr_len).2.mss = m) ∧
    (tcp_options_mss opts = [] →
      (parse_tcp_proto_info max_options info cap_len wire_len addr
        (tcp_header_encode fixed opts pad ++ payload) tcphdr_len).2.set_values &&& TCP_MSS_SET = 0) ∧
    (∀ w ∈ tcp_options_wsf opts,
      (parse_tcp_proto_info max_options info cap_len wire_len addr
        (tcp_header_encode fixed opts pad ++ payload) tcphdr_len).2.set_values &&& TCP_WSF_SET ≠ 0 ∧
      (parse_tcp_proto_info max_options info cap_len wire_len addr
        (tcp_header_encode fixed opts pad ++ payload) tcphdr_len).2.wsf = w) ∧
    (tcp_options_wsf opts = [] →
      (parse_tcp_proto_info max_options info cap_len wire_len addr
        (tcp_header_encode fixed opts pad ++ payload) tcphdr_len).2.set_values &&& TCP_WSF_SET = 0) := by
  have hsz : TCP_HDR_SIZE = 20 := rfl
  have hdrop : (tcp_header_encode fixed opts pad ++ payload).drop TCP_HDR_SIZE =
      tcp_options_encode opts ++ (List.replicate pad 0 ++ payload) := by
    simp only [tcp_header_encode, List.append_assoc]
    rw [← hfixed, List.drop_left]
  have hsub : size_sub tcphdr_len TCP_HDR_SIZE = (tcp_options_encode opts).length + pad := by
    simp only [size_sub]
    split <;> omega
  obtain ⟨info', i1, i2, i3, i4⟩ := parse_tcp_options_encode max_options opts hwf
    (tcp_proto_info_ctor info tcphdr_len (size_sub wire_len tcphdr_len)
      (READ_U16N (tcp_header_encode fixed opts pad ++ payload) 0)
      (READ_U16N (tcp_header_encode fixed opts pad ++ payload) 2)
      (tcp_header_encode fixed opts pad ++ payload))
    (addr + TCP_HDR_SIZE) (List.replicate pad 0 ++ payload) pad
  have hpad' : pad = 0 ∨ 4 < pad ∨
      (addr + TCP_HDR_SIZE + (tcp_options_encode opts).length + pad) &&& 0x3 = 0 := by
    rcases hpad with h | h | h
    · exact Or.inl h
    · exact Or.inr (Or.inl h)
    · right; right
      rw [← h, hlen]
      congr 1
      omega
  obtain ⟨p1, p2, p3, p4⟩ := parse_tcp_options_padding max_options info'
    (addr + TCP_HDR_SIZE + (tcp_options_encode opts).length) payload pad hpad'
  have hres : parse_tcp_proto_info max_options info cap_len wire_len addr
      (tcp_header_encode fixed opts pad ++ payload) tcphdr_len =
      parse_tcp_options max_options info'
        (addr + TCP_HDR_SIZE + (tcp_options_encode opts).length)
        (List.replicate pad 0 ++ payload) pad := by
    unfold parse_tcp_proto_info
    rw [if_neg (by omega), if_neg (by omega), if_neg (by omega), if_neg (by omega),
      if_neg (by omega)]
    simp only []
    rw [hdrop, hsub, i1]
  rw [hres, p2, p3, p4, i3, i4]
  have hb0 : ∀ x : Nat, x &&& TCP_MSS_SET = (x.testBit 0).toNat := by
    intro x
    have := Nat.and_two_pow x 0
    simpa [TCP_MSS_SET] using this
  have hb1 : ∀ x : Nat, x &&& TCP_WSF_SET = (x.testBit 1).toNat * 2 := by
    intro x
    have := Nat.and_two_pow x 1
    simpa [TCP_WSF_SET] using this
  have hs0 : (tcp_proto_info_ctor info tcphdr_len (size_sub wire_len tcphdr_len)
      (READ_U16N (tcp_header_encode fixed opts pad ++ payload) 0)
      (READ_U16N (tcp_header_encode fixed opts pad ++ payload) 2)
      (tcp_header_encode fixed opts pad ++ payload)).set_values = 0 := rfl
  rw [hb0, hb1, i2 0, i2 1, hs0]
  refine ⟨p1, ?_, ?_, ?_, ?_⟩
  · intro m hm
    have hne : tcp_options_mss opts ≠ [] := List.ne_nil_of_mem hm
    refine ⟨by simp [hne], ?_⟩
    cases hl : tcp_options_mss opts with
    | nil => exact absurd hl hne
    | cons a as =>
      rw [hl] at hm hmss
      have : as = [] := by
        cases as with
        | nil => rfl
        | cons b bs => simp at hmss
      subst this
      simp at hm ⊢
      exact hm.symm
  · intro h
    simp [h]
  · intro w hw
    have hne : tcp_options_wsf opts ≠ [] := List.ne_nil_of_mem hw
    refine ⟨by simp [hne], ?_⟩
    cases hl : tcp_options_wsf opts with
    | nil => exact absurd hl hne
    | cons a as =>
      rw [hl] at hw hwsf
      have : as = [] := by
        cases as with
        | nil => rfl
        | cons b bs => simp at hwsf
      subst this
      simp at hw ⊢
      exact hw.symm
  · intro h
    simp [h]

/-- C15, at the failing input: the options vector WSF(7), padded with one END
byte to the header length 24, is well formed; the header stored at the address
2 is answered PROTO_PARSE_ERR, because `parse_next_option` tests the alignment
of the address where the header ends; the same header stored at the address 0
is answered PROTO_OK with the WSF bit set and `wsf = 7`. -/
theorem tcp_options_round_trip_misaligned :
    (∀ o ∈ [tcp_option.wsf 7], o.well_formed = true) ∧
    tcp_header_encode (sample_tcp_fixed 6 2) [tcp_option.wsf 7] 1 =
      sample_tcp_fixed 6 2 ++ [3, 3, 7, 0] ∧
    TCP_HDR_LENGTH (tcp_header_encode (sample_tcp_fixed 6 2) [tcp_option.wsf 7] 1) = 24 ∧
    (parse_tcp_proto_info 8 sample_info 24 24 2
      (tcp_header_encode (sample_tcp_fixed 6 2) [tcp_option.wsf 7] 1) 24).1 = PROTO_PARSE_ERR ∧
    (parse_tcp_proto_info 8 sample_info 24 24 0
      (tcp_header_encode (sample_tcp_fixed 6 2) [tcp_option.wsf 7] 1) 24).1 = PROTO_OK ∧
    (parse_tcp_proto_info 8 sample_info 24 24 0
      (tcp_header_encode (sample_tcp_fixed 6 2) [tcp_option.wsf 7] 1) 24).2.set_values
        &&& TCP_WSF_SET ≠ 0 ∧
    (parse_tcp_proto_info 8 sample_info 24 24 0
      (tcp_header_encode (sample_tcp_fixed 6 2) [tcp_option.wsf 7] 1) 24).2.wsf = 7 := by
  have hok := tcp_options_round_trip 8 sample_info 24 24 0 (sample_tcp_fixed 6 2)
    [tcp_option.wsf 7] 1 [] 24 (by decide) (by decide) (by decide) (by decide) (by decide)
    (by decide) (by decide) (by decide)
  rw [List.append_nil] at hok
  refine ⟨by decide, by decide, by decide, ?_, hok.1, (hok.2.2.2.1 7 (by decide)).1,
    (hok.2.2.2.1 7 (by decide)).2⟩
  have henc : tcp_header_encode (sample_tcp_fixed 6 2) [tcp_option.wsf 7] 1 =
      sample_tcp_fixed 6 2 ++ [3, 3, 7, 0] := by decide
  rw [henc]
  unfold parse_tcp_proto_info
  simp +decide only [TCP_HDR_SIZE, if_false, size_sub]
  rw [parse_tcp_options]
  simp +decide only [parse_next_option, READ_U8, sample_tcp_fixed, List.drop,
    List.getD_cons_zero, List.getD_cons_succ, List.append, List.cons_append, List.nil_append,
    dite_true, dite_false, if_true, if_false, size_sub, Int.toNat_ofNat,
    List.getD_eq_getElem?_getD]
  rw [parse_tcp_options]
  simp +decide only [parse_next_option, READ_U8, sample_tcp_fixed, List.drop,
    List.getD_cons_zero, List.getD_cons_succ, List.append, List.cons_append, List.nil_append,
    dite_true, dite_false, if_true, if_false, size_sub, Int.toNat_ofNat,
    List.getD_eq_getElem?_getD]


/-! ## Reassembly of a stream of fragments -/

theorem ip_parse_of_fragment
    (pp : Option parser → Option ip_proto_info → Nat → List Nat → Nat → Nat → proto_parse_status)
    (ip_subprotos : List ip_subproto) (sub : ip_subparser) (target way : Nat) (f : ip_frame)
    (hv : ip_parse_valid f.packet f.cap_len f.wire_len) (hf : is_fragment f.packet = true)
    (hp : (ip_subprotos.find?
      (fun subproto => subproto.protocol = ip_hdr_protocol f.packet)).isSome) :
    ip_parse (ip_wl_env sub pp) ip_subprotos target way f.packet f.cap_len f.wire_len =
      ip_parse_fragment (ip_wl_env sub pp) (ip_parse_info (ip_wl_env sub pp) ip_subprotos f.packet)
        sub target way f.packet f.cap_len f.wire_len (ip_hdr_hdr_len f.packet * 4) := by
  rw [ip_parse_of_valid _ _ _ _ _ _ _ hv]
  obtain ⟨sp, hsp⟩ := Option.isSome_iff_exists.1 hp
  have hfind : ip_parse_find (ip_wl_env sub pp) ip_subprotos
      (ip_proto_info_ctor (ip_hdr_hdr_len f.packet * 4)
        (size_sub (ip_hdr_tot_len f.packet) (ip_hdr_hdr_len f.packet * 4)) f.packet) =
      ({ (ip_proto_info_ctor (ip_hdr_hdr_len f.packet * 4)
        (size_sub (ip_hdr_tot_len f.packet) (ip_hdr_hdr_len f.packet * 4)) f.packet) with
          way := (ip_key_ctor (ip_hdr_protocol f.packet) (ip_hdr_src f.packet)
            (ip_hdr_dst f.packet)).1 }, some sub) := by
    simp only [ip_parse_find, ip_proto_info_ctor, hsp, ip_wl_env]
  simp only [ip_parse_dispatch, ip_parse_info, hfind, hf, if_true]

theorem ip_reassembly_lookup_hit (env : ip_env) (sub : ip_subparser) (target id : Nat)
    (parser : Option parser) (r : Nat) (hlen : sub.reassembly.length = NB_REASSEMBLY)
    (hr : r < NB_REASSEMBLY) (hu : (sub.slot r).in_use = true)
    (hc : (sub.slot r).constructed = true) (hi : (sub.slot r).id = id)
    (ho : ∀ r', r' < NB_REASSEMBLY → r' ≠ r → (sub.slot r').in_use = true →
      (sub.slot r').id ≠ id) :
    ip_reassembly_lookup env sub target id parser =
      { slot := some r, ip_subparser := sub, target := target } := by
  have hspec := ip_reassembly_scan_spec sub id (List.range NB_REASSEMBLY) (-1)
  unfold ip_reassembly_lookup
  cases hscan : ip_reassembly_scan sub id (List.range NB_REASSEMBLY) (-1) with
  | inl r0 =>
    obtain ⟨hm, hu0, hi0⟩ := hspec.1 r0 hscan
    have hr0 : r0 < NB_REASSEMBLY := List.mem_range.1 hm
    have e : r0 = r := by
      by_contra hne
      exact ho r0 hr0 hne hu0 hi0
    subst e
    simp only [hc, Bool.not_true, Bool.false_eq_true, if_false]
    rw [ip_set_slot_self sub r0 (by rw [hlen]; exact hr0)]
  | inr u =>
    obtain ⟨hnone, _⟩ := hspec.2 u hscan
    exact absurd ⟨hu, hi⟩ (hnone r (List.mem_range.2 hr))

theorem ip_reassembly_lookup_miss (env : ip_env) (sub : ip_subparser) (target id : Nat)
    (parser : Option parser) (hlen : sub.reassembly.length = NB_REASSEMBLY)
    (htarget : target < NB_REASSEMBLY)
    (hctor : env.pkt_wait_list_ctor = ip_wl_ctor)
    (ho : ∀ r, r < NB_REASSEMBLY → (sub.slot r).in_use = true → (sub.slot r).id ≠ id) :
    ∃ r, r < NB_REASSEMBLY ∧
      (ip_reassembly_lookup env sub target id parser).slot = some r ∧
      (ip_reassembly_lookup env sub target id parser).target < NB_REASSEMBLY ∧
      (ip_reassembly_lookup env sub target id parser).ip_subparser.reassembly.length
        = NB_REASSEMBLY ∧
      (ip_reassembly_lookup env sub target id parser).ip_subparser.mux_subparser
        = sub.mux_subparser ∧
      ((ip_reassembly_lookup env sub target id parser).ip_subparser.slot r).in_use = true ∧
      ((ip_reassembly_lookup env sub target id parser).ip_subparser.slot r).constructed = true ∧
      ((ip_reassembly_lookup env sub target id parser).ip_subparser.slot r).id = id ∧
      ((ip_reassembly_lookup env sub target id parser).ip_subparser.slot r).got_last = false ∧
      ((ip_reassembly_lookup env sub target id parser).ip_subparser.slot r).wl =
        some { next_offset := 0, parser := parser, pkts := [] } ∧
      ∀ r', r' < NB_REASSEMBLY → r' ≠ r →
        ((ip_reassembly_lookup env sub target id parser).ip_subparser.slot r').in_use = true →
        ((ip_reassembly_lookup env sub target id parser).ip_subparser.slot r').id ≠ id := by
  have hspec := ip_reassembly_scan_spec sub id (List.range NB_REASSEMBLY) (-1)
  have hc : ∀ x : ip_reassembly, ip_reassembly_ctor env x parser id =
      (0, { x with constructed := true, in_use := true, id := id, got_last := false,
                   wl := some { next_offset := 0, parser := parser, pkts := [] } }) := by
    intro x
    simp only [ip_reassembly_ctor, hctor, ip_wl_ctor]
  have hmod : (target + 1) % NB_REASSEMBLY < NB_REASSEMBLY := Nat.mod_lt _ (by decide)
  unfold ip_reassembly_lookup
  cases hscan : ip_reassembly_scan sub id (List.range NB_REASSEMBLY) (-1) with
  | inl r0 =>
    obtain ⟨hm, hu0, hi0⟩ := hspec.1 r0 hscan
    exact absurd hi0 (ho r0 (List.mem_range.1 hm) hu0)
  | inr u =>
    obtain ⟨_, hcase⟩ := hspec.2 u hscan
    simp only [hc]
    by_cases hu1 : u = -1
    · have htl : target < sub.reassembly.length := by rw [hlen]; exact htarget
      have htl2 : target <
          (sub.set_slot target (ip_reassembly_dtor (sub.slot target))).reassembly.length := by
        rw [ip_set_slot_length]; exact htl
      simp only [if_pos hu1, ne_eq, not_true_eq_false, if_false]
      refine ⟨target, htarget, rfl, hmod, ?_, rfl, ?_, ?_, ?_, ?_, ?_, ?_⟩
      · rw [ip_set_slot_length, ip_set_slot_length]; exact hlen
      all_goals try (rw [ip_slot_set_slot _ target target _ htl2, if_pos rfl])
      · intro r' hr' hne
        rw [ip_slot_set_slot _ target r' _ htl2, if_neg (Ne.symm hne),
          ip_slot_set_slot sub target r' _ htl, if_neg (Ne.symm hne)]
        exact ho r' hr'
    · rcases hcase with ⟨h, _⟩ | ⟨r1, hr1, hur, hfree⟩
      · exact absurd h hu1
      · have hr4 : r1 < NB_REASSEMBLY := List.mem_range.1 hr1
        have hr' : r1 < sub.reassembly.length := by rw [hlen]; exact hr4
        have hto : u.toNat = r1 := by omega
        simp only [if_neg hu1, hto, ne_eq, not_true_eq_false, if_false]
        refine ⟨r1, hr4, rfl, htarget, ?_, rfl, ?_, ?_, ?_, ?_, ?_, ?_⟩
        · rw [ip_set_slot_length]; exact hlen
        all_goals try (rw [ip_slot_set_slot sub r1 r1 _ hr', if_pos rfl])
        · intro r' hr'' hne
          rw [ip_slot_set_slot sub r1 r' _ hr', if_neg (Ne.symm hne)]
          exact ho r' hr''

theorem ip_frames_complete_snoc (hist : List ip_frame) (f : ip_frame) (L : Nat) :
    ip_frames_complete (hist ++ [f]) L =
      ((hist.any (fun f => decide (ip_hdr_more_fragments f.packet = 0)) ||
          decide (ip_hdr_more_fragments f.packet = 0)) &&
        pkt_wl_covered (hist.map ip_frame.pkt ++ [f.pkt]) 0 L) := by
  simp [ip_frames_complete]

theorem ip_fragment_args_pkt (info : ip_proto_info) (f : ip_frame) :
    ({ offset := (ip_fragment_args info f.packet f.cap_len f.wire_len
          (ip_hdr_hdr_len f.packet * 4)).offset
       next_offset := (ip_fragment_args info f.packet f.cap_len f.wire_len
          (ip_hdr_hdr_len f.packet * 4)).next_offset
       cap_len := (ip_fragment_args info f.packet f.cap_len f.wire_len
          (ip_hdr_hdr_len f.packet * 4)).cap_len
       wire_len := (ip_fragment_args info f.packet f.cap_len f.wire_len
          (ip_hdr_hdr_len f.packet * 4)).wire_len
       payload := (ip_fragment_args info f.packet f.cap_len f.wire_len
          (ip_hdr_hdr_len f.packet * 4)).payload } : pkt_wl_pkt) = f.pkt := rfl

theorem ip_parse_fragment_core
    (pp : Option parser → Option ip_proto_info → Nat → List Nat → Nat → Nat → proto_parse_status)
    (info : ip_proto_info) (sub : ip_subparser) (target way : Nat) (f : ip_frame)
    (child : Option parser) (id L : Nat) (hist : List ip_frame) (l : ip_lookup_result) (r : Nat)
    (hl : ip_reassembly_lookup (ip_wl_env sub pp) sub target (ip_hdr_id f.packet)
      sub.mux_subparser.parser = l)
    (hslot : l.slot = some r) (hr : r < NB_REASSEMBLY)
    (hlen : l.ip_subparser.reassembly.length = NB_REASSEMBLY)
    (hmux : l.ip_subparser.mux_subparser.parser = child)
    (hu : (l.ip_subparser.slot r).in_use = true)
    (hc : (l.ip_subparser.slot r).constructed = true)
    (hi : (l.ip_subparser.slot r).id = id)
    (hg : (l.ip_subparser.slot r).got_last =
      hist.any (fun f => decide (ip_hdr_more_fragments f.packet = 0)))
    (he : (l.ip_subparser.slot r).got_last = true → (l.ip_subparser.slot r).end_offset = L)
    (hw : (l.ip_subparser.slot r).wl =
      some { next_offset := 0, parser := child, pkts := hist.map ip_frame.pkt })
    (ho : ∀ r', r' < NB_REASSEMBLY → r' ≠ r → (l.ip_subparser.slot r').in_use = true →
      (l.ip_subparser.slot r').id ≠ id)
    (hcap : ∀ h ∈ hist, h.pkt.wire_len ≤ h.pkt.cap_len)
    (hfcap : f.pkt.wire_len ≤ f.pkt.cap_len)
    (hfL : ip_hdr_more_fragments f.packet = 0 → f.pkt.next_offset = L) :
    (ip_parse_fragment (ip_wl_env sub pp) info sub target way f.packet f.cap_len f.wire_len
      (ip_hdr_hdr_len f.packet * 4)).target = l.target ∧
    ∃ sub', (ip_parse_fragment (ip_wl_env sub pp) info sub target way f.packet f.cap_len
        f.wire_len (ip_hdr_hdr_len f.packet * 4)).ip_subparser = some sub' ∧
      (ip_frames_complete (hist ++ [f]) L = false →
        (ip_parse_fragment (ip_wl_env sub pp) info sub target way f.packet f.cap_len
          f.wire_len (ip_hdr_hdr_len f.packet * 4)).calls.filter ip_call.is_reassembled = [] ∧
        ip_slot_holds sub' child id L (hist ++ [f])) ∧
      (ip_frames_complete (hist ++ [f]) L = true →
        (ip_parse_fragment (ip_wl_env sub pp) info sub target way f.packet f.cap_len
          f.wire_len (ip_hdr_hdr_len f.packet * 4)).calls.filter ip_call.is_reassembled =
          [ip_call.proto_parse child none way
            ((List.range' 0 L).map (pkt_wl_byte ((hist ++ [f]).map ip_frame.pkt))) L L] ∧
        ip_slot_holds sub' child id L []) := by
  have hrl : r < l.ip_subparser.reassembly.length := by rw [hlen]; exact hr
  have hcompl : ip_frames_complete (hist ++ [f]) L =
      ((hist ++ [f]).any (fun f => decide (ip_hdr_more_fragments f.packet = 0)) &&
        pkt_wl_covered (hist.map ip_frame.pkt ++ [f.pkt]) 0 L) := by
    simp [ip_frames_complete]
  have hm_u : (ip_fragment_mark (l.ip_subparser.slot r) f.packet f.wire_len
      (ip_hdr_hdr_len f.packet * 4)).in_use = true := by
    unfold ip_fragment_mark; simp only []; split_ifs <;> exact hu
  have hm_c : (ip_fragment_mark (l.ip_subparser.slot r) f.packet f.wire_len
      (ip_hdr_hdr_len f.packet * 4)).constructed = true := by
    unfold ip_fragment_mark; simp only []; split_ifs <;> exact hc
  have hm_i : (ip_fragment_mark (l.ip_subparser.slot r) f.packet f.wire_len
      (ip_hdr_hdr_len f.packet * 4)).id = id := by
    unfold ip_fragment_mark; simp only []; split_ifs <;> exact hi
  have hm_w : (ip_fragment_mark (l.ip_subparser.slot r) f.packet f.wire_len
      (ip_hdr_hdr_len f.packet * 4)).wl =
      some { next_offset := 0, parser := child, pkts := hist.map ip_frame.pkt } := by
    unfold ip_fragment_mark; simp only []; split_ifs <;> exact hw
  have hm_g : (ip_fragment_mark (l.ip_subparser.slot r) f.packet f.wire_len
      (ip_hdr_hdr_len f.packet * 4)).got_last =
      (hist ++ [f]).any (fun f => decide (ip_hdr_more_fragments f.packet = 0)) := by
    unfold ip_fragment_mark
    simp only []
    split_ifs with hmf
    · simp [hmf]
    · simp [hmf, hg]
  have hm_e : (ip_fragment_mark (l.ip_subparser.slot r) f.packet f.wire_len
      (ip_hdr_hdr_len f.packet * 4)).got_last = true →
      (ip_fragment_mark (l.ip_subparser.slot r) f.packet f.wire_len
        (ip_hdr_hdr_len f.packet * 4)).end_offset = L := by
    unfold ip_fragment_mark
    simp only []
    split_ifs with hmf
    · intro _
      exact hfL hmf
    · exact he
  unfold ip_parse_fragment
  simp only [hl, hslot]
  generalize ip_fragment_mark (l.ip_subparser.slot r) f.packet f.wire_len
    (ip_hdr_hdr_len f.packet * 4) = M at hm_u hm_c hm_i hm_w hm_g hm_e ⊢
  obtain ⟨m_use, m_con, m_last, m_id, m_end, m_wl⟩ := M
  simp only at hm_u hm_c hm_i hm_w hm_g hm_e
  subst hm_u hm_c hm_w
  have hadd : ip_wl_add (ip_fragment_args info f.packet f.cap_len f.wire_len
      (ip_hdr_hdr_len f.packet * 4))
      (some { next_offset := 0, parser := child, pkts := hist.map ip_frame.pkt }) =
      (PROTO_OK, some { next_offset := 0, parser := child,
                        pkts := hist.map ip_frame.pkt ++ [f.pkt] }) := by
    simp only [ip_wl_add, ip_fragment_args_pkt]
  have hcapall : ((hist.map ip_frame.pkt ++ [f.pkt]).all
      (fun p => decide (p.wire_len ≤ p.cap_len))) = true := by
    simp only [List.all_eq_true, decide_eq_true_eq]
    intro p hp
    rcases List.mem_append.1 hp with hp | hp
    · obtain ⟨h, hh, rfl⟩ := List.mem_map.1 hp
      exact hcap h hh
    · simp only [List.mem_singleton] at hp
      subst hp
      exact hfcap
  have hothers : ∀ (v : ip_reassembly) (r' : Nat), r' < NB_REASSEMBLY → r' ≠ r →
      ((l.ip_subparser.set_slot r v).slot r').in_use = true →
      ((l.ip_subparser.set_slot r v).slot r').id ≠ id := by
    intro v r' hr' hne
    rw [ip_slot_set_slot _ r r' _ hrl, if_neg (Ne.symm hne)]
    exact ho r' hr' hne
  simp only [ip_wl_env, hadd, ne_eq, not_true_eq_false, if_false, ip_wl_is_complete]
  by_cases hfin : (m_last && pkt_wl_covered (hist.map ip_frame.pkt ++ [f.pkt]) 0 m_end) = true
  · have hlast : m_last = true := by
      simp only [Bool.and_eq_true] at hfin; exact hfin.1
    have hend : m_end = L := hm_e hlast
    subst hend
    have hcov : pkt_wl_covered (hist.map ip_frame.pkt ++ [f.pkt]) 0 m_end = true := by
      simp only [Bool.and_eq_true] at hfin; exact hfin.2
    have hct : ip_frames_complete (hist ++ [f]) m_end = true := by
      rw [hcompl, ← hm_g, hlast, hcov]; rfl
    rw [if_pos hfin]
    simp only [reassemble, ip_wl_reassemble, hcov, hcapall, Bool.and_self, if_true,
      ip_reassembly_dtor, Option.bind]
    refine ⟨trivial, _, rfl, ?_, ?_⟩
    · intro h
      rw [hct] at h
      cases h
    · intro _
      refine ⟨?_, ?_, hmux, ?_, Or.inl ⟨rfl, ?_⟩⟩
      · simp [ip_call.is_reassembled, List.map_append]
      · rw [ip_set_slot_length]; exact hlen
      · intro h hh; cases hh
      · intro r' hr' hin
        by_cases hne : r' = r
        · subst hne
          rw [ip_slot_set_slot _ r' r' _ hrl, if_pos rfl] at hin
          cases hin
        · exact hothers _ r' hr' hne hin
  · have hcf : ip_frames_complete (hist ++ [f]) L = false := by
      rw [hcompl, ← hm_g]
      cases hlast : m_last with
      | false => rfl
      | true =>
        have hend : m_end = L := hm_e hlast
        subst hend
        rw [hlast] at hfin
        simpa using hfin
    rw [if_neg hfin]
    refine ⟨rfl, _, rfl, ?_, ?_⟩
    · intro _
      refine ⟨?_, ?_, hmux, ?_, Or.inr ⟨by simp, r, hr, ?_⟩⟩
      · simp [ip_call.is_reassembled]
      · rw [ip_set_slot_length]; exact hlen
      · intro h hh
        rcases List.mem_append.1 hh with hh | hh
        · exact hcap h hh
        · simp only [List.mem_singleton] at hh
          subst hh
          exact hfcap
      · rw [ip_slot_set_slot _ r r _ hrl, if_pos rfl]
        refine ⟨rfl, rfl, hm_i, hm_g, hm_e, ?_, ?_⟩
        · simp [List.map_append]
        · intro r' hr' hne
          exact hothers _ r' hr' hne
    · intro h
      rw [hcf] at h
      cases h

theorem ip_flow_step
    (pp : Option parser → Option ip_proto_info → Nat → List Nat → Nat → Nat → proto_parse_status)
    (ip_subprotos : List ip_subproto) (way : Nat) (sub : ip_subparser) (target : Nat)
    (f : ip_frame) (child : Option parser) (id L : Nat) (hist : List ip_frame)
    (hinv : ip_slot_holds sub child id L hist) (htarget : target < NB_REASSEMBLY)
    (hf : f.fragment_of ip_subprotos id L) :
    (ip_parse (ip_wl_env sub pp) ip_subprotos target way f.packet f.cap_len f.wire_len).target
      < NB_REASSEMBLY ∧
    ∃ sub', (ip_parse (ip_wl_env sub pp) ip_subprotos target way f.packet f.cap_len
        f.wire_len).ip_subparser = some sub' ∧
      (ip_frames_complete (hist ++ [f]) L = false →
        (ip_parse (ip_wl_env sub pp) ip_subprotos target way f.packet f.cap_len
          f.wire_len).calls.filter ip_call.is_reassembled = [] ∧
        ip_slot_holds sub' child id L (hist ++ [f])) ∧
      (ip_frames_complete (hist ++ [f]) L = true →
        (ip_parse (ip_wl_env sub pp) ip_subprotos target way f.packet f.cap_len
          f.wire_len).calls.filter ip_call.is_reassembled =
          [ip_call.proto_parse child none way
            ((List.range' 0 L).map (pkt_wl_byte ((hist ++ [f]).map ip_frame.pkt))) L L] ∧
        ip_slot_holds sub' child id L []) := by
  obtain ⟨hv, hfr, hid, hp, hcapf, hfL⟩ := hf
  obtain ⟨hlen, hmux, hcap, hcase⟩ := hinv
  have hfcap : f.pkt.wire_len ≤ f.pkt.cap_len := by
    obtain ⟨_, v2, _, v4, v5⟩ := hv
    simp only [ip_frame.pkt, size_sub]
    split_ifs <;> omega
  rw [ip_parse_of_fragment pp ip_subprotos sub target way f hv hfr hp]
  rcases hcase with ⟨hnil, hfree⟩ | ⟨_, r, hr, hu, hc, hi, hg, he, hw, ho⟩
  · subst hnil
    obtain ⟨r, hr, l1, l2, l3, l4, l5, l6, l7, l8, l9, l10⟩ :=
      ip_reassembly_lookup_miss (ip_wl_env sub pp) sub target id sub.mux_subparser.parser hlen
        htarget rfl hfree
    rw [← hid] at l1 l2 l3 l4 l5 l6 l7 l8 l9 l10
    have hcore := ip_parse_fragment_core pp (ip_parse_info (ip_wl_env sub pp) ip_subprotos f.packet)
      sub target way f child id L [] _ r rfl l1 hr l3 (by rw [l4]; exact hmux) l5 l6
      (by rw [l7]; exact hid) (by rw [l8]; rfl) (by rw [l8]; intro h; cases h)
      (by rw [l9, hmux]; rfl) (by rw [← hid]; exact l10) hcap hfcap hfL
    obtain ⟨c1, c2⟩ := hcore
    exact ⟨by rw [c1]; exact l2, c2⟩
  · have hl := ip_reassembly_lookup_hit (ip_wl_env sub pp) sub target id
      sub.mux_subparser.parser r hlen hr hu hc hi ho
    rw [← hid] at hl
    have hcore := ip_parse_fragment_core pp (ip_parse_info (ip_wl_env sub pp) ip_subprotos f.packet)
      sub target way f child id L hist _ r hl rfl hr hlen hmux hu hc hi hg he hw ho hcap hfcap hfL
    obtain ⟨c1, c2⟩ := hcore
    exact ⟨by rw [c1]; exact htarget, c2⟩

theorem ip_flow_run
    (pp : Option parser → Option ip_proto_info → Nat → List Nat → Nat → Nat → proto_parse_status)
    (ip_subprotos : List ip_subproto) (way : Nat) (child : Option parser) (id L : Nat)
    (s : ip_frame) (pre : List ip_frame) :
    ∀ (hist : List ip_frame) (sub : ip_subparser) (target : Nat),
    ip_slot_holds sub child id L hist → target < NB_REASSEMBLY →
    (∀ f ∈ pre ++ [s], f.fragment_of ip_subprotos id L) →
    (∀ k, 1 ≤ k → k ≤ pre.length → ip_frames_complete (hist ++ pre.take k) L = false) →
    (∀ R ∈ (ip_flow pp ip_subprotos way sub target (pre ++ [s])).dropLast,
      R.calls.filter ip_call.is_reassembled = []) ∧
    ∃ R sub', (ip_flow pp ip_subprotos way sub target (pre ++ [s])).getLast? = some R ∧
      R.ip_subparser = some sub' ∧
      (ip_frames_complete (hist ++ pre ++ [s]) L = false →
        R.calls.filter ip_call.is_reassembled = [] ∧
        ip_slot_holds sub' child id L (hist ++ pre ++ [s])) ∧
      (ip_frames_complete (hist ++ pre ++ [s]) L = true →
        R.calls.filter ip_call.is_reassembled =
          [ip_call.proto_parse child none way
            ((List.range' 0 L).map (pkt_wl_byte ((hist ++ pre ++ [s]).map ip_frame.pkt))) L L] ∧
        ip_slot_holds sub' child id L []) := by
  induction pre with
  | nil =>
    intro hist sub target hinv htarget hfrag _
    obtain ⟨_, sub', h1, h2, h3⟩ := ip_flow_step pp ip_subprotos way sub target s child id L hist
      hinv htarget (hfrag s (by simp))
    simp only [List.nil_append, ip_flow, List.dropLast_single, List.not_mem_nil, false_implies,
      implies_true, List.getLast?_singleton, Option.some.injEq, List.append_nil, true_and]
    exact ⟨_, sub', rfl, h1, h2, h3⟩
  | cons f pre ih =>
    intro hist sub target hinv htarget hfrag hpre
    obtain ⟨ht, sub', h1, h2, _⟩ := ip_flow_step pp ip_subprotos way sub target f child id L hist
      hinv htarget (hfrag f (by simp))
    have hc1 : ip_frames_complete (hist ++ [f]) L = false := by
      have := hpre 1 (le_refl 1) (by simp)
      simpa using this
    obtain ⟨h2a, h2b⟩ := h2 hc1
    have hih := ih (hist ++ [f]) sub'
      (ip_parse (ip_wl_env sub pp) ip_subprotos target way f.packet f.cap_len f.wire_len).target
      h2b ht (fun x hx => hfrag x (by
        simp only [List.cons_append, List.mem_cons]
        exact Or.inr hx))
      (fun k hk1 hk2 => by
        have := hpre (k + 1) (by omega) (by simp only [List.length_cons]; omega)
        simpa using this)
    obtain ⟨i1, R, sub'', i2, i3, i4, i5⟩ := hih
    have hflow : ip_flow pp ip_subprotos way sub target (f :: pre ++ [s]) =
        ip_parse (ip_wl_env sub pp) ip_subprotos target way f.packet f.cap_len f.wire_len ::
          ip_flow pp ip_subprotos way sub'
            (ip_parse (ip_wl_env sub pp) ip_subprotos target way f.packet f.cap_len
              f.wire_len).target (pre ++ [s]) := by
      simp only [List.cons_append, ip_flow, h1, Option.getD_some]
      rfl
    have hne : ip_flow pp ip_subprotos way sub'
        (ip_parse (ip_wl_env sub pp) ip_subprotos target way f.packet f.cap_len
          f.wire_len).target (pre ++ [s]) ≠ [] := by
      intro h
      rw [h] at i2
      cases i2
    obtain ⟨x, xs, hx⟩ := List.exists_cons_of_ne_nil hne
    rw [hflow]
    rw [hx] at i1 i2 ⊢
    refine ⟨?_, R, sub'', ?_, i3, ?_, ?_⟩
    · intro R' hR'
      simp only [List.dropLast, List.mem_cons] at hR'
      rcases hR' with e | e
      · subst e; exact h2a
      · exact i1 R' e
    · rw [List.getLast?_cons_cons]; exact i2
    · simpa using i4
    · simpa using i5

theorem pkt_wl_byte_of_covered (pkts : List pkt_wl_pkt) (L i : Nat)
    (h : pkt_wl_covered pkts 0 L = true) (hi : i < L) :
    ∃ p ∈ pkts, p.covers i = true ∧ pkt_wl_byte pkts i = p.payload.getD (i - p.offset) 0 := by
  simp only [pkt_wl_covered, Nat.sub_zero, List.all_eq_true, List.mem_range'_1, Nat.zero_le,
    Nat.zero_add, true_and, List.any_eq_true] at h
  obtain ⟨q, hq, hqc⟩ := h i hi
  cases hfind : pkts.find? (fun p => p.covers i) with
  | none =>
    rw [List.find?_eq_none] at hfind
    exact absurd hqc (hfind q hq)
  | some p =>
    refine ⟨p, List.mem_of_find?_eq_some hfind, ?_, ?_⟩
    · have := List.find?_some hfind
      simpa using this
    · simp only [pkt_wl_byte, hfind]

/-- C11, as stated, fails. The stream first, last, first, last of fragments of
the datagram 4660 holds a last fragment that ends at 16 and covers `[0, 16)`,
and two reassembled payloads are delivered, not one: the slot is freed at the
first delivery and nothing remembers that the datagram was delivered. And the
stream made of a first fragment whose last byte was not captured and of the
last fragment covers `[0, 16)` too, and no reassembled payload is delivered. -/
theorem ip_fragments_delivered_twice :
    sample_frag_first.fragment_of sample_ip_subprotos 4660 16 ∧
    sample_frag_last.fragment_of sample_ip_subprotos 4660 16 ∧
    ip_frames_complete [sample_frag_first, sample_frag_last, sample_frag_first, sample_frag_last]
      16 = true ∧
    (ip_flow sample_proto_parse sample_ip_subprotos 0 sample_ip_sub 0
      [sample_frag_first, sample_frag_last, sample_frag_first, sample_frag_last]).map
      (fun R => R.calls.filter ip_call.is_reassembled) =
      [[], [ip_call.proto_parse (some 3) none 0
              [1, 2, 3, 4, 5, 6, 7, 8, 11, 12, 13, 14, 15, 16, 17, 18] 16 16],
       [], [ip_call.proto_parse (some 3) none 0
              [1, 2, 3, 4, 5, 6, 7, 8, 11, 12, 13, 14, 15, 16, 17, 18] 16 16]] ∧
    ip_hdr_id sample_frag_first_cut.packet = 4660 ∧
    is_fragment sample_frag_first_cut.packet = true ∧
    ip_frames_complete [sample_frag_first_cut, sample_frag_last] 16 = true ∧
    (ip_flow sample_proto_parse sample_ip_subprotos 0 sample_ip_sub 0
      [sample_frag_first_cut, sample_frag_last]).map
      (fun R => R.calls.filter ip_call.is_reassembled) = [[], []] := by
  refine ⟨?_, ?_, ?_, ?_, ?_, ?_, ?_, ?_⟩
  · unfold ip_frame.fragment_of ip_parse_valid; decide
  · unfold ip_frame.fragment_of ip_parse_valid; decide
  all_goals decide

/-- C11, amended: a stream of fragments of the datagram `id` of one flow,
all captured in full and whose last fragments (MF=0) all end at `L`, is parsed
from a sub-parser no slot of which holds `id`, the wait-list being the set of
the byte ranges it was given; no proper prefix of the stream holds a last
fragment and covers `[0, L)`. Then no reassembled payload is delivered before
the last packet of the stream; if the stream holds a last fragment and covers
`[0, L)`, its last packet delivers exactly one reassembled payload to the
child parser, of length `L`, each byte `i` of which is the byte `i - offset` of
a fragment of the stream whose range has `i`, and no slot in use holds `id`
any more; otherwise the last packet delivers no reassembled payload either. -/
theorem ip_fragments_reassembled
    (pp : Option parser → Option ip_proto_info → Nat → List Nat → Nat → Nat → proto_parse_status)
    (ip_subprotos : List ip_subproto) (way : Nat) (sub : ip_subparser) (target : Nat)
    (pre : List ip_frame) (s : ip_frame) (id L : Nat)
    (hlen : sub.reassembly.length = NB_REASSEMBLY) (htarget : target < NB_REASSEMBLY)
    (hfree : ∀ r, r < NB_REASSEMBLY → (sub.slot r).in_use = true → (sub.slot r).id ≠ id)
    (hfrag : ∀ f ∈ pre ++ [s], f.fragment_of ip_subprotos id L)
    (hpre : ∀ k, k ≤ pre.length → ip_frames_complete (pre.take k) L = false) :
    (∀ R ∈ (ip_flow pp ip_subprotos way sub target (pre ++ [s])).dropLast,
      R.calls.filter ip_call.is_reassembled = []) ∧
    ∃ R sub', (ip_flow pp ip_subprotos way sub target (pre ++ [s])).getLast? = some R ∧
      R.ip_subparser = some sub' ∧
      (ip_frames_complete (pre ++ [s]) L = true →
        R.calls.filter ip_call.is_reassembled =
          [ip_call.proto_parse sub.mux_subparser.parser none way
            ((List.range' 0 L).map (pkt_wl_byte ((pre ++ [s]).map ip_frame.pkt))) L L] ∧
        ((List.range' 0 L).map (pkt_wl_byte ((pre ++ [s]).map ip_frame.pkt))).length = L ∧
        (∀ i, i < L → ∃ f ∈ pre ++ [s], f.pkt.covers i = true ∧
          ((List.range' 0 L).map (pkt_wl_byte ((pre ++ [s]).map ip_frame.pkt)))[i]? =
            some (f.pkt.payload.getD (i - f.pkt.offset) 0)) ∧
        ∀ r, r < NB_REASSEMBLY → (sub'.slot r).in_use = true → (sub'.slot r).id ≠ id) ∧
      (ip_frames_complete (pre ++ [s]) L = false →
        R.calls.filter ip_call.is_reassembled = []) := by
  have hinv : ip_slot_holds sub sub.mux_subparser.parser id L [] :=
    ⟨hlen, rfl, fun h hh => (by cases hh), Or.inl ⟨rfl, hfree⟩⟩
  obtain ⟨h1, R, sub', h2, h3, h4, h5⟩ := ip_flow_run pp ip_subprotos way
    sub.mux_subparser.parser id L s pre [] sub target hinv htarget hfrag
    (fun k _ hk => by simpa using hpre k hk)
  simp only [List.nil_append] at h4 h5
  refine ⟨h1, R, sub', h2, h3, ?_, fun h => (h4 h).1⟩
  intro hc
  obtain ⟨c1, c2⟩ := h5 hc
  refine ⟨c1, by simp, ?_, ?_⟩
  · intro i hi
    have hcov : pkt_wl_covered ((pre ++ [s]).map ip_frame.pkt) 0 L = true := by
      simp only [ip_frames_complete, Bool.and_eq_true] at hc
      exact hc.2
    obtain ⟨p, hp, hpc, hpb⟩ := pkt_wl_byte_of_covered _ L i hcov hi
    obtain ⟨f, hf, rfl⟩ := List.mem_map.1 hp
    refine ⟨f, hf, hpc, ?_⟩
    rw [List.getElem?_map, List.getElem?_range' _ _ (by simpa using hi)]
    simp only [Option.map_some', Nat.zero_add, Nat.one_mul, hpb]
  · obtain ⟨_, _, _, hcase⟩ := c2
    rcases hcase with ⟨_, h⟩ | ⟨h, _⟩
    · exact h
    · exact absurd rfl h

theorem ip_fragments_reassembled_witness :
    ∃ R sub', (ip_flow sample_proto_parse sample_ip_subprotos 0 sample_ip_sub 0
        ([sample_frag_last] ++ [sample_frag_first])).getLast? = some R ∧
      R.ip_subparser = some sub' ∧
      (ip_frames_complete ([sample_frag_last] ++ [sample_frag_first]) 16 = true →
        R.calls.filter ip_call.is_reassembled =
          [ip_call.proto_parse sample_ip_sub.mux_subparser.parser none 0
            ((List.range' 0 16).map
              (pkt_wl_byte (([sample_frag_last] ++ [sample_frag_first]).map ip_frame.pkt))) 16 16] ∧
        ((List.range' 0 16).map
          (pkt_wl_byte (([sample_frag_last] ++ [sample_frag_first]).map ip_frame.pkt))).length
          = 16 ∧
        (∀ i, i < 16 → ∃ f ∈ [sample_frag_last] ++ [sample_frag_first], f.pkt.covers i = true ∧
          ((List.range' 0 16).map
            (pkt_wl_byte (([sample_frag_last] ++ [sample_frag_first]).map ip_frame.pkt)))[i]? =
            some (f.pkt.payload.getD (i - f.pkt.offset) 0)) ∧
        ∀ r, r < NB_REASSEMBLY → (sub'.slot r).in_use = true → (sub'.slot r).id ≠ 4660) ∧
      (ip_frames_complete ([sample_frag_last] ++ [sample_frag_first]) 16 = false →
        R.calls.filter ip_call.is_reassembled = []) :=
  (ip_fragments_reassembled sample_proto_parse sample_ip_subprotos 0 sample_ip_sub 0
    [sample_frag_last] sample_frag_first 4660 16 (by decide) (by decide)
    (by decide)
    (by
      intro f hf
      simp only [List.singleton_append, List.mem_cons, List.mem_singleton, List.not_mem_nil,
        or_false] at hf
      rcases hf with rfl | rfl
      · unfold ip_frame.fragment_of ip_parse_valid; decide
      · unfold ip_frame.fragment_of ip_parse_valid; decide)
    (by
      intro k hk
      simp only [List.length_singleton] at hk
      interval_cases k <;> decide)).2

/-! ## The invariant of the reassembly slots -/

theorem ip_set_slot_cases (sub : ip_subparser) (r r' : Nat) (v : ip_reassembly) :
    (sub.set_slot r v).slot r' = sub.slot r' ∨ (r' = r ∧ (sub.set_slot r v).slot r' = v) := by
  by_cases hr : r < sub.reassembly.length
  · rw [ip_slot_set_slot _ _ _ _ hr]
    split_ifs with h
    · exact Or.inr ⟨h.symm, rfl⟩
    · exact Or.inl rfl
  · left
    simp only [ip_subparser.set_slot, ip_subparser.slot]
    rw [List.set_eq_of_length_le (by omega)]

theorem ip_reassembly_lookup_slot_cases (env : ip_env) (sub : ip_subparser) (target id : Nat)
    (parser : Option parser) (r : Nat) :
    ((ip_reassembly_lookup env sub target id parser).ip_subparser.slot r = sub.slot r ∨
     (ip_reassembly_lookup env sub target id parser).ip_subparser.slot r =
       ip_reassembly_dtor (sub.slot target)) ∨
    ∃ s0, (ip_reassembly_lookup env sub target id parser).ip_subparser.slot r =
      (ip_reassembly_ctor env s0 parser id).2 := by
  unfold ip_reassembly_lookup
  split
  · rename_i r0 _
    simp only []
    rcases ip_set_slot_cases sub r0 r
      (if (!(sub.slot r0).constructed) = true then
        (ip_reassembly_ctor env (sub.slot r0) parser id).2 else sub.slot r0) with h | ⟨hr, h⟩
    · exact Or.inl (Or.inl h)
    · rw [h]
      split_ifs with hc
      · exact Or.inr ⟨_, rfl⟩
      · rw [hr]
        exact Or.inl (Or.inl rfl)
  · rename_i u _
    simp only []
    by_cases hu : u = -1
    · simp only [hu, if_true]
      rcases ip_set_slot_cases (sub.set_slot target (ip_reassembly_dtor (sub.slot target)))
        target r (ip_reassembly_ctor env
          ((sub.set_slot target (ip_reassembly_dtor (sub.slot target))).slot target)
          parser id).2 with h | ⟨_, h⟩
      · rw [h]
        rcases ip_set_slot_cases sub target r (ip_reassembly_dtor (sub.slot target))
          with h' | ⟨_, h'⟩
        · exact Or.inl (Or.inl h')
        · exact Or.inl (Or.inr h')
      · exact Or.inr ⟨_, h⟩
    · simp only [hu, if_false]
      rcases ip_set_slot_cases sub u.toNat r
        (ip_reassembly_ctor env (sub.slot u.toNat) parser id).2 with h | ⟨_, h⟩
      · exact Or.inl (Or.inl h)
      · exact Or.inr ⟨_, h⟩

theorem ip_reassembly_dtor_flags_ok (s : ip_reassembly) (h : ip_slot_flags_ok s) :
    ip_slot_flags_ok (ip_reassembly_dtor s) := by
  unfold ip_reassembly_dtor
  split_ifs
  · simp [ip_slot_flags_ok]
  · exact h

theorem ip_reassembly_dtor_inv (s : ip_reassembly) (h : ip_slot_inv s) :
    ip_slot_inv (ip_reassembly_dtor s) := by
  unfold ip_reassembly_dtor
  split_ifs
  · simp [ip_slot_inv]
  · exact h

theorem ip_reassembly_ctor_flags_ok (env : ip_env) (s : ip_reassembly) (parser : Option parser)
    (id : Nat) : ip_slot_flags_ok (ip_reassembly_ctor env s parser id).2 := by
  unfold ip_reassembly_ctor
  simp only []
  split <;> simp [ip_slot_flags_ok]

theorem ip_reassembly_ctor_inv (env : ip_env) (s : ip_reassembly) (parser : Option parser)
    (id : Nat) (h : env.pkt_wait_list_ctor parser ≠ none) :
    ip_slot_inv (ip_reassembly_ctor env s parser id).2 := by
  unfold ip_reassembly_ctor
  simp only []
  split
  · rename_i hn
    exact absurd hn h
  · simp [ip_slot_inv]

theorem ip_slot_inv_none : ip_slot_inv ip_reassembly_none ∧ ip_slot_flags_ok ip_reassembly_none := by
  simp [ip_slot_inv, ip_slot_flags_ok, ip_reassembly_none]

theorem ip_slot_op_flags_ok (sub : ip_subparser) (op : ip_slot_op)
    (h : ∀ r, ip_slot_flags_ok (sub.slot r)) :
    ∀ r, ip_slot_flags_ok ((op.apply sub).slot r) := by
  intro r
  cases op with
  | lookup env target id parser =>
    simp only [ip_slot_op.apply]
    rcases ip_reassembly_lookup_slot_cases env sub target id parser r with (e | e) | ⟨s0, e⟩
    · rw [e]; exact h r
    · rw [e]; exact ip_reassembly_dtor_flags_ok _ (h target)
    · rw [e]; exact ip_reassembly_ctor_flags_ok env s0 parser id
  | reassemble env r0 way =>
    simp only [ip_slot_op.apply, reassemble]
    rcases ip_set_slot_cases sub r0 r (ip_reassembly_dtor (sub.slot r0)) with e | ⟨_, e⟩
    · rw [e]; exact h r
    · rw [e]; exact ip_reassembly_dtor_flags_ok _ (h r0)
  | dtor r0 =>
    simp only [ip_slot_op.apply]
    rcases ip_set_slot_cases sub r0 r (ip_reassembly_dtor (sub.slot r0)) with e | ⟨_, e⟩
    · rw [e]; exact h r
    · rw [e]; exact ip_reassembly_dtor_flags_ok _ (h r0)

theorem ip_slot_op_inv (sub : ip_subparser) (op : ip_slot_op) (hop : op.ctor_succeeds)
    (h : ∀ r, ip_slot_inv (sub.slot r)) :
    ∀ r, ip_slot_inv ((op.apply sub).slot r) := by
  intro r
  cases op with
  | lookup env target id parser =>
    simp only [ip_slot_op.apply]
    rcases ip_reassembly_lookup_slot_cases env sub target id parser r with (e | e) | ⟨s0, e⟩
    · rw [e]; exact h r
    · rw [e]; exact ip_reassembly_dtor_inv _ (h target)
    · rw [e]; exact ip_reassembly_ctor_inv env s0 parser id (hop parser)
  | reassemble env r0 way =>
    simp only [ip_slot_op.apply, reassemble]
    rcases ip_set_slot_cases sub r0 r (ip_reassembly_dtor (sub.slot r0)) with e | ⟨_, e⟩
    · rw [e]; exact h r
    · rw [e]; exact ip_reassembly_dtor_inv _ (h r0)
  | dtor r0 =>
    simp only [ip_slot_op.apply]
    rcases ip_set_slot_cases sub r0 r (ip_reassembly_dtor (sub.slot r0)) with e | ⟨_, e⟩
    · rw [e]; exact h r
    · rw [e]; exact ip_reassembly_dtor_inv _ (h r0)

theorem ip_subparser_ctor_slots (mem : ip_subparser) (m : Option mux_subparser)
    (sub : ip_subparser) (hmem : ∀ s ∈ mem.reassembly, s.wl = none)
    (h : ip_subparser_ctor mem m = some sub) :
    ∀ r, ip_slot_inv (sub.slot r) ∧ ip_slot_flags_ok (sub.slot r) ∧
      (sub.slot r).in_use = false := by
  intro r
  unfold ip_subparser_ctor at h
  cases m with
  | none => cases h
  | some m0 =>
    simp only [Option.some.injEq] at h
    subst h
    simp only [ip_subparser.slot, List.getD_eq_getElem?_getD, List.getElem?_map]
    cases hr : mem.reassembly[r]? with
    | none => simp [ip_slot_inv, ip_slot_flags_ok, ip_reassembly_none]
    | some s =>
      have hs : s.wl = none := hmem s (List.getElem?_mem hr)
      simp [ip_slot_inv, ip_slot_flags_ok, hs]

theorem ip_slot_run_flags_ok (ops : List ip_slot_op) :
    ∀ (sub : ip_subparser), (∀ r, ip_slot_flags_ok (sub.slot r)) →
    ∀ r, ip_slot_flags_ok ((ip_slot_run sub ops).slot r) := by
  induction ops with
  | nil => intro sub h; exact h
  | cons op rest ih =>
    intro sub h
    exact ih (op.apply sub) (ip_slot_op_flags_ok sub op h)

theorem ip_slot_run_inv (ops : List ip_slot_op) (hops : ∀ op ∈ ops, op.ctor_succeeds) :
    ∀ (sub : ip_subparser), (∀ r, ip_slot_inv (sub.slot r)) →
    ∀ r, ip_slot_inv ((ip_slot_run sub ops).slot r) := by
  induction ops with
  | nil => intro sub h; exact h
  | cons op rest ih =>
    intro sub h
    exact ih (fun o ho => hops o (List.mem_cons_of_mem _ ho)) (op.apply sub)
      (ip_slot_op_inv sub op (hops op (List.mem_cons_self _ _)) h)

/-- The part of the slot invariant that holds in every state reachable from
`ip_subparser_ctor` (on memory that holds no wait-list) through
`ip_reassembly_lookup`, `reassemble` and `ip_reassembly_dtor`, whether
`pkt_wait_list_ctor` fails or not: `constructed` iff `in_use`, and a wait-list
exists only in a constructed slot. When `pkt_wait_list_ctor` never fails, the
whole invariant holds: the wait-list exists iff `constructed` is set. -/
theorem ip_slot_reachable_inv (mem : ip_subparser) (m : Option mux_subparser)
    (sub : ip_subparser) (ops : List ip_slot_op) (hmem : ∀ s ∈ mem.reassembly, s.wl = none)
    (h : ip_subparser_ctor mem m = some sub) :
    (∀ r, ip_slot_flags_ok ((ip_slot_run sub ops).slot r)) ∧
    ((∀ op ∈ ops, op.ctor_succeeds) → ∀ r, ip_slot_inv ((ip_slot_run sub ops).slot r)) := by
  have h0 := ip_subparser_ctor_slots mem m sub hmem h
  exact ⟨ip_slot_run_flags_ok ops sub (fun r => (h0 r).2.1),
    fun hops => ip_slot_run_inv ops hops sub (fun r => (h0 r).1)⟩

/-- C21, at the failing input: from the sub-parser that `ip_subparser_ctor`
builds, one `ip_reassembly_lookup` during which `pkt_wait_list_ctor` fails
returns NULL and leaves the slot 3 with `constructed = 1` and `in_use = 1`
while its wait-list was never constructed, so the slot invariant does not hold
in that reachable state. The next fragment of the same datagram is given that
slot, and `ip_parse` calls `pkt_wait_list_add` on its wait-list. -/
theorem ip_slot_inv_broken_by_failed_ctor :
    ip_subparser_ctor sample_ip_sub (some sample_ip_sub.mux_subparser) = some sample_ip_sub ∧
    (ip_reassembly_lookup sample_ip_env_no_wl sample_ip_sub 0 4660 (some 3)).slot = none ∧
    ((ip_slot_run sample_ip_sub
      [ip_slot_op.lookup sample_ip_env_no_wl 0 4660 (some 3)]).slot 3).constructed = true ∧
    ((ip_slot_run sample_ip_sub
      [ip_slot_op.lookup sample_ip_env_no_wl 0 4660 (some 3)]).slot 3).in_use = true ∧
    ((ip_slot_run sample_ip_sub
      [ip_slot_op.lookup sample_ip_env_no_wl 0 4660 (some 3)]).slot 3).wl = none ∧
    ¬ ip_slot_inv ((ip_slot_run sample_ip_sub
      [ip_slot_op.lookup sample_ip_env_no_wl 0 4660 (some 3)]).slot 3) ∧
    (ip_parse (sample_ip_env_with (ip_slot_run sample_ip_sub
        [ip_slot_op.lookup sample_ip_env_no_wl 0 4660 (some 3)]))
      sample_ip_subprotos 0 0 sample_frag_last.packet 28 28).calls.head? =
      some (ip_call.wl_add 3 (ip_fragment_args
        (ip_parse_info (sample_ip_env_with sample_ip_sub) sample_ip_subprotos
          sample_frag_last.packet)
        sample_frag_last.packet 28 28 20)) := by
  refine ⟨by decide, by decide, by decide, by decide, by decide, ?_, by decide⟩
  unfold ip_slot_inv
  decide

/-! ## The slot that `ip_reassembly_lookup` returns -/

theorem ip_reassembly_lookup_length (env : ip_env) (sub : ip_subparser) (target id : Nat)
    (parser : Option parser) :
    (ip_reassembly_lookup env sub target id parser).ip_subparser.reassembly.length =
      sub.reassembly.length := by
  unfold ip_reassembly_lookup
  split
  · simp only [ip_set_slot_length]
  · simp only [ip_set_slot_length]
    split_ifs <;> simp only [ip_set_slot_length]

theorem ip_reassembly_lookup_flags (env : ip_env) (sub : ip_subparser) (target id : Nat)
    (parser : Option parser) (r : Nat) (hlen : sub.reassembly.length = NB_REASSEMBLY)
    (htarget : target < NB_REASSEMBLY)
    (hs : (ip_reassembly_lookup env sub target id parser).slot = some r) :
    r < NB_REASSEMBLY ∧
    ((ip_reassembly_lookup env sub target id parser).ip_subparser.slot r).in_use = true ∧
    ((ip_reassembly_lookup env sub target id parser).ip_subparser.slot r).constructed = true ∧
    ((ip_reassembly_lookup env sub target id parser).ip_subparser.slot r).id = id := by
  unfold ip_reassembly_lookup at hs ⊢
  cases hscan : ip_reassembly_scan sub id (List.range NB_REASSEMBLY) (-1) with
  | inl r0 =>
    simp only [hscan] at hs ⊢
    have hr0 : r = r0 := (Option.some.inj hs).symm
    rw [hr0]
    obtain ⟨hmem, hu, hi⟩ := (ip_reassembly_scan_spec sub id _ _).1 r0 hscan
    have hr : r0 < NB_REASSEMBLY := List.mem_range.1 hmem
    rw [ip_slot_set_slot _ _ _ _ (by omega)]
    simp only [if_true]
    refine ⟨hr, ?_⟩
    by_cases hc : (sub.slot r0).constructed = true
    · simp only [hc, Bool.not_true, Bool.false_eq_true, if_false]
      exact ⟨hu, trivial, hi⟩
    · simp only [hc, Bool.not_false, if_true]
      obtain ⟨c1, c2, c3, _⟩ := ip_reassembly_ctor_flags env (sub.slot r0) parser id
      exact ⟨c1, c2, c3⟩
  | inr u =>
    simp only [hscan] at hs ⊢
    obtain ⟨_, hu⟩ := (ip_reassembly_scan_spec sub id _ _).2 u hscan
    by_cases hc1 : u = -1
    · simp only [hc1, if_true] at hs ⊢
      split_ifs at hs with hne
      have hr0 : r = target := (Option.some.inj hs).symm
      rw [hr0]
      rw [ip_slot_set_slot _ _ _ _ (by rw [ip_set_slot_length]; omega)]
      simp only [if_true]
      obtain ⟨c1, c2, c3, _⟩ := ip_reassembly_ctor_flags env
        ((sub.set_slot target (ip_reassembly_dtor (sub.slot target))).slot target) parser id
      exact ⟨htarget, c1, c2, c3⟩
    · simp only [hc1, if_false] at hs ⊢
      split_ifs at hs with hne
      have hr0 : r = u.toNat := (Option.some.inj hs).symm
      rw [hr0]
      have hr : u.toNat < NB_REASSEMBLY := by
        rcases hu with ⟨h1, _⟩ | ⟨r', hr', h1, _⟩
        · exact absurd h1 hc1
        · subst h1
          simpa using List.mem_range.1 hr'
      rw [ip_slot_set_slot _ _ _ _ (by omega)]
      simp only [if_true]
      obtain ⟨c1, c2, c3, _⟩ := ip_reassembly_ctor_flags env (sub.slot u.toNat) parser id
      exact ⟨hr, c1, c2, c3⟩

/-! ## The last fragment of a datagram -/

theorem ip_reassembly_dtor_keeps (s : ip_reassembly) :
    (ip_reassembly_dtor s).got_last = s.got_last ∧
    (ip_reassembly_dtor s).end_offset = s.end_offset ∧
    (ip_reassembly_dtor s).id = s.id := by
  unfold ip_reassembly_dtor
  split_ifs <;> exact ⟨rfl, rfl, rfl⟩

theorem ip_parse_fragment_slot (env : ip_env) (info : ip_proto_info) (sub : ip_subparser)
    (target way : Nat) (packet : List Nat) (cap_len wire_len iphdr_len : Nat) (r : Nat)
    (hs : (ip_reassembly_lookup env sub target (ip_hdr_id packet)
      sub.mux_subparser.parser).slot = some r)
    (hr : r < sub.reassembly.length) :
    ∃ sub', (ip_parse_fragment env info sub target way packet cap_len wire_len
        iphdr_len).ip_subparser = some sub' ∧
      (sub'.slot r).got_last = (ip_fragment_mark ((ip_reassembly_lookup env sub target
        (ip_hdr_id packet) sub.mux_subparser.parser).ip_subparser.slot r) packet wire_len
        iphdr_len).got_last ∧
      (sub'.slot r).end_offset = (ip_fragment_mark ((ip_reassembly_lookup env sub target
        (ip_hdr_id packet) sub.mux_subparser.parser).ip_subparser.slot r) packet wire_len
        iphdr_len).end_offset ∧
      ∀ r', r' ≠ r → sub'.slot r' = (ip_reassembly_lookup env sub target
        (ip_hdr_id packet) sub.mux_subparser.parser).ip_subparser.slot r' := by
  have hlen := ip_reassembly_lookup_length env sub target (ip_hdr_id packet)
    sub.mux_subparser.parser
  unfold ip_parse_fragment
  simp only [hs, ip_parse_fallback, reassemble]
  split_ifs
  all_goals
    refine ⟨_, rfl, ?_, ?_, ?_⟩
    · rw [ip_slot_set_slot _ _ _ _ (by omega)]
      simp only [if_true, (ip_reassembly_dtor_keeps _).1]
    · rw [ip_slot_set_slot _ _ _ _ (by omega)]
      simp only [if_true, (ip_reassembly_dtor_keeps _).2.1]
    · intro r' hr'
      rw [ip_slot_set_slot _ _ _ _ (by omega)]
      simp only [Ne.symm hr', if_false]

theorem fragment_offset_le (ip : List Nat) : fragment_offset ip ≤ 65528 := by
  rw [fragment_offset_eq]
  have h1 : ip_hdr_frag_offset_lo ip < 256 := Nat.mod_lt _ (by norm_num)
  have h2 : ip_hdr_frag_offset_hi ip < 32 := Nat.mod_lt _ (by norm_num)
  omega

theorem ip_hdr_tot_len_lt (ip : List Nat) : ip_hdr_tot_len ip < 65536 := by
  unfold ip_hdr_tot_len READ_U16N READ_U8
  have h1 : ip.getD 2 0 % 256 < 256 := Nat.mod_lt _ (by norm_num)
  have h2 : ip.getD (2 + 1) 0 % 256 < 256 := Nat.mod_lt _ (by norm_num)
  omega

/-- C22, as stated, fails. The last fragment (MF=0, offset 8) of the datagram
4660 has `total_length = 28` and `ihl = 5`, so 8 bytes of IP payload, and is
seen with 46 bytes on the wire (a frame padded to the Ethernet minimum):
`ip_parse` records `end_offset = 8 + (46 - 20) = 34`, not `8 + (28 - 20) = 16`. -/
theorem ip_parse_end_offset_from_wire_len :
    ip_parse_valid sample_frag_last_padded.packet 46 46 ∧
    ip_hdr_more_fragments sample_frag_last_padded.packet = 0 ∧
    (ip_hdr_frag_offset_lo sample_frag_last_padded.packet +
      ip_hdr_frag_offset_hi sample_frag_last_padded.packet * 256) * 8 +
      (ip_hdr_tot_len sample_frag_last_padded.packet -
        ip_hdr_hdr_len sample_frag_last_padded.packet * 4) = 16 ∧
    (ip_reassembly_lookup (ip_wl_env sample_ip_sub sample_proto_parse) sample_ip_sub 0 4660
      (some 3)).slot = some 3 ∧
    (ip_parse (ip_wl_env sample_ip_sub sample_proto_parse) sample_ip_subprotos 0 0
      sample_frag_last_padded.packet 46 46).ip_subparser.map
      (fun s => ((s.slot 3).got_last, (s.slot 3).end_offset)) = some (true, 34) := by
  refine ⟨?_, ?_, ?_, ?_, ?_⟩
  · unfold ip_parse_valid; decide
  all_goals decide

/-- C22, amended: when `ip_parse` processes a fragment (the packet passes the
sanity checks, a sub-parser is found for it and `ip_reassembly_lookup` returns
the slot `r`) with `more_fragments = 0`, it sets the `got_last` flag of the slot
and records `end_offset = (offset + (wire_len - ihl*4)) mod 2^32`, where
`offset = (frag_offset_lo + frag_offset_hi*256)*8`: the fragment offset plus
the length on the wire of what follows the IP header. This is the fragment
offset plus the IP payload length `total_length - ihl*4` of the fragment when
`wire_len = total_length`. A fragment with `more_fragments = 1` leaves
`got_last` and `end_offset` as `ip_reassembly_lookup` returned them. -/
theorem ip_parse_last_fragment (env : ip_env) (ip_subprotos : List ip_subproto)
    (target way : Nat) (packet : List Nat) (cap_len wire_len : Nat) (sub : ip_subparser)
    (r : Nat)
    (hv : ip_parse_valid packet cap_len wire_len) (hf : is_fragment packet = true)
    (hsub : ip_parse_subparser env ip_subprotos packet = some sub)
    (hlen : sub.reassembly.length = NB_REASSEMBLY) (htarget : target < NB_REASSEMBLY)
    (hs : (ip_reassembly_lookup env sub target (ip_hdr_id packet)
      sub.mux_subparser.parser).slot = some r) :
    ∃ sub', (ip_parse env ip_subprotos target way packet cap_len wire_len).ip_subparser
        = some sub' ∧
      (ip_hdr_more_fragments packet = 0 →
        (sub'.slot r).got_last = true ∧
        (sub'.slot r).end_offset =
          ((ip_hdr_frag_offset_lo packet + ip_hdr_frag_offset_hi packet * 256) * 8 +
            (wire_len - ip_hdr_hdr_len packet * 4)) % 2 ^ 32 ∧
        (wire_len = ip_hdr_tot_len packet →
          (sub'.slot r).end_offset =
            (ip_hdr_frag_offset_lo packet + ip_hdr_frag_offset_hi packet * 256) * 8 +
              (ip_hdr_tot_len packet - ip_hdr_hdr_len packet * 4))) ∧
      (ip_hdr_more_fragments packet ≠ 0 →
        (sub'.slot r).got_last = ((ip_reassembly_lookup env sub target (ip_hdr_id packet)
          sub.mux_subparser.parser).ip_subparser.slot r).got_last ∧
        (sub'.slot r).end_offset = ((ip_reassembly_lookup env sub target (ip_hdr_id packet)
          sub.mux_subparser.parser).ip_subparser.slot r).end_offset) := by
  obtain ⟨hr, _⟩ := ip_reassembly_lookup_flags env sub target (ip_hdr_id packet)
    sub.mux_subparser.parser r hlen htarget hs
  obtain ⟨sub', h1, h2, h3, _⟩ := ip_parse_fragment_slot env
    (ip_parse_info env ip_subprotos packet) sub target way packet cap_len wire_len
    (ip_hdr_hdr_len packet * 4) r hs (by omega)
  have hp : ip_parse env ip_subprotos target way packet cap_len wire_len =
      ip_parse_fragment env (ip_parse_info env ip_subprotos packet) sub target way packet
        cap_len wire_len (ip_hdr_hdr_len packet * 4) := by
    rw [ip_parse_of_valid _ _ _ _ _ _ _ hv]
    unfold ip_parse_dispatch
    simp only [ip_parse_subparser] at hsub
    simp only [hsub, hf, if_true, ip_parse_info]
  rw [hp]
  obtain ⟨v1, v2, v3, v4, v5⟩ := hv
  have hfo := fragment_offset_eq packet
  have hle := fragment_offset_le packet
  have htl := ip_hdr_tot_len_lt packet
  refine ⟨sub', h1, ?_, ?_⟩
  · intro hm
    rw [h2, h3]
    simp only [ip_fragment_mark, hm, if_true, size_sub_of_le _ _ (le_trans v4 v2), U32, hfo]
    refine ⟨trivial, trivial, ?_⟩
    intro hw
    rw [hw]
    apply Nat.mod_eq_of_lt
    rw [hfo] at hle
    omega
  · intro hm
    rw [h2, h3]
    simp only [ip_fragment_mark, hm, if_false]
    exact ⟨trivial, trivial⟩

theorem ip_parse_last_fragment_witness :
    ∃ sub', (ip_parse (ip_wl_env sample_ip_sub sample_proto_parse) sample_ip_subprotos 0 0
        sample_frag_last.packet 28 28).ip_subparser = some sub' ∧
      (sub'.slot 3).got_last = true ∧ (sub'.slot 3).end_offset = 16 := by
  obtain ⟨sub', h1, h2, _⟩ := ip_parse_last_fragment
    (ip_wl_env sample_ip_sub sample_proto_parse) sample_ip_subprotos 0 0
    sample_frag_last.packet 28 28 sample_ip_sub 3
    (by unfold ip_parse_valid; decide) (by decide) (by decide) (by decide) (by decide)
    (by decide)
  obtain ⟨g1, _, g3⟩ := h2 (by decide)
  exact ⟨sub', h1, g1, g3 (by decide)⟩

/-! ## Emission of a reassembled datagram -/

/-- C23: `reassemble` on a complete slot (which is constructed) invokes the
child parser at most once: exactly once when
`pkt_wait_list_reassemble(0, end_offset)` yields a buffer, with that buffer,
the parser of the wait-list, the parent and the way of `ip_parse`, and both
lengths equal to `end_offset`; not at all when it yields NULL. In both cases
the slot is free afterwards: `in_use = 0`, `constructed = 0`, and its wait-list
is destructed. -/
theorem reassemble_emission (env : ip_env) (reassembly : ip_reassembly) (way : Nat)
    (hc : reassembly.constructed = true) :
    (reassemble env reassembly way).2.length ≤ 1 ∧
    (∀ payload,
      env.pkt_wait_list_reassemble reassembly.wl 0 reassembly.end_offset = some payload →
      (reassemble env reassembly way).2 =
        [ip_call.proto_parse (reassembly.wl.bind (fun w => w.parser)) none way payload
          reassembly.end_offset reassembly.end_offset]) ∧
    (env.pkt_wait_list_reassemble reassembly.wl 0 reassembly.end_offset = none →
      (reassemble env reassembly way).2 = []) ∧
    (reassemble env reassembly way).1.in_use = false ∧
    (reassemble env reassembly way).1.constructed = false ∧
    (reassemble env reassembly way).1.wl = none := by
  unfold reassemble ip_reassembly_dtor
  simp only [hc, if_true]
  refine ⟨?_, ?_, ?_, trivial, trivial, trivial⟩
  · cases env.pkt_wait_list_reassemble reassembly.wl 0 reassembly.end_offset <;> simp
  · intro payload hp
    rw [hp]
  · intro hp
    rw [hp]

theorem reassemble_emission_witness :
    (reassemble (ip_wl_env sample_ip_sub sample_proto_parse) sample_complete_slot 0).2 =
      [ip_call.proto_parse (some 3) none 0 [1, 2, 3, 4, 5, 6, 7, 8] 8 8] ∧
    (reassemble (ip_wl_env sample_ip_sub sample_proto_parse) sample_complete_slot 0).1.in_use
      = false ∧
    (reassemble (ip_wl_env sample_ip_sub sample_proto_parse) sample_complete_slot 0).1.constructed
      = false :=
  ⟨(reassemble_emission (ip_wl_env sample_ip_sub sample_proto_parse) sample_complete_slot 0
      (by decide)).2.1 [1, 2, 3, 4, 5, 6, 7, 8] (by decide),
   (reassemble_emission (ip_wl_env sample_ip_sub sample_proto_parse) sample_complete_slot 0
      (by decide)).2.2.2.1,
   (reassemble_emission (ip_wl_env sample_ip_sub sample_proto_parse) sample_complete_slot 0
      (by decide)).2.2.2.2.1⟩

/-! ## The insertion of a segment in the wait-list -/

theorem tcp_parse_deliver_wl_add_args (env : tcp_env) (s : tcp_subparser)
    (info : tcp_proto_info) (way : Nat) (packet : List Nat)
    (cap_len wire_len tcphdr_len : Nat) :
    ∀ args, tcp_call.wl_add args ∈
        (tcp_parse_deliver env s info way packet cap_len wire_len tcphdr_len).2.2 →
      args = { way := way, offset := info.seq_num
               next_offset := (info.seq_num + size_sub wire_len tcphdr_len + info.syn.toNat +
                 info.fin.toNat) % U32
               can_sync := info.ack, sync_offset := info.ack_num, restartable := true
               info := info, payload := packet.drop tcphdr_len
               cap_len := size_sub cap_len tcphdr_len
               wire_len := size_sub wire_len tcphdr_len } := by
  intro args
  unfold tcp_parse_deliver
  simp only []
  split_ifs <;> simp

theorem tcp_parse_wl_add_mem (env : tcp_env) (found : Option tcp_subparser)
    (parent : Option (ip_addr × ip_addr)) (way : Nat) (packet : List Nat)
    (cap_len wire_len : Nat) (args : tcp_wl_add_args)
    (hin : tcp_call.wl_add args ∈ (tcp_parse env found parent way packet cap_len wire_len).calls) :
    (tcp_parse_header env packet cap_len wire_len).1 = PROTO_OK ∧
    ∃ b, tcp_parse_tracked env found parent way packet cap_len wire_len = some b ∧
      tcp_call.wl_add args ∈ (tcp_parse_deliver env b
        { (tcp_parse_header env packet cap_len wire_len).2 with
          to_srv := decide (b.srv_way ≠ tcp_parse_way env parent way packet cap_len wire_len) }
        (tcp_parse_way env parent way packet cap_len wire_len) packet cap_len wire_len
        (TCP_HDR_LENGTH packet)).2.2 := by
  by_cases h : (tcp_parse_header env packet cap_len wire_len).1 = PROTO_OK
  · refine ⟨h, ?_⟩
    cases hl : lookup_or_create_tcp_subparser env found
        (tcp_parse_header env packet cap_len wire_len).2
        (tcp_patch_way parent (tcp_parse_header env packet cap_len wire_len).2 way) with
    | none =>
      unfold tcp_parse at hin
      simp only [h, ne_eq, not_true_eq_false, if_false, hl] at hin
      simp at hin
    | some sub =>
      refine ⟨tcp_parse_bookkeeping env sub (tcp_parse_header env packet cap_len wire_len).2
        (tcp_parse_way env parent way packet cap_len wire_len), ?_, ?_⟩
      · simp only [tcp_parse_tracked, tcp_parse_way, hl, Option.map_some']
      · unfold tcp_parse at hin
        simp only [h, ne_eq, not_true_eq_false, if_false, hl, List.append_assoc,
          List.mem_append] at hin
        simp only [tcp_parse_way]
        rcases hin with hin | hin | hin
        · exact hin
        · split_ifs at hin <;> simp at hin
        · split_ifs at hin <;> simp at hin
  · rw [tcp_parse_of_error env found parent way packet cap_len wire_len h] at hin
    simp at hin

/-- C24: every insertion of a segment by `tcp_parse` in the wait-list passes
`offset = seq_num`,
`next_offset = (seq_num + payload_len + (syn ? 1 : 0) + (fin ? 1 : 0)) mod 2^32`
with `payload_len = wire_len - tcphdr_len` (which does not wrap:
`tcphdr_len ≤ wire_len`), and `sync_offset = ack_num`; the sequence and
acknowledgement numbers and the flags are those read in the header. -/
theorem tcp_parse_wl_add_offsets (env : tcp_env) (found : Option tcp_subparser)
    (parent : Option (ip_addr × ip_addr)) (way : Nat) (packet : List Nat)
    (cap_len wire_len : Nat) (args : tcp_wl_add_args)
    (hin : tcp_call.wl_add args ∈ (tcp_parse env found parent way packet cap_len wire_len).calls) :
    TCP_HDR_LENGTH packet ≤ wire_len ∧
    args.offset = READ_U32N packet 4 ∧
    args.next_offset = (READ_U32N packet 4 + (wire_len - TCP_HDR_LENGTH packet) +
      (if flag_set (READ_U8 packet 13) TCP_SYN_MASK = true then 1 else 0) +
      (if flag_set (READ_U8 packet 13) TCP_FIN_MASK = true then 1 else 0)) % 2 ^ 32 ∧
    args.sync_offset = READ_U32N packet 8 ∧
    args.can_sync = flag_set (READ_U8 packet 13) TCP_ACK_MASK ∧
    args.wire_len = wire_len - TCP_HDR_LENGTH packet ∧
    args.offset = (tcp_parse_header env packet cap_len wire_len).2.seq_num ∧
    args.sync_offset = (tcp_parse_header env packet cap_len wire_len).2.ack_num := by
  obtain ⟨h, b, _, hd⟩ := tcp_parse_wl_add_mem env found parent way packet cap_len wire_len
    args hin
  have ha := tcp_parse_deliver_wl_add_args env b _ _ packet cap_len wire_len _ args hd
  obtain ⟨f1, _, f3, f4, f5, f6, f7⟩ := tcp_parse_header_fields env packet cap_len wire_len h
  subst ha
  simp only [f3, f4, f5, f6, f7, size_sub_of_le _ _ f1, U32]
  refine ⟨f1, trivial, ?_, trivial, trivial, trivial, trivial, trivial⟩
  cases flag_set (READ_U8 packet 13) TCP_SYN_MASK <;>
    cases flag_set (READ_U8 packet 13) TCP_FIN_MASK <;> simp

theorem tcp_parse_wl_add_offsets_witness :
    tcp_call.wl_add sample_syn_args ∈
      (tcp_parse sample_env none none 0 sample_syn_packet 23 23).calls ∧
    sample_syn_args.offset = READ_U32N sample_syn_packet 4 ∧
    sample_syn_args.sync_offset = READ_U32N sample_syn_packet 8 ∧
    sample_syn_args.offset = 100 ∧ sample_syn_args.next_offset = 104 ∧
    sample_syn_args.sync_offset = 0 :=
  have hm : tcp_call.wl_add sample_syn_args ∈
      (tcp_parse sample_env none none 0 sample_syn_packet 23 23).calls := by
    unfold tcp_parse
    rw [tcp_parse_header_plain _ _ _ _ (by decide) (by decide) (by decide)]
    decide
  ⟨hm,
   (tcp_parse_wl_add_offsets sample_env none none 0 sample_syn_packet 23 23 sample_syn_args
     hm).2.1,
   (tcp_parse_wl_add_offsets sample_env none none 0 sample_syn_packet 23 23 sample_syn_args
     hm).2.2.2.1,
   by decide, by decide, by decide⟩

/-! ## The recording of the acknowledgements -/

theorem tcp_seqnum_cmp_self (a : Nat) : tcp_seqnum_cmp a a = 0 := by
  have h := u32_sub_int a a
  simp only [tcp_seqnum_cmp]
  generalize u32_sub a a = d at h ⊢
  split_ifs <;> omega

/-- C25: for a segment in direction `way` (0 or 1) whose header parses and for
which `tcp_parse` has the sub-parser `sub`: if the segment carries ACK and
either `ack[way]` is not set or `ack_num > max_acknum[way]` (modulo 2^32), the
call sets `ack[way]` and `max_acknum[way] = ack_num` (the other direction is
left as it was); in every other case `ack` and `max_acknum` are unchanged.
Hence, when `ack[way]` was set, the new `max_acknum[way]` is not before the old
one in the modular order. The sub-parser `sub` has the `ack` and `max_acknum`
of the one found in the mux, when there was one. -/
theorem tcp_parse_ack_bookkeeping (env : tcp_env) (found : Option tcp_subparser)
    (parent : Option (ip_addr × ip_addr)) (way : Nat) (packet : List Nat)
    (cap_len wire_len : Nat) (sub : tcp_subparser)
    (h : (tcp_parse_header env packet cap_len wire_len).1 = PROTO_OK)
    (hl : lookup_or_create_tcp_subparser env found (tcp_parse_header env packet cap_len wire_len).2
      (tcp_parse_way env parent way packet cap_len wire_len) = some sub)
    (hw : tcp_parse_way env parent way packet cap_len wire_len ≤ 1) :
    (∀ s, found = some s → sub.ack = s.ack ∧ sub.max_acknum = s.max_acknum) ∧
    ∃ t, (tcp_parse env found parent way packet cap_len wire_len).tcp_sub = some t ∧
      (((tcp_parse_header env packet cap_len wire_len).2.ack = true ∧
          (IS_SET_FOR_WAY (tcp_parse_way env parent way packet cap_len wire_len) sub.ack = false ∨
           seqnum_gt (tcp_parse_header env packet cap_len wire_len).2.ack_num
             (at2 sub.max_acknum (tcp_parse_way env parent way packet cap_len wire_len)) = true)) →
        IS_SET_FOR_WAY (tcp_parse_way env parent way packet cap_len wire_len) t.ack = true ∧
        at2 t.max_acknum (tcp_parse_way env parent way packet cap_len wire_len) =
          (tcp_parse_header env packet cap_len wire_len).2.ack_num ∧
        IS_SET_FOR_WAY (not_way (tcp_parse_way env parent way packet cap_len wire_len)) t.ack =
          IS_SET_FOR_WAY (not_way (tcp_parse_way env parent way packet cap_len wire_len)) sub.ack ∧
        at2 t.max_acknum (not_way (tcp_parse_way env parent way packet cap_len wire_len)) =
          at2 sub.max_acknum (not_way (tcp_parse_way env parent way packet cap_len wire_len))) ∧
      (¬ ((tcp_parse_header env packet cap_len wire_len).2.ack = true ∧
          (IS_SET_FOR_WAY (tcp_parse_way env parent way packet cap_len wire_len) sub.ack = false ∨
           seqnum_gt (tcp_parse_header env packet cap_len wire_len).2.ack_num
             (at2 sub.max_acknum (tcp_parse_way env parent way packet cap_len wire_len)) = true)) →
        t.ack = sub.ack ∧ t.max_acknum = sub.max_acknum) ∧
      (IS_SET_FOR_WAY (tcp_parse_way env parent way packet cap_len wire_len) sub.ack = true →
        IS_SET_FOR_WAY (tcp_parse_way env parent way packet cap_len wire_len) t.ack = true ∧
        0 ≤ tcp_seqnum_cmp
          (at2 t.max_acknum (tcp_parse_way env parent way packet cap_len wire_len))
          (at2 sub.max_acknum (tcp_parse_way env parent way packet cap_len wire_len))) := by
  constructor
  · intro s hs
    subst hs
    obtain ⟨sub2, hl2, htr, _⟩ := lookup_found_track env s
      (tcp_parse_header env packet cap_len wire_len).2
      (tcp_parse_way env parent way packet cap_len wire_len)
    rw [hl] at hl2
    cases hl2
    exact ⟨htr.2.1, htr.2.2.2.2.2.1⟩
  · simp only [tcp_parse_way] at hl hw ⊢
    obtain ⟨t, ht, htr, _⟩ := tcp_parse_track env found parent way packet cap_len wire_len
      sub h hl
    obtain ⟨b1, b2, _⟩ := tcp_parse_bookkeeping_fields env sub
      (tcp_parse_header env packet cap_len wire_len).2
      (tcp_patch_way parent (tcp_parse_header env packet cap_len wire_len).2 way)
    have ta : t.ack = _ := htr.2.1.trans b1
    have tm : t.max_acknum = _ := htr.2.2.2.2.2.1.trans b2
    generalize tcp_patch_way parent (tcp_parse_header env packet cap_len wire_len).2 way = w
      at hw ta tm ⊢
    generalize (tcp_parse_header env packet cap_len wire_len).2 = info at ta tm ⊢
    have hnw : not_way w ≤ 1 := by unfold not_way; split_ifs <;> omega
    have hne : ¬ w = not_way w := by unfold not_way; split_ifs <;> omega
    refine ⟨t, ht, ?_, ?_, ?_⟩
    · rintro ⟨ha, hc⟩
      have hcond : (info.ack && (!IS_SET_FOR_WAY w sub.ack ||
          seqnum_gt info.ack_num (at2 sub.max_acknum w))) = true := by
        rcases hc with hc | hc <;> simp [ha, hc]
      rw [if_pos hcond] at ta tm
      rw [ta, tm, IS_SET_FOR_WAY_SET _ _ _ hw, IS_SET_FOR_WAY_SET _ _ _ hnw,
        at2_upd2 _ _ _ _ hw hw, at2_upd2 _ _ _ _ hw hnw]
      simp [hne]
    · intro hc
      have hcond : ¬ (info.ack && (!IS_SET_FOR_WAY w sub.ack ||
          seqnum_gt info.ack_num (at2 sub.max_acknum w))) = true := by
        intro hx
        apply hc
        simp only [Bool.and_eq_true, Bool.or_eq_true, Bool.not_eq_true'] at hx
        exact hx
      rw [if_neg hcond] at ta tm
      exact ⟨ta, tm⟩
    · intro hset
      by_cases hcond : (info.ack && (!IS_SET_FOR_WAY w sub.ack ||
          seqnum_gt info.ack_num (at2 sub.max_acknum w))) = true
      · rw [if_pos hcond] at ta tm
        rw [ta, tm, IS_SET_FOR_WAY_SET _ _ _ hw, at2_upd2 _ _ _ _ hw hw]
        simp only [hset, Bool.not_true, Bool.false_or, Bool.and_eq_true] at hcond
        have hgt := hcond.2
        simp only [seqnum_gt, decide_eq_true_eq] at hgt
        simp only [if_true, decide_True, Bool.or_true, true_and]
        omega
      · rw [if_neg hcond] at ta tm
        rw [ta, tm, tcp_seqnum_cmp_self]
        exact ⟨hset, le_refl _⟩

theorem tcp_parse_ack_bookkeeping_witness :
    ∃ t, (tcp_parse sample_env (some sample_closing_sub) none 1
        (sample_tcp_packet 80 40000 501 105 16 []) 20 20).tcp_sub = some t ∧
      IS_SET_FOR_WAY 1 t.ack = true ∧ at2 t.max_acknum 1 = 105 ∧
      at2 t.max_acknum 0 = 0 ∧
      0 ≤ tcp_seqnum_cmp (at2 t.max_acknum 1) 101 := by
  have hh : (tcp_parse_header sample_env (sample_tcp_packet 80 40000 501 105 16 []) 20 20).1
      = PROTO_OK := by
    rw [tcp_parse_header_plain _ _ _ _ (by decide) (by decide) (by decide)]
  obtain ⟨t, ht, h1, _, h3⟩ := (tcp_parse_ack_bookkeeping sample_env (some sample_closing_sub)
    none 1 (sample_tcp_packet 80 40000 501 105 16 []) 20 20 sample_closing_sub hh rfl
    (by decide)).2
  refine ⟨t, ht, ?_⟩
  have h1' := h1 (by
    rw [tcp_parse_header_plain _ _ _ _ (by decide) (by decide) (by decide)]
    decide)
  have h3' := h3 (by decide)
  rw [tcp_parse_header_plain _ _ _ _ (by decide) (by decide) (by decide)] at h1'
  exact ⟨h1'.1, h1'.2.1, h1'.2.2.2, h3'.2⟩

/-! ## Initialisation of the wait-lists -/

theorem not_way_le (w : Nat) : not_way w ≤ 1 := by
  unfold not_way; split_ifs <;> omega

theorem not_way_ne (w : Nat) : not_way w ≠ w := by
  unfold not_way; split_ifs <;> omega

theorem set_wl_list_spec (s : tcp_subparser) (info : tcp_proto_info) (way : Nat)
    (hw : way ≤ 1) :
    IS_SET_FOR_WAY way (set_wl_list s info way).wl_set = true ∧
    (IS_SET_FOR_WAY way s.wl_set = false →
      (at2 (set_wl_list s info way).wl way).next_offset = info.seq_num) ∧
    (IS_SET_FOR_WAY way s.wl_set = true →
      at2 (set_wl_list s info way).wl way = at2 s.wl way) ∧
    (IS_SET_FOR_WAY (not_way way) s.wl_set = false → info.ack = true →
      IS_SET_FOR_WAY (not_way way) (set_wl_list s info way).wl_set = true ∧
      (at2 (set_wl_list s info way).wl (not_way way)).next_offset = info.ack_num) ∧
    (IS_SET_FOR_WAY (not_way way) s.wl_set = true ∨ info.ack = false →
      at2 (set_wl_list s info way).wl (not_way way) = at2 s.wl (not_way way) ∧
      IS_SET_FOR_WAY (not_way way) (set_wl_list s info way).wl_set =
        IS_SET_FOR_WAY (not_way way) s.wl_set) := by
  have hn := not_way_le way
  have hne := not_way_ne way
  have hne' : ¬ way = not_way way := fun e => hne e.symm
  unfold set_wl_list
  by_cases h1 : IS_SET_FOR_WAY way s.wl_set = true
  · simp only [h1, Bool.not_true, Bool.false_eq_true, if_false]
    by_cases h2 : IS_SET_FOR_WAY (not_way way) s.wl_set = true
    · simp only [h2, Bool.not_true, Bool.false_and, Bool.false_eq_true, if_false]
      simp [h1]
    · have h2' : IS_SET_FOR_WAY (not_way way) s.wl_set = false := by simpa using h2
      by_cases ha : info.ack = true
      · simp only [h2', ha, Bool.not_false, Bool.and_self, if_true,
          IS_SET_FOR_WAY_SET _ _ _ hw, IS_SET_FOR_WAY_SET _ _ _ hn,
          at2_upd2 _ _ _ _ hn hw, at2_upd2 _ _ _ _ hn hn]
        simp [h1, hne]
      · have ha' : info.ack = false := by simpa using ha
        simp only [h2', ha', Bool.not_false, Bool.and_false, Bool.false_eq_true, if_false]
        simp [h1, h2']
  · have h1' : IS_SET_FOR_WAY way s.wl_set = false := by simpa using h1
    simp only [h1', Bool.not_false, if_true, IS_SET_FOR_WAY_SET _ _ _ hn]
    by_cases h2 : IS_SET_FOR_WAY (not_way way) s.wl_set = true
    · simp only [h2, Bool.true_or, Bool.not_true, Bool.false_and, Bool.false_eq_true, if_false,
        IS_SET_FOR_WAY_SET _ _ _ hw, IS_SET_FOR_WAY_SET _ _ _ hn,
        at2_upd2 _ _ _ _ hw hw, at2_upd2 _ _ _ _ hw hn]
      simp [hne']
    · have h2' : IS_SET_FOR_WAY (not_way way) s.wl_set = false := by simpa using h2
      by_cases ha : info.ack = true
      · simp only [h2', ha, hne', decide_False, Bool.or_false, Bool.not_false, Bool.and_self,
          if_true, IS_SET_FOR_WAY_SET _ _ _ hw, IS_SET_FOR_WAY_SET _ _ _ hn,
          at2_upd2 _ _ _ _ hn hw, at2_upd2 _ _ _ _ hn hn, at2_upd2 _ _ _ _ hw hw,
          at2_upd2 _ _ _ _ hw hn]
        simp [hne, hne']
      · have ha' : info.ack = false := by simpa using ha
        simp only [h2', ha', hne', decide_False, Bool.or_false, Bool.not_false, Bool.and_false,
          Bool.false_eq_true, if_false, IS_SET_FOR_WAY_SET _ _ _ hw,
          IS_SET_FOR_WAY_SET _ _ _ hn, at2_upd2 _ _ _ _ hw hw, at2_upd2 _ _ _ _ hw hn]
        simp [hne']

theorem tcp_parse_bookkeeping_wl (env : tcp_env) (s : tcp_subparser) (info : tcp_proto_info)
    (way : Nat) :
    (tcp_parse_bookkeeping env s info way).wl = (set_wl_list s info way).wl ∧
    (tcp_parse_bookkeeping env s info way).wl_set = (set_wl_list s info way).wl_set := by
  unfold tcp_parse_bookkeeping
  simp only [tcp_set_srv_way_wl, tcp_track_syn_wl, tcp_track_fin_wl, tcp_track_ack_wl,
    tcp_set_srv_way_wl_set, tcp_track_syn_wl_set, tcp_track_fin_wl_set, tcp_track_ack_wl_set]
  exact ⟨trivial, trivial⟩

theorem lookup_created_wl (env : tcp_env) (info : tcp_proto_info) (way : Nat)
    (sub : tcp_subparser)
    (h : lookup_or_create_tcp_subparser env none info way = some sub) :
    ∃ t, t.wl_set = 0 ∧ sub = set_wl_list t info way := by
  unfold lookup_or_create_tcp_subparser at h
  simp only [] at h
  split at h
  · rename_i t ht
    cases h
    refine ⟨t, ?_, rfl⟩
    split at ht
    · rename_i m hm
      cases ht
      split at hm
      · split at hm
        · unfold mux_subparser_and_parser_new at hm
          split at hm
          · cases hm
          · exact (tcp_subparser_new_fresh env _ _ _ hm).2.2.2.1
        · cases hm
      · cases hm
    · exact (tcp_subparser_new_fresh env _ _ _ ht).2.2.2.1
  · cases h

/-- C26, as stated, fails. In the flow made of a segment without ACK in
direction 0 (a SYN at sequence number 100) and then the first segment with ACK in
direction 1 (sequence number 500, `ack_num = 5000`), the second call finds
`wl_set[0]` already set by the first segment and leaves `wl[0].next_offset` at
100: it is not set to 5000. And in the flow made of a segment with ACK in
direction 0 (`ack_num = 2000`) and then the first segment in direction 1
(sequence number 7000), the second call finds `wl_set[1]` already set by that
ACK and leaves `wl[1].next_offset` at 2000: it is not set to 7000. -/
theorem set_wl_list_guarded :
    ((tcp_flow none sample_late_ack_flow).map
      (fun r => r.tcp_sub.map (fun t => ((at2 t.wl 0).next_offset, t.wl_set)))) =
      [some (100, 1), some (100, 3)] ∧
    (sample_late_ack_flow.map (fun s => (s.way, s.info.seq_num, s.info.ack, s.info.ack_num))) =
      [(0, 100, false, 0), (1, 500, true, 5000)] ∧
    ((tcp_flow none sample_early_ack_flow).map
      (fun r => r.tcp_sub.map (fun t => ((at2 t.wl 1).next_offset, t.wl_set)))) =
      [some (2000, 3), some (2000, 3)] ∧
    (sample_early_ack_flow.map (fun s => (s.way, s.info.seq_num, s.info.ack, s.info.ack_num))) =
      [(0, 1000, true, 2000), (1, 7000, true, 1003)] := by
  refine ⟨?_, ?_, ?_, ?_⟩
  · simp +decide only [sample_late_ack_flow, tcp_flow, tcp_parse_segment, tcp_parse,
      sample_segment, tcp_parse_header_plain, List.map]
  · simp +decide only [sample_late_ack_flow, tcp_segment.info, sample_segment,
      tcp_parse_header_plain, List.map]
  · simp +decide only [sample_early_ack_flow, tcp_flow, tcp_parse_segment, tcp_parse,
      sample_segment, tcp_parse_header_plain, List.map]
  · simp +decide only [sample_early_ack_flow, tcp_segment.info, sample_segment,
      tcp_parse_header_plain, List.map]

/-- C26, amended: `b` being the sub-parser of a segment in direction `way` (0 or
1) once `tcp_parse` has done its bookkeeping, `wl_set[way]` is set in `b`. On
the first segment of a flow (the mux holds no sub-parser), `wl[way].next_offset`
is the `seq_num` of the segment and, if it carries ACK, `wl_set[!way]` is set
and `wl[!way].next_offset` is its `ack_num` (`wl_set[!way]` stays clear
otherwise). On a later segment, with `s` the sub-parser found: if `wl_set[way]`
was clear `wl[way].next_offset` is set to `seq_num`, and if it was set `wl[way]`
is left as it was; if `wl_set[!way]` was clear and the segment carries ACK,
`wl_set[!way]` is set and `wl[!way].next_offset` is set to `ack_num`, and
otherwise `wl[!way]` and `wl_set[!way]` are left as they were. The sub-parser
that the call leaves has the `wl_set` of `b`. -/
theorem set_wl_list_init (env : tcp_env) (found : Option tcp_subparser)
    (parent : Option (ip_addr × ip_addr)) (way : Nat) (packet : List Nat)
    (cap_len wire_len : Nat) (b : tcp_subparser)
    (h : (tcp_parse_header env packet cap_len wire_len).1 = PROTO_OK)
    (hb : tcp_parse_tracked env found parent way packet cap_len wire_len = some b)
    (hw : tcp_parse_way env parent way packet cap_len wire_len ≤ 1) :
    (∃ t, (tcp_parse env found parent way packet cap_len wire_len).tcp_sub = some t ∧
      t.wl_set = b.wl_set) ∧
    IS_SET_FOR_WAY (tcp_parse_way env parent way packet cap_len wire_len) b.wl_set = true ∧
    (found = none →
      (at2 b.wl (tcp_parse_way env parent way packet cap_len wire_len)).next_offset =
        (tcp_parse_header env packet cap_len wire_len).2.seq_num ∧
      ((tcp_parse_header env packet cap_len wire_len).2.ack = true →
        IS_SET_FOR_WAY (not_way (tcp_parse_way env parent way packet cap_len wire_len))
          b.wl_set = true ∧
        (at2 b.wl (not_way (tcp_parse_way env parent way packet cap_len wire_len))).next_offset =
          (tcp_parse_header env packet cap_len wire_len).2.ack_num) ∧
      ((tcp_parse_header env packet cap_len wire_len).2.ack = false →
        IS_SET_FOR_WAY (not_way (tcp_parse_way env parent way packet cap_len wire_len))
          b.wl_set = false)) ∧
    (∀ s, found = some s →
      (IS_SET_FOR_WAY (tcp_parse_way env parent way packet cap_len wire_len) s.wl_set = false →
        (at2 b.wl (tcp_parse_way env parent way packet cap_len wire_len)).next_offset =
          (tcp_parse_header env packet cap_len wire_len).2.seq_num) ∧
      (IS_SET_FOR_WAY (tcp_parse_way env parent way packet cap_len wire_len) s.wl_set = true →
        at2 b.wl (tcp_parse_way env parent way packet cap_len wire_len) =
          at2 s.wl (tcp_parse_way env parent way packet cap_len wire_len)) ∧
      (IS_SET_FOR_WAY (not_way (tcp_parse_way env parent way packet cap_len wire_len))
          s.wl_set = false →
        (tcp_parse_header env packet cap_len wire_len).2.ack = true →
        IS_SET_FOR_WAY (not_way (tcp_parse_way env parent way packet cap_len wire_len))
          b.wl_set = true ∧
        (at2 b.wl (not_way (tcp_parse_way env parent way packet cap_len wire_len))).next_offset =
          (tcp_parse_header env packet cap_len wire_len).2.ack_num) ∧
      (IS_SET_FOR_WAY (not_way (tcp_parse_way env parent way packet cap_len wire_len))
          s.wl_set = true ∨ (tcp_parse_header env packet cap_len wire_len).2.ack = false →
        at2 b.wl (not_way (tcp_parse_way env parent way packet cap_len wire_len)) =
          at2 s.wl (not_way (tcp_parse_way env parent way packet cap_len wire_len)) ∧
        IS_SET_FOR_WAY (not_way (tcp_parse_way env parent way packet cap_len wire_len))
          b.wl_set =
        IS_SET_FOR_WAY (not_way (tcp_parse_way env parent way packet cap_len wire_len))
          s.wl_set)) := by
  simp only [tcp_parse_tracked, Option.map_eq_some'] at hb
  obtain ⟨sub, hl, hbk⟩ := hb
  have htrack : ∃ t, (tcp_parse env found parent way packet cap_len wire_len).tcp_sub = some t ∧
      t.wl_set = b.wl_set := by
    obtain ⟨t, ht, htr, _⟩ := tcp_parse_track env found parent way packet cap_len wire_len
      sub h hl
    refine ⟨t, ht, ?_⟩
    rw [← hbk]
    exact htr.2.2.2.1
  refine ⟨htrack, ?_⟩
  clear htrack h
  generalize tcp_parse_way env parent way packet cap_len wire_len = w at hl hbk hw ⊢
  generalize (tcp_parse_header env packet cap_len wire_len).2 = info at hl hbk ⊢
  obtain ⟨k1, k2⟩ := tcp_parse_bookkeeping_wl env sub info w
  rw [hbk] at k1 k2
  obtain ⟨p1, p2, p3, p4, p5⟩ := set_wl_list_spec sub info w hw
  simp only [← k1, ← k2] at p1 p2 p3 p4 p5
  refine ⟨p1, ?_, ?_⟩
  · intro hf
    subst hf
    obtain ⟨t, ht0, hsub⟩ := lookup_created_wl env info w sub hl
    obtain ⟨q1, q2, _, q4, q5⟩ := set_wl_list_spec t info w hw
    simp only [← hsub] at q1 q2 q4 q5
    have z1 : IS_SET_FOR_WAY w t.wl_set = false := by
      rw [ht0]; simp [IS_SET_FOR_WAY]
    have z2 : IS_SET_FOR_WAY (not_way w) t.wl_set = false := by
      rw [ht0]; simp [IS_SET_FOR_WAY]
    refine ⟨?_, ?_, ?_⟩
    · rw [p3 q1]
      exact q2 z1
    · intro ha
      obtain ⟨r1, r2⟩ := q4 z2 ha
      obtain ⟨r3, r4⟩ := p5 (Or.inl r1)
      rw [r3, r4]
      exact ⟨r1, r2⟩
    · intro ha
      obtain ⟨_, r2⟩ := q5 (Or.inr ha)
      obtain ⟨_, r4⟩ := p5 (Or.inr ha)
      rw [r4, r2]
      exact z2
  · intro s hs
    subst hs
    obtain ⟨sub2, hl2, htr, hwl⟩ := lookup_found_track env s info w
    rw [hl] at hl2
    cases hl2
    have hset : sub.wl_set = s.wl_set := htr.2.2.2.1
    simp only [hset, hwl] at p2 p3 p4 p5
    exact ⟨p2, p3, p4, p5⟩

theorem set_wl_list_init_witness :
    ∃ b, tcp_parse_tracked sample_env none none 1
        (sample_tcp_packet 80 40000 500 5000 16 []) 20 20 = some b ∧
      IS_SET_FOR_WAY 1 b.wl_set = true ∧ (at2 b.wl 1).next_offset = 500 ∧
      IS_SET_FOR_WAY 0 b.wl_set = true ∧ (at2 b.wl 0).next_offset = 5000 := by
  have hh : tcp_parse_header sample_env (sample_tcp_packet 80 40000 500 5000 16 []) 20 20 =
      (PROTO_OK, tcp_proto_info_ctor sample_env.info_uninit 20 (20 - 20)
        (READ_U16N (sample_tcp_packet 80 40000 500 5000 16 []) 0)
        (READ_U16N (sample_tcp_packet 80 40000 500 5000 16 []) 2)
        (sample_tcp_packet 80 40000 500 5000 16 [])) :=
    tcp_parse_header_plain _ _ _ _ (by decide) (by decide) (by decide)
  have hb : ∃ b, tcp_parse_tracked sample_env none none 1
      (sample_tcp_packet 80 40000 500 5000 16 []) 20 20 = some b := by
    simp only [tcp_parse_tracked, tcp_parse_way, hh]
    exact ⟨_, rfl⟩
  obtain ⟨b, hb⟩ := hb
  obtain ⟨_, h1, h2, _⟩ := set_wl_list_init sample_env none none 1
    (sample_tcp_packet 80 40000 500 5000 16 []) 20 20 b (by rw [hh]) hb (by decide)
  obtain ⟨g1, g2, _⟩ := h2 rfl
  rw [hh] at g1 g2
  obtain ⟨g3, g4⟩ := g2 (by decide)
  exact ⟨b, hb, h1, g1, g3, g4⟩

/-! ## Flows captured from their middle -/

theorem tcp_parse_unsure_step (env : tcp_env) (found : Option tcp_subparser)
    (parent : Option (ip_addr × ip_addr)) (way : Nat) (packet : List Nat)
    (cap_len wire_len : Nat)
    (hsyn : (tcp_parse_header env packet cap_len wire_len).1 = PROTO_OK →
      (tcp_parse_header env packet cap_len wire_len).2.syn = false)
    (hf : ∀ s, found = some s → s.srv_set ≤ 1) :
    ∀ t, (tcp_parse env found parent way packet cap_len wire_len).tcp_sub = some t →
      t.srv_set = 1 ∧ ∀ s, found = some s → s.srv_set = 1 → t.srv_way = s.srv_way := by
  intro t ht
  by_cases hh : (tcp_parse_header env packet cap_len wire_len).1 = PROTO_OK
  · have hs := hsyn hh
    cases hl : lookup_or_create_tcp_subparser env found
        (tcp_parse_header env packet cap_len wire_len).2
        (tcp_patch_way parent (tcp_parse_header env packet cap_len wire_len).2 way) with
    | none =>
      rw [(tcp_parse_of_none env found parent way packet cap_len wire_len hh hl).2.1] at ht
      cases ht
    | some sub =>
      obtain ⟨t', ht', htr', _⟩ := tcp_parse_track env found parent way packet cap_len wire_len
        sub hh hl
      rw [ht'] at ht
      cases ht
      obtain ⟨_, _, _, _, _, b6, b7, _⟩ := tcp_parse_bookkeeping_fields env sub
        (tcp_parse_header env packet cap_len wire_len).2
        (tcp_patch_way parent (tcp_parse_header env packet cap_len wire_len).2 way)
      obtain ⟨_, _, _, _, _, _, h7, h8⟩ := htr'
      have hsub : sub.srv_set ≤ 1 ∧ ∀ s, found = some s → sub.srv_set = s.srv_set ∧
          sub.srv_way = s.srv_way := by
        cases found with
        | none =>
          have := (lookup_created_fresh env _ _ sub hl).2.2.2
          exact ⟨by omega, fun s hs => by cases hs⟩
        | some s =>
          obtain ⟨sub2, hl2, htr, _⟩ := lookup_found_track env s
            (tcp_parse_header env packet cap_len wire_len).2
            (tcp_patch_way parent (tcp_parse_header env packet cap_len wire_len).2 way)
          rw [hl] at hl2
          cases hl2
          obtain ⟨_, _, _, _, _, _, g7, g8⟩ := htr
          refine ⟨by rw [g8]; exact hf s rfl, ?_⟩
          intro s' hs'
          cases hs'
          exact ⟨g8, g7⟩
      rw [h7, h8, b6, b7, hs]
      obtain ⟨hle, hfs⟩ := hsub
      constructor
      · by_cases h0 : sub.srv_set = 0
        · simp [h0]
        · have h1 : sub.srv_set = 1 := by omega
          simp [h1]
      · intro s hs1 hs2
        obtain ⟨e1, e2⟩ := hfs s hs1
        have h1 : sub.srv_set = 1 := by rw [e1]; exact hs2
        simp [h1, e2]
  · rw [tcp_parse_of_error env found parent way packet cap_len wire_len hh] at ht
    cases ht

theorem tcp_parse_certain_needs_syn (env : tcp_env) (found : Option tcp_subparser)
    (parent : Option (ip_addr × ip_addr)) (way : Nat) (packet : List Nat)
    (cap_len wire_len : Nat) (t : tcp_subparser)
    (hf : ∀ s, found = some s → s.srv_set ≠ 2)
    (ht : (tcp_parse env found parent way packet cap_len wire_len).tcp_sub = some t)
    (h2 : t.srv_set = 2) :
    (tcp_parse_header env packet cap_len wire_len).1 = PROTO_OK ∧
    (tcp_parse_header env packet cap_len wire_len).2.syn = true := by
  by_cases hh : (tcp_parse_header env packet cap_len wire_len).1 = PROTO_OK
  · refine ⟨hh, ?_⟩
    cases hl : lookup_or_create_tcp_subparser env found
        (tcp_parse_header env packet cap_len wire_len).2
        (tcp_patch_way parent (tcp_parse_header env packet cap_len wire_len).2 way) with
    | none =>
      rw [(tcp_parse_of_none env found parent way packet cap_len wire_len hh hl).2.1] at ht
      cases ht
    | some sub =>
      obtain ⟨t', ht', htr', _⟩ := tcp_parse_track env found parent way packet cap_len wire_len
        sub hh hl
      rw [ht'] at ht
      cases ht
      obtain ⟨_, _, _, _, _, b6, _, _⟩ := tcp_parse_bookkeeping_fields env sub
        (tcp_parse_header env packet cap_len wire_len).2
        (tcp_patch_way parent (tcp_parse_header env packet cap_len wire_len).2 way)
      obtain ⟨_, _, _, _, _, _, _, h8⟩ := htr'
      have hsub : sub.srv_set ≠ 2 := by
        cases found with
        | none =>
          have := (lookup_created_fresh env _ _ sub hl).2.2.2
          omega
        | some s =>
          obtain ⟨sub2, hl2, htr, _⟩ := lookup_found_track env s
            (tcp_parse_header env packet cap_len wire_len).2
            (tcp_patch_way parent (tcp_parse_header env packet cap_len wire_len).2 way)
          rw [hl] at hl2
          cases hl2
          rw [htr.2.2.2.2.2.2.2]
          exact hf s rfl
      rw [h8, b6] at h2
      cases hsyn : (tcp_parse_header env packet cap_len wire_len).2.syn with
      | true => rfl
      | false =>
        rw [hsyn] at h2
        simp only [Bool.and_false, Bool.or_false, decide_eq_true_eq, Bool.false_eq_true,
          if_false] at h2
        split_ifs at h2 <;> omega
  · rw [tcp_parse_of_error env found parent way packet cap_len wire_len hh] at ht
    cases ht

theorem tcp_flow_unsure (segs : List tcp_segment)
    (hno : ∀ s ∈ segs, s.status = PROTO_OK → s.info.syn = false) :
    ∀ (found : Option tcp_subparser), (∀ s, found = some s → s.srv_set ≤ 1) →
    ∀ (pre : List tcp_parse_result) (r : tcp_parse_result) (post : List tcp_parse_result),
      tcp_flow found segs = pre ++ r :: post →
      ∀ t, r.tcp_sub = some t → t.srv_set = 1 ∧
        ((∀ q ∈ pre, q.deindexed = false) →
          (∀ s, found = some s → s.srv_set = 1 → t.srv_way = s.srv_way) ∧
          ∀ q ∈ pre, ∀ u, q.tcp_sub = some u → t.srv_way = u.srv_way) := by
  induction segs with
  | nil =>
    intro found _ pre r post hf
    simp [tcp_flow] at hf
  | cons seg rest ih =>
    intro found hfound pre r post hf t ht
    simp only [tcp_flow] at hf
    have hstep := tcp_parse_unsure_step seg.env found seg.parent seg.way seg.packet seg.cap_len
      seg.wire_len (hno seg (List.mem_cons_self _ _)) hfound
    cases pre with
    | nil =>
      simp only [List.nil_append, List.cons.injEq] at hf
      obtain ⟨hr, _⟩ := hf
      subst hr
      obtain ⟨a1, a2⟩ := hstep t ht
      refine ⟨a1, fun _ => ⟨a2, ?_⟩⟩
      intro q hq
      cases hq
    | cons q pre' =>
      simp only [List.cons_append, List.cons.injEq] at hf
      obtain ⟨hq, hrest⟩ := hf
      have hret : (tcp_parse_segment found seg).crashed = false := by
        cases hc : (tcp_parse_segment found seg).crashed with
        | false => rfl
        | true =>
          rw [hc] at hrest
          simp at hrest
      rw [hret] at hrest
      simp only [Bool.false_eq_true, if_false] at hrest
      have hno' : ∀ s ∈ rest, s.status = PROTO_OK → s.info.syn = false :=
        fun s hs => hno s (List.mem_cons_of_mem _ hs)
      have hmux : ∀ s', tcp_mux_after found (tcp_parse_segment found seg) = some s' →
          s'.srv_set ≤ 1 := by
        intro s' hs'
        unfold tcp_mux_after at hs'
        cases hts : (tcp_parse_segment found seg).tcp_sub with
        | none =>
          rw [hts] at hs'
          exact hfound s' hs'
        | some t' =>
          rw [hts] at hs'
          split_ifs at hs'
          cases hs'
          have := (hstep s' hts).1
          omega
      obtain ⟨i1, i2⟩ := ih hno' _ hmux pre' r post hrest t ht
      refine ⟨i1, ?_⟩
      intro hpre
      have hqd : q.deindexed = false := hpre q (List.mem_cons_self _ _)
      obtain ⟨j1, j2⟩ := i2 (fun q' hq' => hpre q' (List.mem_cons_of_mem _ hq'))
      have hafter : ∀ u, q.tcp_sub = some u →
          tcp_mux_after found (tcp_parse_segment found seg) = some u := by
        intro u hu
        unfold tcp_mux_after
        rw [hq, hu, hqd]
        rfl
      have hnone : q.tcp_sub = none →
          tcp_mux_after found (tcp_parse_segment found seg) = found := by
        intro hu
        unfold tcp_mux_after
        rw [hq, hu]
      refine ⟨?_, ?_⟩
      · intro s hs hs1
        cases hts : q.tcp_sub with
        | none =>
          exact j1 s ((hnone hts).trans hs) hs1
        | some u =>
          have hu := hstep u (by rw [← hts, ← hq]; rfl)
          rw [j1 u (hafter u hts) hu.1]
          exact hu.2 s hs hs1
      · intro q' hq' u hu
        rcases List.mem_cons.1 hq' with e | e
        · subst e
          have hu' := hstep u (by rw [← hu, ← hq]; rfl)
          exact j1 u (hafter u hu) hu'.1
        · exact j2 q' e u hu

/-- C27: in a flow none of whose processed segments carries SYN, parsed from a
mux that holds no sub-parser for it (or one whose `srv_set` is not CERTAIN),
`srv_set` is UNSURE (1) in the sub-parser that every call of `tcp_parse`
leaves, so it is never CERTAIN; and for as long as the sub-parser stays in the
mux (no earlier call deindexed it), `srv_way` is the one that every earlier
call left, hence the one chosen at the first segment. And a call of
`tcp_parse` that finds `srv_set` not CERTAIN and leaves it CERTAIN has
processed a segment that carries SYN. -/
theorem tcp_flow_mid_capture (found : Option tcp_subparser) (segs : List tcp_segment)
    (hfound : ∀ s, found = some s → s.srv_set ≤ 1)
    (hno : ∀ s ∈ segs, s.status = PROTO_OK → s.info.syn = false) :
    (∀ (pre : List tcp_parse_result) (r : tcp_parse_result) (post : List tcp_parse_result),
      tcp_flow found segs = pre ++ r :: post →
      ∀ t, r.tcp_sub = some t → t.srv_set = 1 ∧ t.srv_set ≠ 2 ∧
        ((∀ q ∈ pre, q.deindexed = false) →
          (∀ s, found = some s → s.srv_set = 1 → t.srv_way = s.srv_way) ∧
          ∀ q ∈ pre, ∀ u, q.tcp_sub = some u → t.srv_way = u.srv_way)) ∧
    (∀ (env : tcp_env) (parent : Option (ip_addr × ip_addr)) (way : Nat) (packet : List Nat)
      (cap_len wire_len : Nat) (t : tcp_subparser),
      (tcp_parse env found parent way packet cap_len wire_len).tcp_sub = some t →
      t.srv_set = 2 →
      (tcp_parse_header env packet cap_len wire_len).1 = PROTO_OK ∧
      (tcp_parse_header env packet cap_len wire_len).2.syn = true) := by
  constructor
  · intro pre r post hf t ht
    obtain ⟨a1, a2⟩ := tcp_flow_unsure segs hno found hfound pre r post hf t ht
    exact ⟨a1, by omega, a2⟩
  · intro env parent way packet cap_len wire_len t ht h2
    exact tcp_parse_certain_needs_syn env found parent way packet cap_len wire_len t
      (fun s hs => by have := hfound s hs; omega) ht h2

theorem tcp_flow_mid_capture_witness :
    (∀ s ∈ sample_mid_flow, s.status = PROTO_OK → s.info.syn = false) ∧
    ((tcp_flow none sample_mid_flow).map
      (fun r => r.tcp_sub.map (fun t => (t.srv_set, t.srv_way)))).length = 2 ∧
    ∀ (pre : List tcp_parse_result) (r : tcp_parse_result) (post : List tcp_parse_result),
      tcp_flow none sample_mid_flow = pre ++ r :: post →
      ∀ t, r.tcp_sub = some t → t.srv_set = 1 :=
  have hno : ∀ s ∈ sample_mid_flow, s.status = PROTO_OK → s.info.syn = false := by
    intro s hs _
    simp only [sample_mid_flow, List.mem_cons, List.mem_singleton, List.not_mem_nil,
      or_false] at hs
    rcases hs with e | e <;> subst e
    · rw [(tcp_segment_plain _ (by decide) (by decide) (by decide)).2]
      decide
    · rw [(tcp_segment_plain _ (by decide) (by decide) (by decide)).2]
      decide
  have hret : (tcp_parse_segment none
      (sample_segment 0 (sample_tcp_packet 40000 80 1000 2000 24 [71, 69, 84]))).crashed
      = false := by
    cases hc : (tcp_parse_segment none
      (sample_segment 0 (sample_tcp_packet 40000 80 1000 2000 24 [71, 69, 84]))).crashed with
    | false => rfl
    | true =>
      have h := ((tcp_parse_crashed_iff sample_env none
        (some ([10, 0, 0, 1], [10, 0, 0, 2])) 0
        (sample_tcp_packet 40000 80 1000 2000 24 [71, 69, 84]) 23 23).mp hc).2
      rw [tcp_parse_header_plain _ _ _ _ (by decide) (by decide) (by decide)] at h
      revert h
      decide
  ⟨hno, by simp [sample_mid_flow, tcp_flow, hret],
   fun pre r post hf t ht =>
    ((tcp_flow_mid_capture none sample_mid_flow (fun s hs => by cases hs) hno).1
      pre r post hf t ht).1⟩

/-! ## Progress of the option walk -/

theorem parse_next_option_range (max_options : Nat) (info : tcp_proto_info) (addr : Nat)
    (options : List Nat) (n : Nat) :
    ((parse_next_option max_options info addr options n).1 = -1 ∨
      (1 ≤ (parse_next_option max_options info addr options n).1 ∧
       (parse_next_option max_options info addr options n).1 ≤ (n : Int))) ∧
    (READ_U8 options 0 = 0 →
      (parse_next_option max_options info addr options n).1 = -1 ∨
      (parse_next_option max_options info addr options n).1 = (n : Int)) := by
  unfold parse_next_option
  simp only []
  constructor
  · repeat' split
    all_goals simp
    all_goals omega
  · intro h0
    simp only [h0, if_true]
    repeat' split
    all_goals simp

theorem size_sub_option_len (max_options : Nat) (info : tcp_proto_info) (addr : Nat)
    (options : List Nat) (n : Nat)
    (h1 : ¬ (parse_next_option max_options info addr options n).1 < 0) :
    1 ≤ (parse_next_option max_options info addr options n).1.toNat ∧
    (parse_next_option max_options info addr options n).1.toNat ≤ n ∧
    size_sub n (parse_next_option max_options info addr options n).1.toNat =
      n - (parse_next_option max_options info addr options n).1.toNat := by
  have hle := parse_next_option_len max_options info addr options n h1
  have h2 : (parse_next_option max_options info addr options n).1.toNat ≤ n := by omega
  exact ⟨by omega, h2, size_sub_of_le _ _ h2⟩

theorem tcp_option_walk_length (max_options : Nat) (rem_len : Nat) :
    ∀ (info : tcp_proto_info) (addr : Nat) (options : List Nat),
    (tcp_option_walk max_options info addr options rem_len).length ≤ rem_len := by
  induction rem_len using Nat.strong_induction_on with
  | _ n ih =>
    intro info addr options
    rw [tcp_option_walk]
    by_cases h0 : n > 0
    · simp only [h0, dite_true]
      by_cases h1 : (parse_next_option max_options info addr options n).1 < 0
      · simp only [h1, dite_true, List.length_singleton]
        omega
      · simp only [h1, dite_false, List.length_cons]
        obtain ⟨g1, g2, g3⟩ := size_sub_option_len max_options info addr options n h1
        rw [g3]
        have := ih (n - (parse_next_option max_options info addr options n).1.toNat)
          (by omega) (parse_next_option max_options info addr options n).2
          (addr + (parse_next_option max_options info addr options n).1.toNat)
          (options.drop (parse_next_option max_options info addr options n).1.toNat)
        omega
    · simp [h0]

theorem tcp_option_walk_position (max_options : Nat) (rem_len : Nat) :
    ∀ (info : tcp_proto_info) (addr : Nat) (options : List Nat) (o : List Nat × Nat),
    o ∈ tcp_option_walk max_options info addr options rem_len →
    1 ≤ o.2 ∧ o.2 ≤ rem_len ∧ o.1 = options.drop (rem_len - o.2) := by
  induction rem_len using Nat.strong_induction_on with
  | _ n ih =>
    intro info addr options o ho
    rw [tcp_option_walk] at ho
    by_cases h0 : n > 0
    · simp only [h0, dite_true] at ho
      by_cases h1 : (parse_next_option max_options info addr options n).1 < 0
      · simp only [h1, dite_true, List.mem_singleton] at ho
        subst ho
        simp only [Nat.sub_self, List.drop_zero]
        exact ⟨h0, le_refl _, trivial⟩
      · simp only [h1, dite_false] at ho
        rcases List.mem_cons.1 ho with e | e
        · subst e
          simp only [Nat.sub_self, List.drop_zero]
          exact ⟨h0, le_refl _, trivial⟩
        · obtain ⟨g1, g2, g3⟩ := size_sub_option_len max_options info addr options n h1
          rw [g3] at e
          obtain ⟨i1, i2, i3⟩ := ih _ (by omega) _ _ _ o e
          refine ⟨i1, by omega, ?_⟩
          rw [i3, List.drop_drop]
          congr 1
          omega
    · simp [h0] at ho

theorem READ_U8_of_take (p q : List Nat) (n : Nat) (h : q.take n = p.take n) :
    ∀ i, i < n → READ_U8 q i = READ_U8 p i := by
  intro i hi
  have h1 : (q.take n)[i]? = (p.take n)[i]? := by rw [h]
  rw [List.getElem?_take_of_lt hi, List.getElem?_take_of_lt hi] at h1
  simp only [READ_U8, List.getD_eq_getElem?_getD, h1]

theorem parse_next_option_of_take (max_options : Nat) (info : tcp_proto_info) (addr : Nat)
    (p q : List Nat) (n : Nat) (h : q.take n = p.take n) :
    parse_next_option max_options info addr q n =
      parse_next_option max_options info addr p n := by
  have hr := READ_U8_of_take p q n h
  unfold parse_next_option
  by_cases h1 : n < 1
  · simp only [h1, if_true]
  · simp only [h1, if_false, hr 0 (by omega)]
    by_cases h2 : n < 2
    · simp only [h2, if_true]
    · simp only [h2, if_false, hr 1 (by omega)]
      by_cases h3 : n < READ_U8 p 1
      · simp only [h3, if_true]
      · simp only [h3, if_false]
        by_cases h4 : READ_U8 p 1 = 4
        · simp only [READ_U16N, hr 2 (by omega), hr 3 (by omega)]
        · by_cases h5 : READ_U8 p 1 = 3
          · simp only [hr 2 (by omega), READ_U16N, h5]
            simp
          · have e4 : (READ_U8 p 1 ≠ 4) = True := eq_true h4
            have e3 : (READ_U8 p 1 ≠ 3) = True := eq_true h5
            simp only [e4, e3, if_true]

theorem parse_tcp_options_of_take (max_options : Nat) (rem_len : Nat) :
    ∀ (info : tcp_proto_info) (addr : Nat) (p q : List Nat),
    q.take rem_len = p.take rem_len →
    parse_tcp_options max_options info addr q rem_len =
      parse_tcp_options max_options info addr p rem_len := by
  induction rem_len using Nat.strong_induction_on with
  | _ n ih =>
    intro info addr p q h
    rw [parse_tcp_options]
    conv_rhs => rw [parse_tcp_options]
    by_cases h0 : n > 0
    · simp only [h0, dite_true, parse_next_option_of_take max_options info addr p q n h]
      by_cases h1 : (parse_next_option max_options info addr p n).1 < 0
      · simp only [h1, dite_true]
      · simp only [h1, dite_false]
        obtain ⟨g1, g2, g3⟩ := size_sub_option_len max_options info addr p n h1
        rw [g3]
        apply ih _ (by omega)
        rw [← List.drop_take, ← List.drop_take, h]
    · simp only [h0, dite_false]

/-! ## The lengths that pass the sanity checks -/

theorem ip_parse_status_valid (env : ip_env) (ip_subprotos : List ip_subproto)
    (target way : Nat) (packet : List Nat) (cap_len wire_len : Nat)
    (h : (ip_parse env ip_subprotos target way packet cap_len wire_len).status = PROTO_OK) :
    ip_parse_valid packet cap_len wire_len := by
  unfold ip_parse at h
  simp only [IP_HDR_SIZE] at h
  unfold ip_parse_valid
  split_ifs at h with h1 h2 h3 h4 h5
  all_goals first
    | (exact absurd h (by decide))
    | (refine ⟨by omega, by omega, ?_, by omega, by omega⟩
       exact not_not.1 h3)

theorem ip_parse_dispatch_calls (env : ip_env) (ip_subprotos : List ip_subproto)
    (target way : Nat) (packet : List Nat) (cap_len wire_len : Nat) :
    ∀ c ∈ (ip_parse_dispatch env ip_subprotos target way packet cap_len wire_len).calls,
      (∃ p, c = ip_call.proto_parse p (some (ip_parse_info env ip_subprotos packet))
        (ip_parse_info env ip_subprotos packet).way (packet.drop (ip_hdr_hdr_len packet * 4))
        (size_sub cap_len (ip_hdr_hdr_len packet * 4))
        (size_sub wire_len (ip_hdr_hdr_len packet * 4))) ∨
      (∃ r, c = ip_call.wl_add r (ip_fragment_args (ip_parse_info env ip_subprotos packet)
        packet cap_len wire_len (ip_hdr_hdr_len packet * 4))) ∨
      (∃ p payload e, c = ip_call.proto_parse p none way payload e e) := by
  intro c hc
  unfold ip_parse_dispatch at hc
  simp only [ip_parse_fragment, ip_parse_fallback, reassemble] at hc
  simp only [ip_parse_info]
  generalize ip_parse_find env ip_subprotos
    (ip_proto_info_ctor (ip_hdr_hdr_len packet * 4)
      (size_sub (ip_hdr_tot_len packet) (ip_hdr_hdr_len packet * 4)) packet) = f at hc ⊢
  repeat' split at hc
  all_goals simp only [List.mem_append, List.mem_singleton, List.mem_cons, List.not_mem_nil,
    List.nil_append, or_false, false_or] at hc
  all_goals first
    | (left; exact ⟨_, hc⟩)
    | (right; left; exact ⟨_, hc⟩)
    | (rcases hc with hc | hc
       · first
         | (left; exact ⟨_, hc⟩)
         | (right; left; exact ⟨_, hc⟩)
       · first
         | (left; exact ⟨_, hc⟩)
         | (right; right; exact ⟨_, _, _, hc⟩))

theorem ip_parse_info_lengths (env : ip_env) (ip_subprotos : List ip_subproto)
    (packet : List Nat) :
    (ip_parse_info env ip_subprotos packet).info.head_len = ip_hdr_hdr_len packet * 4 ∧
    (ip_parse_info env ip_subprotos packet).info.payload =
      size_sub (ip_hdr_tot_len packet) (ip_hdr_hdr_len packet * 4) := by
  simp only [ip_parse_info, ip_parse_find]
  split <;> simp [ip_proto_info_ctor]

theorem parse_tcp_proto_info_ok_lengths (max_options : Nat) (info : tcp_proto_info)
    (cap_len wire_len addr : Nat) (tcphdr : List Nat) (tcphdr_len : Nat)
    (h : (parse_tcp_proto_info max_options info cap_len wire_len addr tcphdr tcphdr_len).1
      = PROTO_OK) :
    20 ≤ tcphdr_len ∧ tcphdr_len ≤ cap_len ∧ tcphdr_len ≤ wire_len ∧
    (parse_tcp_proto_info max_options info cap_len wire_len addr tcphdr tcphdr_len).2.info =
      { head_len := tcphdr_len, payload := size_sub wire_len tcphdr_len } := by
  unfold parse_tcp_proto_info at h ⊢
  simp only [TCP_HDR_SIZE] at h ⊢
  split_ifs at h ⊢ with h1 h2 h3 h4 h5
  all_goals first
    | (exact absurd h (by decide))
    | (refine ⟨by omega, by omega, by omega, ?_⟩
       rw [(parse_tcp_options_keeps _ _ _ _ _).1]
       rfl)

/-! ## The cap on the recorded options -/

theorem tcp_record_option_fields (max_options : Nat) (info : tcp_proto_info) (kind : Nat) :
    (tcp_record_option max_options info kind).set_values = info.set_values ∧
    (tcp_record_option max_options info kind).mss = info.mss ∧
    (tcp_record_option max_options info kind).wsf = info.wsf ∧
    (tcp_record_option max_options info kind).options =
      (if info.nb_options < max_options then info.options ++ [kind] else info.options) ∧
    (tcp_record_option max_options info kind).nb_options =
      (if info.nb_options < max_options then info.nb_options + 1 else info.nb_options) := by
  unfold tcp_record_option
  split_ifs <;> exact ⟨rfl, rfl, rfl, rfl, rfl⟩

theorem parse_next_option_recorded (max_options : Nat) (info : tcp_proto_info) (addr : Nat)
    (options : List Nat) (n : Nat) (h : 0 < n) :
    (parse_next_option max_options info addr options n).2.options =
      (if info.nb_options < max_options then info.options ++ [READ_U8 options 0]
        else info.options) ∧
    (parse_next_option max_options info addr options n).2.nb_options =
      (if info.nb_options < max_options then info.nb_options + 1 else info.nb_options) := by
  have hn : ¬ n < 1 := by omega
  obtain ⟨_, _, _, r4, r5⟩ := tcp_record_option_fields max_options info (READ_U8 options 0)
  unfold parse_next_option
  simp only [hn, if_false]
  rw [← r4, ← r5]
  repeat' split
  all_goals exact ⟨rfl, rfl⟩

theorem parse_next_option_cap (m m' : Nat) (a b : tcp_proto_info) (addr : Nat)
    (options : List Nat) (n : Nat)
    (h1 : a.set_values = b.set_values) (h2 : a.mss = b.mss) (h3 : a.wsf = b.wsf) :
    (parse_next_option m a addr options n).1 = (parse_next_option m' b addr options n).1 ∧
    (parse_next_option m a addr options n).2.set_values =
      (parse_next_option m' b addr options n).2.set_values ∧
    (parse_next_option m a addr options n).2.mss = (parse_next_option m' b addr options n).2.mss ∧
    (parse_next_option m a addr options n).2.wsf =
      (parse_next_option m' b addr options n).2.wsf := by
  obtain ⟨a1, a2, a3, _⟩ := tcp_record_option_fields m a (READ_U8 options 0)
  obtain ⟨b1, b2, b3, _⟩ := tcp_record_option_fields m' b (READ_U8 options 0)
  unfold parse_next_option
  simp only []
  generalize tcp_record_option m a (READ_U8 options 0) = a' at a1 a2 a3 ⊢
  generalize tcp_record_option m' b (READ_U8 options 0) = b' at b1 b2 b3 ⊢
  have e1 : a'.set_values = b'.set_values := by rw [a1, b1, h1]
  have e2 : a'.mss = b'.mss := by rw [a2, b2, h2]
  have e3 : a'.wsf = b'.wsf := by rw [a3, b3, h3]
  by_cases c1 : n < 1
  · simp only [c1, if_true]
    exact ⟨trivial, h1, h2, h3⟩
  simp only [c1, if_false]
  by_cases c2 : READ_U8 options 0 = 0
  · simp only [c2, if_true]
    split_ifs <;> exact ⟨rfl, e1, e2, e3⟩
  simp only [c2, if_false]
  by_cases c3 : READ_U8 options 0 = 1
  · simp only [c3, if_true]
    exact ⟨trivial, e1, e2, e3⟩
  simp only [c3, if_false]
  by_cases c4 : n < 2
  · simp only [c4, if_true]
    exact ⟨trivial, e1, e2, e3⟩
  simp only [c4, if_false]
  by_cases c5 : READ_U8 options 1 < 2
  · simp only [c5, if_true]
    exact ⟨trivial, e1, e2, e3⟩
  simp only [c5, if_false]
  by_cases c6 : n < READ_U8 options 1
  · simp only [c6, if_true]
    exact ⟨trivial, e1, e2, e3⟩
  simp only [c6, if_false]
  by_cases c7 : READ_U8 options 0 = 2
  · simp only [c7, if_true]
    split_ifs
    · exact ⟨rfl, e1, e2, e3⟩
    · exact ⟨rfl, by simp only [e1], rfl, e3⟩
  simp only [c7, if_false]
  by_cases c8 : READ_U8 options 0 = 3
  · simp only [c8, if_true]
    split_ifs
    · exact ⟨rfl, e1, e2, e3⟩
    · exact ⟨rfl, by simp only [e1], e2, rfl⟩
  simp only [c8, if_false]
  exact ⟨trivial, e1, e2, e3⟩

theorem parse_tcp_options_cap (m m' : Nat) (rem_len : Nat) :
    ∀ (a b : tcp_proto_info) (addr : Nat) (options : List Nat),
    a.set_values = b.set_values → a.mss = b.mss → a.wsf = b.wsf →
    (parse_tcp_options m a addr options rem_len).1 =
      (parse_tcp_options m' b addr options rem_len).1 ∧
    (parse_tcp_options m a addr options rem_len).2.set_values =
      (parse_tcp_options m' b addr options rem_len).2.set_values ∧
    (parse_tcp_options m a addr options rem_len).2.mss =
      (parse_tcp_options m' b addr options rem_len).2.mss ∧
    (parse_tcp_options m a addr options rem_len).2.wsf =
      (parse_tcp_options m' b addr options rem_len).2.wsf ∧
    tcp_option_walk m a addr options rem_len = tcp_option_walk m' b addr options rem_len := by
  induction rem_len using Nat.strong_induction_on with
  | _ n ih =>
    intro a b addr options h1 h2 h3
    obtain ⟨c1, c2, c3, c4⟩ := parse_next_option_cap m m' a b addr options n h1 h2 h3
    have ea : ∀ (k : Nat) (x : tcp_proto_info), parse_tcp_options k x addr options n =
        (if _h0 : n > 0 then
          if _h1 : (parse_next_option k x addr options n).1 < 0 then
            (PROTO_PARSE_ERR, (parse_next_option k x addr options n).2)
          else parse_tcp_options k (parse_next_option k x addr options n).2
            (addr + (parse_next_option k x addr options n).1.toNat)
            (options.drop (parse_next_option k x addr options n).1.toNat)
            (size_sub n (parse_next_option k x addr options n).1.toNat)
        else (PROTO_OK, x)) := by
      intro k x
      rw [parse_tcp_options]
    have wa : ∀ (k : Nat) (x : tcp_proto_info), tcp_option_walk k x addr options n =
        (if _h0 : n > 0 then
          (options, n) ::
            (if _h1 : (parse_next_option k x addr options n).1 < 0 then []
             else tcp_option_walk k (parse_next_option k x addr options n).2
              (addr + (parse_next_option k x addr options n).1.toNat)
              (options.drop (parse_next_option k x addr options n).1.toNat)
              (size_sub n (parse_next_option k x addr options n).1.toNat))
        else []) := by
      intro k x
      rw [tcp_option_walk]
    rw [ea m a, ea m' b, wa m a, wa m' b]
    by_cases h0 : n > 0
    · simp only [h0, dite_true]
      by_cases hneg : (parse_next_option m a addr options n).1 < 0
      · have hneg' : (parse_next_option m' b addr options n).1 < 0 := by rw [← c1]; exact hneg
        simp only [hneg, hneg', dite_true]
        exact ⟨trivial, c2, c3, c4, trivial⟩
      · have hneg' : ¬ (parse_next_option m' b addr options n).1 < 0 := by
          rw [← c1]; exact hneg
        simp only [hneg, hneg', dite_false]
        obtain ⟨g1, g2, g3⟩ := size_sub_option_len m a addr options n hneg
        rw [← c1, g3]
        obtain ⟨i1, i2, i3, i4, i5⟩ := ih (n - (parse_next_option m a addr options n).1.toNat)
          (by omega) (parse_next_option m a addr options n).2
          (parse_next_option m' b addr options n).2
          (addr + (parse_next_option m a addr options n).1.toNat)
          (options.drop (parse_next_option m a addr options n).1.toNat) c2 c3 c4
        exact ⟨i1, i2, i3, i4, by rw [i5]⟩
    · simp only [h0, dite_false]
      exact ⟨trivial, h1, h2, h3, trivial⟩

theorem parse_tcp_options_recorded (max_options : Nat) (rem_len : Nat) :
    ∀ (info : tcp_proto_info) (addr : Nat) (options : List Nat),
    info.nb_options = info.options.length →
    (parse_tcp_options max_options info addr options rem_len).2.options =
      info.options ++
        ((tcp_option_walk max_options info addr options rem_len).map
          (fun o => READ_U8 o.1 0)).take (max_options - info.nb_options) ∧
    (parse_tcp_options max_options info addr options rem_len).2.nb_options =
      (parse_tcp_options max_options info addr options rem_len).2.options.length := by
  induction rem_len using Nat.strong_induction_on with
  | _ n ih =>
    intro info addr options hnb
    rw [parse_tcp_options, tcp_option_walk]
    by_cases h0 : n > 0
    · obtain ⟨r1, r2⟩ := parse_next_option_recorded max_options info addr options n h0
      have hnb' : (parse_next_option max_options info addr options n).2.nb_options =
          (parse_next_option max_options info addr options n).2.options.length := by
        rw [r1, r2]
        split_ifs <;> simp [hnb]
      simp only [h0, dite_true]
      by_cases hneg : (parse_next_option max_options info addr options n).1 < 0
      · simp only [hneg, dite_true, List.map_cons, List.map_nil]
        refine ⟨?_, hnb'⟩
        rw [r1]
        by_cases hlt : info.nb_options < max_options
        · simp only [hlt, if_true]
          have : max_options - info.nb_options = (max_options - info.nb_options - 1) + 1 := by
            omega
          rw [this, List.take_succ_cons, List.take_nil]
        · simp only [hlt, if_false]
          have : max_options - info.nb_options = 0 := by omega
          rw [this, List.take_zero, List.append_nil]
      · simp only [hneg, dite_false, List.map_cons]
        obtain ⟨g1, g2, g3⟩ := size_sub_option_len max_options info addr options n hneg
        rw [g3]
        obtain ⟨i1, i2⟩ := ih (n - (parse_next_option max_options info addr options n).1.toNat)
          (by omega) (parse_next_option max_options info addr options n).2
          (addr + (parse_next_option max_options info addr options n).1.toNat)
          (options.drop (parse_next_option max_options info addr options n).1.toNat) hnb'
        refine ⟨?_, i2⟩
        rw [i1, r1, r2]
        by_cases hlt : info.nb_options < max_options
        · simp only [hlt, if_true]
          have : max_options - info.nb_options =
              (max_options - (info.nb_options + 1)) + 1 := by omega
          rw [this, List.take_succ_cons, List.append_assoc, List.singleton_append]
        · simp only [hlt, if_false]
          have e0 : max_options - info.nb_options = 0 := by omega
          rw [e0, List.take_zero, List.take_zero]
    · simp only [h0, dite_false, List.map_nil, List.take_nil, List.append_nil]
      exact ⟨trivial, hnb⟩

/-- C28: when `parse_tcp_proto_info` answers PROTO_OK, with `n` the number of
options that the loop walked (NOP and END included) and `max_options` the
capacity of `info.options`: `nb_options = min(n, max_options)`, the recorded
`options[0..nb_options)` are the kinds of the first `nb_options` options
walked, in order, and with any other capacity the walk, the status and the
decoded `set_values`, `mss` and `wsf` are the same: the options beyond the cap
change neither the status nor the decoded values. -/
theorem parse_tcp_proto_info_options_cap (max_options : Nat) (info : tcp_proto_info)
    (cap_len wire_len addr : Nat) (tcphdr : List Nat) (tcphdr_len : Nat)
    (h : (parse_tcp_proto_info max_options info cap_len wire_len addr tcphdr tcphdr_len).1
      = PROTO_OK) :
    (parse_tcp_proto_info max_options info cap_len wire_len addr tcphdr tcphdr_len).2.nb_options
      = min (tcp_header_walk max_options info wire_len addr tcphdr tcphdr_len).length
          max_options ∧
    (parse_tcp_proto_info max_options info cap_len wire_len addr tcphdr tcphdr_len).2.options
      = ((tcp_header_walk max_options info wire_len addr tcphdr tcphdr_len).map
          (fun o => READ_U8 o.1 0)).take max_options ∧
    (parse_tcp_proto_info max_options info cap_len wire_len addr tcphdr tcphdr_len).2.options.length
      = (parse_tcp_proto_info max_options info cap_len wire_len addr tcphdr
          tcphdr_len).2.nb_options ∧
    ∀ m,
      tcp_header_walk m info wire_len addr tcphdr tcphdr_len =
        tcp_header_walk max_options info wire_len addr tcphdr tcphdr_len ∧
      (parse_tcp_proto_info m info cap_len wire_len addr tcphdr tcphdr_len).1 = PROTO_OK ∧
      (parse_tcp_proto_info m info cap_len wire_len addr tcphdr tcphdr_len).2.set_values =
        (parse_tcp_proto_info max_options info cap_len wire_len addr tcphdr
          tcphdr_len).2.set_values ∧
      (parse_tcp_proto_info m info cap_len wire_len addr tcphdr tcphdr_len).2.mss =
        (parse_tcp_proto_info max_options info cap_len wire_len addr tcphdr tcphdr_len).2.mss ∧
      (parse_tcp_proto_info m info cap_len wire_len addr tcphdr tcphdr_len).2.wsf =
        (parse_tcp_proto_info max_options info cap_len wire_len addr tcphdr tcphdr_len).2.wsf := by
  obtain ⟨l1, l2, l3, _⟩ := parse_tcp_proto_info_ok_lengths max_options info cap_len wire_len
    addr tcphdr tcphdr_len h
  have c1 : ¬ wire_len < TCP_HDR_SIZE := by simp only [TCP_HDR_SIZE]; omega
  have c2 : ¬ cap_len < TCP_HDR_SIZE := by simp only [TCP_HDR_SIZE]; omega
  have c3 : ¬ tcphdr_len < TCP_HDR_SIZE := by simp only [TCP_HDR_SIZE]; omega
  have c4 : ¬ tcphdr_len > wire_len := by omega
  have c5 : ¬ tcphdr_len > cap_len := by omega
  have hp : ∀ m, parse_tcp_proto_info m info cap_len wire_len addr tcphdr tcphdr_len =
      parse_tcp_options m
        (tcp_proto_info_ctor info tcphdr_len (size_sub wire_len tcphdr_len)
          (READ_U16N tcphdr 0) (READ_U16N tcphdr 2) tcphdr)
        (addr + TCP_HDR_SIZE) (tcphdr.drop TCP_HDR_SIZE) (size_sub tcphdr_len TCP_HDR_SIZE) := by
    intro m
    unfold parse_tcp_proto_info
    simp only [c1, c2, c3, c4, c5, if_false]
  have hrec := parse_tcp_options_recorded max_options (size_sub tcphdr_len TCP_HDR_SIZE)
    (tcp_proto_info_ctor info tcphdr_len (size_sub wire_len tcphdr_len)
      (READ_U16N tcphdr 0) (READ_U16N tcphdr 2) tcphdr)
    (addr + TCP_HDR_SIZE) (tcphdr.drop TCP_HDR_SIZE) rfl
  rw [hp max_options] at h ⊢
  simp only [tcp_header_walk]
  obtain ⟨r1, r2⟩ := hrec
  have hz : (tcp_proto_info_ctor info tcphdr_len (size_sub wire_len tcphdr_len)
      (READ_U16N tcphdr 0) (READ_U16N tcphdr 2) tcphdr).options = [] := rfl
  have hz' : (tcp_proto_info_ctor info tcphdr_len (size_sub wire_len tcphdr_len)
      (READ_U16N tcphdr 0) (READ_U16N tcphdr 2) tcphdr).nb_options = 0 := rfl
  rw [hz, hz', List.nil_append, Nat.sub_zero] at r1
  refine ⟨?_, r1, r2.symm, ?_⟩
  · rw [r2, r1, List.length_take, List.length_map, Nat.min_comm]
  · intro m
    obtain ⟨k1, k2, k3, k4, k5⟩ := parse_tcp_options_cap m max_options
      (size_sub tcphdr_len TCP_HDR_SIZE) _ _ (addr + TCP_HDR_SIZE) (tcphdr.drop TCP_HDR_SIZE)
      (Eq.refl (tcp_proto_info_ctor info tcphdr_len (size_sub wire_len tcphdr_len)
        (READ_U16N tcphdr 0) (READ_U16N tcphdr 2) tcphdr).set_values) rfl rfl
    rw [hp m]
    exact ⟨k5, k1.trans h, k2, k3, k4⟩

theorem parse_tcp_proto_info_options_cap_witness :
    (parse_tcp_proto_info 2 sample_info 28 28 0
      (sample_tcp_fixed 7 2 ++ [2, 4, 5, 180, 1, 3, 3, 7]) 28).2.nb_options = 2 ∧
    (parse_tcp_proto_info 2 sample_info 28 28 0
      (sample_tcp_fixed 7 2 ++ [2, 4, 5, 180, 1, 3, 3, 7]) 28).2.options = [2, 1] ∧
    (parse_tcp_proto_info 8 sample_info 28 28 0
      (sample_tcp_fixed 7 2 ++ [2, 4, 5, 180, 1, 3, 3, 7]) 28).2.wsf =
    (parse_tcp_proto_info 2 sample_info 28 28 0
      (sample_tcp_fixed 7 2 ++ [2, 4, 5, 180, 1, 3, 3, 7]) 28).2.wsf := by
  have hok : (parse_tcp_proto_info 2 sample_info 28 28 0
      (sample_tcp_fixed 7 2 ++ [2, 4, 5, 180, 1, 3, 3, 7]) 28).1 = PROTO_OK :=
    (tcp_options_round_trip 2 sample_info 28 28 0 (sample_tcp_fixed 7 2)
      [tcp_option.mss 1460, tcp_option.nop, tcp_option.wsf 7] 0 [] 28 (by decide) (by decide)
      (by decide) (by decide) (by decide) (by decide) (by decide) (by decide)).1
  have hw : tcp_header_walk 2 sample_info 28 0
      (sample_tcp_fixed 7 2 ++ [2, 4, 5, 180, 1, 3, 3, 7]) 28 =
      [([2, 4, 5, 180, 1, 3, 3, 7], 8), ([1, 3, 3, 7], 4), ([3, 3, 7], 3)] := by
    unfold tcp_header_walk
    simp +decide only [TCP_HDR_SIZE, size_sub, if_true, sample_tcp_fixed, List.cons_append,
      List.nil_append, List.drop]
    rw [tcp_option_walk]
    simp +decide only [parse_next_option, READ_U8, List.getD_cons_zero, dite_true, dite_false,
      if_true, if_false, size_sub, Int.toNat_ofNat, List.getD_eq_getElem?_getD, List.drop]
    rw [tcp_option_walk]
    simp +decide only [parse_next_option, READ_U8, List.getD_cons_zero, dite_true, dite_false,
      if_true, if_false, size_sub, Int.toNat_ofNat, List.getD_eq_getElem?_getD, List.drop]
    rw [tcp_option_walk]
    simp +decide only [parse_next_option, READ_U8, List.getD_cons_zero, dite_true, dite_false,
      if_true, if_false, size_sub, Int.toNat_ofNat, List.getD_eq_getElem?_getD, List.drop]
    rw [tcp_option_walk]
    simp +decide only [dite_true]
  obtain ⟨h1, h2, _, h4⟩ := parse_tcp_proto_info_options_cap 2 sample_info 28 28 0
    (sample_tcp_fixed 7 2 ++ [2, 4, 5, 180, 1, 3, 3, 7]) 28 hok
  rw [hw] at h1 h2
  exact ⟨h1, h2, (h4 8).2.2.2.2⟩

/-! ## Bounds of the option walk -/

theorem parse_tcp_proto_info_of_take (max_options : Nat) (info : tcp_proto_info)
    (cap_len wire_len addr : Nat) (p q : List Nat) (tcphdr_len : Nat)
    (h : q.take tcphdr_len = p.take tcphdr_len) :
    parse_tcp_proto_info max_options info cap_len wire_len addr q tcphdr_len =
      parse_tcp_proto_info max_options info cap_len wire_len addr p tcphdr_len := by
  have hr := READ_U8_of_take p q tcphdr_len h
  unfold parse_tcp_proto_info
  simp only [TCP_HDR_SIZE]
  split_ifs with h1 h2 h3 h4 h5
  · rfl
  · rfl
  · rfl
  · rfl
  · rfl
  · have hr20 : ∀ i, i < 20 → READ_U8 q i = READ_U8 p i := fun i hi => hr i (by omega)
    have hc : tcp_proto_info_ctor info tcphdr_len (size_sub wire_len tcphdr_len)
        (READ_U16N q 0) (READ_U16N q 2) q =
        tcp_proto_info_ctor info tcphdr_len (size_sub wire_len tcphdr_len)
        (READ_U16N p 0) (READ_U16N p 2) p := by
      simp only [tcp_proto_info_ctor, READ_U16N, READ_U32N, hr20 0 (by omega),
        hr20 1 (by omega), hr20 2 (by omega), hr20 3 (by omega), hr20 4 (by omega),
        hr20 5 (by omega), hr20 6 (by omega), hr20 7 (by omega), hr20 8 (by omega),
        hr20 9 (by omega), hr20 10 (by omega), hr20 11 (by omega), hr20 13 (by omega),
        hr20 14 (by omega), hr20 15 (by omega), hr20 18 (by omega), hr20 19 (by omega)]
    rw [hc]
    apply parse_tcp_options_of_take
    rw [size_sub_of_le _ _ (by omega), ← List.drop_take, ← List.drop_take, h]

/-- C29: `parse_next_option` returns -1 or a length `len` with
`1 ≤ len ≤ rem_len` (with `rem_len = 0`, which its assertion excludes, it
returns -1), and for an END option -1 or `rem_len` itself. So
`rem_len -= len` does not wrap and decreases; the option loop makes at most
`rem_len` calls of `parse_next_option`, each on an option that starts inside
the `rem_len` bytes, and its result does not depend on the bytes at or after
`rem_len`. For `parse_tcp_proto_info` on a header with `tcphdr_len ≥ 20`: the
loop makes at most `tcphdr_len - 20` iterations, every option it reads starts
at an offset `k` of the header with `20 ≤ k < tcphdr_len`, and the result does
not depend on the bytes at or after the offset `tcphdr_len`. -/
theorem tcp_option_walk_progress (max_options : Nat) (info : tcp_proto_info) (addr : Nat)
    (options : List Nat) (rem_len : Nat) :
    ((parse_next_option max_options info addr options rem_len).1 = -1 ∨
      (1 ≤ (parse_next_option max_options info addr options rem_len).1 ∧
       (parse_next_option max_options info addr options rem_len).1 ≤ (rem_len : Int))) ∧
    (READ_U8 options 0 = 0 →
      (parse_next_option max_options info addr options rem_len).1 = -1 ∨
      (parse_next_option max_options info addr options rem_len).1 = (rem_len : Int)) ∧
    (¬ (parse_next_option max_options info addr options rem_len).1 < 0 →
      (parse_next_option max_options info addr options rem_len).1.toNat ≤ rem_len ∧
      size_sub rem_len (parse_next_option max_options info addr options rem_len).1.toNat =
        rem_len - (parse_next_option max_options info addr options rem_len).1.toNat ∧
      size_sub rem_len (parse_next_option max_options info addr options rem_len).1.toNat
        < rem_len) ∧
    (tcp_option_walk max_options info addr options rem_len).length ≤ rem_len ∧
    (∀ o ∈ tcp_option_walk max_options info addr options rem_len,
      1 ≤ o.2 ∧ o.2 ≤ rem_len ∧ o.1 = options.drop (rem_len - o.2)) ∧
    (∀ options', options'.take rem_len = options.take rem_len →
      parse_tcp_options max_options info addr options' rem_len =
        parse_tcp_options max_options info addr options rem_len) ∧
    (∀ (cap_len wire_len : Nat) (tcphdr : List Nat) (tcphdr_len : Nat), 20 ≤ tcphdr_len →
      (tcp_header_walk max_options info wire_len addr tcphdr tcphdr_len).length
        ≤ tcphdr_len - 20 ∧
      (∀ o ∈ tcp_header_walk max_options info wire_len addr tcphdr tcphdr_len,
        ∃ k, 20 ≤ k ∧ k < tcphdr_len ∧ k + o.2 = tcphdr_len ∧ o.1 = tcphdr.drop k) ∧
      (∀ tcphdr', tcphdr'.take tcphdr_len = tcphdr.take tcphdr_len →
        parse_tcp_proto_info max_options info cap_len wire_len addr tcphdr' tcphdr_len =
          parse_tcp_proto_info max_options info cap_len wire_len addr tcphdr tcphdr_len)) := by
  have hrange := parse_next_option_range max_options info addr options rem_len
  refine ⟨hrange.1, hrange.2, ?_, tcp_option_walk_length _ _ _ _ _,
    tcp_option_walk_position _ _ _ _ _, ?_, ?_⟩
  · intro h1
    obtain ⟨g1, g2, g3⟩ := size_sub_option_len max_options info addr options rem_len h1
    exact ⟨g2, g3, by rw [g3]; omega⟩
  · intro options' ho
    exact parse_tcp_options_of_take _ _ _ _ _ _ ho
  · intro cap_len wire_len tcphdr tcphdr_len h20
    have h20' : TCP_HDR_SIZE ≤ tcphdr_len := h20
    refine ⟨?_, ?_, ?_⟩
    · unfold tcp_header_walk
      rw [size_sub_of_le _ _ h20']
      exact tcp_option_walk_length _ _ _ _ _
    · intro o ho
      unfold tcp_header_walk at ho
      rw [size_sub_of_le _ _ h20'] at ho
      obtain ⟨i1, i2, i3⟩ := tcp_option_walk_position _ _ _ _ _ o ho
      simp only [TCP_HDR_SIZE] at i2 i3
      refine ⟨20 + (tcphdr_len - 20 - o.2), by omega, by omega, by omega, ?_⟩
      rw [i3, List.drop_drop]
    · intro tcphdr' ht
      exact parse_tcp_proto_info_of_take _ _ _ _ _ _ _ _ ht

theorem tcp_option_walk_progress_witness :
    (parse_next_option 8 sample_info 20 [2, 4, 5, 180, 1, 1, 1, 0] 8).1 = 4 ∧
    (tcp_option_walk 8 sample_info 20 [2, 4, 5, 180, 1, 1, 1, 0] 8).length ≤ 8 ∧
    size_sub 8 (parse_next_option 8 sample_info 20 [2, 4, 5, 180, 1, 1, 1, 0] 8).1.toNat =
      8 - (parse_next_option 8 sample_info 20 [2, 4, 5, 180, 1, 1, 1, 0] 8).1.toNat :=
  ⟨by decide,
   (tcp_option_walk_progress 8 sample_info 20 [2, 4, 5, 180, 1, 1, 1, 0] 8).2.2.2.1,
   ((tcp_option_walk_progress 8 sample_info 20 [2, 4, 5, 180, 1, 1, 1, 0] 8).2.2.1
      (by decide)).2.1⟩

/-! ## Length safety -/

/-- C30: length safety. When `ip_parse` passes its sanity checks (it answers
PROTO_OK), `20 ≤ cap_len`, `ihl*4 ≤ total_length ≤ wire_len` and
`ihl*4 ≤ cap_len`; the payload length recorded in the info is
`total_length - ihl*4` with `head_len + payload = total_length`, and every
call that hands the packet downstream (to a parser or to the wait-list) passes
`cap_len - ihl*4` and `wire_len - ihl*4`, none of which wraps. When
`parse_tcp_proto_info` answers PROTO_OK, `20 ≤ tcphdr_len ≤ min(cap_len, wire_len)`,
so `tcphdr_len - 20`, `cap_len - tcphdr_len` and `wire_len - tcphdr_len` do not
wrap, and the info records `head_len = tcphdr_len`, `payload = wire_len - tcphdr_len`. -/
theorem ip_tcp_length_safety (env : ip_env) (ip_subprotos : List ip_subproto)
    (target way : Nat) (packet : List Nat) (cap_len wire_len : Nat)
    (max_options : Nat) (info : tcp_proto_info) (tcap_len twire_len addr : Nat)
    (tcphdr : List Nat) (tcphdr_len : Nat) :
    ((ip_parse env ip_subprotos target way packet cap_len wire_len).status = PROTO_OK →
      20 ≤ cap_len ∧ ip_hdr_hdr_len packet * 4 ≤ ip_hdr_tot_len packet ∧
      ip_hdr_tot_len packet ≤ wire_len ∧ ip_hdr_hdr_len packet * 4 ≤ cap_len ∧
      size_sub (ip_hdr_tot_len packet) (ip_hdr_hdr_len packet * 4) + ip_hdr_hdr_len packet * 4
        = ip_hdr_tot_len packet ∧
      size_sub cap_len (ip_hdr_hdr_len packet * 4) + ip_hdr_hdr_len packet * 4 = cap_len ∧
      size_sub wire_len (ip_hdr_hdr_len packet * 4) + ip_hdr_hdr_len packet * 4 = wire_len ∧
      (∀ p i w payload cl wl, ip_call.proto_parse p (some i) w payload cl wl ∈
          (ip_parse env ip_subprotos target way packet cap_len wire_len).calls →
        i.info.payload = ip_hdr_tot_len packet - ip_hdr_hdr_len packet * 4 ∧
        i.info.head_len + i.info.payload = ip_hdr_tot_len packet ∧
        cl = cap_len - ip_hdr_hdr_len packet * 4 ∧
        wl = wire_len - ip_hdr_hdr_len packet * 4) ∧
      (∀ r args, ip_call.wl_add r args ∈
          (ip_parse env ip_subprotos target way packet cap_len wire_len).calls →
        args.info.info.payload = ip_hdr_tot_len packet - ip_hdr_hdr_len packet * 4 ∧
        args.info.info.head_len + args.info.info.payload = ip_hdr_tot_len packet ∧
        args.cap_len = cap_len - ip_hdr_hdr_len packet * 4 ∧
        args.wire_len = wire_len - ip_hdr_hdr_len packet * 4)) ∧
    ((parse_tcp_proto_info max_options info tcap_len twire_len addr tcphdr tcphdr_len).1
        = PROTO_OK →
      20 ≤ tcphdr_len ∧ tcphdr_len ≤ min tcap_len twire_len ∧
      TCP_HDR_SIZE ≤ tcphdr_len ∧
      size_sub tcphdr_len TCP_HDR_SIZE + 20 = tcphdr_len ∧
      size_sub tcap_len tcphdr_len + tcphdr_len = tcap_len ∧
      size_sub twire_len tcphdr_len + tcphdr_len = twire_len ∧
      (parse_tcp_proto_info max_options info tcap_len twire_len addr tcphdr tcphdr_len).2.info
        = { head_len := tcphdr_len, payload := twire_len - tcphdr_len }) := by
  constructor
  · intro h
    have hv := ip_parse_status_valid env ip_subprotos target way packet cap_len wire_len h
    obtain ⟨h1, h2, h3, h4, h5⟩ := hv
    have hi := ip_parse_info_lengths env ip_subprotos packet
    rw [size_sub_of_le _ _ h4] at hi
    have hcalls := ip_parse_dispatch_calls env ip_subprotos target way packet cap_len wire_len
    rw [← ip_parse_of_valid env ip_subprotos target way packet cap_len wire_len
      ⟨h1, h2, h3, h4, h5⟩] at hcalls
    rw [size_sub_of_le _ _ h4, size_sub_of_le _ _ h5, size_sub_of_le _ _ (le_trans h4 h2)]
    rw [size_sub_of_le _ _ h5, size_sub_of_le _ _ (le_trans h4 h2)] at hcalls
    refine ⟨h1, h4, h2, h5, by omega, by omega, by omega, ?_, ?_⟩
    · intro p i w payload cl wl hin
      rcases hcalls _ hin with ⟨p', he⟩ | ⟨r, he⟩ | ⟨p', pl, e, he⟩
      · cases he
        refine ⟨hi.2, ?_, rfl, rfl⟩
        rw [hi.1, hi.2]; omega
      · cases he
      · cases he
    · intro r args hin
      rcases hcalls _ hin with ⟨p', he⟩ | ⟨r', he⟩ | ⟨p', pl, e, he⟩
      · cases he
      · cases he
        simp only [ip_fragment_args]
        rw [size_sub_of_le _ _ h5, size_sub_of_le _ _ (le_trans h4 h2)]
        refine ⟨hi.2, ?_, rfl, rfl⟩
        rw [hi.1, hi.2]; omega
      · cases he
  · intro h
    obtain ⟨h1, h2, h3, h4⟩ := parse_tcp_proto_info_ok_lengths max_options info tcap_len
      twire_len addr tcphdr tcphdr_len h
    have h20 : TCP_HDR_SIZE ≤ tcphdr_len := h1
    rw [size_sub_of_le _ _ h3] at h4
    rw [size_sub_of_le _ _ h20, size_sub_of_le _ _ h2, size_sub_of_le _ _ h3]
    simp only [TCP_HDR_SIZE] at h20 ⊢
    exact ⟨h1, le_min h2 h3, h1, by omega, by omega, by omega, h4⟩

theorem ip_tcp_length_safety_witness :
    (ip_parse sample_ip_env sample_ip_subprotos 0 0
        (sample_ip_packet 4 5 28 4660 0 0 17 [1, 2, 3, 4, 5, 6, 7, 8]) 28 30).status = PROTO_OK ∧
    (parse_tcp_proto_info 8 sample_info 20 23 0 (sample_tcp_fixed 5 16) 20).1 = PROTO_OK ∧
    size_sub 28 (ip_hdr_hdr_len (sample_ip_packet 4 5 28 4660 0 0 17 [1, 2, 3, 4, 5, 6, 7, 8]) * 4)
      + ip_hdr_hdr_len (sample_ip_packet 4 5 28 4660 0 0 17 [1, 2, 3, 4, 5, 6, 7, 8]) * 4 = 28 ∧
    size_sub 23 20 + 20 = 23 :=
  ⟨by decide,
   by
    unfold parse_tcp_proto_info
    simp +decide only [TCP_HDR_SIZE, size_sub, if_true, if_false, Nat.sub_self,
          parse_tcp_options_zero],
   ((ip_tcp_length_safety sample_ip_env sample_ip_subprotos 0 0
      (sample_ip_packet 4 5 28 4660 0 0 17 [1, 2, 3, 4, 5, 6, 7, 8]) 28 30
      8 sample_info 20 23 0 (sample_tcp_fixed 5 16) 20).1 (by decide)).2.2.2.2.2.1,
   ((ip_tcp_length_safety sample_ip_env sample_ip_subprotos 0 0
      (sample_ip_packet 4 5 28 4660 0 0 17 [1, 2, 3, 4, 5, 6, 7, 8]) 28 30
      8 sample_info 20 23 0 (sample_tcp_fixed 5 16) 20).2 (by
        unfold parse_tcp_proto_info
        simp +decide only [TCP_HDR_SIZE, size_sub, if_true, if_false, Nat.sub_self,
          parse_tcp_options_zero])).2.2.2.2.2.1⟩

/-! ## Distinct identifications in the reassembly slots -/

theorem ip_slots_unique_of_shrink (sub sub' : ip_subparser) (h : ip_slots_unique sub)
    (hs : ∀ r, r < NB_REASSEMBLY → (sub'.slot r).in_use = true →
      (sub.slot r).in_use = true ∧ (sub'.slot r).id = (sub.slot r).id) :
    ip_slots_unique sub' := by
  intro r r' hr hr' hne hu hu'
  obtain ⟨a1, a2⟩ := hs r hr hu
  obtain ⟨b1, b2⟩ := hs r' hr' hu'
  rw [a2, b2]
  exact h r r' hr hr' hne a1 b1

theorem ip_set_slot_dtor_shrink (sub : ip_subparser) (r0 r : Nat)
    (hu : ((sub.set_slot r0 (ip_reassembly_dtor (sub.slot r0))).slot r).in_use = true) :
    (sub.slot r).in_use = true ∧
    ((sub.set_slot r0 (ip_reassembly_dtor (sub.slot r0))).slot r).id = (sub.slot r).id := by
  rcases ip_set_slot_cases sub r0 r (ip_reassembly_dtor (sub.slot r0)) with e | ⟨e0, e⟩
  · rw [e] at hu ⊢
    exact ⟨hu, rfl⟩
  · rw [e] at hu ⊢
    subst e0
    refine ⟨?_, (ip_reassembly_dtor_keeps _).2.2⟩
    unfold ip_reassembly_dtor at hu
    split_ifs at hu
    exact hu

theorem ip_reassembly_lookup_unique (env : ip_env) (sub : ip_subparser) (target id : Nat)
    (parser : Option parser) (h : ip_slots_unique sub) :
    ip_slots_unique (ip_reassembly_lookup env sub target id parser).ip_subparser := by
  unfold ip_reassembly_lookup
  cases hscan : ip_reassembly_scan sub id (List.range NB_REASSEMBLY) (-1) with
  | inl r0 =>
    simp only []
    obtain ⟨_, hu0, hi0⟩ := (ip_reassembly_scan_spec sub id _ _).1 r0 hscan
    apply ip_slots_unique_of_shrink sub _ h
    intro r _ hu
    rcases ip_set_slot_cases sub r0 r
      (if (!(sub.slot r0).constructed) = true then
        (ip_reassembly_ctor env (sub.slot r0) parser id).2 else sub.slot r0) with e | ⟨e0, e⟩
    · rw [e] at hu ⊢
      exact ⟨hu, rfl⟩
    · rw [e]
      subst e0
      refine ⟨hu0, ?_⟩
      split_ifs
      · rw [(ip_reassembly_ctor_flags env (sub.slot r) parser id).2.2.1, hi0]
      · rfl
  | inr u =>
    simp only []
    obtain ⟨hno, _⟩ := (ip_reassembly_scan_spec sub id _ _).2 u hscan
    have key : ∀ (sub1 : ip_subparser) (lu : Nat),
        (∀ r, r < NB_REASSEMBLY → (sub1.slot r).in_use = true →
          (sub.slot r).in_use = true ∧ (sub1.slot r).id = (sub.slot r).id) →
        ip_slots_unique (sub1.set_slot lu (ip_reassembly_ctor env (sub1.slot lu) parser id).2) := by
      intro sub1 lu hs
      have h1 : ip_slots_unique sub1 := ip_slots_unique_of_shrink sub sub1 h hs
      have hother : ∀ r, r < NB_REASSEMBLY → (sub1.slot r).in_use = true →
          (sub1.slot r).id ≠ id := by
        intro r hr hu
        obtain ⟨a1, a2⟩ := hs r hr hu
        rw [a2]
        intro hid
        exact hno r (List.mem_range.2 hr) ⟨a1, hid⟩
      intro r r' hr hr' hne hu hu'
      rcases ip_set_slot_cases sub1 lu r (ip_reassembly_ctor env (sub1.slot lu) parser id).2
        with e | ⟨e0, e⟩ <;>
      rcases ip_set_slot_cases sub1 lu r' (ip_reassembly_ctor env (sub1.slot lu) parser id).2
        with e' | ⟨e0', e'⟩
      · rw [e] at hu ⊢
        rw [e'] at hu' ⊢
        exact h1 r r' hr hr' hne hu hu'
      · rw [e] at hu ⊢
        rw [e', (ip_reassembly_ctor_flags env (sub1.slot lu) parser id).2.2.1]
        exact hother r hr hu
      · rw [e'] at hu' ⊢
        rw [e, (ip_reassembly_ctor_flags env (sub1.slot lu) parser id).2.2.1]
        exact fun hid => hother r' hr' hu' hid.symm
      · exact absurd (e0.trans e0'.symm) hne
    by_cases hc : u = -1
    · simp only [hc, if_true]
      exact key _ target (fun r _ hu => ip_set_slot_dtor_shrink sub target r hu)
    · simp only [hc, if_false]
      exact key sub u.toNat (fun r _ hu => ⟨hu, rfl⟩)
theorem ip_set_slot_shrink (sub : ip_subparser) (r0 : Nat) (v : ip_reassembly)
    (hid : v.id = (sub.slot r0).id) (hin : v.in_use = true → (sub.slot r0).in_use = true) :
    ∀ r, r < NB_REASSEMBLY → ((sub.set_slot r0 v).slot r).in_use = true →
      (sub.slot r).in_use = true ∧ ((sub.set_slot r0 v).slot r).id = (sub.slot r).id := by
  intro r _ hu
  rcases ip_set_slot_cases sub r0 r v with e | ⟨e0, e⟩
  · rw [e] at hu ⊢
    exact ⟨hu, rfl⟩
  · rw [e] at hu ⊢
    subst e0
    exact ⟨hin hu, hid⟩

theorem ip_slot_op_unique (sub : ip_subparser) (op : ip_slot_op) (h : ip_slots_unique sub) :
    ip_slots_unique (op.apply sub) := by
  cases op with
  | lookup env target id parser =>
    exact ip_reassembly_lookup_unique env sub target id parser h
  | reassemble env r0 way =>
    simp only [ip_slot_op.apply, reassemble]
    exact ip_slots_unique_of_shrink sub _ h
      (fun r _ hu => ip_set_slot_dtor_shrink sub r0 r hu)
  | dtor r0 =>
    simp only [ip_slot_op.apply]
    exact ip_slots_unique_of_shrink sub _ h
      (fun r _ hu => ip_set_slot_dtor_shrink sub r0 r hu)

theorem ip_slot_run_unique (ops : List ip_slot_op) :
    ∀ (sub : ip_subparser), ip_slots_unique sub → ip_slots_unique (ip_slot_run sub ops) := by
  induction ops with
  | nil => intro sub h; exact h
  | cons op rest ih =>
    intro sub h
    exact ih (op.apply sub) (ip_slot_op_unique sub op h)

theorem ip_subparser_ctor_free (mem : ip_subparser) (m : Option mux_subparser)
    (sub : ip_subparser) (h : ip_subparser_ctor mem m = some sub) :
    ∀ r, (sub.slot r).in_use = false := by
  intro r
  unfold ip_subparser_ctor at h
  cases m with
  | none => cases h
  | some m0 =>
    simp only [Option.some.injEq] at h
    subst h
    simp only [ip_subparser.slot, List.getD_eq_getElem?_getD, List.getElem?_map]
    cases mem.reassembly[r]? <;> simp [ip_reassembly_none]

theorem ip_slots_unique_of_free (sub : ip_subparser) (h : ∀ r, (sub.slot r).in_use = false) :
    ip_slots_unique sub := by
  intro r r' _ _ _ hu _
  rw [h r] at hu
  cases hu

theorem ip_parse_fragment_unique (env : ip_env) (info : ip_proto_info) (sub : ip_subparser)
    (target way : Nat) (packet : List Nat) (cap_len wire_len iphdr_len : Nat)
    (h : ip_slots_unique sub) :
    ∀ s', (ip_parse_fragment env info sub target way packet cap_len wire_len
      iphdr_len).ip_subparser = some s' → ip_slots_unique s' := by
  intro s' hs
  have hl := ip_reassembly_lookup_unique env sub target (ip_hdr_id packet)
    sub.mux_subparser.parser h
  unfold ip_parse_fragment at hs
  simp only [ip_parse_fallback, reassemble] at hs
  have hmark : ∀ s : ip_reassembly,
      (ip_fragment_mark s packet wire_len iphdr_len).id = s.id ∧
      (ip_fragment_mark s packet wire_len iphdr_len).in_use = s.in_use := by
    intro s
    unfold ip_fragment_mark
    simp only []
    split_ifs <;> exact ⟨rfl, rfl⟩
  split at hs
  · simp only [Option.some.injEq] at hs
    subst hs
    exact hl
  · rename_i r _
    split_ifs at hs
    all_goals
      simp only [Option.some.injEq] at hs
      subst hs
      apply ip_slots_unique_of_shrink _ _ hl
      apply ip_set_slot_shrink
    · exact (hmark _).1
    · intro hu
      rw [← (hmark _).2]
      exact hu
    · rw [(ip_reassembly_dtor_keeps _).2.2]
      exact (hmark _).1
    · intro hu
      unfold ip_reassembly_dtor at hu
      split_ifs at hu
      rw [← (hmark _).2]
      exact hu
    · exact (hmark _).1
    · intro hu
      rw [← (hmark _).2]
      exact hu

theorem ip_parse_unique (env : ip_env) (ip_subprotos : List ip_subproto) (target way : Nat)
    (packet : List Nat) (cap_len wire_len : Nat)
    (henv : ∀ p k s, env.mux_subparser_lookup p k = some s → ip_slots_unique s) :
    ∀ s', (ip_parse env ip_subprotos target way packet cap_len wire_len).ip_subparser = some s' →
      ip_slots_unique s' := by
  intro s' hs
  unfold ip_parse at hs
  simp only [] at hs
  split_ifs at hs
  unfold ip_parse_dispatch at hs
  simp only [ip_parse_fallback] at hs
  have hfind : ∀ i s, (ip_parse_find env ip_subprotos i).2 = some s → ip_slots_unique s := by
    intro i s hf
    unfold ip_parse_find at hf
    split at hf
    · exact henv _ _ s hf
    · cases hf
  split at hs
  · simp only [reduceCtorEq] at hs
  · rename_i sub hsub
    have hu := hfind _ sub hsub
    split_ifs at hs
    · exact ip_parse_fragment_unique env _ sub target way packet cap_len wire_len _ hu s' hs
    · simp only [Option.some.injEq] at hs
      subst hs
      exact hu
    · simp only [Option.some.injEq] at hs
      subst hs
      exact hu

theorem ip_flow_unique
    (pp : Option parser → Option ip_proto_info → Nat → List Nat → Nat → Nat → proto_parse_status)
    (ip_subprotos : List ip_subproto) (way : Nat) (frames : List ip_frame) :
    ∀ (sub : ip_subparser) (target : Nat), ip_slots_unique sub →
    ∀ r ∈ ip_flow pp ip_subprotos way sub target frames,
      ∀ s', r.ip_subparser = some s' → ip_slots_unique s' := by
  induction frames with
  | nil =>
    intro sub target _ r hr
    simp [ip_flow] at hr
  | cons f fs ih =>
    intro sub target h r hr s' hs
    simp only [ip_flow, List.mem_cons] at hr
    have hstep := ip_parse_unique (ip_wl_env sub pp) ip_subprotos target way f.packet f.cap_len
      f.wire_len (fun p k s hk => by
        simp only [ip_wl_env, Option.some.injEq] at hk
        subst hk
        exact h)
    rcases hr with e | e
    · subst e
      exact hstep s' hs
    · refine ih _ _ ?_ r e s' hs
      cases hn : (ip_parse (ip_wl_env sub pp) ip_subprotos target way f.packet f.cap_len
          f.wire_len).ip_subparser with
      | none => exact h
      | some s1 => exact hstep s1 hn

/-- C31: if no two reassembly slots in use of a sub-parser hold the same id
before a call of `ip_reassembly_lookup`, none do after it, for every id and
every outcome (the id is found, a free slot is taken, a slot is evicted, and
whether `pkt_wait_list_ctor` fails or not). The sub-parser that
`ip_subparser_ctor` builds has no slot in use, so the property holds in every
state reached from it through `ip_reassembly_lookup`, `reassemble` and
`ip_reassembly_dtor`, and in the sub-parser that every call of `ip_parse`
leaves along a flow of packets. -/
theorem ip_slots_unique_reachable (mem : ip_subparser) (m : Option mux_subparser)
    (sub : ip_subparser) (h : ip_subparser_ctor mem m = some sub) :
    (∀ (env : ip_env) (s : ip_subparser) (target id : Nat) (parser : Option parser),
      ip_slots_unique s →
      ip_slots_unique (ip_reassembly_lookup env s target id parser).ip_subparser) ∧
    (∀ r, (sub.slot r).in_use = false) ∧
    ip_slots_unique sub ∧
    (∀ ops, ip_slots_unique (ip_slot_run sub ops)) ∧
    (∀ (pp : Option parser → Option ip_proto_info → Nat → List Nat → Nat → Nat →
        proto_parse_status)
      (ip_subprotos : List ip_subproto) (way target : Nat) (frames : List ip_frame),
      ∀ r ∈ ip_flow pp ip_subprotos way sub target frames,
        ∀ s', r.ip_subparser = some s' → ip_slots_unique s') := by
  have hfree := ip_subparser_ctor_free mem m sub h
  have hu := ip_slots_unique_of_free sub hfree
  exact ⟨fun env s target id parser hs => ip_reassembly_lookup_unique env s target id parser hs,
    hfree, hu, fun ops => ip_slot_run_unique ops sub hu,
    fun pp ip_subprotos way target frames =>
      ip_flow_unique pp ip_subprotos way frames sub target hu⟩

theorem ip_slots_unique_reachable_witness :
    ip_subparser_ctor sample_ip_sub (some sample_ip_sub.mux_subparser) = some sample_ip_sub ∧
    ip_slots_unique (ip_slot_run sample_ip_sub
      [ip_slot_op.lookup sample_ip_env 0 4660 (some 3),
       ip_slot_op.lookup sample_ip_env 0 4661 (some 3),
       ip_slot_op.lookup sample_ip_env 0 4660 (some 3)]) ∧
    ((ip_slot_run sample_ip_sub
      [ip_slot_op.lookup sample_ip_env 0 4660 (some 3),
       ip_slot_op.lookup sample_ip_env 0 4661 (some 3),
       ip_slot_op.lookup sample_ip_env 0 4660 (some 3)]).reassembly.map
        (fun s => (s.in_use, s.id))) = [(false, 0), (false, 0), (true, 4661), (true, 4660)] :=
  ⟨by decide,
   (ip_slots_unique_reachable sample_ip_sub (some sample_ip_sub.mux_subparser) sample_ip_sub
     (by decide)).2.2.2.1 _,
   by decide⟩

/-! ## The frame of a segment: the other direction -/

theorem set_wl_list_other (s : tcp_subparser) (info : tcp_proto_info) (way : Nat)
    (hw : way ≤ 1) :
    at2 (set_wl_list s info way).wl (not_way way) =
      (if (!IS_SET_FOR_WAY (not_way way) s.wl_set && info.ack) = true then
        { at2 s.wl (not_way way) with next_offset := info.ack_num }
       else at2 s.wl (not_way way)) ∧
    IS_SET_FOR_WAY (not_way way) (set_wl_list s info way).wl_set =
      (IS_SET_FOR_WAY (not_way way) s.wl_set || info.ack) := by
  have hn := not_way_le way
  have hne := not_way_ne way
  have hne' : ¬ way = not_way way := fun e => hne e.symm
  unfold set_wl_list
  by_cases h1 : IS_SET_FOR_WAY way s.wl_set = true
  · simp only [h1, Bool.not_true, Bool.false_eq_true, if_false]
    by_cases hc : (!IS_SET_FOR_WAY (not_way way) s.wl_set && info.ack) = true
    · simp only [hc, if_true, IS_SET_FOR_WAY_SET _ _ _ hn, at2_upd2 _ _ _ _ hn hn]
      simp only [Bool.and_eq_true, Bool.not_eq_true'] at hc
      simp [hc.1, hc.2]
    · simp only [hc, if_false]
      cases h2 : IS_SET_FOR_WAY (not_way way) s.wl_set <;> cases h3 : info.ack <;>
        simp [h2, h3] at hc ⊢
  · have h1' : IS_SET_FOR_WAY way s.wl_set = false := by simpa using h1
    simp only [h1', Bool.not_false, if_true, IS_SET_FOR_WAY_SET _ _ _ hn,
      at2_upd2 _ _ _ _ hw hn, hne', decide_False, Bool.or_false, if_false]
    by_cases hc : (!IS_SET_FOR_WAY (not_way way) s.wl_set && info.ack) = true
    · simp only [hc, if_true, IS_SET_FOR_WAY_SET _ _ _ hn, at2_upd2 _ _ _ _ hn hn,
        at2_upd2 _ _ _ _ hw hn, hne', if_false]
      simp only [Bool.and_eq_true, Bool.not_eq_true'] at hc
      simp [hc.1, hc.2, hne']
    · simp only [hc, if_false, IS_SET_FOR_WAY_SET _ _ _ hn, at2_upd2 _ _ _ _ hw hn, hne']
      cases h2 : IS_SET_FOR_WAY (not_way way) s.wl_set <;> cases h3 : info.ack <;>
        simp [h2, h3, hne', IS_SET_FOR_WAY_SET _ _ _ hn, at2_upd2 _ _ _ _ hw hn] at hc ⊢

theorem tcp_parse_bookkeeping_other (env : tcp_env) (s : tcp_subparser)
    (info : tcp_proto_info) (way : Nat) (hw : way ≤ 1) :
    at2 (tcp_parse_bookkeeping env s info way).fin_seqnum (not_way way) =
      at2 s.fin_seqnum (not_way way) ∧
    at2 (tcp_parse_bookkeeping env s info way).max_acknum (not_way way) =
      at2 s.max_acknum (not_way way) ∧
    IS_SET_FOR_WAY (not_way way) (tcp_parse_bookkeeping env s info way).fin =
      IS_SET_FOR_WAY (not_way way) s.fin ∧
    IS_SET_FOR_WAY (not_way way) (tcp_parse_bookkeeping env s info way).ack =
      IS_SET_FOR_WAY (not_way way) s.ack ∧
    IS_SET_FOR_WAY (not_way way) (tcp_parse_bookkeeping env s info way).syn =
      IS_SET_FOR_WAY (not_way way) s.syn := by
  have hn := not_way_le way
  have hne := not_way_ne way
  have hne' : ¬ way = not_way way := fun e => hne e.symm
  obtain ⟨b1, b2, b3, b4, b5, _⟩ := tcp_parse_bookkeeping_fields env s info way
  rw [b1, b2, b3, b4, b5]
  refine ⟨?_, ?_, ?_, ?_, ?_⟩
  · split_ifs
    · rw [at2_upd2 _ _ _ _ hw hn, if_neg hne']
    · rfl
  · split_ifs
    · rw [at2_upd2 _ _ _ _ hw hn, if_neg hne']
    · rfl
  · split_ifs
    · rw [IS_SET_FOR_WAY_SET _ _ _ hn]
      simp [hne']
    · rfl
  · split_ifs
    · rw [IS_SET_FOR_WAY_SET _ _ _ hn]
      simp [hne']
    · rfl
  · split_ifs
    · rw [IS_SET_FOR_WAY_SET _ _ _ hn]
      simp [hne']
    · rfl

/-- The delivery of a segment leaves a wait-list as it was when the wait-list
code does. -/
theorem tcp_parse_deliver_wl_kept (env : tcp_env) (s : tcp_subparser) (info : tcp_proto_info)
    (way i : Nat) (packet : List Nat) (cap_len wire_len tcphdr_len : Nat)
    (hadd : ∀ a v, at2 (env.pkt_wait_list_add a v).2.wl i = at2 v.wl i)
    (htry : ∀ x st v, at2 (env.pkt_wait_list_try_both x st v).2.wl i = at2 v.wl i) :
    at2 (tcp_parse_deliver env s info way packet cap_len wire_len tcphdr_len).2.1.wl i =
      at2 s.wl i := by
  unfold tcp_parse_deliver
  simp only []
  split_ifs <;>
    simp only [tcp_subparser.with_view, tcp_subparser.view, hadd, htry]

/-- C32, amended: for a segment in direction `way` (0 or 1) whose header parses
and for which `tcp_parse` obtains the sub-parser `sub` (the one found in the
mux, with its tracking fields and wait-lists, when there is one), the
sub-parser `t` that the call leaves has the `fin_seqnum[!way]`, the
`max_acknum[!way]` and the `!way` bits of `fin`, `ack` and `syn` of `sub`. Of
the other direction the code of tcp.c writes only `wl_set[!way]` and
`wl[!way].next_offset`: with `b` the sub-parser once the bookkeeping is done,
`wl_set[!way]` is set in `b` (and in `t`) iff it was set or the segment carries
ACK, and `wl[!way]` is the one of `sub`, with `next_offset` set to `ack_num`
when `wl_set[!way]` was clear and the segment carries ACK. After the
bookkeeping only `pkt_wait_list_add` and `pkt_wait_list_try_both` touch the
wait-lists: whenever these leave `wl[!way]` as they got it, the `wl[!way]` of
`t` is the one of `b`. -/
theorem tcp_parse_other_direction (env : tcp_env) (found : Option tcp_subparser)
    (parent : Option (ip_addr × ip_addr)) (way : Nat) (packet : List Nat)
    (cap_len wire_len : Nat) (sub : tcp_subparser)
    (h : (tcp_parse_header env packet cap_len wire_len).1 = PROTO_OK)
    (hl : lookup_or_create_tcp_subparser env found (tcp_parse_header env packet cap_len wire_len).2
      (tcp_parse_way env parent way packet cap_len wire_len) = some sub)
    (hw : tcp_parse_way env parent way packet cap_len wire_len ≤ 1) :
    (∀ s, found = some s →
      sub.fin_seqnum = s.fin_seqnum ∧ sub.max_acknum = s.max_acknum ∧ sub.fin = s.fin ∧
      sub.ack = s.ack ∧ sub.syn = s.syn ∧ sub.wl_set = s.wl_set ∧ sub.wl = s.wl) ∧
    ∃ t b, (tcp_parse env found parent way packet cap_len wire_len).tcp_sub = some t ∧
      tcp_parse_tracked env found parent way packet cap_len wire_len = some b ∧
      at2 t.fin_seqnum (not_way (tcp_parse_way env parent way packet cap_len wire_len)) =
        at2 sub.fin_seqnum (not_way (tcp_parse_way env parent way packet cap_len wire_len)) ∧
      at2 t.max_acknum (not_way (tcp_parse_way env parent way packet cap_len wire_len)) =
        at2 sub.max_acknum (not_way (tcp_parse_way env parent way packet cap_len wire_len)) ∧
      IS_SET_FOR_WAY (not_way (tcp_parse_way env parent way packet cap_len wire_len)) t.fin =
        IS_SET_FOR_WAY (not_way (tcp_parse_way env parent way packet cap_len wire_len)) sub.fin ∧
      IS_SET_FOR_WAY (not_way (tcp_parse_way env parent way packet cap_len wire_len)) t.ack =
        IS_SET_FOR_WAY (not_way (tcp_parse_way env parent way packet cap_len wire_len)) sub.ack ∧
      IS_SET_FOR_WAY (not_way (tcp_parse_way env parent way packet cap_len wire_len)) t.syn =
        IS_SET_FOR_WAY (not_way (tcp_parse_way env parent way packet cap_len wire_len)) sub.syn ∧
      t.wl_set = b.wl_set ∧
      IS_SET_FOR_WAY (not_way (tcp_parse_way env parent way packet cap_len wire_len)) b.wl_set =
        (IS_SET_FOR_WAY (not_way (tcp_parse_way env parent way packet cap_len wire_len))
          sub.wl_set || (tcp_parse_header env packet cap_len wire_len).2.ack) ∧
      at2 b.wl (not_way (tcp_parse_way env parent way packet cap_len wire_len)) =
        (if (!IS_SET_FOR_WAY (not_way (tcp_parse_way env parent way packet cap_len wire_len))
              sub.wl_set && (tcp_parse_header env packet cap_len wire_len).2.ack) = true then
          { at2 sub.wl (not_way (tcp_parse_way env parent way packet cap_len wire_len)) with
            next_offset := (tcp_parse_header env packet cap_len wire_len).2.ack_num }
         else at2 sub.wl (not_way (tcp_parse_way env parent way packet cap_len wire_len))) ∧
      ((∀ a v, at2 (env.pkt_wait_list_add a v).2.wl
            (not_way (tcp_parse_way env parent way packet cap_len wire_len)) =
          at2 v.wl (not_way (tcp_parse_way env parent way packet cap_len wire_len))) →
        (∀ x st v, at2 (env.pkt_wait_list_try_both x st v).2.wl
            (not_way (tcp_parse_way env parent way packet cap_len wire_len)) =
          at2 v.wl (not_way (tcp_parse_way env parent way packet cap_len wire_len))) →
        at2 t.wl (not_way (tcp_parse_way env parent way packet cap_len wire_len)) =
          at2 b.wl (not_way (tcp_parse_way env parent way packet cap_len wire_len))) := by
  constructor
  · intro s hs
    subst hs
    obtain ⟨sub2, hl2, htr, hwl⟩ := lookup_found_track env s
      (tcp_parse_header env packet cap_len wire_len).2
      (tcp_parse_way env parent way packet cap_len wire_len)
    rw [hl] at hl2
    cases hl2
    obtain ⟨g1, g2, g3, g4, g5, g6, _, _⟩ := htr
    exact ⟨g5, g6, g1, g2, g3, g4, hwl⟩
  · have hb : tcp_parse_tracked env found parent way packet cap_len wire_len =
        some (tcp_parse_bookkeeping env sub (tcp_parse_header env packet cap_len wire_len).2
          (tcp_parse_way env parent way packet cap_len wire_len)) := by
      simp only [tcp_parse_tracked, hl, Option.map_some']
    have hd : tcp_parse_delivered env found parent way packet cap_len wire_len =
        some (tcp_parse_deliver env
          (tcp_parse_bookkeeping env sub (tcp_parse_header env packet cap_len wire_len).2
            (tcp_parse_way env parent way packet cap_len wire_len))
          { (tcp_parse_header env packet cap_len wire_len).2 with
            to_srv := decide ((tcp_parse_bookkeeping env sub
              (tcp_parse_header env packet cap_len wire_len).2
              (tcp_parse_way env parent way packet cap_len wire_len)).srv_way ≠
                tcp_parse_way env parent way packet cap_len wire_len) }
          (tcp_parse_way env parent way packet cap_len wire_len) packet cap_len wire_len
          (TCP_HDR_LENGTH packet)) := by
      simp only [tcp_parse_delivered, hb, Option.map_some']
    obtain ⟨t, ht, htr, _⟩ := tcp_parse_track env found parent way packet cap_len wire_len
      sub h hl
    obtain ⟨o1, o2, o3, o4, o5⟩ := tcp_parse_bookkeeping_other env sub
      (tcp_parse_header env packet cap_len wire_len).2
      (tcp_parse_way env parent way packet cap_len wire_len) hw
    obtain ⟨k1, k2⟩ := tcp_parse_bookkeeping_wl env sub
      (tcp_parse_header env packet cap_len wire_len).2
      (tcp_parse_way env parent way packet cap_len wire_len)
    obtain ⟨w1, w2⟩ := set_wl_list_other sub (tcp_parse_header env packet cap_len wire_len).2
      (tcp_parse_way env parent way packet cap_len wire_len) hw
    obtain ⟨g1, g2, g3, g4, g5, g6, _, _⟩ := htr
    refine ⟨t, _, ht, hb, ?_, ?_, ?_, ?_, ?_, g4, ?_, ?_, ?_⟩
    · rw [g5]; exact o1
    · rw [g6]; exact o2
    · rw [g1]; exact o3
    · rw [g2]; exact o4
    · rw [g3]; exact o5
    · rw [k2]; exact w2
    · rw [k1]; exact w1
    · intro hadd htry
      have hkept := tcp_parse_deliver_wl_kept env
        (tcp_parse_bookkeeping env sub (tcp_parse_header env packet cap_len wire_len).2
          (tcp_parse_way env parent way packet cap_len wire_len))
        { (tcp_parse_header env packet cap_len wire_len).2 with
          to_srv := decide ((tcp_parse_bookkeeping env sub
            (tcp_parse_header env packet cap_len wire_len).2
            (tcp_parse_way env parent way packet cap_len wire_len)).srv_way ≠
              tcp_parse_way env parent way packet cap_len wire_len) }
        (tcp_parse_way env parent way packet cap_len wire_len)
        (not_way (tcp_parse_way env parent way packet cap_len wire_len)) packet cap_len wire_len
        (TCP_HDR_LENGTH packet) hadd htry
      generalize tcp_parse_deliver env
        (tcp_parse_bookkeeping env sub (tcp_parse_header env packet cap_len wire_len).2
          (tcp_parse_way env parent way packet cap_len wire_len))
        { (tcp_parse_header env packet cap_len wire_len).2 with
          to_srv := decide ((tcp_parse_bookkeeping env sub
            (tcp_parse_header env packet cap_len wire_len).2
            (tcp_parse_way env parent way packet cap_len wire_len)).srv_way ≠
              tcp_parse_way env parent way packet cap_len wire_len) }
        (tcp_parse_way env parent way packet cap_len wire_len) packet cap_len wire_len
        (TCP_HDR_LENGTH packet) = D at hd hkept
      obtain ⟨st, u, cs⟩ := D
      obtain ⟨_, hfinal⟩ := tcp_parse_of_delivered env found parent way packet cap_len wire_len
        st u cs h hd
      simp only [] at hkept
      rw [ht] at hfinal
      rw [Option.some.inj hfinal]
      split_ifs
      · exact hkept
      · simp only [tcp_mux_subparser_reset_proto]
        exact hkept
      · exact hkept

/-- C32, as stated, fails: the sub-parser `sample_pending_sub` has `wl_set[1]`
set and a wait-list of way 1 that expects the byte 500 and holds the bytes 500
to 509. A segment of way 0 (sequence number 101, 3 bytes, ACK 500) is parsed;
`pkt_wait_list_try_both`, called on `wl+1` (tcp.c:614), drains that wait-list,
and the call leaves `wl[1].next_offset = 510` and no pending entry in `wl[1]`,
although `wl_set[1]` was not clear. -/
theorem tcp_parse_other_direction_drained :
    (tcp_parse_header sample_env_drain (sample_tcp_packet 40000 80 101 500 16 [1, 2, 3]) 23 23).1
      = PROTO_OK ∧
    tcp_parse_way sample_env_drain none 0 (sample_tcp_packet 40000 80 101 500 16 [1, 2, 3]) 23 23
      = 0 ∧
    IS_SET_FOR_WAY 1 sample_pending_sub.wl_set = true ∧
    (at2 sample_pending_sub.wl 1).next_offset = 500 ∧
    (at2 sample_pending_sub.wl 1).pkts.map (fun p => (p.offset, p.next_offset)) = [(500, 510)] ∧
    (tcp_parse sample_env_drain (some sample_pending_sub) none 0
        (sample_tcp_packet 40000 80 101 500 16 [1, 2, 3]) 23 23).tcp_sub.map
      (fun t => (t.wl_set, (at2 t.wl 1).next_offset, (at2 t.wl 1).pkts,
        (at2 t.wl 0).next_offset, (at2 t.wl 0).pkts)) = some (3, 510, [], 104, []) ∧
    (tcp_parse sample_env_drain (some sample_pending_sub) none 0
        (sample_tcp_packet 40000 80 101 500 16 [1, 2, 3]) 23 23).calls.map
      (fun c => match c with
        | tcp_call.wl_add a => (1, a.way)
        | tcp_call.wl_try_both w => (2, w)
        | _ => (0, 0)) = [(1, 0), (2, 1)] := by
  refine ⟨?_, by decide, by decide, by decide, by decide, ?_, ?_⟩
  · rw [tcp_parse_header_plain _ _ _ _ (by decide) (by decide) (by decide)]
  · simp +decide only [tcp_parse, tcp_parse_header_plain]
  · simp +decide only [tcp_parse, tcp_parse_header_plain]

theorem tcp_parse_other_direction_witness :
    ∃ t, (tcp_parse sample_env (some sample_closing_sub) none 0
        (sample_tcp_packet 40000 80 101 501 17 []) 20 20).tcp_sub = some t ∧
      at2 t.fin_seqnum 1 = 500 ∧ at2 t.max_acknum 1 = 101 ∧
      IS_SET_FOR_WAY 1 t.fin = true ∧ IS_SET_FOR_WAY 1 t.ack = true ∧
      IS_SET_FOR_WAY 1 t.syn = true ∧ IS_SET_FOR_WAY 1 t.wl_set = true ∧
      at2 t.wl 1 = at2 sample_closing_sub.wl 1 := by
  have hh : (tcp_parse_header sample_env (sample_tcp_packet 40000 80 101 501 17 []) 20 20).1
      = PROTO_OK := by
    rw [tcp_parse_header_plain _ _ _ _ (by decide) (by decide) (by decide)]
  obtain ⟨t, b, ht, _, h1, h2, h3, h4, h5, h6, h7, h8, h9⟩ := (tcp_parse_other_direction sample_env
    (some sample_closing_sub) none 0 (sample_tcp_packet 40000 80 101 501 17 []) 20 20
    sample_closing_sub hh rfl (by decide)).2
  have e : tcp_parse_way sample_env none 0 (sample_tcp_packet 40000 80 101 501 17 []) 20 20
      = 0 := rfl
  have e1 : not_way 0 = 1 := rfl
  rw [e, e1] at h7 h8 h9
  refine ⟨t, ht, h1, h2, h3, h4, h5, ?_, ?_⟩
  · rw [h6, h7]
    rfl
  · rw [h9 (fun _ _ => rfl) (fun _ _ _ => rfl), h8]
    rfl

/-! ## Monotonicity of the state of a flow -/

theorem tcp_parse_sub_inv (env : tcp_env) (found : Option tcp_subparser)
    (parent : Option (ip_addr × ip_addr)) (way : Nat) (packet : List Nat)
    (cap_len wire_len : Nat) (t : tcp_subparser)
    (ht : (tcp_parse env found parent way packet cap_len wire_len).tcp_sub = some t) :
    (tcp_parse_header env packet cap_len wire_len).1 = PROTO_OK ∧
    ∃ sub, lookup_or_create_tcp_subparser env found
        (tcp_parse_header env packet cap_len wire_len).2
        (tcp_patch_way parent (tcp_parse_header env packet cap_len wire_len).2 way) = some sub ∧
      tcp_same_track t (tcp_parse_bookkeeping env sub
        (tcp_parse_header env packet cap_len wire_len).2
        (tcp_patch_way parent (tcp_parse_header env packet cap_len wire_len).2 way)) := by
  by_cases hh : (tcp_parse_header env packet cap_len wire_len).1 = PROTO_OK
  · refine ⟨hh, ?_⟩
    cases hl : lookup_or_create_tcp_subparser env found
        (tcp_parse_header env packet cap_len wire_len).2
        (tcp_patch_way parent (tcp_parse_header env packet cap_len wire_len).2 way) with
    | none =>
      rw [(tcp_parse_of_none env found parent way packet cap_len wire_len hh hl).2.1] at ht
      cases ht
    | some sub =>
      obtain ⟨t', ht', htr', _⟩ := tcp_parse_track env found parent way packet cap_len wire_len
        sub hh hl
      rw [ht'] at ht
      cases ht
      exact ⟨sub, rfl, htr'⟩
  · rw [tcp_parse_of_error env found parent way packet cap_len wire_len hh] at ht
    cases ht

theorem IS_SET_FOR_WAY_SET_mono (i w f : Nat) (hi : i ≤ 1)
    (h : IS_SET_FOR_WAY i f = true) : IS_SET_FOR_WAY i (SET_FOR_WAY w f) = true := by
  rw [IS_SET_FOR_WAY_SET _ _ _ hi, h]
  rfl

theorem tcp_parse_bookkeeping_mono (env : tcp_env) (s : tcp_subparser) (info : tcp_proto_info)
    (way : Nat) :
    s.srv_set ≤ (tcp_parse_bookkeeping env s info way).srv_set ∧
    1 ≤ (tcp_parse_bookkeeping env s info way).srv_set ∧
    (s.srv_set ≤ 2 → (tcp_parse_bookkeeping env s info way).srv_set ≤ 2) ∧
    (tcp_parse_at_assert s info way).srv_set = s.srv_set ∧
    ∀ i, i ≤ 1 →
      (IS_SET_FOR_WAY i s.fin = true →
        IS_SET_FOR_WAY i (tcp_parse_bookkeeping env s info way).fin = true) ∧
      (IS_SET_FOR_WAY i s.ack = true →
        IS_SET_FOR_WAY i (tcp_parse_bookkeeping env s info way).ack = true) ∧
      (IS_SET_FOR_WAY i s.syn = true →
        IS_SET_FOR_WAY i (tcp_parse_bookkeeping env s info way).syn = true) ∧
      (IS_SET_FOR_WAY i s.wl_set = true →
        IS_SET_FOR_WAY i (tcp_parse_bookkeeping env s info way).wl_set = true) := by
  obtain ⟨b1, _, b3, _, b5, b6, _, b8, _⟩ := tcp_parse_bookkeeping_fields env s info way
  rw [b1, b3, b5, b6, b8, set_wl_list_wl_set]
  refine ⟨?_, ?_, ?_, ?_, ?_⟩
  · split_ifs with hc hsyn
    · simp only [Bool.or_eq_true, decide_eq_true_eq, Bool.and_eq_true] at hc
      omega
    · simp only [Bool.or_eq_true, decide_eq_true_eq, Bool.and_eq_true] at hc
      rcases hc with hc | hc
      · omega
      · exact absurd hc.2 hsyn
    · exact le_refl _
  · split_ifs with hc hsyn
    · omega
    · omega
    · simp only [Bool.or_eq_true, decide_eq_true_eq, Bool.and_eq_true, not_or, not_and] at hc
      omega
  · intro h2
    split_ifs <;> omega
  · simp only [tcp_parse_at_assert, tcp_track_syn_srv_set, tcp_track_fin_srv_set,
      tcp_track_ack_srv_set]
    exact (set_wl_list_track s info way).2.2.2.2.2.2.1
  · intro i hi
    refine ⟨?_, ?_, ?_, ?_⟩
    · intro h
      split_ifs
      · exact IS_SET_FOR_WAY_SET_mono i way _ hi h
      · exact h
    · intro h
      split_ifs
      · exact IS_SET_FOR_WAY_SET_mono i way _ hi h
      · exact h
    · intro h
      split_ifs
      · exact IS_SET_FOR_WAY_SET_mono i way _ hi h
      · exact h
    · intro h
      have h1 : IS_SET_FOR_WAY i (if (!IS_SET_FOR_WAY way s.wl_set) = true
          then SET_FOR_WAY way s.wl_set else s.wl_set) = true := by
        split_ifs
        · exact IS_SET_FOR_WAY_SET_mono i way _ hi h
        · exact h
      split_ifs at h1 ⊢
      all_goals first
        | exact h1
        | exact IS_SET_FOR_WAY_SET_mono i _ _ hi h1

theorem tcp_parse_step_mono (env : tcp_env) (s : tcp_subparser)
    (parent : Option (ip_addr × ip_addr)) (way : Nat) (packet : List Nat)
    (cap_len wire_len : Nat) (t : tcp_subparser)
    (ht : (tcp_parse env (some s) parent way packet cap_len wire_len).tcp_sub = some t) :
    s.srv_set ≤ t.srv_set ∧ 1 ≤ t.srv_set ∧ (s.srv_set ≤ 2 → t.srv_set ≤ 2) ∧
    ∀ i, i ≤ 1 →
      (IS_SET_FOR_WAY i s.fin = true → IS_SET_FOR_WAY i t.fin = true) ∧
      (IS_SET_FOR_WAY i s.ack = true → IS_SET_FOR_WAY i t.ack = true) ∧
      (IS_SET_FOR_WAY i s.syn = true → IS_SET_FOR_WAY i t.syn = true) ∧
      (IS_SET_FOR_WAY i s.wl_set = true → IS_SET_FOR_WAY i t.wl_set = true) := by
  obtain ⟨_, sub, hl, htr⟩ := tcp_parse_sub_inv env (some s) parent way packet cap_len wire_len
    t ht
  obtain ⟨sub2, hl2, hfound, _⟩ := lookup_found_track env s
    (tcp_parse_header env packet cap_len wire_len).2
    (tcp_patch_way parent (tcp_parse_header env packet cap_len wire_len).2 way)
  rw [hl] at hl2
  cases hl2
  obtain ⟨m1, m2, m3, _, m5⟩ := tcp_parse_bookkeeping_mono env sub
    (tcp_parse_header env packet cap_len wire_len).2
    (tcp_patch_way parent (tcp_parse_header env packet cap_len wire_len).2 way)
  obtain ⟨g1, g2, g3, g4, _, _, _, g8⟩ := htr
  obtain ⟨f1, f2, f3, f4, _, _, _, f8⟩ := hfound
  rw [g1, g2, g3, g4, g8, ← f1, ← f2, ← f3, ← f4, ← f8]
  exact ⟨m1, m2, m3, m5⟩

theorem tcp_parse_first_srv_set (env : tcp_env)
    (parent : Option (ip_addr × ip_addr)) (way : Nat) (packet : List Nat)
    (cap_len wire_len : Nat) (t : tcp_subparser)
    (ht : (tcp_parse env none parent way packet cap_len wire_len).tcp_sub = some t) :
    1 ≤ t.srv_set ∧ t.srv_set ≤ 2 := by
  obtain ⟨_, sub, hl, htr⟩ := tcp_parse_sub_inv env none parent way packet cap_len wire_len
    t ht
  have h0 := (lookup_created_fresh env _ _ sub hl).2.2.2
  obtain ⟨_, m2, m3, _⟩ := tcp_parse_bookkeeping_mono env sub
    (tcp_parse_header env packet cap_len wire_len).2
    (tcp_patch_way parent (tcp_parse_header env packet cap_len wire_len).2 way)
  rw [htr.2.2.2.2.2.2.2]
  exact ⟨m2, m3 (by omega)⟩

theorem tcp_reachable_srv_set (s : tcp_subparser) (hs : tcp_reachable s) : s.srv_set ≤ 2 := by
  induction hs with
  | ctor env mem child requestor sub h =>
    have := (tcp_subparser_ctor_fresh env mem child requestor sub h).2.2.2.2
    omega
  | first env parent way packet cap_len wire_len t ht =>
    exact (tcp_parse_first_srv_set env parent way packet cap_len wire_len t ht).2
  | step s env parent way packet cap_len wire_len t _ ht ih =>
    exact (tcp_parse_step_mono env s parent way packet cap_len wire_len t ht).2.2.1 ih

/-- C33: in every state `s` reachable from `tcp_subparser_ctor` by steps of
`tcp_parse`, `srv_set` is 0, 1 or 2, and so it is at the assertion
`srv_set < 3` of the next call, which therefore holds. A call of `tcp_parse`
that works on `s` and leaves `t` does not decrease `srv_set`, leaves it at 1 or
2, and clears no bit of `fin`, `ack`, `syn` or `wl_set`; a call that finds no
sub-parser in the mux and leaves `t` passes the assertion on the fresh
sub-parser and leaves `srv_set` at 1 or 2. -/
theorem tcp_state_monotone (s : tcp_subparser) (hs : tcp_reachable s) :
    s.srv_set ≤ 2 ∧
    (∀ (env : tcp_env) (info : tcp_proto_info) (way : Nat) (sub : tcp_subparser),
      lookup_or_create_tcp_subparser env (some s) info way = some sub →
      (tcp_parse_at_assert sub info way).srv_set < 3 ∧
      tcp_parse_bookkeeping env sub info way =
        tcp_set_srv_way env (tcp_parse_at_assert sub info way) info way) ∧
    (∀ (env : tcp_env) (parent : Option (ip_addr × ip_addr)) (way : Nat) (packet : List Nat)
      (cap_len wire_len : Nat) (t : tcp_subparser),
      (tcp_parse env (some s) parent way packet cap_len wire_len).tcp_sub = some t →
      s.srv_set ≤ t.srv_set ∧ 1 ≤ t.srv_set ∧ t.srv_set ≤ 2 ∧
      ∀ i, i ≤ 1 →
        (IS_SET_FOR_WAY i s.fin = true → IS_SET_FOR_WAY i t.fin = true) ∧
        (IS_SET_FOR_WAY i s.ack = true → IS_SET_FOR_WAY i t.ack = true) ∧
        (IS_SET_FOR_WAY i s.syn = true → IS_SET_FOR_WAY i t.syn = true) ∧
        (IS_SET_FOR_WAY i s.wl_set = true → IS_SET_FOR_WAY i t.wl_set = true)) ∧
    (∀ (env : tcp_env) (info : tcp_proto_info) (way : Nat) (sub : tcp_subparser),
      lookup_or_create_tcp_subparser env none info way = some sub →
      (tcp_parse_at_assert sub info way).srv_set < 3) ∧
    (∀ (env : tcp_env) (parent : Option (ip_addr × ip_addr)) (way : Nat) (packet : List Nat)
      (cap_len wire_len : Nat) (t : tcp_subparser),
      (tcp_parse env none parent way packet cap_len wire_len).tcp_sub = some t →
      1 ≤ t.srv_set ∧ t.srv_set ≤ 2) := by
  have h2 := tcp_reachable_srv_set s hs
  refine ⟨h2, ?_, ?_, ?_, ?_⟩
  · intro env info way sub hl
    obtain ⟨sub2, hl2, htr, _⟩ := lookup_found_track env s info way
    rw [hl] at hl2
    cases hl2
    refine ⟨?_, rfl⟩
    rw [(tcp_parse_bookkeeping_mono env sub info way).2.2.2.1, htr.2.2.2.2.2.2.2]
    omega
  · intro env parent way packet cap_len wire_len t ht
    obtain ⟨a1, a2, a3, a4⟩ := tcp_parse_step_mono env s parent way packet cap_len wire_len
      t ht
    exact ⟨a1, a2, a3 h2, a4⟩
  · intro env info way sub hl
    rw [(tcp_parse_bookkeeping_mono env sub info way).2.2.2.1,
      (lookup_created_fresh env info way sub hl).2.2.2]
    omega
  · intro env parent way packet cap_len wire_len t ht
    exact tcp_parse_first_srv_set env parent way packet cap_len wire_len t ht

theorem tcp_state_monotone_witness :
    tcp_subparser_ctor sample_env sample_tcp_sub none none = some sample_tcp_sub ∧
    sample_tcp_sub.srv_set ≤ 2 ∧
    ∃ t, (tcp_parse sample_env (some sample_tcp_sub) none 0 sample_syn_packet 23 23).tcp_sub
        = some t ∧
      1 ≤ t.srv_set ∧ t.srv_set ≤ 2 := by
  have hc : tcp_subparser_ctor sample_env sample_tcp_sub none none = some sample_tcp_sub := by
    decide
  have hr : tcp_reachable sample_tcp_sub :=
    tcp_reachable.ctor sample_env sample_tcp_sub none none sample_tcp_sub hc
  have hh : (tcp_parse_header sample_env sample_syn_packet 23 23).1 = PROTO_OK := by
    rw [tcp_parse_header_plain _ _ _ _ (by decide) (by decide) (by decide)]
  obtain ⟨sub, hl, _⟩ := lookup_found_track sample_env sample_tcp_sub
    (tcp_parse_header sample_env sample_syn_packet 23 23).2
    (tcp_patch_way none (tcp_parse_header sample_env sample_syn_packet 23 23).2 0)
  obtain ⟨t, ht, _⟩ := tcp_parse_track sample_env (some sample_tcp_sub) none 0
    sample_syn_packet 23 23 sub hh hl
  obtain ⟨h1, _, h3, _⟩ := tcp_state_monotone sample_tcp_sub hr
  obtain ⟨_, g2, g3, _⟩ := h3 sample_env none 0 sample_syn_packet 23 23 t ht
  exact ⟨hc, h1, t, ht, g2, g3⟩

end Junkie
